import Mathlib

/-! MazeRay: maze generation, sprite ordering, occlusion and ray casting.

A shallow embedding of the C sources `maze.c`, `maze.h`, `utils.c`, `game.h` and
`game.c`.

Conventions of the embedding.

* C `int` values are `Int`; overflow is not modelled.  `/` on `int` is `Int.tdiv`.
* C `float` values are idealised as exact rationals `ℚ`; the float literals are read
  as the decimal numbers they denote.  NaN and the infinities have no counterpart.
* `rand()` is a stream `rnd : Nat → Nat` of results together with the number `k` of
  calls made so far; the call returns `rnd k` and moves on to `k + 1`.
* A loop or recursion that the C code does not bound takes a `fuel : Nat`; the value
  `none` means that the fuel ran out before the C code returned.
* `maze->grid[y][x]` is `m.grid y x`.  The array has 15 x 15 entries; the generator
  writes it only at indices strictly inside the border (`Frame`, `Placed` below).
* The external calls (`sqrtf`, `cosf`, `sinf`, `tanf`, `GetScreenWidth`,
  `GetScreenHeight`) are parameters; `DrawTexturePro` calls are collected in a list.
-/

namespace MazeRay

/-! ## maze.h -/

/-- Maze width in cells (`MAZE_WIDTH`). -/
def MAZE_WIDTH : Int := 15

/-- Maze height in cells (`MAZE_HEIGHT`). -/
def MAZE_HEIGHT : Int := 15

/-- Cell tags (`enum CellType`). -/
inductive CellType where
  | Empty
  | Wall
  | Start
  | Exit
  | Key
  | Enemy
  deriving DecidableEq, Repr, Inhabited

/-- A pair of floats (raylib `Vector2`). -/
structure Vector2 where
  x : ℚ
  y : ℚ
  deriving DecidableEq, Repr

/-- The grid `unsigned char grid[MAZE_HEIGHT][MAZE_WIDTH]`, indexed row first. -/
abbrev Grid := Int → Int → CellType

/-- The maze (`struct Maze`). -/
structure Maze where
  grid : Grid
  startPos : Vector2
  exitPos : Vector2

/-- The assignment `grid[y][x] = c`. -/
def setCell (g : Grid) (y x : Int) (c : CellType) : Grid :=
  fun y' x' => if y' = y ∧ x' = x then c else g y' x'

/-- The assignment `maze->grid[y][x] = c`. -/
def Maze.set (m : Maze) (y x : Int) (c : CellType) : Maze :=
  { m with grid := setCell m.grid y x c }

/-! ## maze.c -/

/-- Offsets `DIRS[d][0]` and `DIRS[d][1]` of the four directions
(north, east, south, west); the code indexes the table with 0..3 only. -/
def DIRS (d : Nat) : Int × Int :=
  match d with
  | 0 => (0, -1)
  | 1 => (1, 0)
  | 2 => (0, 1)
  | _ => (-1, 0)

/-- The three statements that swap `dirs[i]` and `dirs[j]`. -/
def swapDirs (dirs : List Nat) (i j : Nat) : List Nat :=
  let temp := dirs.getD i 0
  (dirs.set i (dirs.getD j 0)).set j temp

/-- `ShuffleDirections`: fill `dirs` with 0..3 and run the Fisher-Yates loop
`for i = 3 downto 1`, each round drawing `j = rand() % (i + 1)`.
Returns the array and the new count of `rand()` calls. -/
def ShuffleDirections (rnd : Nat → Nat) (k : Nat) : List Nat × Nat :=
  let dirs := [0, 1, 2, 3]
  let dirs := swapDirs dirs 3 (rnd k % 4)
  let dirs := swapDirs dirs 2 (rnd (k + 1) % 3)
  let dirs := swapDirs dirs 1 (rnd (k + 2) % 2)
  (dirs, k + 3)

/-- One round of the loop of `CarveMaze` at the cell `(x, y)` for the direction `d`;
`carve` stands for the recursive call. -/
def carveDir (carve : Maze × Nat → Int → Int → Option (Maze × Nat)) (x y : Int)
    (s : Maze × Nat) (d : Nat) : Option (Maze × Nat) :=
  let nextX := x + (DIRS d).1 * 2
  let nextY := y + (DIRS d).2 * 2
  if 0 < nextX ∧ nextX < MAZE_WIDTH - 1 ∧ 0 < nextY ∧ nextY < MAZE_HEIGHT - 1 then
    if s.1.grid nextY nextX = CellType.Wall then
      let m1 := s.1.set (y + (DIRS d).2) (x + (DIRS d).1) CellType.Empty
      let m2 := m1.set nextY nextX CellType.Empty
      carve (m2, s.2) nextX nextY
    else some s
  else some s

/-- `CarveMaze`: recursive depth-first carving; `fuel` bounds the recursion depth. -/
def CarveMaze (rnd : Nat → Nat) : Nat → Maze × Nat → Int → Int → Option (Maze × Nat)
  | 0, _, _, _ => none
  | fuel + 1, s, x, y =>
    let sh := ShuffleDirections rnd s.2
    sh.1.foldlM (carveDir (CarveMaze rnd fuel) x y) (s.1, sh.2)

/-- The values `lo, lo + 1, .., hi - 1` of a loop `for (v = lo; v < hi; v++)`. -/
def intRange (lo hi : Int) : List Int :=
  (List.range (hi - lo).toNat).map fun (i : Nat) => lo + (i : Int)

/-- The cells `(x, y)` visited by `for y in ys` around `for x in xs`, in order. -/
def cellRows (ys xs : List Int) : List (Int × Int) :=
  ys.flatMap fun y => xs.map fun x => (x, y)

/-- The cells `(x, y)` in the order in which the two nested loops of the exit search
visit them. -/
def scanCells : List (Int × Int) :=
  cellRows (intRange 1 (MAZE_HEIGHT - 1)) (intRange 1 (MAZE_WIDTH - 1))

/-- The locals `maxDist`, `exitX`, `exitY` of `PlaceObjects`; `exit = none` while
`exitX` and `exitY` are still uninitialised. -/
structure ExitScan where
  maxDist : ℚ
  exit : Option (Int × Int)

/-- Body of the exit search of `PlaceObjects` for the cell `c = (x, y)`. -/
def exitStep (m : Maze) (st : ExitScan) (c : Int × Int) : ExitScan :=
  if m.grid c.2 c.1 = CellType.Empty then
    let dx : ℚ := (c.1 : ℚ) - m.startPos.x
    let dy : ℚ := (c.2 : ℚ) - m.startPos.y
    let dist := dx * dx + dy * dy
    if dist > st.maxDist then { maxDist := dist, exit := some c } else st
  else st

/-- The exit search of `PlaceObjects` (the two nested `for` loops). -/
def findExit (m : Maze) : ExitScan :=
  scanCells.foldl (exitStep m) { maxDist := 0, exit := none }

/-- The key loop of `PlaceObjects`, `while (keys < maxKeys)`, with `maxKeys = 3`. -/
def placeKeys (rnd : Nat → Nat) (exitX exitY : Int) :
    Nat → Maze × Nat → Int → Option (Maze × Nat)
  | 0, s, keys => if keys < 3 then none else some s
  | fuel + 1, s, keys =>
    if keys < 3 then
      let x : Int := (rnd s.2 : Int) % (MAZE_WIDTH - 2) + 1
      let y : Int := (rnd (s.2 + 1) : Int) % (MAZE_HEIGHT - 2) + 1
      if s.1.grid y x = CellType.Empty then
        let dx1 : ℚ := (x : ℚ) - s.1.startPos.x
        let dy1 : ℚ := (y : ℚ) - s.1.startPos.y
        let dx2 : ℚ := ((x - exitX : Int) : ℚ)
        let dy2 : ℚ := ((y - exitY : Int) : ℚ)
        let distToStart := dx1 * dx1 + dy1 * dy1
        let distToExit := dx2 * dx2 + dy2 * dy2
        if distToStart > 5 ∧ distToExit > 5 then
          placeKeys rnd exitX exitY fuel (s.1.set y x CellType.Key, s.2 + 2) (keys + 1)
        else placeKeys rnd exitX exitY fuel (s.1, s.2 + 2) keys
      else placeKeys rnd exitX exitY fuel (s.1, s.2 + 2) keys
    else some s

/-- The enemy loop of `PlaceObjects`, `while (enemies < maxEnemies)`, with
`maxEnemies = 5`. -/
def placeEnemies (rnd : Nat → Nat) : Nat → Maze × Nat → Int → Option (Maze × Nat)
  | 0, s, enemies => if enemies < 5 then none else some s
  | fuel + 1, s, enemies =>
    if enemies < 5 then
      let x : Int := (rnd s.2 : Int) % (MAZE_WIDTH - 2) + 1
      let y : Int := (rnd (s.2 + 1) : Int) % (MAZE_HEIGHT - 2) + 1
      if s.1.grid y x = CellType.Empty then
        let dx : ℚ := (x : ℚ) - s.1.startPos.x
        let dy : ℚ := (y : ℚ) - s.1.startPos.y
        let distToStart := dx * dx + dy * dy
        if distToStart > 9 then
          placeEnemies rnd fuel (s.1.set y x CellType.Enemy, s.2 + 2) (enemies + 1)
        else placeEnemies rnd fuel (s.1, s.2 + 2) enemies
      else placeEnemies rnd fuel (s.1, s.2 + 2) enemies
    else some s

/-- `PlaceObjects`: choose the exit, then place three keys and five enemies.
When the search found no cell, `exitX` and `exitY` are read uninitialised; the model
has no result then (`none`), like when a sampling loop outlasts the fuel. -/
def PlaceObjects (rnd : Nat → Nat) (fuel : Nat) (s : Maze × Nat) : Option (Maze × Nat) :=
  match (findExit s.1).exit with
  | none => none
  | some (exitX, exitY) =>
    let m1 := s.1.set exitY exitX CellType.Exit
    let m2 : Maze := { m1 with exitPos := { x := (exitX : ℚ), y := (exitY : ℚ) } }
    (placeKeys rnd exitX exitY fuel (m2, s.2) 0).bind fun s3 =>
      placeEnemies rnd fuel s3 0

/-- First part of `GenerateMaze`: fill the grid with walls (`memset`), open the start
cell (1,1) and store it in `startPos`.  `maze` holds the old contents of `*maze`. -/
def initMaze (maze : Maze) : Maze :=
  let startX : Int := 1
  let startY : Int := 1
  let m0 : Maze := { maze with grid := fun _ _ => CellType.Wall }
  let m1 := m0.set startY startX CellType.Empty
  { m1 with startPos := { x := (startX : ℚ), y := (startY : ℚ) } }

/-- `GenerateMaze`: fill the grid with walls, open the start cell (1,1), carve from it,
place the objects.  `k` counts the earlier calls of `rand()`. -/
def GenerateMaze (rnd : Nat → Nat) (fuel : Nat) (maze : Maze) (k : Nat) :
    Option (Maze × Nat) :=
  (CarveMaze rnd fuel (initMaze maze, k) 1 1).bind fun s => PlaceObjects rnd fuel s

/-- `GetCellType`: the tag of a cell, `Wall` outside the grid. -/
def GetCellType (maze : Maze) (x y : Int) : CellType :=
  if x < 0 ∨ x ≥ MAZE_WIDTH ∨ y < 0 ∨ y ≥ MAZE_HEIGHT then CellType.Wall
  else maze.grid y x

/-- `IsPosInBounds`. -/
def IsPosInBounds (x y : Int) : Bool :=
  decide (x ≥ 0 ∧ x < MAZE_WIDTH ∧ y ≥ 0 ∧ y < MAZE_HEIGHT)

/-- `IsCellWalkable`: inside the grid and not a wall. -/
def IsCellWalkable (maze : Maze) (x y : Int) : Bool :=
  if !IsPosInBounds x y then false
  else decide (GetCellType maze x y ≠ CellType.Wall)

/-! ## Reachability -/

/-- Two cells are 4-adjacent: they differ by one in exactly one coordinate. -/
def Adjacent4 (a b : Int × Int) : Prop :=
  (a.1 = b.1 ∧ (a.2 = b.2 + 1 ∨ b.2 = a.2 + 1)) ∨
  (a.2 = b.2 ∧ (a.1 = b.1 + 1 ∨ b.1 = a.1 + 1))

/-- `Reachable free a c`: there is a path of 4-adjacent cells from `a` to `c`, all of
whose cells (both ends included) satisfy `free`. -/
inductive Reachable (free : Int × Int → Prop) : Int × Int → Int × Int → Prop where
  | start (a : Int × Int) : free a → Reachable free a a
  | step (a b c : Int × Int) : Reachable free a b → Adjacent4 b c → free c →
      Reachable free a c

/-- The cell lies strictly inside the border of the grid. -/
def Interior (x y : Int) : Prop :=
  0 < x ∧ x < MAZE_WIDTH - 1 ∧ 0 < y ∧ y < MAZE_HEIGHT - 1

/-- The cell lies on the border of the grid. -/
def Border (x y : Int) : Prop :=
  0 ≤ x ∧ x < MAZE_WIDTH ∧ 0 ≤ y ∧ y < MAZE_HEIGHT ∧
    (x = 0 ∨ x = MAZE_WIDTH - 1 ∨ y = 0 ∨ y = MAZE_HEIGHT - 1)

/-- `Frame m m'`: `m'` arises from `m` by opening interior cells only. -/
def Frame (m m' : Maze) : Prop :=
  m'.startPos = m.startPos ∧ m'.exitPos = m.exitPos ∧
    ∀ y x, m'.grid y x = m.grid y x ∨ (m'.grid y x = CellType.Empty ∧ Interior x y)

/-- Every cell of the grid that is not a wall can be reached from `a`. -/
def Connected (m : Maze) (a : Int × Int) : Prop :=
  ∀ x y, m.grid y x ≠ CellType.Wall →
    Reachable (fun c => m.grid c.2 c.1 ≠ CellType.Wall) a (x, y)

/-- What a returning call `CarveMaze(maze, x, y)` guarantees. -/
def CarvePost (a : Int × Int) (x y : Int) (s s' : Maze × Nat) : Prop :=
  Frame s.1 s'.1 ∧ (Connected s.1 a → s.1.grid y x ≠ CellType.Wall → Connected s'.1 a)

/-! ## Notions used to state the properties of the placement -/

/-- Squared Euclidean distance between the cell `(x, y)` and the point `p`. -/
def sqDist (p : Vector2) (x y : Int) : ℚ :=
  ((x : ℚ) - p.x) * ((x : ℚ) - p.x) + ((y : ℚ) - p.y) * ((y : ℚ) - p.y)

/-- Row-major order of cells `(x, y)`: smaller `y` first, then smaller `x`. -/
def RowMajorLt (a b : Int × Int) : Prop :=
  a.2 < b.2 ∨ (a.2 = b.2 ∧ a.1 < b.1)

/-- All cells of the grid, row by row. -/
def gridCells : List (Int × Int) :=
  cellRows (intRange 0 MAZE_HEIGHT) (intRange 0 MAZE_WIDTH)

/-- Number of cells of the grid with the tag `t`. -/
def countCells (m : Maze) (t : CellType) : Nat :=
  gridCells.countP fun c => decide (m.grid c.2 c.1 = t)

/-- Following the spec ("Exit = the Empty cell with maximum squared Euclidean distance
from start (tie-break: first found in row-major scan)"): a brute-force search over all
cells of the grid, row by row; among cells of equal distance `argmax` keeps the first. -/
def bruteForceExit (m : Maze) : Option (Int × Int) :=
  (gridCells.filter fun c => decide (m.grid c.2 c.1 = CellType.Empty)).argmax
    fun c => sqDist m.startPos c.1 c.2

/-- What the key loop guarantees: the grid changes only at interior cells that were
`Empty`, become `Key`, and lie far enough from the start and from `(ex, ey)`. -/
def KeysPost (ex ey : Int) (m m' : Maze) : Prop :=
  m'.startPos = m.startPos ∧ m'.exitPos = m.exitPos ∧
    ∀ y x, m'.grid y x = m.grid y x ∨
      (m.grid y x = CellType.Empty ∧ m'.grid y x = CellType.Key ∧ Interior x y ∧
        5 < sqDist m.startPos x y ∧ 5 < sqDist { x := (ex : ℚ), y := (ey : ℚ) } x y)

/-- What the enemy loop guarantees: the grid changes only at interior cells that were
`Empty`, become `Enemy`, and lie far enough from the start. -/
def EnemiesPost (m m' : Maze) : Prop :=
  m'.startPos = m.startPos ∧ m'.exitPos = m.exitPos ∧
    ∀ y x, m'.grid y x = m.grid y x ∨
      (m.grid y x = CellType.Empty ∧ m'.grid y x = CellType.Enemy ∧ Interior x y ∧
        9 < sqDist m.startPos x y)

/-- Outcome of the exit search over the cells `l`, started in the state `st`. -/
def ScanPost (m : Maze) (l : List (Int × Int)) (st r : ExitScan) : Prop :=
  (r = st ∧ ∀ c ∈ l, m.grid c.2 c.1 = CellType.Empty → sqDist m.startPos c.1 c.2 ≤ st.maxDist) ∨
  (∃ c ∈ l, r.exit = some c ∧ r.maxDist = sqDist m.startPos c.1 c.2 ∧
    m.grid c.2 c.1 = CellType.Empty ∧ st.maxDist < sqDist m.startPos c.1 c.2 ∧
    (∀ c' ∈ l, m.grid c'.2 c'.1 = CellType.Empty →
      sqDist m.startPos c'.1 c'.2 ≤ sqDist m.startPos c.1 c.2) ∧
    (∀ c' ∈ l, m.grid c'.2 c'.1 = CellType.Empty →
      sqDist m.startPos c'.1 c'.2 = sqDist m.startPos c.1 c.2 → c' = c ∨ RowMajorLt c c'))

/-- The maze after the exit `(ex, ey)` has been written (`maze->grid[exitY][exitX] =
CELL_EXIT` and `maze->exitPos = ...`), before the sampling loops. -/
def withExit (m : Maze) (ex ey : Int) : Maze :=
  { m.set ey ex CellType.Exit with exitPos := { x := (ex : ℚ), y := (ey : ℚ) } }

/-- How `PlaceObjects` may change the maze: only at interior cells that were `Empty`,
which become `Exit`, `Key` or `Enemy`. -/
def Placed (m m' : Maze) : Prop :=
  m'.startPos = m.startPos ∧
    ∀ y x, m'.grid y x = m.grid y x ∨
      (m.grid y x = CellType.Empty ∧ Interior x y ∧
        (m'.grid y x = CellType.Exit ∨ m'.grid y x = CellType.Key ∨
          m'.grid y x = CellType.Enemy))

/-- A grid as `CarveMaze` leaves it: walls, and `Empty` cells in the interior only. -/
def Carved (m : Maze) : Prop :=
  ∀ y x, m.grid y x = CellType.Wall ∨ (m.grid y x = CellType.Empty ∧ Interior x y)

/-- A stream of `rand()` results used to run the generator on a concrete input. -/
def sampleRand : Nat → Nat := fun i => i * 7 + i / 3

/-- Some old contents of `*maze` for a first call of `GenerateMaze`. -/
def blankMaze : Maze :=
  { grid := fun _ _ => CellType.Empty, startPos := { x := 0, y := 0 },
    exitPos := { x := 0, y := 0 } }

/-- The stream on which `rand()` always returns 0. -/
def zeroRand : Nat → Nat := fun _ => 0

/-- Number of interior cells that are still walls; it bounds the depth of `CarveMaze`. -/
def wallCount (m : Maze) : Nat :=
  scanCells.countP fun c => decide (m.grid c.2 c.1 = CellType.Wall)

/-! ## utils.h, utils.c -/

/-- The functions of the C math library that the game calls.  Their results are taken
as given: the properties proved below hold for every choice of these functions. -/
structure Libm where
  sqrtf : ℚ → ℚ
  cosf : ℚ → ℚ
  sinf : ℚ → ℚ
  tanf : ℚ → ℚ

/-- The constant `PI` of utils.h. -/
def PI : ℚ := 314159265358979323846 / 100000000000000000000

/-- The constant `DEG2RAD`. -/
def DEG2RAD : ℚ := PI / 180

/-- `Distance`: `sqrtf(dx*dx + dy*dy)`. -/
def Distance (lm : Libm) (x1 y1 x2 y2 : ℚ) : ℚ :=
  let dx := x2 - x1
  let dy := y2 - y1
  lm.sqrtf (dx * dx + dy * dy)

/-- `DegToRad`. -/
def DegToRad (degrees : ℚ) : ℚ := degrees * DEG2RAD

/-- The conversion `(int)f` of a float: truncation toward zero. -/
def truncToInt (q : ℚ) : Int :=
  if 0 ≤ q then Rat.floor q else -Rat.floor (-q)

/-! ## game.h -/

/-- Field of view in degrees (`FOV`). -/
def FOV : ℚ := 60

/-- `MAX_KEYS`. -/
def MAX_KEYS : Int := 3

/-- Game states (`enum GameState`). -/
inductive GameState where
  | GAME_TITLE
  | GAME_PLAYING
  | GAME_PAUSED
  | GAME_VICTORY
  | GAME_OVER
  deriving DecidableEq, Repr

/-- The fields of raylib's `Texture2D` that the game reads. -/
structure Texture2D where
  id : Nat
  width : Int
  height : Int
  deriving DecidableEq, Repr

/-- Four floats (raylib `Rectangle`). -/
structure Rectangle where
  x : ℚ
  y : ℚ
  width : ℚ
  height : ℚ
  deriving DecidableEq, Repr

/-- Player data (`struct Player`). -/
structure Player where
  position : Vector2
  angle : ℚ
  health : Int
  keys : Int
  shootCooldown : ℚ
  deriving DecidableEq, Repr

/-- Weapon animation (`struct WeaponAnimation`), without the textures. -/
structure WeaponAnimation where
  isSwinging : Bool
  swingTimer : ℚ
  swingDuration : ℚ
  currentFrame : Int
  frameTimer : ℚ
  deriving DecidableEq, Repr

/-- Animation state (`struct Animation`). -/
structure Animation where
  currentAnim : Int
  currentFrame : Int
  frameTimer : ℚ
  isPlaying : Bool
  loop : Bool
  deriving DecidableEq, Repr

/-- A billboard (`struct Sprite`). -/
structure Sprite where
  position : Vector2
  texture : Texture2D
  active : Bool
  type : CellType
  anim : Animation
  frame : Rectangle
  deriving DecidableEq, Repr

/-- An enemy (`struct Enemy`). -/
structure Enemy where
  position : Vector2
  angle : ℚ
  active : Bool
  health : Int
  attackCooldown : ℚ
  moveTimer : ℚ
  direction : Vector2
  anim : Animation
  spriteIndex : Int
  isDying : Bool
  deriving DecidableEq, Repr

/-- The exit door (`struct ExitDoor`). -/
structure ExitDoor where
  position : Vector2
  openTexture : Texture2D
  closedTexture : Texture2D
  isOpen : Bool
  active : Bool
  spriteIndex : Int
  deriving DecidableEq, Repr

/-! ## game.c -/

/-- The global variables of game.c.  The arrays `enemies` and `sprites` are functions
of the index; only the indices below `enemyCount` and `spriteCount` are in use. -/
structure Game where
  currentState : GameState
  player : Player
  enemies : Int → Enemy
  gameMaze : Maze
  enemyCount : Int
  sprites : Int → Sprite
  spriteCount : Int
  showExitMessage : Bool
  exitMessageTimer : ℚ
  katanaAnim : WeaponAnimation
  exitDoor : ExitDoor

/-- Maximum cast range (`raycastMaxDistance`). -/
def raycastMaxDistance : ℚ := 20

/-- The assignment `a[i] = v` to an array. -/
def arrSet {α : Type} (a : Int → α) (i : Int) (v : α) : Int → α :=
  fun k => if k = i then v else a k

/-- The camera vectors computed at the head of `RenderRaycasting` and
`RenderSprites`. -/
structure Camera where
  playerDirX : ℚ
  playerDirY : ℚ
  planeX : ℚ
  planeY : ℚ
  deriving DecidableEq, Repr

/-- Camera direction and plane from the facing angle. -/
def camera (lm : Libm) (player : Player) : Camera :=
  let playerDirX := lm.cosf player.angle
  let playerDirY := lm.sinf player.angle
  let fovHalf := DegToRad (FOV / 2)
  { playerDirX := playerDirX, playerDirY := playerDirY,
    planeX := -playerDirY * lm.tanf fovHalf, planeY := playerDirX * lm.tanf fovHalf }

/-! ### The depth sort of `RenderSprites` -/

/-- Distance from the player to `sprites[j]`, as the sort computes it. -/
def spriteDist (lm : Libm) (g : Game) (j : Int) : ℚ :=
  Distance lm g.player.position.x g.player.position.y
    (g.sprites j).position.x (g.sprites j).position.y

/-- The update of one back-reference after `sprites[j]` and `sprites[j+1]` were
swapped: `if (idx == j) idx = j+1; else if (idx == j+1) idx = j;`. -/
def swapIndex (j idx : Int) : Int :=
  if idx = j then j + 1 else if idx = j + 1 then j else idx

/-- Body of `if (dist1 < dist2)`: swap `sprites[j]` and `sprites[j+1]`, then patch
`spriteIndex` of every enemy `k < enemyCount` and of the exit door. -/
def sortSwap (g : Game) (j : Int) : Game :=
  let temp := g.sprites j
  let sprites1 := arrSet g.sprites j (g.sprites (j + 1))
  let sprites2 := arrSet sprites1 (j + 1) temp
  { g with
    sprites := sprites2
    enemies := fun k =>
      if 0 ≤ k ∧ k < g.enemyCount then
        { g.enemies k with spriteIndex := swapIndex j (g.enemies k).spriteIndex }
      else g.enemies k
    exitDoor := { g.exitDoor with spriteIndex := swapIndex j g.exitDoor.spriteIndex } }

/-- Body of the inner loop of the sort for the index `j`. -/
def sortInner (lm : Libm) (g : Game) (j : Int) : Game :=
  let dist1 := spriteDist lm g j
  let dist2 := spriteDist lm g (j + 1)
  if dist1 < dist2 then sortSwap g j else g

/-- The inner loop `for (j = 0; j < spriteCount - i - 1; j++)`. -/
def sortPass (lm : Libm) (g : Game) (i : Int) : Game :=
  (intRange 0 (g.spriteCount - i - 1)).foldl (sortInner lm) g

/-- The sorting loop of `RenderSprites`: `for (i = 0; i < spriteCount - 1; i++)`. -/
def sortSprites (lm : Libm) (g : Game) : Game :=
  (intRange 0 (g.spriteCount - 1)).foldl (sortPass lm) g

/-- The head of `RenderSprites`: give the door sprite the texture that matches
`exitDoor.isOpen`, when the door's back-reference is a valid index. -/
def updateDoorSprite (g : Game) : Game :=
  if 0 ≤ g.exitDoor.spriteIndex ∧ g.exitDoor.spriteIndex < g.spriteCount then
    let tex := if g.exitDoor.isOpen then g.exitDoor.openTexture else g.exitDoor.closedTexture
    let sp := g.sprites g.exitDoor.spriteIndex
    let frame : Rectangle :=
      { x := 0, y := 0, width := (tex.width : ℚ), height := (tex.height : ℚ) }
    let sp1 : Sprite := { sp with texture := tex, frame := frame }
    { g with sprites := arrSet g.sprites g.exitDoor.spriteIndex sp1 }
  else g

/-- How a run of sorting steps relates the game before (`g`) and after (`g'`): the
sprite slots are permuted by `σ`, which moves only indices in `lo..hi`, and every
back-reference of an enemy in use and of the exit door has followed its sprite. -/
def SortInv (g g' : Game) (lo hi : Int) (σ : Equiv.Perm Int) : Prop :=
  g'.player = g.player ∧ g'.spriteCount = g.spriteCount ∧ g'.enemyCount = g.enemyCount ∧
  (∀ i, (i < lo ∨ hi < i) → σ i = i) ∧
  (∀ i, g'.sprites i = g.sprites (σ i)) ∧
  (∀ k, (g'.enemies k).spriteIndex =
    if 0 ≤ k ∧ k < g.enemyCount then σ.symm (g.enemies k).spriteIndex
    else (g.enemies k).spriteIndex) ∧
  g'.exitDoor.spriteIndex = σ.symm g.exitDoor.spriteIndex

/-- A math library stand-in for running the code on concrete inputs: `sqrtf` is
replaced by the identity (so distances are compared through their squares), and the
facing angle is read as pointing along the x axis. -/
def sampleLibm : Libm :=
  { sqrtf := fun q => q, cosf := fun _ => 1, sinf := fun _ => 0, tanf := fun _ => 1 / 2 }

/-- A texture of 64 x 64 pixels. -/
def sampleTexture (id : Nat) : Texture2D := { id := id, width := 64, height := 64 }

/-- A sprite of the given type at the given place. -/
def sampleSprite (t : CellType) (x y : ℚ) (id : Nat) : Sprite :=
  { position := { x := x, y := y }, texture := sampleTexture id, active := true, type := t,
    anim := { currentAnim := 0, currentFrame := 0, frameTimer := 0, isPlaying := true,
              loop := true },
    frame := { x := 0, y := 0, width := 64, height := 64 } }

/-- An enemy at the given place whose sprite is `sprites[idx]`. -/
def sampleEnemy (x y : ℚ) (idx : Int) : Enemy :=
  { position := { x := x, y := y }, angle := 0, active := true, health := 30,
    attackCooldown := 0, moveTimer := 1, direction := { x := 1, y := 0 },
    anim := { currentAnim := 0, currentFrame := 0, frameTimer := 0, isPlaying := true,
              loop := true },
    spriteIndex := idx, isDying := false }

/-- A game with three sprites (a key, the door, an enemy) in an open room, the player
at (3/2, 3/2) facing along the x axis. -/
def sampleGame : Game :=
  { currentState := GameState.GAME_PLAYING
    player := { position := { x := 3 / 2, y := 3 / 2 }, angle := 0, health := 100, keys := 0,
                shootCooldown := 0 }
    enemies := fun _ => sampleEnemy (11 / 2) (7 / 2) 2
    gameMaze :=
      { grid := fun y x => if 0 < x ∧ x < 14 ∧ 0 < y ∧ y < 14 then CellType.Empty
                           else CellType.Wall
        startPos := { x := 1, y := 1 }, exitPos := { x := 13, y := 13 } }
    enemyCount := 1
    sprites := fun i =>
      if i = 0 then sampleSprite CellType.Key (5 / 2) (3 / 2) 1
      else if i = 1 then sampleSprite CellType.Exit (27 / 2) (27 / 2) 2
      else sampleSprite CellType.Enemy (11 / 2) (7 / 2) 3
    spriteCount := 3
    showExitMessage := false
    exitMessageTimer := 0
    katanaAnim := { isSwinging := false, swingTimer := 0, swingDuration := 1 / 2,
                    currentFrame := 0, frameTimer := 0 }
    exitDoor := { position := { x := 27 / 2, y := 27 / 2 }, openTexture := sampleTexture 4,
                  closedTexture := sampleTexture 2, isOpen := false, active := true,
                  spriteIndex := 1 } }

/-! ### The drawing loop of `RenderSprites` -/

/-- A call `DrawTexturePro(texture, srcRect, destRect, origin, 0, WHITE)`. -/
structure DrawCall where
  texture : Texture2D
  srcRect : Rectangle
  destRect : Rectangle
  deriving DecidableEq, Repr

/-- Camera-space x of a sprite (`transformX`). -/
def spriteTransformX (cam : Camera) (player : Player) (sp : Sprite) : ℚ :=
  let spriteX := sp.position.x - player.position.x
  let spriteY := sp.position.y - player.position.y
  let invDet := 1 / (cam.planeX * cam.playerDirY - cam.playerDirX * cam.planeY)
  invDet * (cam.playerDirY * spriteX - cam.playerDirX * spriteY)

/-- Camera-space depth of a sprite (`transformY`). -/
def spriteTransformY (cam : Camera) (player : Player) (sp : Sprite) : ℚ :=
  let spriteX := sp.position.x - player.position.x
  let spriteY := sp.position.y - player.position.y
  let invDet := 1 / (cam.planeX * cam.playerDirY - cam.playerDirX * cam.planeY)
  invDet * (-cam.planeY * spriteX + cam.planeX * spriteY)

/-- `spriteScreenX = (int)((GetScreenWidth() / 2) * (1 + transformX / transformY))`. -/
def spriteScreenX (screenW : Int) (transformX transformY : ℚ) : Int :=
  truncToInt (((screenW.tdiv 2 : Int) : ℚ) * (1 + transformX / transformY))

/-- `spriteHeight`, after the adjustment by sprite type. -/
def spriteHeight (screenH : Int) (transformY : ℚ) (t : CellType) : Int :=
  let h : Int := |truncToInt ((screenH : ℚ) / transformY)|
  if t = CellType.Key then h.tdiv 2
  else if t = CellType.Exit then truncToInt ((h : ℚ) * (13 / 10))
  else h

/-- `drawStartY` and `drawEndY`, by sprite type. -/
def spriteRows (screenH : Int) (height : Int) (t : CellType) : Int × Int :=
  if t = CellType.Enemy then
    let drawStartY := (-height).tdiv 2 + screenH.tdiv 2
    let drawStartY := if drawStartY < 0 then 0 else drawStartY
    let drawEndY := height.tdiv 2 + screenH.tdiv 2 + 100
    let drawEndY := if drawEndY ≥ screenH then screenH - 1 else drawEndY
    (drawStartY, drawEndY)
  else if t = CellType.Exit then
    let drawEndY := screenH.tdiv 2 + height.tdiv 2
    let drawEndY := if drawEndY ≥ screenH then screenH - 1 else drawEndY
    let drawStartY := drawEndY - height
    let drawStartY := if drawStartY < 0 then 0 else drawStartY
    (drawStartY, drawEndY)
  else
    let drawStartY := (-height).tdiv 2 + screenH.tdiv 2
    let drawStartY := if drawStartY < 0 then 0 else drawStartY
    let drawEndY := height.tdiv 2 + screenH.tdiv 2
    let drawEndY := if drawEndY ≥ screenH then screenH - 1 else drawEndY
    (drawStartY, drawEndY)

/-- `drawStartX` and `drawEndX` of a sprite in front of the camera. -/
def spriteColumns (screenW screenH : Int) (cam : Camera) (player : Player) (sp : Sprite) :
    Int × Int :=
  let transformX := spriteTransformX cam player sp
  let transformY := spriteTransformY cam player sp
  let screenX := spriteScreenX screenW transformX transformY
  let spriteWidth := spriteHeight screenH transformY sp.type
  let drawStartX := (-spriteWidth).tdiv 2 + screenX
  let drawStartX := if drawStartX < 0 then 0 else drawStartX
  let drawEndX := spriteWidth.tdiv 2 + screenX
  let drawEndX := if drawEndX ≥ screenW then screenW - 1 else drawEndX
  (drawStartX, drawEndX)

/-- Body of the stripe loop: the draw calls issued for the screen column `stripe`. -/
def renderStripe (zBuffer : Int → ℚ) (sp : Sprite) (transformY : ℚ)
    (drawStartX drawEndX drawStartY drawEndY : Int) (stripe : Int) : List DrawCall :=
  if transformY < zBuffer stripe then
    let texX := ((stripe - drawStartX) * sp.texture.width).tdiv (drawEndX - drawStartX)
    let texX := if texX < 0 then 0 else texX
    let texX := if texX ≥ sp.texture.width then sp.texture.width - 1 else texX
    let srcRect : Rectangle :=
      { x := (texX : ℚ), y := 0, width := 1, height := (sp.texture.height : ℚ) }
    let destRect : Rectangle :=
      { x := (stripe : ℚ), y := (drawStartY : ℚ), width := 1,
        height := ((drawEndY - drawStartY : Int) : ℚ) }
    if sp.type = CellType.Key then
      [{ texture := sp.texture, srcRect := srcRect, destRect := destRect }]
    else if sp.type = CellType.Enemy then
      [{ texture := sp.texture, srcRect := srcRect, destRect := destRect }]
    else if sp.type = CellType.Exit then
      [{ texture := sp.texture, srcRect := srcRect, destRect := destRect }]
    else []
  else []

/-- Body of the loop `Render each sprite`: the draw calls issued for one sprite. -/
def renderSprite (screenW screenH : Int) (zBuffer : Int → ℚ) (cam : Camera)
    (player : Player) (sp : Sprite) : List DrawCall :=
  if !sp.active then []
  else
    let transformY := spriteTransformY cam player sp
    if transformY ≤ 0 then []
    else
      let height := spriteHeight screenH transformY sp.type
      let rows := spriteRows screenH height sp.type
      let cols := spriteColumns screenW screenH cam player sp
      (intRange cols.1 cols.2).flatMap
        (renderStripe zBuffer sp transformY cols.1 cols.2 rows.1 rows.2)

/-- `RenderSprites`: refresh the door sprite, sort the sprites by distance, then draw
them in array order.  `screenW` and `screenH` stand for `GetScreenWidth()` and
`GetScreenHeight()`.  Returns the game (the sort moves sprites and back-references)
and the draw calls in the order issued. -/
def RenderSprites (lm : Libm) (screenW screenH : Int) (zBuffer : Int → ℚ) (g : Game) :
    Game × List DrawCall :=
  let cam := camera lm g.player
  let g1 := updateDoorSprite g
  let g2 := sortSprites lm g1
  (g2, (intRange 0 g2.spriteCount).flatMap fun i =>
    renderSprite screenW screenH zBuffer cam g2.player (g2.sprites i))

/-- The draw calls contain one for the screen column `s`. -/
def StripeDrawn (calls : List DrawCall) (s : Int) : Prop :=
  ∃ c ∈ calls, c.destRect.x = (s : ℚ)

/-! ### `RenderRaycasting` -/

/-- The locals of the DDA loop; `side = none` while `side` is uninitialised. -/
structure RayState where
  mapX : Int
  mapY : Int
  sideDistX : ℚ
  sideDistY : ℚ
  hit : Int
  side : Option Int
  deriving DecidableEq, Repr

/-- Body of the DDA loop: jump to the next map square and test it. -/
def ddaStep (maze : Maze) (deltaDistX deltaDistY : ℚ) (stepX stepY : Int)
    (st : RayState) : RayState :=
  let st1 : RayState :=
    if st.sideDistX < st.sideDistY then
      { st with sideDistX := st.sideDistX + deltaDistX, mapX := st.mapX + stepX, side := some 0 }
    else
      { st with sideDistY := st.sideDistY + deltaDistY, mapY := st.mapY + stepY, side := some 1 }
  if st1.mapX ≥ 0 ∧ st1.mapX < MAZE_WIDTH ∧ st1.mapY ≥ 0 ∧ st1.mapY < MAZE_HEIGHT then
    if GetCellType maze st1.mapX st1.mapY = CellType.Wall then { st1 with hit := 1 }
    else st1
  else { st1 with hit := 1 }

/-- The DDA loop `while (hit == 0 && (sideDistX < raycastMaxDistance || sideDistY <
raycastMaxDistance))`; `fuel` bounds the number of rounds. -/
def ddaLoop (maze : Maze) (deltaDistX deltaDistY : ℚ) (stepX stepY : Int) :
    Nat → RayState → Option RayState
  | 0, st =>
    if st.hit = 0 ∧ (st.sideDistX < raycastMaxDistance ∨ st.sideDistY < raycastMaxDistance)
    then none else some st
  | fuel + 1, st =>
    if st.hit = 0 ∧ (st.sideDistX < raycastMaxDistance ∨ st.sideDistY < raycastMaxDistance)
    then ddaLoop maze deltaDistX deltaDistY stepX stepY fuel
      (ddaStep maze deltaDistX deltaDistY stepX stepY st)
    else some st

/-- The ray of one screen column, from the set-up of the DDA to `perpWallDist`, the
value stored in `zBuffer[x]`.  No result (`none`) when the fuel runs out or when
`side` is read uninitialised. -/
def castRay (maze : Maze) (player : Player) (rayDirX rayDirY : ℚ) (fuel : Nat) : Option ℚ :=
  let mapX := truncToInt player.position.x
  let mapY := truncToInt player.position.y
  let deltaDistX : ℚ := if |rayDirX| < 1 / 100000 then 10 ^ 30 else |1 / rayDirX|
  let deltaDistY : ℚ := if |rayDirY| < 1 / 100000 then 10 ^ 30 else |1 / rayDirY|
  let stepX : Int := if rayDirX < 0 then -1 else 1
  let sideDistX : ℚ :=
    if rayDirX < 0 then (player.position.x - (mapX : ℚ)) * deltaDistX
    else ((mapX : ℚ) + 1 - player.position.x) * deltaDistX
  let stepY : Int := if rayDirY < 0 then -1 else 1
  let sideDistY : ℚ :=
    if rayDirY < 0 then (player.position.y - (mapY : ℚ)) * deltaDistY
    else ((mapY : ℚ) + 1 - player.position.y) * deltaDistY
  (ddaLoop maze deltaDistX deltaDistY stepX stepY fuel
    { mapX := mapX, mapY := mapY, sideDistX := sideDistX, sideDistY := sideDistY,
      hit := 0, side := none }).bind fun st =>
    match st.side with
    | none => none
    | some side =>
      if side = 0 then
        some (((st.mapX : ℚ) - player.position.x + (((1 - stepX).tdiv 2 : Int) : ℚ)) / rayDirX)
      else
        some (((st.mapY : ℚ) - player.position.y + (((1 - stepY).tdiv 2 : Int) : ℚ)) / rayDirY)

/-- Direction of the ray of the screen column `x`: `cameraX = 2 * x / screenWidth - 1`,
`rayDir = playerDir + plane * cameraX`. -/
def rayDirection (cam : Camera) (screenWidth : Int) (x : Int) : ℚ × ℚ :=
  let cameraX : ℚ := 2 * (x : ℚ) / (screenWidth : ℚ) - 1
  (cam.playerDirX + cam.planeX * cameraX, cam.playerDirY + cam.planeY * cameraX)

/-- `RenderRaycasting`, as far as the depth buffer goes: the value stored in
`zBuffer[x]` for the screen column `x`; `screenWidth` stands for `GetScreenWidth()`. -/
def RenderRaycasting (lm : Libm) (screenWidth : Int) (g : Game) (fuel : Nat) (x : Int) :
    Option ℚ :=
  let rayDir := rayDirection (camera lm g.player) screenWidth x
  castRay g.gameMaze g.player rayDir.1 rayDir.2 fuel

/-- A grid with two corridors of different length: row 1 is open for x = 1..3 and
row 2 for x = 1..5. -/
def twoCorridors : Maze :=
  { grid := fun y x =>
      if (y = 1 ∧ 1 ≤ x ∧ x ≤ 3) ∨ (y = 2 ∧ 1 ≤ x ∧ x ≤ 5) then CellType.Empty
      else CellType.Wall
    startPos := { x := 1, y := 1 }, exitPos := { x := 5, y := 2 } }

/-- A player in the cell (1,1) at the given place. -/
def playerAt (x y : ℚ) : Player :=
  { position := { x := x, y := y }, angle := 0, health := 100, keys := 0, shootCooldown := 0 }

/-- A math library stand-in for a player whose facing vector is `(c, s)`. -/
def axisLibm (c s : ℚ) : Libm :=
  { sqrtf := fun q => q, cosf := fun _ => c, sinf := fun _ => s, tanf := fun _ => 1 / 2 }

/-- The sample game in the maze `twoCorridors`, the player at `(x, y)`. -/
def corridorGame (x y : ℚ) : Game :=
  { sampleGame with gameMaze := twoCorridors, player := playerAt x y }

/-! ## maze.c: coordinate conversions -/

/-- Scale between grid and world coordinates (`GRID_SCALE`). -/
def GRID_SCALE : ℚ := 1

/-- `WorldToGrid`: divide both coordinates by `GRID_SCALE`. -/
def WorldToGrid (worldPos : Vector2) : Vector2 :=
  { x := worldPos.x / GRID_SCALE, y := worldPos.y / GRID_SCALE }

/-- `GridToWorld`: the centre of the cell. -/
def GridToWorld (gridX gridY : Int) : Vector2 :=
  { x := (gridX : ℚ) * GRID_SCALE + GRID_SCALE / 2,
    y := (gridY : ℚ) * GRID_SCALE + GRID_SCALE / 2 }

/-! ## utils.c: angles -/

/-- The constant `RAD2DEG`. -/
def RAD2DEG : ℚ := 180 / PI

/-- `RadToDeg`. -/
def RadToDeg (radians : ℚ) : ℚ := radians * RAD2DEG

/-- The loop `while (a < 0) a += period;`, cut off after `n` rounds. -/
def addWhileNegative (period : ℚ) : Nat → ℚ → ℚ
  | 0, a => a
  | n + 1, a => if a < 0 then addWhileNegative period n (a + period) else a

/-- The loop `while (a >= period) a -= period;`, cut off after `n` rounds. -/
def subWhileAtLeast (period : ℚ) : Nat → ℚ → ℚ
  | 0, a => a
  | n + 1, a => if a ≥ period then subWhileAtLeast period n (a - period) else a

/-- A number of rounds that the two loops above never need in full: one more than
`|a| / period`, rounded down. -/
def wrapRounds (period a : ℚ) : Nat :=
  (truncToInt (|a| / period)).toNat + 1

/-- The two loops `while (a < 0) a += period; while (a >= period) a -= period;`. -/
def wrapInto (period a : ℚ) : ℚ :=
  let a1 := addWhileNegative period (wrapRounds period a) a
  subWhileAtLeast period (wrapRounds period a1) a1

/-- `NormalizeAngle`: bring an angle into `[0, 2 PI)`. -/
def NormalizeAngle (angle : ℚ) : ℚ :=
  wrapInto (2 * PI) angle

/-! ## game.h: constants -/

/-- `PLAYER_SPEED`. -/
def PLAYER_SPEED : ℚ := 2

/-- `PLAYER_ROT_SPEED`. -/
def PLAYER_ROT_SPEED : ℚ := 2

/-- `MAX_ENEMIES`. -/
def MAX_ENEMIES : Int := 10

/-- `MAX_SPRITES`. -/
def MAX_SPRITES : Int := 15

/-- `PLAYER_SHOOT_COOLDOWN`. -/
def PLAYER_SHOOT_COOLDOWN : ℚ := 1 / 2

/-- `ENEMY_SPEED`. -/
def ENEMY_SPEED : ℚ := 1 / 2

/-- `ENEMY_ATTACK_RANGE`. -/
def ENEMY_ATTACK_RANGE : ℚ := 1

/-- `ENEMY_ATTACK_DAMAGE`. -/
def ENEMY_ATTACK_DAMAGE : Int := 10

/-- `ENEMY_ATTACK_COOLDOWN`. -/
def ENEMY_ATTACK_COOLDOWN : ℚ := 1

/-- `ENEMY_HEALTH`. -/
def ENEMY_HEALTH : Int := 30

/-- `PLAYER_ATTACK_DAMAGE`. -/
def PLAYER_ATTACK_DAMAGE : Int := 15

/-- `ENEMY_FRAME_TIME`. -/
def ENEMY_FRAME_TIME : ℚ := 15 / 100

/-! ## game.c: animations -/

/-- `ANIM_WALK_FRONT`. -/
def ANIM_WALK_FRONT : Int := 0

/-- `ANIM_ATTACK_FRONT`. -/
def ANIM_ATTACK_FRONT : Int := 1

/-- `ANIM_WALK_DIAG_FRONT_L`. -/
def ANIM_WALK_DIAG_FRONT_L : Int := 2

/-- `ANIM_ATTACK_DIAG_FRONT_L`. -/
def ANIM_ATTACK_DIAG_FRONT_L : Int := 3

/-- `ANIM_WALK_SIDE`. -/
def ANIM_WALK_SIDE : Int := 4

/-- `ANIM_ATTACK_SIDE`. -/
def ANIM_ATTACK_SIDE : Int := 5

/-- `ANIM_WALK_DIAG_BACK_L`. -/
def ANIM_WALK_DIAG_BACK_L : Int := 6

/-- `ANIM_ATTACK_DIAG_BACK_L`. -/
def ANIM_ATTACK_DIAG_BACK_L : Int := 7

/-- `ANIM_WALK_BACK`. -/
def ANIM_WALK_BACK : Int := 8

/-- `ANIM_ATTACK_BACK`. -/
def ANIM_ATTACK_BACK : Int := 9

/-- `ANIM_ATTACK_DIAG_FRONT_R`. -/
def ANIM_ATTACK_DIAG_FRONT_R : Int := 10

/-- `ANIM_DEATH`. -/
def ANIM_DEATH : Int := 11

/-- An entry of the table `animationRanges` (`struct AnimationRange`). -/
structure AnimationRange where
  startFrame : Int
  endFrame : Int
  loop : Bool
  deriving DecidableEq, Repr

/-- The table `animationRanges`; the code indexes it with 0..11 only (an index
outside that range reads past the array and has no meaning here). -/
def animationRanges (anim : Int) : AnimationRange :=
  if anim = 0 then { startFrame := 0, endFrame := 3, loop := true }
  else if anim = 1 then { startFrame := 4, endFrame := 7, loop := true }
  else if anim = 2 then { startFrame := 8, endFrame := 11, loop := true }
  else if anim = 3 then { startFrame := 12, endFrame := 15, loop := true }
  else if anim = 4 then { startFrame := 16, endFrame := 19, loop := true }
  else if anim = 5 then { startFrame := 20, endFrame := 23, loop := true }
  else if anim = 6 then { startFrame := 24, endFrame := 27, loop := true }
  else if anim = 7 then { startFrame := 28, endFrame := 31, loop := true }
  else if anim = 8 then { startFrame := 32, endFrame := 35, loop := true }
  else if anim = 9 then { startFrame := 36, endFrame := 39, loop := true }
  else if anim = 10 then { startFrame := 40, endFrame := 42, loop := true }
  else { startFrame := 49, endFrame := 55, loop := false }

/-! ## game.c: the environment of a tick -/

/-- What the game takes from outside and never changes after `InitGame`: the math
library, `atan2f`, the stream of `rand()` results, `RAND_MAX`, and the textures loaded
at start-up. -/
structure Env where
  lm : Libm
  atan2f : ℚ → ℚ → ℚ
  rnd : Nat → Nat
  RAND_MAX : Nat
  keyTexture : Texture2D
  impTextures : Int → Texture2D
  doorOpenTexture : Texture2D
  doorClosedTexture : Texture2D

/-- What raylib reports during one frame: `GetFrameTime()`, `IsKeyDown` for the
movement keys and `IsKeyPressed` for ENTER, SPACE, P and R. -/
structure Input where
  frameTime : ℚ
  keyLeft : Bool
  keyA : Bool
  keyD : Bool
  keyRight : Bool
  keyUp : Bool
  keyW : Bool
  keyDown : Bool
  keyS : Bool
  enterPressed : Bool
  spacePressed : Bool
  pPressed : Bool
  rPressed : Bool
  deriving DecidableEq, Repr

/-- `((float)rand() / RAND_MAX)` for the result `r` of `rand()`. -/
def randUnit (env : Env) (r : Nat) : ℚ :=
  (r : ℚ) / (env.RAND_MAX : ℚ)

/-! ## game.c: initialisation -/

/-- `InitPlayer`: the player at the centre of the start cell with full health and no
keys; the weapon at rest. -/
def InitPlayer (g : Game) : Game :=
  { g with
    player :=
      { position := GridToWorld (truncToInt g.gameMaze.startPos.x)
          (truncToInt g.gameMaze.startPos.y),
        angle := 0, health := 100, keys := 0, shootCooldown := 0 }
    katanaAnim :=
      { isSwinging := false, swingTimer := 0, swingDuration := 1 / 2, currentFrame := 0,
        frameTimer := 0 } }

/-- Body of the first scan of `InitEnemies`: a key sprite for a `Key` cell. -/
def addKeySprite (env : Env) (g : Game) (c : Int × Int) : Game :=
  if GetCellType g.gameMaze c.1 c.2 = CellType.Key ∧ g.spriteCount < MAX_SPRITES then
    let sp : Sprite :=
      { g.sprites g.spriteCount with
        position := GridToWorld c.1 c.2
        texture := env.keyTexture
        active := true
        type := CellType.Key
        frame := { x := 0, y := 0, width := (env.keyTexture.width : ℚ),
                   height := (env.keyTexture.height : ℚ) } }
    { g with sprites := arrSet g.sprites g.spriteCount sp, spriteCount := g.spriteCount + 1 }
  else g

/-- The sprite of the exit door, stored at `sprites[spriteCount]`. -/
def addDoorSprite (g : Game) : Game :=
  let tex := if g.exitDoor.isOpen then g.exitDoor.openTexture else g.exitDoor.closedTexture
  let sp : Sprite :=
    { g.sprites g.spriteCount with
      position := g.exitDoor.position
      texture := tex
      active := true
      type := CellType.Exit
      frame := { x := 0, y := 0, width := (tex.width : ℚ), height := (tex.height : ℚ) } }
  { g with
    sprites := arrSet g.sprites g.spriteCount sp
    exitDoor := { g.exitDoor with spriteIndex := g.spriteCount }
    spriteCount := g.spriteCount + 1 }

/-- Body of the second scan of `InitEnemies`: an enemy, and its sprite when there is
room, for an `Enemy` cell.  Two calls of `rand()`: the angle, then the move timer. -/
def addEnemy (env : Env) (s : Game × Nat) (c : Int × Int) : Game × Nat :=
  let g := s.1
  if GetCellType g.gameMaze c.1 c.2 = CellType.Enemy ∧ g.enemyCount < MAX_ENEMIES then
    let angle := randUnit env (env.rnd s.2) * 2 * PI
    let moveTimer := randUnit env (env.rnd (s.2 + 1)) * 2
    let anim : Animation :=
      { currentAnim := ANIM_WALK_FRONT, currentFrame := 0, frameTimer := 0, isPlaying := true,
        loop := true }
    let e : Enemy :=
      { g.enemies g.enemyCount with
        position := GridToWorld c.1 c.2
        angle := angle
        active := true
        health := ENEMY_HEALTH
        attackCooldown := 0
        moveTimer := moveTimer
        direction := { x := env.lm.cosf angle, y := env.lm.sinf angle }
        anim := anim
        isDying := false }
    if g.spriteCount < MAX_SPRITES then
      let sp : Sprite :=
        { position := e.position, texture := env.impTextures 0, active := true,
          type := CellType.Enemy,
          anim := anim,
          frame := { x := 0, y := 0, width := ((env.impTextures 0).width : ℚ),
                     height := ((env.impTextures 0).height : ℚ) } }
      ({ g with
          sprites := arrSet g.sprites g.spriteCount sp
          enemies := arrSet g.enemies g.enemyCount { e with spriteIndex := g.spriteCount }
          spriteCount := g.spriteCount + 1
          enemyCount := g.enemyCount + 1 }, s.2 + 2)
    else
      ({ g with enemies := arrSet g.enemies g.enemyCount e, enemyCount := g.enemyCount + 1 },
        s.2 + 2)
  else s

/-- `InitEnemies`: reset both counts, scan the grid for keys, add the door sprite, scan
the grid for enemies. -/
def InitEnemies (env : Env) (s : Game × Nat) : Game × Nat :=
  let g0 : Game := { s.1 with enemyCount := 0, spriteCount := 0 }
  let g1 := gridCells.foldl (addKeySprite env) g0
  let g2 := addDoorSprite g1
  gridCells.foldl (addEnemy env) (g2, s.2)

/-- `InitGame`, as far as the game state goes: title screen, a new maze, the player,
the door, enemies and sprites.  `g` holds the old contents of the globals. -/
def InitGame (env : Env) (fuel : Nat) (s : Game × Nat) : Option (Game × Nat) :=
  (GenerateMaze env.rnd fuel s.1.gameMaze s.2).map fun r =>
    let g1 : Game := { s.1 with currentState := GameState.GAME_TITLE, gameMaze := r.1 }
    let g2 := InitPlayer g1
    let door : ExitDoor :=
      { g2.exitDoor with
        openTexture := env.doorOpenTexture
        closedTexture := env.doorClosedTexture
        isOpen := false
        active := true
        position := GridToWorld (truncToInt g2.gameMaze.exitPos.x)
          (truncToInt g2.gameMaze.exitPos.y)
        spriteIndex := -1 }
    InitEnemies env ({ g2 with exitDoor := door }, r.2)

/-! ## game.c: the player -/

/-- `CheckWallCollision`: the position lies in a cell that is not walkable. -/
def CheckWallCollision (maze : Maze) (pos : Vector2) : Bool :=
  let gridPos := WorldToGrid pos
  let gridX := truncToInt gridPos.x
  let gridY := truncToInt gridPos.y
  !IsCellWalkable maze gridX gridY

/-- Body of the sprite loop of `CheckPlayerInteractions` for `sprites[i]`. -/
def interactSprite (env : Env) (g : Game) (i : Int) : Game :=
  let sp := g.sprites i
  if sp.active = false then g
  else
    let dist := Distance env.lm g.player.position.x g.player.position.y
      sp.position.x sp.position.y
    if dist < 1 / 2 then
      if sp.type = CellType.Key then
        let spriteGridPos := WorldToGrid sp.position
        let spriteGridX := truncToInt spriteGridPos.x
        let spriteGridY := truncToInt spriteGridPos.y
        let maze :=
          if GetCellType g.gameMaze spriteGridX spriteGridY = CellType.Key then
            g.gameMaze.set spriteGridY spriteGridX CellType.Empty
          else g.gameMaze
        { g with
          player := { g.player with keys := g.player.keys + 1 }
          sprites := arrSet g.sprites i { sp with active := false }
          gameMaze := maze }
      else if sp.type = CellType.Exit ∧ g.exitDoor.isOpen = true then
        { g with currentState := GameState.GAME_VICTORY, exitMessageTimer := 3 }
      else g
    else g

/-- Head of `CheckPlayerInteractions`: recompute `exitDoor.isOpen` from the key count
and, when it changed and the door's back-reference is a valid index, give the door
sprite the matching texture and frame. -/
def refreshDoor (g : Game) : Game :=
  let oldState := g.exitDoor.isOpen
  let isOpen := decide (g.player.keys ≥ MAX_KEYS)
  let g1 : Game := { g with exitDoor := { g.exitDoor with isOpen := isOpen } }
  if oldState ≠ isOpen ∧ g1.exitDoor.spriteIndex ≥ 0 ∧ g1.exitDoor.spriteIndex < g1.spriteCount
  then
    let tex := if isOpen then g1.exitDoor.openTexture else g1.exitDoor.closedTexture
    let sp := g1.sprites g1.exitDoor.spriteIndex
    let frame : Rectangle :=
      { x := 0, y := 0, width := (tex.width : ℚ), height := (tex.height : ℚ) }
    let sp1 : Sprite := { sp with texture := tex, frame := frame }
    { g1 with sprites := arrSet g1.sprites g1.exitDoor.spriteIndex sp1 }
  else g1

/-- Tail of `CheckPlayerInteractions`: raise the "need more keys" message when the
player stands in the exit cell while the door is closed, and count its timer down. -/
def exitMessage (inp : Input) (g3 : Game) : Game :=
  let gridPos := WorldToGrid g3.player.position
  let gridX := truncToInt gridPos.x
  let gridY := truncToInt gridPos.y
  let g4 : Game :=
    if GetCellType g3.gameMaze gridX gridY = CellType.Exit ∧ g3.exitDoor.isOpen = false then
      { g3 with showExitMessage := true, exitMessageTimer := 2 }
    else g3
  if g4.showExitMessage = true then
    let timer := g4.exitMessageTimer - inp.frameTime
    if timer ≤ 0 then { g4 with exitMessageTimer := timer, showExitMessage := false }
    else { g4 with exitMessageTimer := timer }
  else g4

/-- `CheckPlayerInteractions`: recompute the door state, then the loop over
`sprites[0 .. spriteCount-1]` (collect keys, test the exit), then the message. -/
def CheckPlayerInteractions (env : Env) (inp : Input) (g : Game) : Game :=
  let g2 := refreshDoor g
  exitMessage inp ((intRange 0 g2.spriteCount).foldl (interactSprite env) g2)

/-- The part of `MovePlayer` before the interactions: turn, then step forward or
backward with the collision tested on each axis apart (wall sliding). -/
def stepPlayer (env : Env) (inp : Input) (maze : Maze) (player : Player) : Player :=
  let moveSpeed := PLAYER_SPEED * inp.frameTime
  let rotSpeed := PLAYER_ROT_SPEED * inp.frameTime
  let angle := player.angle
  let angle := if inp.keyLeft then angle - rotSpeed else angle
  let angle := if inp.keyA then angle - rotSpeed else angle
  let angle := if inp.keyD then angle + rotSpeed else angle
  let angle := if inp.keyRight then angle + rotSpeed else angle
  let angle := NormalizeAngle angle
  let dirX := env.lm.cosf angle
  let dirY := env.lm.sinf angle
  let newPos := player.position
  let newPos : Vector2 :=
    if inp.keyUp ∨ inp.keyW then
      { x := newPos.x + dirX * moveSpeed, y := newPos.y + dirY * moveSpeed }
    else newPos
  let newPos : Vector2 :=
    if inp.keyDown ∨ inp.keyS then
      { x := newPos.x - dirX * moveSpeed, y := newPos.y - dirY * moveSpeed }
    else newPos
  let position := player.position
  let testPos : Vector2 := { position with x := newPos.x }
  let position : Vector2 :=
    if CheckWallCollision maze testPos = false then { position with x := testPos.x }
    else position
  let testPos : Vector2 := { position with y := newPos.y }
  let position : Vector2 :=
    if CheckWallCollision maze testPos = false then { position with y := testPos.y }
    else position
  { player with angle := angle, position := position }

/-- `MovePlayer`: turn and step, then `CheckPlayerInteractions`. -/
def MovePlayer (env : Env) (inp : Input) (g : Game) : Game :=
  CheckPlayerInteractions env inp { g with player := stepPlayer env inp g.gameMaze g.player }

/-! ## game.c: the enemies -/

/-- `GetTextureIndex`. -/
def GetTextureIndex (animationType currentFrame : Int) : Int :=
  if animationType < 0 ∨ animationType ≥ 12 then 0
  else
    let startFrame := (animationRanges animationType).startFrame
    let endFrame := (animationRanges animationType).endFrame
    let frameCount := endFrame - startFrame + 1
    let frameIndex := currentFrame.tmod frameCount
    startFrame + frameIndex

/-- `DetermineEnemyAnimation`: `Death` for a dying enemy, else the attack or walk
variant for the sector of the relative angle in degrees. -/
def DetermineEnemyAnimation (env : Env) (player : Player) (enemy : Enemy)
    (isAttacking isDying : Bool) : Int :=
  if isDying then ANIM_DEATH
  else
    let dx := player.position.x - enemy.position.x
    let dy := player.position.y - enemy.position.y
    let targetAngle := env.atan2f dy dx
    let angleDiff := NormalizeAngle (player.angle - targetAngle)
    let angleDegrees := wrapInto 360 (RadToDeg angleDiff)
    if isAttacking then
      if angleDegrees ≥ 315 ∨ angleDegrees < 45 then ANIM_ATTACK_FRONT
      else if angleDegrees ≥ 45 ∧ angleDegrees < 90 then ANIM_ATTACK_DIAG_FRONT_L
      else if angleDegrees ≥ 90 ∧ angleDegrees < 135 then ANIM_ATTACK_SIDE
      else if angleDegrees ≥ 135 ∧ angleDegrees < 225 then ANIM_ATTACK_BACK
      else if angleDegrees ≥ 225 ∧ angleDegrees < 270 then ANIM_ATTACK_DIAG_BACK_L
      else ANIM_ATTACK_DIAG_FRONT_R
    else
      if angleDegrees ≥ 315 ∨ angleDegrees < 45 then ANIM_WALK_FRONT
      else if angleDegrees ≥ 45 ∧ angleDegrees < 90 then ANIM_WALK_DIAG_FRONT_L
      else if angleDegrees ≥ 90 ∧ angleDegrees < 135 then ANIM_WALK_SIDE
      else if angleDegrees ≥ 135 ∧ angleDegrees < 225 then ANIM_WALK_BACK
      else ANIM_WALK_DIAG_BACK_L

/-- The frame change of `UpdateEnemies` (`if (frameTimer >= ENEMY_FRAME_TIME) ...`):
next frame; at the end of the range wrap to 0 when looping, else stay on the last
frame and, for the death animation, deactivate the enemy. -/
def advanceFrame (e : Enemy) : Enemy :=
  if e.anim.frameTimer ≥ ENEMY_FRAME_TIME then
    let currentFrame := e.anim.currentFrame + 1
    let startFrame := (animationRanges e.anim.currentAnim).startFrame
    let endFrame := (animationRanges e.anim.currentAnim).endFrame
    let frameCount := endFrame - startFrame + 1
    if currentFrame ≥ frameCount then
      if e.anim.loop then
        { e with anim := { e.anim with frameTimer := 0, currentFrame := 0 } }
      else
        { e with
          anim := { e.anim with frameTimer := 0, currentFrame := frameCount - 1 }
          active := if e.anim.currentAnim = ANIM_DEATH then false else e.active }
    else { e with anim := { e.anim with frameTimer := 0, currentFrame := currentFrame } }
  else e

/-- The timers at the head of the body of `UpdateEnemies`: count down the attack
cooldown while it is positive, add the frame time to the frame timer. -/
def enemyTimers (deltaTime : ℚ) (e : Enemy) : Enemy :=
  let e1 : Enemy :=
    if e.attackCooldown > 0 then { e with attackCooldown := e.attackCooldown - deltaTime }
    else e
  { e1 with anim := { e1.anim with frameTimer := e1.anim.frameTimer + deltaTime } }

/-- The choice of the animation in `UpdateEnemies`: when `DetermineEnemyAnimation`
names another animation than the current one, switch to its frame 0. -/
def enemyChooseAnim (env : Env) (player : Player) (e2 : Enemy) : Enemy :=
  let distToPlayer := Distance env.lm e2.position.x e2.position.y
    player.position.x player.position.y
  let isAttacking := decide (distToPlayer ≤ ENEMY_ATTACK_RANGE)
  let newAnimType := DetermineEnemyAnimation env player e2 isAttacking e2.isDying
  if e2.anim.currentAnim ≠ newAnimType then
    { e2 with
      anim := { e2.anim with currentAnim := newAnimType, currentFrame := 0, frameTimer := 0,
                             loop := (animationRanges newAnimType).loop } }
  else e2

/-- First part of the body of `UpdateEnemies` for an active enemy: timers, choice of
the animation, frame change, facing angle. -/
def enemyAnimate (env : Env) (deltaTime : ℚ) (player : Player) (e : Enemy) : Enemy :=
  let e4 := advanceFrame (enemyChooseAnim env player (enemyTimers deltaTime e))
  let dx := player.position.x - e4.position.x
  let dy := player.position.y - e4.position.y
  { e4 with angle := env.atan2f dy dx }

/-- Second part: copy texture, frame, position and animation to the enemy's sprite,
when its back-reference is a valid index. -/
def enemySprite (env : Env) (g : Game) (i : Int) : Game :=
  let e := g.enemies i
  let spriteIndex := e.spriteIndex
  if spriteIndex ≥ 0 ∧ spriteIndex < g.spriteCount then
    let textureIndex := GetTextureIndex e.anim.currentAnim e.anim.currentFrame
    let tex := env.impTextures textureIndex
    let sp : Sprite :=
      { g.sprites spriteIndex with
        texture := tex
        frame := { x := 0, y := 0, width := (tex.width : ℚ), height := (tex.height : ℚ) }
        position := e.position
        anim := e.anim }
    { g with sprites := arrSet g.sprites spriteIndex sp }
  else g

/-- Third part, in attack range: hit the player when the cooldown has run out. -/
def enemyAttack (g : Game) (i : Int) : Game :=
  let e := g.enemies i
  if e.attackCooldown ≤ 0 then
    let health := g.player.health - ENEMY_ATTACK_DAMAGE
    let g1 : Game :=
      { g with
        player := { g.player with health := health }
        enemies := arrSet g.enemies i { e with attackCooldown := ENEMY_ATTACK_COOLDOWN } }
    if health ≤ 0 then
      { g1 with player := { g1.player with health := 0 }, currentState := GameState.GAME_OVER }
    else g1
  else g

/-- Third part, out of attack range, first half: count down the move timer and, when
it has run out, choose a new direction (towards the player with probability 0.7 when
the player is nearer than 5, else at random) and a new timer.  `k` counts the calls of
`rand()`; the second `rand()` of `dist < 5.0f && rand() < 0.7f` is only called when the
first test holds. -/
def enemyTurn (env : Env) (deltaTime distToPlayer : ℚ) (player : Player) (e : Enemy)
    (k : Nat) : Enemy × Nat :=
  let e1 : Enemy := { e with moveTimer := e.moveTimer - deltaTime }
  if e1.moveTimer ≤ 0 then
    let follow : Bool := decide (distToPlayer < 5) && decide (randUnit env (env.rnd k) < 7 / 10)
    let k1 : Nat := if distToPlayer < 5 then k + 1 else k
    let r1 : Enemy × Nat :=
      if follow then
        let dx := player.position.x - e1.position.x
        let dy := player.position.y - e1.position.y
        let length := env.lm.sqrtf (dx * dx + dy * dy)
        if length > 0 then
          ({ e1 with direction := { x := dx / length, y := dy / length } }, k1)
        else (e1, k1)
      else
        let randomAngle := randUnit env (env.rnd k1) * 2 * PI
        ({ e1 with direction := { x := env.lm.cosf randomAngle,
                                  y := env.lm.sinf randomAngle } }, k1 + 1)
    ({ r1.1 with moveTimer := 1 + randUnit env (env.rnd r1.2) * 2 }, r1.2 + 1)
  else (e1, k)

/-- Third part, out of attack range, second half: step with the collision tested on
each axis apart, turning round on the axis that is blocked. -/
def enemyStep (maze : Maze) (deltaTime : ℚ) (e2 : Enemy) : Enemy :=
  let newPos : Vector2 :=
    { x := e2.position.x + e2.direction.x * ENEMY_SPEED * deltaTime,
      y := e2.position.y + e2.direction.y * ENEMY_SPEED * deltaTime }
  let testPos : Vector2 := { e2.position with x := newPos.x }
  let e3 : Enemy :=
    if CheckWallCollision maze testPos = false then
      { e2 with position := { e2.position with x := testPos.x } }
    else { e2 with direction := { e2.direction with x := e2.direction.x * -1 } }
  let testPos : Vector2 := { e3.position with y := newPos.y }
  if CheckWallCollision maze testPos = false then
    { e3 with position := { e3.position with y := testPos.y } }
  else { e3 with direction := { e3.direction with y := e3.direction.y * -1 } }

/-- Third part, out of attack range: `enemyTurn`, then `enemyStep`. -/
def enemyMove (env : Env) (deltaTime distToPlayer : ℚ) (s : Game × Nat) (i : Int) :
    Game × Nat :=
  let r := enemyTurn env deltaTime distToPlayer s.1.player (s.1.enemies i) s.2
  ({ s.1 with enemies := arrSet s.1.enemies i (enemyStep s.1.gameMaze deltaTime r.1) }, r.2)

/-- Body of the loop of `UpdateEnemies` for `enemies[i]`. -/
def updateEnemy (env : Env) (deltaTime : ℚ) (s : Game × Nat) (i : Int) : Game × Nat :=
  let g := s.1
  if (g.enemies i).active = false then s
  else
    let distToPlayer := Distance env.lm (g.enemies i).position.x (g.enemies i).position.y
      g.player.position.x g.player.position.y
    let e := enemyAnimate env deltaTime g.player (g.enemies i)
    let g1 : Game := { g with enemies := arrSet g.enemies i e }
    let g2 := enemySprite env g1 i
    if distToPlayer ≤ ENEMY_ATTACK_RANGE then (enemyAttack g2 i, s.2)
    else enemyMove env deltaTime distToPlayer (g2, s.2) i

/-- `UpdateEnemies`: the loop over `enemies[0 .. enemyCount-1]`. -/
def UpdateEnemies (env : Env) (inp : Input) (s : Game × Nat) : Game × Nat :=
  (intRange 0 s.1.enemyCount).foldl (updateEnemy env inp.frameTime) s

/-! ## game.c: the player's attack -/

/-- The ray loop of `CheckPlayerAttacks`, `while (rayDist < dist && !hitWall)`, cut
off after `n` rounds; returns `hitWall`. -/
def marchRay (maze : Maze) (player : Player) (playerDirX playerDirY dist : ℚ) :
    Nat → ℚ → Bool → Bool
  | 0, _, hitWall => hitWall
  | n + 1, rayDist, hitWall =>
    if rayDist < dist ∧ hitWall = false then
      let rayX := player.position.x + playerDirX * rayDist
      let rayY := player.position.y + playerDirY * rayDist
      let hitWall := if CheckWallCollision maze { x := rayX, y := rayY } then true else hitWall
      marchRay maze player playerDirX playerDirY dist n (rayDist + 1 / 10) hitWall
    else hitWall

/-- A number of rounds that the ray loop never needs in full: one more than
`dist / stepSize`, rounded down. -/
def marchRounds (dist : ℚ) : Nat :=
  (truncToInt (dist * 10)).toNat + 1

/-- Body of the loop of `CheckPlayerAttacks` for `enemies[i]`. -/
def attackEnemy (env : Env) (g : Game) (i : Int) : Game :=
  let e := g.enemies i
  if e.active = false ∨ e.isDying = true then g
  else
    let playerDirX := env.lm.cosf g.player.angle
    let playerDirY := env.lm.sinf g.player.angle
    let dx := e.position.x - g.player.position.x
    let dy := e.position.y - g.player.position.y
    let dist := env.lm.sqrtf (dx * dx + dy * dy)
    let dx := if dist > 0 then dx / dist else dx
    let dy := if dist > 0 then dy / dist else dy
    let dotProduct := dx * playerDirX + dy * playerDirY
    if dotProduct > 9 / 10 then
      let hitWall := marchRay g.gameMaze g.player playerDirX playerDirY dist
        (marchRounds dist) 0 false
      if hitWall = false then
        let e1 : Enemy := { e with health := e.health - PLAYER_ATTACK_DAMAGE }
        let e2 : Enemy :=
          if e1.health ≤ 0 then
            { e1 with
              isDying := true
              anim := { e1.anim with currentAnim := ANIM_DEATH, currentFrame := 0,
                                     loop := false } }
          else e1
        { g with enemies := arrSet g.enemies i e2 }
      else g
    else g

/-- `CheckPlayerAttacks`: nothing unless the weapon is swinging; else the loop over
`enemies[0 .. enemyCount-1]`. -/
def CheckPlayerAttacks (env : Env) (g : Game) : Game :=
  if g.katanaAnim.isSwinging = false then g
  else (intRange 0 g.enemyCount).foldl (attackEnemy env) g

/-! ## game.c: the tick -/

/-- The `GAME_PLAYING` case of `UpdateGame`: SPACE starts a swing when none is under
way. -/
def swingStart (inp : Input) (g : Game) : Game :=
  if inp.spacePressed = true ∧ g.katanaAnim.isSwinging = false then
    { g with
      katanaAnim := { g.katanaAnim with isSwinging := true,
                                        swingTimer := g.katanaAnim.swingDuration,
                                        currentFrame := 0, frameTimer := 0 }
      player := { g.player with shootCooldown := PLAYER_SHOOT_COOLDOWN } }
  else g

/-- The `GAME_PLAYING` case of `UpdateGame`: while the weapon swings, advance its
timers and frame, test the hits (`CheckPlayerAttacks`), and end the swing when its
timer has run out. -/
def swingTick (env : Env) (inp : Input) (g1 : Game) : Game :=
  if g1.katanaAnim.isSwinging = true then
    let swingTimer := g1.katanaAnim.swingTimer - inp.frameTime
    let frameTimer := g1.katanaAnim.frameTimer + inp.frameTime
    let progress := 1 - swingTimer / g1.katanaAnim.swingDuration
    let currentFrame := truncToInt (progress * (499 / 100))
    let currentFrame := if currentFrame ≥ 5 then 4 else currentFrame
    let ga : Game :=
      { g1 with katanaAnim := { g1.katanaAnim with swingTimer := swingTimer,
                                                   frameTimer := frameTimer,
                                                   currentFrame := currentFrame } }
    let gb := CheckPlayerAttacks env ga
    if gb.katanaAnim.swingTimer ≤ 0 then
      { gb with katanaAnim := { gb.katanaAnim with isSwinging := false, currentFrame := 0 } }
    else gb
  else g1

/-- The `GAME_PLAYING` case of `UpdateGame`, after `MovePlayer` and `UpdateEnemies`:
start a swing, advance it and test the hits, count down the cooldown, pause on P. -/
def playingRest (env : Env) (inp : Input) (g : Game) : Game :=
  let g2 := swingTick env inp (swingStart inp g)
  let g3 : Game :=
    if g2.player.shootCooldown > 0 then
      { g2 with player := { g2.player with shootCooldown := g2.player.shootCooldown - inp.frameTime } }
    else g2
  if inp.pPressed = true then { g3 with currentState := GameState.GAME_PAUSED } else g3

/-- `UpdateGame`: one tick.  The restart regenerates the maze, so the tick has no
result (`none`) when `GenerateMaze` has none within the fuel. -/
def UpdateGame (env : Env) (inp : Input) (fuel : Nat) (s : Game × Nat) :
    Option (Game × Nat) :=
  match s.1.currentState with
  | GameState.GAME_TITLE =>
    if inp.enterPressed = true then some ({ s.1 with currentState := GameState.GAME_PLAYING }, s.2)
    else some s
  | GameState.GAME_PLAYING =>
    let g1 := MovePlayer env inp s.1
    let s2 := UpdateEnemies env inp (g1, s.2)
    some (playingRest env inp s2.1, s2.2)
  | GameState.GAME_PAUSED =>
    if inp.pPressed = true then some ({ s.1 with currentState := GameState.GAME_PLAYING }, s.2)
    else some s
  | _ =>
    if inp.rPressed = true then
      (GenerateMaze env.rnd fuel s.1.gameMaze s.2).map fun r =>
        let g1 : Game := { s.1 with gameMaze := r.1 }
        let g2 := InitPlayer g1
        let s3 := InitEnemies env (g2, r.2)
        ({ s3.1 with currentState := GameState.GAME_PLAYING }, s3.2)
    else some s

/-- `RenderGame`, as far as the game state goes: while playing, `RenderSprites` refreshes
the door sprite and sorts the sprites; the other screens change nothing.  `zBuffer`
stands for the depth buffer that `RenderRaycasting` filled. -/
def RenderGame (env : Env) (screenW screenH : Int) (zBuffer : Int → ℚ) (g : Game) : Game :=
  match g.currentState with
  | GameState.GAME_PLAYING => (RenderSprites env.lm screenW screenH zBuffer g).1
  | _ => g

/-! ## main.c: the run -/

/-- The main loop of `main`: for each frame `UpdateGame`, then `RenderGame`.  A frame
is given by what raylib reports in it and by the depth buffer that the wall pass has
left for the sprite pass. -/
def mainLoop (env : Env) (screenW screenH : Int) (fuel : Nat) :
    List (Input × (Int → ℚ)) → Game × Nat → Option (Game × Nat)
  | [], s => some s
  | fr :: rest, s =>
    (UpdateGame env fr.1 fuel s).bind fun s1 =>
      mainLoop env screenW screenH fuel rest
        (RenderGame env screenW screenH fr.2 s1.1, s1.2)

/-- `main`, as far as the game state goes: `InitGame`, then the main loop. -/
def runGame (env : Env) (screenW screenH : Int) (fuel : Nat)
    (s : Game × Nat) (frames : List (Input × (Int → ℚ))) : Option (Game × Nat) :=
  (InitGame env fuel s).bind (mainLoop env screenW screenH fuel frames)

/-- A sequence of calls of `UpdateGame`, one for each input, with nothing drawn in
between. -/
def updateTicks (env : Env) (fuel : Nat) : List Input → Game × Nat → Option (Game × Nat)
  | [], s => some s
  | inp :: rest, s => (UpdateGame env inp fuel s).bind (updateTicks env fuel rest)

/-! ## Concrete inputs for running the game -/

/-- A stand-in for `sqrtf`: the piecewise linear function through (0,0), (1/4,1/2),
(1,1) and (25,5).  It is strictly increasing and exact at 1/4, 1 and 25, so the
comparisons of a distance with 0, 0.5, 1 and 5 come out as with the square root. -/
def sqrtLike (q : ℚ) : ℚ :=
  if q ≤ 0 then 0
  else if q ≤ 1 / 4 then 2 * q
  else if q ≤ 1 then 1 / 2 + (q - 1 / 4) * (2 / 3)
  else if q ≤ 25 then 1 + (q - 1) / 6
  else 5 + (q - 25) / 10

/-- A stand-in for `cosf`: the cosine of the nearest multiple of a right angle, for an
angle in `[0, 2 PI)`. -/
def cosLike (a : ℚ) : ℚ :=
  if a < PI / 4 then 1 else if a < 3 * PI / 4 then 0 else if a < 5 * PI / 4 then -1
  else if a < 7 * PI / 4 then 0 else 1

/-- A stand-in for `sinf`, like `cosLike`. -/
def sinLike (a : ℚ) : ℚ :=
  if a < PI / 4 then 0 else if a < 3 * PI / 4 then 1 else if a < 5 * PI / 4 then 0
  else if a < 7 * PI / 4 then -1 else 0

/-- A stand-in for `atan2f`: the direction of the nearer axis. -/
def atan2Like (dy dx : ℚ) : ℚ :=
  if |dy| ≤ |dx| then (if 0 ≤ dx then 0 else PI)
  else (if 0 ≤ dy then PI / 2 else -(PI / 2))

/-- The environment of the sample run. -/
def playEnv : Env :=
  { lm := { sqrtf := sqrtLike, cosf := cosLike, sinf := sinLike, tanf := fun _ => 577 / 1000 }
    atan2f := atan2Like
    rnd := sampleRand
    RAND_MAX := 2147483647
    keyTexture := sampleTexture 1
    impTextures := fun i => sampleTexture (100 + i.toNat)
    doorOpenTexture := sampleTexture 4
    doorClosedTexture := sampleTexture 2 }

/-- A frame of `dt` seconds with no key down or pressed. -/
def idleInput (dt : ℚ) : Input :=
  { frameTime := dt, keyLeft := false, keyA := false, keyD := false, keyRight := false,
    keyUp := false, keyW := false, keyDown := false, keyS := false, enterPressed := false,
    spacePressed := false, pPressed := false, rPressed := false }

/-- A frame of the sample run: `dt` seconds, the keys that are down or pressed given by
the flags, and a depth buffer with a wall at distance 5 in every column. -/
def playFrame (dt : ℚ) (up turnRight turnLeft enter : Bool) : Input × (Int → ℚ) :=
  ({ idleInput dt with keyUp := up, keyD := turnRight, keyA := turnLeft,
                       enterPressed := enter }, fun _ => 5)

/-- The frames of the sample run: ENTER on the title screen, then a walk on the maze
of `sampleRand` from the start cell over the three keys at (1,9), (3,10) and (13,7) to
the exit at (13,13). -/
def winFrames : List (Input × (Int → ℚ)) :=
  [playFrame (1 / 60) false false false true,
   playFrame (2 / 5) true true false false,
   playFrame (18 / 5) true false false false,
   playFrame (2 / 5) true false true false,
   playFrame (3 / 5) true false false false,
   playFrame (2 / 5) true true false false,
   playFrame (8 / 5) true true false false,
   playFrame (4 / 5) true true false false,
   playFrame (21 / 5) true false false false,
   playFrame (4 / 5) true true false false,
   playFrame (16 / 5) true false false false]

/-- A grid with two parallel corridors: rows 1 and 3 are open for x = 1..13, and the
cell (1,2) joins them; every other cell, the rest of row 2 included, is a wall. -/
def parallelCorridors : Maze :=
  { grid := fun y x =>
      if ((y = 1 ∨ y = 3) ∧ 1 ≤ x ∧ x ≤ 13) ∨ (y = 2 ∧ x = 1) then CellType.Empty
      else CellType.Wall
    startPos := { x := 1, y := 1 }, exitPos := { x := 13, y := 3 } }

/-- The player stands in the upper corridor at (1.5, 1.5), faces along it (angle 0) and
swings the weapon; the enemy 0 stands in the lower corridor at (6.3, 3.5), behind the
wall of row 2, with health 30. -/
def wallGame : Game :=
  { sampleGame with
    gameMaze := parallelCorridors
    enemies := fun _ => sampleEnemy (63 / 10) (7 / 2) 2
    katanaAnim := { sampleGame.katanaAnim with isSwinging := true, swingTimer := 1 / 4 } }

/-- The player with 10 health left stands at (5.5, 3), half a unit from the enemy 0 of
`sampleGame`, whose attack cooldown has run out. -/
def lastHitGame : Game :=
  { sampleGame with
    player := { sampleGame.player with position := { x := 11 / 2, y := 3 }, health := 10 } }

/-- The sample game on the victory screen. -/
def wonGame : Game :=
  { sampleGame with currentState := GameState.GAME_VICTORY }

/-- A frame in which R is pressed and nothing else. -/
def restartInput : Input :=
  { idleInput (1 / 60) with rPressed := true }

/-- The environment of the sample run with the stream on which `rand()` always
returns 0. -/
def zeroEnv : Env :=
  { playEnv with rnd := zeroRand }

/-- The sample game with its enemy 0 just killed: dying, on frame 0 of the death
animation, which does not loop. -/
def dyingGame : Game :=
  { sampleGame with
    enemies := fun _ =>
      { sampleEnemy (11 / 2) (7 / 2) 2 with
        health := 0, isDying := true,
        anim := { currentAnim := ANIM_DEATH, currentFrame := 0, frameTimer := 0,
                  isPlaying := true, loop := false } } }

/-- Frames of 0.2 seconds without any key: `n` of them. -/
def idleFrames (n : Nat) : List (Input × (Int → ℚ)) :=
  List.replicate n (idleInput (1 / 5), fun _ => 5)

/-! ## Notions used to state the properties of a run -/

/-- What the enemy loop and the attack loop leave alone: the maze, the counts, the
door, where the player stands and looks, the keys, every back-reference of an enemy,
type and `active` of every sprite, and every sprite that no enemy in use refers to. -/
def Kept (g g' : Game) : Prop :=
  g'.gameMaze = g.gameMaze ∧ g'.enemyCount = g.enemyCount ∧ g'.spriteCount = g.spriteCount ∧
  g'.exitDoor = g.exitDoor ∧ g'.player.position = g.player.position ∧
  g'.player.angle = g.player.angle ∧ g'.player.keys = g.player.keys ∧
  (∀ k, (g'.enemies k).spriteIndex = (g.enemies k).spriteIndex) ∧
  (∀ j, (g'.sprites j).type = (g.sprites j).type ∧
    (g'.sprites j).active = (g.sprites j).active) ∧
  (∀ j, (∀ k, 0 ≤ k → k < g.enemyCount → (g.enemies k).spriteIndex ≠ j) →
    g'.sprites j = g.sprites j)

/-- How one round of the enemy loop may change health and game state: not at all, or
a hit that leaves the player alive, or a hit that ends the game with health 0. -/
def HitStep (g g' : Game) : Prop :=
  (g'.currentState = g.currentState ∧
    (g'.player.health = g.player.health ∨
      (g'.player.health = g.player.health - ENEMY_ATTACK_DAMAGE ∧ 0 < g'.player.health))) ∨
  (g'.currentState = GameState.GAME_OVER ∧ g'.player.health = 0 ∧
    g.player.health ≤ ENEMY_ATTACK_DAMAGE)

/-- Number of sprites in use that are active keys. -/
def activeKeys (g : Game) : Nat :=
  (intRange 0 g.spriteCount).countP fun i =>
    (g.sprites i).active && decide ((g.sprites i).type = CellType.Key)

/-- How the sprite loop of `CheckPlayerInteractions` relates the game before (`g`) and
after (`g'`): a key sprite may be switched off and counted, its cell may turn from
`Key` to `Empty`, and the state may become `GAME_VICTORY`, which takes an open door
and a sprite of type `Exit` nearer than 0.5. -/
def Interacted (lm : Libm) (g g' : Game) : Prop :=
  g'.spriteCount = g.spriteCount ∧ g'.enemyCount = g.enemyCount ∧ g'.enemies = g.enemies ∧
  g'.exitDoor = g.exitDoor ∧ g'.katanaAnim = g.katanaAnim ∧
  g'.player.health = g.player.health ∧
  g'.player.position = g.player.position ∧ g'.player.angle = g.player.angle ∧
  (∀ j, (g'.sprites j).type = (g.sprites j).type ∧
    (g'.sprites j).position = (g.sprites j).position ∧
    ((g'.sprites j).active = true → (g.sprites j).active = true)) ∧
  (g'.player.keys : Int) + (activeKeys g' : Int) = g.player.keys + activeKeys g ∧
  g.player.keys ≤ g'.player.keys ∧
  g'.gameMaze.startPos = g.gameMaze.startPos ∧ g'.gameMaze.exitPos = g.gameMaze.exitPos ∧
  (∀ y x, g'.gameMaze.grid y x = g.gameMaze.grid y x ∨
    (g.gameMaze.grid y x = CellType.Key ∧ g'.gameMaze.grid y x = CellType.Empty)) ∧
  (g'.currentState = g.currentState ∨
    (g'.currentState = GameState.GAME_VICTORY ∧ g.exitDoor.isOpen = true ∧
      ∃ i, 0 ≤ i ∧ i < g.spriteCount ∧ (g.sprites i).type = CellType.Exit ∧
        Distance lm g.player.position.x g.player.position.y
          (g.sprites i).position.x (g.sprites i).position.y < 1 / 2))

/-- The invariant of a run: health in 0..100; keys not negative, and keys plus active
key sprites at most `MAX_KEYS`; every sprite of type `Exit` in use stands at the
centre (13.5, 13.5) of the cell (13,13), which is tagged `Exit`, and so does the door;
the back-reference of every enemy in use, when it is a valid index, leads to a sprite
of type `Enemy`. -/
def GameInv (g : Game) : Prop :=
  0 ≤ g.player.health ∧ g.player.health ≤ 100 ∧
  0 ≤ g.player.keys ∧ (g.player.keys : Int) + (activeKeys g : Int) ≤ MAX_KEYS ∧
  (∀ i, 0 ≤ i → i < g.spriteCount → (g.sprites i).type = CellType.Exit →
    (g.sprites i).position = { x := 27 / 2, y := 27 / 2 }) ∧
  (∀ k, 0 ≤ k → k < g.enemyCount → 0 ≤ (g.enemies k).spriteIndex →
    (g.enemies k).spriteIndex < g.spriteCount →
    (g.sprites (g.enemies k).spriteIndex).type = CellType.Enemy) ∧
  g.gameMaze.grid 13 13 = CellType.Exit ∧
  g.exitDoor.position = { x := 27 / 2, y := 27 / 2 }

/-- What the sort of `RenderSprites` leaves alone besides the player and the counts
(which `SortInv` lists): state, maze, weapon, message, and everything about the door
and the enemies but their back-references. -/
def SortKept (g g' : Game) : Prop :=
  g'.currentState = g.currentState ∧ g'.gameMaze = g.gameMaze ∧
  g'.katanaAnim = g.katanaAnim ∧ g'.showExitMessage = g.showExitMessage ∧
  g'.exitMessageTimer = g.exitMessageTimer ∧
  g'.exitDoor = { g.exitDoor with spriteIndex := g'.exitDoor.spriteIndex } ∧
  ∀ k, g'.enemies k = { g.enemies k with spriteIndex := (g'.enemies k).spriteIndex }

/-- The enemy is active and dying, on frame `n` of the death animation, which does
not loop. -/
def InDeath (e : Enemy) (n : Int) : Prop :=
  e.active = true ∧ e.isDying = true ∧ e.anim.currentAnim = ANIM_DEATH ∧
  e.anim.loop = false ∧ e.anim.currentFrame = n

/-- The enemy has finished its death animation: inactive, on its last frame 6. -/
def DeathDone (e : Enemy) : Prop :=
  e.active = false ∧ e.isDying = true ∧ e.anim.currentAnim = ANIM_DEATH ∧
  e.anim.loop = false ∧ e.anim.currentFrame = 6

/-- Number of frame advances of the enemy `k` along a run of the main loop from `s`:
the ticks that start in `GAME_PLAYING` with the enemy active and bring its frame timer
to `ENEMY_FRAME_TIME` or above. -/
def frameAdvances (env : Env) (screenW screenH : Int) (fuel : Nat) (k : Int) :
    List (Input × (Int → ℚ)) → Game × Nat → Nat
  | [], _ => 0
  | fr :: rest, s =>
    let here : Nat :=
      if s.1.currentState = GameState.GAME_PLAYING ∧ (s.1.enemies k).active = true ∧
          (s.1.enemies k).anim.frameTimer + fr.1.frameTime ≥ ENEMY_FRAME_TIME
      then 1 else 0
    match UpdateGame env fr.1 fuel s with
    | none => here
    | some s1 =>
      here + frameAdvances env screenW screenH fuel k rest
        (RenderGame env screenW screenH fr.2 s1.1, s1.2)

/-- Both coordinates are odd: the cells at which `CarveMaze` is called. -/
def OddCell (x y : Int) : Prop :=
  x % 2 = 1 ∧ y % 2 = 1

/-- Every interior cell two steps away from `(x, y)` in one of the four directions is
open. -/
def Settled (m : Maze) (x y : Int) : Prop :=
  ∀ d, d < 4 → Interior (x + (DIRS d).1 * 2) (y + (DIRS d).2 * 2) →
    m.grid (y + (DIRS d).2 * 2) (x + (DIRS d).1 * 2) ≠ CellType.Wall

/-- Every odd cell that was a wall in `m` and is open in `m'` is settled in `m'`. -/
def NewSettled (m m' : Maze) : Prop :=
  ∀ x y, OddCell x y → m.grid y x = CellType.Wall → m'.grid y x ≠ CellType.Wall →
    Settled m' x y

/-- One tick of length `dt` of the death animation, from frame `f` of the enemy `e` to
the enemy `e'`: still dying, still in the death animation, no loop; while the frame
timer stays below `ENEMY_FRAME_TIME` the frame stays and the timer grows; else the
timer restarts and the frame advances by one up to 6, and after frame 6 the enemy is
switched off on frame 6. -/
def DeathStep (dt : ℚ) (e e' : Enemy) (f : Int) : Prop :=
  e'.isDying = true ∧ e'.anim.currentAnim = ANIM_DEATH ∧ e'.anim.loop = false ∧
  (e.anim.frameTimer + dt < ENEMY_FRAME_TIME →
    e'.active = true ∧ e'.anim.currentFrame = f ∧
    e'.anim.frameTimer = e.anim.frameTimer + dt) ∧
  (ENEMY_FRAME_TIME ≤ e.anim.frameTimer + dt → f < 6 →
    e'.active = true ∧ e'.anim.currentFrame = f + 1 ∧ e'.anim.frameTimer = 0) ∧
  (ENEMY_FRAME_TIME ≤ e.anim.frameTimer + dt → f = 6 →
    e'.active = false ∧ e'.anim.currentFrame = 6)

/-! ## Concrete inputs for the camera transform -/

/-- The camera of `sampleGame` under `sampleLibm`: it looks along the x axis, and its
plane is (0, 1/2). -/
def sampleCamera : Camera := camera sampleLibm sampleGame.player

/-- A sprite behind the player of `sampleGame`, at (1/2, 3/2). -/
def spriteBehind : Sprite := sampleSprite CellType.Enemy (1 / 2) (3 / 2) 3

/-! ## Notions used to state the choice of the animation -/

/-- The relative angle in degrees that `DetermineEnemyAnimation` computes in both of
its branches: `player.angle` minus the bearing from the enemy to the player, brought
into [0, 2 PI) by `NormalizeAngle`, converted to degrees, and brought into [0, 360) by
the two loops. -/
def relativeDegrees (env : Env) (player : Player) (enemy : Enemy) : ℚ :=
  let dx := player.position.x - enemy.position.x
  let dy := player.position.y - enemy.position.y
  let targetAngle := env.atan2f dy dx
  let angleDiff := NormalizeAngle (player.angle - targetAngle)
  wrapInto 360 (RadToDeg angleDiff)

/-- The attack animation that shows the enemy from the same side as a walk animation,
by the names of the constants of game.c (`ANIM_WALK_X` goes to `ANIM_ATTACK_X`); any
other value is left as it is. -/
def attackVariant (walk : Int) : Int :=
  if walk = ANIM_WALK_FRONT then ANIM_ATTACK_FRONT
  else if walk = ANIM_WALK_DIAG_FRONT_L then ANIM_ATTACK_DIAG_FRONT_L
  else if walk = ANIM_WALK_SIDE then ANIM_ATTACK_SIDE
  else if walk = ANIM_WALK_DIAG_BACK_L then ANIM_ATTACK_DIAG_BACK_L
  else if walk = ANIM_WALK_BACK then ANIM_ATTACK_BACK
  else walk

/-- The player of `sampleGame`, turned to the angle 5 (about 286 degrees). -/
def sidePlayer : Player := { sampleGame.player with angle := 5 }

/-- An enemy at (1/2, 3/2), one unit from the player of `sampleGame` along the x
axis. -/
def leftEnemy : Enemy := sampleEnemy (1 / 2) (3 / 2) 2

/-! ## Notions and inputs used for the animation changes and the swing -/

/-- The animation that the round of `UpdateEnemies` chooses for the enemy `e`
(`newAnimType`): `DetermineEnemyAnimation` with `isAttacking` set when the enemy is
within `ENEMY_ATTACK_RANGE` of the player. -/
def newAnimType (env : Env) (player : Player) (e : Enemy) : Int :=
  let distToPlayer := Distance env.lm e.position.x e.position.y
    player.position.x player.position.y
  let isAttacking := decide (distToPlayer ≤ ENEMY_ATTACK_RANGE)
  DetermineEnemyAnimation env player e isAttacking e.isDying

/-- The sample game with the weapon swinging and the enemy 0 two units in front of the
player, at (3.5, 1.5), with 15 health left, on frame 2 of its walk animation with 0.1
seconds on the frame timer. -/
def killGame : Game :=
  { sampleGame with
    enemies := fun _ =>
      { sampleEnemy (7 / 2) (3 / 2) 2 with
        health := 15
        anim := { currentAnim := ANIM_WALK_FRONT, currentFrame := 2, frameTimer := 1 / 10,
                  isPlaying := true, loop := true } }
    katanaAnim := { sampleGame.katanaAnim with isSwinging := true, swingTimer := 1 / 4 } }

/-- The sample game with the enemy 0 two units in front of the player, at (3.5, 1.5),
with full health 30; the weapon is at rest. -/
def strikeGame : Game :=
  { sampleGame with enemies := fun _ => sampleEnemy (7 / 2) (3 / 2) 2 }

/-- A frame of 1/60 s in which SPACE is pressed and nothing else. -/
def spaceInput : Input :=
  { idleInput (1 / 60) with spacePressed := true }

/-- A frame of 1/60 s in which P is pressed and nothing else. -/
def pauseInput : Input :=
  { idleInput (1 / 60) with pPressed := true }

/-- The timers of the swing in `UpdateGame` (`swingTimer -= dt; frameTimer += dt;
currentFrame = (int)(progress * 4.99f)`, at most 4), which precede the call of
`CheckPlayerAttacks`. -/
def swingTimers (inp : Input) (g1 : Game) : Game :=
  let swingTimer := g1.katanaAnim.swingTimer - inp.frameTime
  let frameTimer := g1.katanaAnim.frameTimer + inp.frameTime
  let progress := 1 - swingTimer / g1.katanaAnim.swingDuration
  let currentFrame := truncToInt (progress * (499 / 100))
  let currentFrame := if currentFrame ≥ 5 then 4 else currentFrame
  { g1 with katanaAnim := { g1.katanaAnim with swingTimer := swingTimer,
                                               frameTimer := frameTimer,
                                               currentFrame := currentFrame } }

/-- The game at the point of a playing tick where `UpdateGame` calls
`CheckPlayerAttacks`: after `MovePlayer`, `UpdateEnemies`, the start of a swing on
SPACE, and the timers of the swing. -/
def swingGame (env : Env) (inp : Input) (s : Game × Nat) : Game :=
  swingTimers inp (swingStart inp (UpdateEnemies env inp (MovePlayer env inp s.1, s.2)).1)

/-- The test of the sprite loop of `CheckPlayerInteractions` that leads to a pickup:
`sprites[i]` is active, nearer to the player than 0.5, and of type `Key`. -/
def keyInReach (env : Env) (g : Game) (i : Int) : Bool :=
  (g.sprites i).active &&
    decide (Distance env.lm g.player.position.x g.player.position.y
      (g.sprites i).position.x (g.sprites i).position.y < 1 / 2) &&
    decide ((g.sprites i).type = CellType.Key)

/-- The sample game with the player at (2.1, 1.5), 0.4 from the key sprite 0. -/
def nearKeyGame : Game :=
  { sampleGame with
    player := { sampleGame.player with position := { x := 21 / 10, y := 3 / 2 } } }

/-! ## Notions used to state that the carving leaves a spanning tree -/

/-- Both coordinates of the cell are odd: a cell of the skip-2 lattice. -/
def isOddCell (c : Int × Int) : Bool :=
  decide (c.1 % 2 = 1 ∧ c.2 % 2 = 1)

/-- One coordinate of the cell is odd and one is even: a cell between two neighbours
of the skip-2 lattice. -/
def isConnectingCell (c : Int × Int) : Bool :=
  decide ((c.1 % 2 = 1 ∧ c.2 % 2 = 0) ∨ (c.1 % 2 = 0 ∧ c.2 % 2 = 1))

/-- Both coordinates of the cell are even. -/
def isEvenCell (c : Int × Int) : Bool :=
  decide (c.1 % 2 = 0 ∧ c.2 % 2 = 0)

/-- Number of cells of the grid that satisfy `p` and are not walls. -/
def countOpen (m : Maze) (p : Int × Int → Bool) : Nat :=
  gridCells.countP fun c => p c && decide (m.grid c.2 c.1 ≠ CellType.Wall)

/-- A cycle of `n` cells in the maze: `n >= 3` distinct cells `f 0, ..., f (n-1)`, none
of them a wall, each 4-adjacent to the next, and the last to the first (the indices
are taken modulo `n`). -/
def CellCycle (m : Maze) (n : Nat) (f : ZMod n → Int × Int) : Prop :=
  3 ≤ n ∧ Function.Injective f ∧ (∀ i, m.grid (f i).2 (f i).1 ≠ CellType.Wall) ∧
    ∀ i, Adjacent4 (f i) (f (i + 1))

/-- The invariant of the carving: the open cells are `Empty` cells of the interior;
no cell with two even coordinates is open; an open cell between two lattice cells has
both of them open; the open connecting cells are one fewer than the open lattice
cells; and the open cells contain no cycle. -/
def TreeInv (m : Maze) : Prop :=
  Carved m ∧
  (∀ x y : Int, x % 2 = 0 → y % 2 = 0 → m.grid y x = CellType.Wall) ∧
  (∀ x y : Int, x % 2 = 1 → y % 2 = 0 → m.grid y x ≠ CellType.Wall →
    m.grid (y - 1) x ≠ CellType.Wall ∧ m.grid (y + 1) x ≠ CellType.Wall) ∧
  (∀ x y : Int, x % 2 = 0 → y % 2 = 1 → m.grid y x ≠ CellType.Wall →
    m.grid y (x - 1) ≠ CellType.Wall ∧ m.grid y (x + 1) ≠ CellType.Wall) ∧
  countOpen m isConnectingCell + 1 = countOpen m isOddCell ∧
  ∀ (n : Nat) (f : ZMod n → Int × Int), ¬CellCycle m n f

/-! ## The type `float` -/

/-- The values a C `float` (IEEE-754 binary32) can hold, as rationals: `m * 2^k` with
`k <= 104` or `m / 2^k` with `k <= 149`, where `|m| < 2^24`. -/
def isFloat32 (q : ℚ) : Prop :=
  ∃ (m : Int) (k : Nat), |m| < 2 ^ 24 ∧
    ((k ≤ 104 ∧ q = (m : ℚ) * 2 ^ k) ∨ (k ≤ 149 ∧ q = (m : ℚ) / 2 ^ k))

/-! ## Streams of `rand()` results -/

/-- A stream of `rand()` results that is fair to the sampling loops of `PlaceObjects`,
which draw `x = rand() % 13 + 1` and `y = rand() % 13 + 1` in two consecutive calls:
after any number `k` of calls, every pair of residues turns up in some later round. -/
def FairRand (rnd : Nat → Nat) : Prop :=
  ∀ (k a b : Nat), a < 13 → b < 13 →
    ∃ n, rnd (k + 2 * n) % 13 = a ∧ rnd (k + 2 * n + 1) % 13 = b

/-- An interior cell at squared distance above 9 from the start (1,1) and above 5 from
the exit (13,13): both sampling loops accept it while it is `Empty`. -/
def farCell (c : Int × Int) : Prop :=
  1 ≤ c.1 ∧ c.1 ≤ 13 ∧ 1 ≤ c.2 ∧ c.2 ≤ 13 ∧
    9 < (c.1 - 1) * (c.1 - 1) + (c.2 - 1) * (c.2 - 1) ∧
    5 < (c.1 - 13) * (c.1 - 13) + (c.2 - 13) * (c.2 - 13)

/-- The cells of `L` are distinct far cells that are `Empty` in `m`. -/
def FreeCells (m : Maze) (L : List (Int × Int)) : Prop :=
  L.Nodup ∧ ∀ c ∈ L, farCell c ∧ m.grid c.2 c.1 = CellType.Empty

/-- Eight odd cells in the middle of the grid; the carving opens all of them. -/
def middleCells : List (Int × Int) :=
  [(5, 5), (7, 7), (9, 9), (5, 7), (7, 5), (9, 7), (7, 9), (5, 9)]

/-- A fair stream: the calls with even index count 0, 1, 2, ..; those with odd index
count a thirteenth as fast. -/
def fairRand : Nat → Nat := fun j => if j % 2 = 0 then j / 2 else j / 2 / 13

/-- The environment of the sample run with the stream `fairRand`. -/
def fairEnv : Env :=
  { playEnv with rnd := fairRand }

/-! # Theorems -/

/-! ## Basic facts about the grid -/

theorem setCell_same (g : Grid) (y x : Int) (c : CellType) : setCell g y x c y x = c := by
  simp [setCell]

theorem setCell_other (g : Grid) (y x y' x' : Int) (c : CellType)
    (h : ¬(y' = y ∧ x' = x)) : setCell g y x c y' x' = g y' x' := by
  simp only [setCell, if_neg h]

theorem DIRS_unit (d : Nat) :
    DIRS d = (0, -1) ∨ DIRS d = (1, 0) ∨ DIRS d = (0, 1) ∨ DIRS d = (-1, 0) := by
  unfold DIRS
  split <;> simp

theorem Frame_refl (m : Maze) : Frame m m :=
  ⟨rfl, rfl, fun _ _ => Or.inl rfl⟩

theorem Frame_trans {a b c : Maze} (h1 : Frame a b) (h2 : Frame b c) : Frame a c := by
  refine ⟨h2.1.trans h1.1, h2.2.1.trans h1.2.1, fun y x => ?_⟩
  rcases h2.2.2 y x with h | h
  · rw [h]; exact h1.2.2 y x
  · exact Or.inr h

theorem Frame_notWall {a b : Maze} (h : Frame a b) {y x : Int}
    (hw : a.grid y x ≠ CellType.Wall) : b.grid y x ≠ CellType.Wall := by
  rcases h.2.2 y x with h' | h'
  · rwa [h']
  · rw [h'.1]; decide

/-- The two writes of one carving step, seen as a frame. -/
theorem Frame_carve (m : Maze) (x y : Int) (d : Nat)
    (hx : 0 < x ∧ x < MAZE_WIDTH - 1) (hy : 0 < y ∧ y < MAZE_HEIGHT - 1)
    (hn : Interior (x + (DIRS d).1 * 2) (y + (DIRS d).2 * 2)) :
    Frame m ((m.set (y + (DIRS d).2) (x + (DIRS d).1) CellType.Empty).set
      (y + (DIRS d).2 * 2) (x + (DIRS d).1 * 2) CellType.Empty) := by
  refine ⟨rfl, rfl, fun y' x' => ?_⟩
  simp only [Maze.set, setCell]
  unfold Interior MAZE_WIDTH MAZE_HEIGHT at *
  by_cases h2 : y' = y + (DIRS d).2 * 2 ∧ x' = x + (DIRS d).1 * 2
  · rw [if_pos h2]
    right
    refine ⟨rfl, ?_⟩
    rw [h2.1, h2.2]; exact hn
  · rw [if_neg h2]
    by_cases h1 : y' = y + (DIRS d).2 ∧ x' = x + (DIRS d).1
    · rw [if_pos h1]
      right
      refine ⟨rfl, ?_⟩
      rw [h1.1, h1.2]
      rcases DIRS_unit d with h | h | h | h <;> rw [h] at hn ⊢ <;> simp at hn ⊢ <;> omega
    · rw [if_neg h1]; left; trivial

/-! ## Connectivity is kept by carving -/

theorem Reachable_mono {p q : Int × Int → Prop} (h : ∀ c, p c → q c) {a c : Int × Int}
    (hr : Reachable p a c) : Reachable q a c := by
  induction hr with
  | start hf => exact Reachable.start _ (h _ hf)
  | step b c _ hadj hf ih => exact Reachable.step _ b c ih hadj (h _ hf)

theorem Connected_carve {m : Maze} {a : Int × Int} (hc : Connected m a) (x y : Int) (d : Nat)
    (hxy : m.grid y x ≠ CellType.Wall) :
    Connected ((m.set (y + (DIRS d).2) (x + (DIRS d).1) CellType.Empty).set
      (y + (DIRS d).2 * 2) (x + (DIRS d).1 * 2) CellType.Empty) a := by
  set m2 := (m.set (y + (DIRS d).2) (x + (DIRS d).1) CellType.Empty).set
      (y + (DIRS d).2 * 2) (x + (DIRS d).1 * 2) CellType.Empty with hm2
  have hmono : ∀ c : Int × Int, m.grid c.2 c.1 ≠ CellType.Wall →
      m2.grid c.2 c.1 ≠ CellType.Wall := by
    intro c hcw
    simp only [hm2, Maze.set, setCell]
    split
    · decide
    · split
      · decide
      · exact hcw
  have hmid : m2.grid (y + (DIRS d).2) (x + (DIRS d).1) ≠ CellType.Wall := by
    simp only [hm2, Maze.set, setCell]
    split
    · decide
    · simp
  have hnext : m2.grid (y + (DIRS d).2 * 2) (x + (DIRS d).1 * 2) ≠ CellType.Wall := by
    simp [hm2, Maze.set, setCell]
  have hcur : Reachable (fun c => m2.grid c.2 c.1 ≠ CellType.Wall) a (x, y) :=
    Reachable_mono hmono (hc x y hxy)
  have hrmid : Reachable (fun c => m2.grid c.2 c.1 ≠ CellType.Wall) a
      (x + (DIRS d).1, y + (DIRS d).2) := by
    refine Reachable.step _ _ _ hcur ?_ hmid
    rcases DIRS_unit d with h | h | h | h <;> rw [h] <;> simp [Adjacent4]
  have hrnext : Reachable (fun c => m2.grid c.2 c.1 ≠ CellType.Wall) a
      (x + (DIRS d).1 * 2, y + (DIRS d).2 * 2) := by
    refine Reachable.step _ _ _ hrmid ?_ hnext
    rcases DIRS_unit d with h | h | h | h <;> rw [h] <;> simp [Adjacent4] <;> omega
  intro x' y' hw
  by_cases h2 : y' = y + (DIRS d).2 * 2 ∧ x' = x + (DIRS d).1 * 2
  · rw [h2.1, h2.2]; exact hrnext
  · by_cases h1 : y' = y + (DIRS d).2 ∧ x' = x + (DIRS d).1
    · rw [h1.1, h1.2]; exact hrmid
    · have : m2.grid y' x' = m.grid y' x' := by
        simp only [hm2, Maze.set, setCell, if_neg h2, if_neg h1]
      rw [this] at hw
      exact Reachable_mono hmono (hc x' y' hw)

theorem carveLoop_post (a : Int × Int)
    (carve : Maze × Nat → Int → Int → Option (Maze × Nat))
    (hcarve : ∀ s x y s', Interior x y → carve s x y = some s' → CarvePost a x y s s')
    (x y : Int) (hxy : Interior x y) :
    ∀ (ds : List Nat) (t t' : Maze × Nat),
      ds.foldlM (carveDir carve x y) t = some t' → CarvePost a x y t t' := by
  intro ds
  induction ds with
  | nil =>
    intro t t' h
    simp only [List.foldlM_nil, Option.pure_def, Option.some.injEq] at h
    subst h
    exact ⟨Frame_refl _, fun hc _ => hc⟩
  | cons d ds ih =>
    intro t t' h
    rw [List.foldlM_cons] at h
    simp only [Option.bind_eq_bind, Option.bind_eq_some] at h
    obtain ⟨u, hu, hrest⟩ := h
    have hpost := ih u t' hrest
    have hstep : CarvePost a x y t u := by
      unfold carveDir at hu
      simp only at hu
      split at hu
      · rename_i hin
        split at hu
        · have hpre := hcarve _ _ _ _ hin hu
          have hfr := Frame_carve t.1 x y d ⟨hxy.1, hxy.2.1⟩ ⟨hxy.2.2.1, hxy.2.2.2⟩ hin
          refine ⟨Frame_trans hfr hpre.1, fun hc hw => ?_⟩
          refine hpre.2 (Connected_carve hc x y d hw) ?_
          simp [Maze.set, setCell]
        · simp only [Option.some.injEq] at hu
          subst hu
          exact ⟨Frame_refl _, fun hc _ => hc⟩
      · simp only [Option.some.injEq] at hu
        subst hu
        exact ⟨Frame_refl _, fun hc _ => hc⟩
    exact ⟨Frame_trans hstep.1 hpost.1, fun hc hw => hpost.2 (hstep.2 hc hw) (Frame_notWall hstep.1 hw)⟩

theorem CarveMaze_post (rnd : Nat → Nat) (a : Int × Int) :
    ∀ (fuel : Nat) (s : Maze × Nat) (x y : Int) (s' : Maze × Nat), Interior x y →
      CarveMaze rnd fuel s x y = some s' → CarvePost a x y s s' := by
  intro fuel
  induction fuel with
  | zero => intro s x y s' _ h; simp [CarveMaze] at h
  | succ fuel ih =>
    intro s x y s' hxy h
    simp only [CarveMaze] at h
    exact carveLoop_post a (CarveMaze rnd fuel) ih x y hxy _ (s.1, (ShuffleDirections rnd s.2).2) s' h

/-! ## The sampling loops -/

theorem sample_interior (r : Nat) :
    0 < (r : Int) % (MAZE_WIDTH - 2) + 1 ∧ (r : Int) % (MAZE_WIDTH - 2) + 1 < MAZE_WIDTH - 1 := by
  unfold MAZE_WIDTH
  omega

theorem KeysPost_refl (ex ey : Int) (m : Maze) : KeysPost ex ey m m :=
  ⟨rfl, rfl, fun _ _ => Or.inl rfl⟩

theorem KeysPost_trans {ex ey : Int} {a b c : Maze} (h1 : KeysPost ex ey a b)
    (h2 : KeysPost ex ey b c) : KeysPost ex ey a c := by
  refine ⟨h2.1.trans h1.1, h2.2.1.trans h1.2.1, fun y x => ?_⟩
  rcases h2.2.2 y x with h | ⟨hb, hc, hi, hd1, hd2⟩
  · rw [h]; exact h1.2.2 y x
  · rcases h1.2.2 y x with h | ⟨_, hk, _⟩
    · right
      rw [h] at hb
      rw [h1.1] at hd1
      exact ⟨hb, hc, hi, hd1, hd2⟩
    · rw [hk] at hb; exact absurd hb (by decide)

theorem EnemiesPost_refl (m : Maze) : EnemiesPost m m :=
  ⟨rfl, rfl, fun _ _ => Or.inl rfl⟩

theorem EnemiesPost_trans {a b c : Maze} (h1 : EnemiesPost a b)
    (h2 : EnemiesPost b c) : EnemiesPost a c := by
  refine ⟨h2.1.trans h1.1, h2.2.1.trans h1.2.1, fun y x => ?_⟩
  rcases h2.2.2 y x with h | ⟨hb, hc, hi, hd1⟩
  · rw [h]; exact h1.2.2 y x
  · rcases h1.2.2 y x with h | ⟨_, hk, _⟩
    · right
      rw [h] at hb
      rw [h1.1] at hd1
      exact ⟨hb, hc, hi, hd1⟩
    · rw [hk] at hb; exact absurd hb (by decide)

/-- One accepted key sample, seen as a `KeysPost` step. -/
theorem KeysPost_place (ex ey : Int) (m : Maze) (x y : Int) (hi : Interior x y)
    (he : m.grid y x = CellType.Empty) (h1 : 5 < sqDist m.startPos x y)
    (h2 : 5 < sqDist { x := (ex : ℚ), y := (ey : ℚ) } x y) :
    KeysPost ex ey m (m.set y x CellType.Key) := by
  refine ⟨rfl, rfl, fun y' x' => ?_⟩
  by_cases h : y' = y ∧ x' = x
  · right
    obtain ⟨rfl, rfl⟩ := h
    exact ⟨he, by simp [Maze.set, setCell], hi, h1, h2⟩
  · left
    simp only [Maze.set, setCell, if_neg h]

/-- One accepted enemy sample, seen as an `EnemiesPost` step. -/
theorem EnemiesPost_place (m : Maze) (x y : Int) (hi : Interior x y)
    (he : m.grid y x = CellType.Empty) (h1 : 9 < sqDist m.startPos x y) :
    EnemiesPost m (m.set y x CellType.Enemy) := by
  refine ⟨rfl, rfl, fun y' x' => ?_⟩
  by_cases h : y' = y ∧ x' = x
  · right
    obtain ⟨rfl, rfl⟩ := h
    exact ⟨he, by simp [Maze.set, setCell], hi, h1⟩
  · left
    simp only [Maze.set, setCell, if_neg h]

theorem placeKeys_post (rnd : Nat → Nat) (ex ey : Int) :
    ∀ (fuel : Nat) (s : Maze × Nat) (keys : Int) (s' : Maze × Nat),
      placeKeys rnd ex ey fuel s keys = some s' → KeysPost ex ey s.1 s'.1 := by
  intro fuel
  induction fuel with
  | zero =>
    intro s keys s' h
    simp only [placeKeys] at h
    split at h
    · exact absurd h (by simp)
    · simp only [Option.some.injEq] at h; subst h; exact KeysPost_refl _ _ _
  | succ fuel ih =>
    intro s keys s' h
    simp only [placeKeys] at h
    split at h
    · split at h
      · rename_i he
        split at h
        · rename_i hd
          have hstep := KeysPost_place ex ey s.1 _ _
            ⟨(sample_interior (rnd s.2)).1, (sample_interior (rnd s.2)).2,
              (sample_interior (rnd (s.2 + 1))).1, (sample_interior (rnd (s.2 + 1))).2⟩
            he hd.1 (by simpa [sqDist] using hd.2)
          exact KeysPost_trans hstep (ih _ _ _ h)
        · exact ih (s.1, s.2 + 2) _ _ h
      · exact ih (s.1, s.2 + 2) _ _ h
    · simp only [Option.some.injEq] at h; subst h; exact KeysPost_refl _ _ _

theorem placeEnemies_post (rnd : Nat → Nat) :
    ∀ (fuel : Nat) (s : Maze × Nat) (enemies : Int) (s' : Maze × Nat),
      placeEnemies rnd fuel s enemies = some s' → EnemiesPost s.1 s'.1 := by
  intro fuel
  induction fuel with
  | zero =>
    intro s enemies s' h
    simp only [placeEnemies] at h
    split at h
    · exact absurd h (by simp)
    · simp only [Option.some.injEq] at h; subst h; exact EnemiesPost_refl _
  | succ fuel ih =>
    intro s enemies s' h
    simp only [placeEnemies] at h
    split at h
    · split at h
      · rename_i he
        split at h
        · rename_i hd
          have hstep := EnemiesPost_place s.1 _ _
            ⟨(sample_interior (rnd s.2)).1, (sample_interior (rnd s.2)).2,
              (sample_interior (rnd (s.2 + 1))).1, (sample_interior (rnd (s.2 + 1))).2⟩
            he hd
          exact EnemiesPost_trans hstep (ih _ _ _ h)
        · exact ih (s.1, s.2 + 2) _ _ h
      · exact ih (s.1, s.2 + 2) _ _ h
    · simp only [Option.some.injEq] at h; subst h; exact EnemiesPost_refl _

/-! ## The order of the scans -/

theorem mem_intRange (lo hi v : Int) : v ∈ intRange lo hi ↔ lo ≤ v ∧ v < hi := by
  simp only [intRange, List.mem_map, List.mem_range]
  constructor
  · rintro ⟨i, hi', rfl⟩
    omega
  · rintro ⟨h1, h2⟩
    exact ⟨(v - lo).toNat, by omega, by omega⟩

theorem intRange_pairwise (lo hi : Int) : (intRange lo hi).Pairwise (· < ·) := by
  unfold intRange
  rw [List.pairwise_map]
  exact (List.pairwise_lt_range _).imp (by intro a b h; omega)

theorem mem_cellRows (ys xs : List Int) (c : Int × Int) :
    c ∈ cellRows ys xs ↔ c.2 ∈ ys ∧ c.1 ∈ xs := by
  simp only [cellRows, List.mem_flatMap, List.mem_map]
  constructor
  · rintro ⟨y, hy, x, hx, rfl⟩
    exact ⟨hy, hx⟩
  · rintro ⟨hy, hx⟩
    exact ⟨c.2, hy, c.1, hx, rfl⟩

theorem cellRows_pairwise (ys xs : List Int) (hys : ys.Pairwise (· < ·))
    (hxs : xs.Pairwise (· < ·)) : (cellRows ys xs).Pairwise RowMajorLt := by
  unfold cellRows
  rw [List.pairwise_flatMap]
  constructor
  · intro y _
    rw [List.pairwise_map]
    exact hxs.imp (by intro a b h; exact Or.inr ⟨rfl, h⟩)
  · refine hys.imp ?_
    intro y1 y2 h c1 hc1 c2 hc2
    simp only [List.mem_map] at hc1 hc2
    obtain ⟨_, _, rfl⟩ := hc1
    obtain ⟨_, _, rfl⟩ := hc2
    exact Or.inl h

theorem mem_scanCells (c : Int × Int) : c ∈ scanCells ↔ Interior c.1 c.2 := by
  unfold scanCells Interior
  rw [mem_cellRows, mem_intRange, mem_intRange]
  constructor
  · rintro ⟨⟨h1, h2⟩, h3, h4⟩
    exact ⟨by omega, h4, by omega, h2⟩
  · rintro ⟨h1, h2, h3, h4⟩
    exact ⟨⟨by omega, h4⟩, by omega, h2⟩

theorem scanCells_pairwise : scanCells.Pairwise RowMajorLt :=
  cellRows_pairwise _ _ (intRange_pairwise _ _) (intRange_pairwise _ _)

theorem mem_gridCells (c : Int × Int) :
    c ∈ gridCells ↔ 0 ≤ c.1 ∧ c.1 < MAZE_WIDTH ∧ 0 ≤ c.2 ∧ c.2 < MAZE_HEIGHT := by
  unfold gridCells
  rw [mem_cellRows, mem_intRange, mem_intRange]
  constructor
  · rintro ⟨⟨h1, h2⟩, h3, h4⟩
    exact ⟨h3, h4, h1, h2⟩
  · rintro ⟨h1, h2, h3, h4⟩
    exact ⟨⟨h3, h4⟩, h1, h2⟩

theorem RowMajorLt_irrefl (a : Int × Int) : ¬RowMajorLt a a := by
  unfold RowMajorLt
  omega

theorem gridCells_nodup : gridCells.Nodup := by
  have h : gridCells.Pairwise RowMajorLt :=
    cellRows_pairwise _ _ (intRange_pairwise _ _) (intRange_pairwise _ _)
  exact h.imp (by intro a b hab heq; subst heq; exact RowMajorLt_irrefl a hab)

theorem interior_mem_gridCells {x y : Int} (h : Interior x y) : (x, y) ∈ gridCells := by
  rw [mem_gridCells]
  unfold Interior at h
  unfold MAZE_WIDTH MAZE_HEIGHT at *
  simp only
  omega

/-! ## The exit search -/

theorem exitStep_fold (m : Maze) :
    ∀ (l : List (Int × Int)) (st : ExitScan), l.Pairwise RowMajorLt →
      ScanPost m l st (l.foldl (exitStep m) st) := by
  intro l
  induction l with
  | nil => intro st _; exact Or.inl ⟨rfl, by simp⟩
  | cons a l ih =>
    intro st hp
    rw [List.pairwise_cons] at hp
    rw [List.foldl_cons]
    have hrec := ih (exitStep m st a) hp.2
    by_cases hupd : m.grid a.2 a.1 = CellType.Empty ∧ st.maxDist < sqDist m.startPos a.1 a.2
    · have hst : exitStep m st a =
          { maxDist := sqDist m.startPos a.1 a.2, exit := some a } := by
        simp only [exitStep, if_pos hupd.1]
        rw [if_pos]
        · rfl
        · exact hupd.2
      rw [hst] at hrec ⊢
      rcases hrec with ⟨hr, hall⟩ | ⟨c, hc, hex, hmd, hce, hlt, hmax, hfirst⟩
      · right
        refine ⟨a, List.mem_cons_self _ _, by rw [hr], by rw [hr], hupd.1, hupd.2, ?_, ?_⟩
        · intro c' hc' he'
          rcases List.mem_cons.1 hc' with rfl | hm
          · exact le_refl _
          · exact hall c' hm he'
        · intro c' hc' _ _
          rcases List.mem_cons.1 hc' with rfl | hm
          · exact Or.inl rfl
          · exact Or.inr (hp.1 c' hm)
      · right
        simp only at hlt
        refine ⟨c, List.mem_cons_of_mem _ hc, hex, hmd, hce, lt_trans hupd.2 hlt, ?_, ?_⟩
        · intro c' hc' he'
          rcases List.mem_cons.1 hc' with rfl | hm
          · exact le_of_lt hlt
          · exact hmax c' hm he'
        · intro c' hc' he' heq
          rcases List.mem_cons.1 hc' with rfl | hm
          · exact absurd heq (ne_of_lt hlt)
          · exact hfirst c' hm he' heq
    · have hst : exitStep m st a = st := by
        simp only [exitStep]
        split
        · rename_i he
          rw [if_neg]
          intro hgt
          exact hupd ⟨he, hgt⟩
        · rfl
      have ha : m.grid a.2 a.1 = CellType.Empty → sqDist m.startPos a.1 a.2 ≤ st.maxDist := by
        intro he
        exact not_lt.1 (fun hgt => hupd ⟨he, hgt⟩)
      rw [hst] at hrec ⊢
      rcases hrec with ⟨hr, hall⟩ | ⟨c, hc, hex, hmd, hce, hlt, hmax, hfirst⟩
      · left
        refine ⟨hr, ?_⟩
        intro c' hc' he'
        rcases List.mem_cons.1 hc' with rfl | hm
        · exact ha he'
        · exact hall c' hm he'
      · right
        refine ⟨c, List.mem_cons_of_mem _ hc, hex, hmd, hce, hlt, ?_, ?_⟩
        · intro c' hc' he'
          rcases List.mem_cons.1 hc' with rfl | hm
          · exact le_of_lt (lt_of_le_of_lt (ha he') hlt)
          · exact hmax c' hm he'
        · intro c' hc' he' heq
          rcases List.mem_cons.1 hc' with rfl | hm
          · exact absurd heq (ne_of_lt (lt_of_le_of_lt (ha he') hlt))
          · exact hfirst c' hm he' heq

/-- The exit search returns an interior `Empty` cell of greatest squared distance from
the start among the interior `Empty` cells, the first such cell in row-major order. -/
theorem findExit_some (m : Maze) (e : Int × Int) (h : (findExit m).exit = some e) :
    Interior e.1 e.2 ∧ m.grid e.2 e.1 = CellType.Empty ∧
    (∀ x y, Interior x y → m.grid y x = CellType.Empty →
      sqDist m.startPos x y ≤ sqDist m.startPos e.1 e.2) ∧
    (∀ x y, Interior x y → m.grid y x = CellType.Empty →
      sqDist m.startPos x y = sqDist m.startPos e.1 e.2 → (x, y) = e ∨ RowMajorLt e (x, y)) := by
  have hs := exitStep_fold m scanCells { maxDist := 0, exit := none } scanCells_pairwise
  rcases hs with ⟨hr, _⟩ | ⟨c, hc, hex, _, hce, _, hmax, hfirst⟩
  · unfold findExit at h
    rw [hr] at h
    exact absurd h (by simp)
  · unfold findExit at h
    rw [hex] at h
    simp only [Option.some.injEq] at h
    subst h
    refine ⟨(mem_scanCells c).1 hc, hce, ?_, ?_⟩
    · intro x y hi he
      exact hmax (x, y) ((mem_scanCells (x, y)).2 hi) he
    · intro x y hi he heq
      exact hfirst (x, y) ((mem_scanCells (x, y)).2 hi) he heq

/-! ## Structure of a run of `GenerateMaze` -/

theorem GenerateMaze_some {rnd : Nat → Nat} {fuel : Nat} {maze : Maze} {k : Nat}
    {r : Maze × Nat} (h : GenerateMaze rnd fuel maze k = some r) :
    ∃ s, CarveMaze rnd fuel (initMaze maze, k) 1 1 = some s ∧
      PlaceObjects rnd fuel s = some r := by
  unfold GenerateMaze at h
  exact Option.bind_eq_some.1 h

theorem PlaceObjects_some {rnd : Nat → Nat} {fuel : Nat} {s r : Maze × Nat}
    (h : PlaceObjects rnd fuel s = some r) :
    ∃ ex ey s3, (findExit s.1).exit = some (ex, ey) ∧
      placeKeys rnd ex ey fuel (withExit s.1 ex ey, s.2) 0 = some s3 ∧
      placeEnemies rnd fuel s3 0 = some r := by
  unfold PlaceObjects at h
  split at h
  · exact absurd h (by simp)
  · rename_i ex ey hex
    obtain ⟨s3, h3, h4⟩ := Option.bind_eq_some.1 h
    exact ⟨ex, ey, s3, hex, h3, h4⟩

theorem initMaze_grid (maze : Maze) (y x : Int) :
    (initMaze maze).grid y x = if y = 1 ∧ x = 1 then CellType.Empty else CellType.Wall := by
  simp [initMaze, Maze.set, setCell]

theorem initMaze_startPos (maze : Maze) : (initMaze maze).startPos = { x := 1, y := 1 } := by
  simp [initMaze, Maze.set]

theorem interior_one : Interior 1 1 := by
  unfold Interior MAZE_WIDTH MAZE_HEIGHT
  omega

theorem initMaze_carved (maze : Maze) : Carved (initMaze maze) := by
  intro y x
  rw [initMaze_grid]
  by_cases h : y = 1 ∧ x = 1
  · right
    rw [if_pos h, h.1, h.2]
    exact ⟨rfl, interior_one⟩
  · left
    rw [if_neg h]

theorem initMaze_connected (maze : Maze) : Connected (initMaze maze) (1, 1) := by
  intro x y hw
  rw [initMaze_grid] at hw
  by_cases h : y = 1 ∧ x = 1
  · rw [h.1, h.2]
    refine Reachable.start _ ?_
    simp [initMaze_grid]
  · rw [if_neg h] at hw
    exact absurd rfl hw

theorem Carved_frame {m m' : Maze} (hc : Carved m) (hf : Frame m m') : Carved m' := by
  intro y x
  rcases hf.2.2 y x with h | h
  · rw [h]; exact hc y x
  · exact Or.inr h

/-- The grid that `GenerateMaze` hands to `PlaceObjects`. -/
theorem CarveMaze_init {rnd : Nat → Nat} {fuel : Nat} {maze : Maze} {k : Nat}
    {s : Maze × Nat} (h : CarveMaze rnd fuel (initMaze maze, k) 1 1 = some s) :
    Carved s.1 ∧ s.1.startPos = { x := 1, y := 1 } ∧ Connected s.1 (1, 1) := by
  have hp := CarveMaze_post rnd (1, 1) fuel _ 1 1 s interior_one h
  refine ⟨Carved_frame (initMaze_carved maze) hp.1, ?_, ?_⟩
  · rw [hp.1.1]; exact initMaze_startPos maze
  · refine hp.2 (initMaze_connected maze) ?_
    simp [initMaze_grid]

theorem withExit_grid (m : Maze) (ex ey y x : Int) :
    (withExit m ex ey).grid y x = if y = ey ∧ x = ex then CellType.Exit else m.grid y x := by
  simp [withExit, Maze.set, setCell]

theorem PlaceObjects_placed {rnd : Nat → Nat} {fuel : Nat} {s r : Maze × Nat}
    (h : PlaceObjects rnd fuel s = some r) : Placed s.1 r.1 := by
  obtain ⟨ex, ey, s3, hex, hk, hen⟩ := PlaceObjects_some h
  have hK := placeKeys_post rnd ex ey fuel _ _ _ hk
  have hE := placeEnemies_post rnd fuel _ _ _ hen
  have hfe := findExit_some s.1 (ex, ey) hex
  refine ⟨?_, fun y x => ?_⟩
  · rw [hE.1, hK.1]; rfl
  · have hx : (withExit s.1 ex ey).grid y x = s.1.grid y x ∨
        (s.1.grid y x = CellType.Empty ∧ Interior x y ∧
          (withExit s.1 ex ey).grid y x = CellType.Exit) := by
      rw [withExit_grid]
      by_cases hc : y = ey ∧ x = ex
      · right
        rw [if_pos hc, hc.1, hc.2]
        exact ⟨hfe.2.1, hfe.1, rfl⟩
      · left
        rw [if_neg hc]
    rcases hE.2.2 y x with h3 | ⟨h3e, h3n, h3i, _⟩
    · rcases hK.2.2 y x with h2 | ⟨h2e, h2k, h2i, _⟩
      · rcases hx with h1 | ⟨h1e, h1i, h1x⟩
        · left; rw [h3, h2, h1]
        · right; exact ⟨h1e, h1i, Or.inl (by rw [h3, h2, h1x])⟩
      · rcases hx with h1 | ⟨_, _, h1x⟩
        · right; exact ⟨by rw [← h1]; exact h2e, h2i, Or.inr (Or.inl (by rw [h3, h2k]))⟩
        · rw [h1x] at h2e; exact absurd h2e (by decide)
    · rcases hK.2.2 y x with h2 | ⟨_, h2k, _⟩
      · rcases hx with h1 | ⟨_, _, h1x⟩
        · right; exact ⟨by rw [← h1, ← h2]; exact h3e, h3i, Or.inr (Or.inr h3n)⟩
        · rw [h2, h1x] at h3e; exact absurd h3e (by decide)
      · rw [h2k] at h3e; exact absurd h3e (by decide)

theorem Placed_wall_iff {m m' : Maze} (h : Placed m m') (y x : Int) :
    m'.grid y x = CellType.Wall ↔ m.grid y x = CellType.Wall := by
  rcases h.2 y x with h1 | ⟨he, _, h3⟩
  · rw [h1]
  · rw [he]
    rcases h3 with h3 | h3 | h3 <;> rw [h3] <;> decide

theorem Connected_placed {m m' : Maze} {a : Int × Int} (hc : Connected m a)
    (h : Placed m m') : Connected m' a := by
  intro x y hw
  have hw' : m.grid y x ≠ CellType.Wall := fun hq => hw ((Placed_wall_iff h y x).2 hq)
  refine Reachable_mono ?_ (hc x y hw')
  intro c hcw hq
  exact hcw ((Placed_wall_iff h c.2 c.1).1 hq)

/-- In a generated maze `GetCellType` reads the grid: the cells off the grid are walls. -/
theorem GetCellType_eq_grid {m0 m : Maze} (hc : Carved m0) (hp : Placed m0 m) (x y : Int) :
    GetCellType m x y = m.grid y x := by
  unfold GetCellType
  split
  · rename_i hout
    have hni : ¬Interior x y := by
      unfold Interior
      unfold MAZE_WIDTH MAZE_HEIGHT at *
      omega
    rcases hp.2 y x with h1 | ⟨_, hi, _⟩
    · rcases hc y x with h0 | ⟨_, hi⟩
      · rw [h1, h0]
      · exact absurd hi hni
    · exact absurd hi hni
  · rfl


/-- Facts about the run on the sample stream, read off by evaluation: it returns, with
the exit at (13,13), a key at (13,7) and an enemy at (6,1). -/
theorem sample_run : ∃ r, GenerateMaze sampleRand 200 blankMaze 0 = some r ∧
    GetCellType r.1 13 13 = CellType.Exit ∧ GetCellType r.1 13 7 = CellType.Key ∧
    GetCellType r.1 6 1 = CellType.Enemy ∧ GetCellType r.1 0 5 = CellType.Wall := by
  have h : ((GenerateMaze sampleRand 200 blankMaze 0).map fun r =>
      [GetCellType r.1 13 13, GetCellType r.1 13 7, GetCellType r.1 6 1,
        GetCellType r.1 0 5]) =
      some [CellType.Exit, CellType.Key, CellType.Enemy, CellType.Wall] := by
    decide!
  obtain ⟨r, hr, hl⟩ := Option.map_eq_some'.1 h
  simp only [List.cons.injEq, and_true] at hl
  exact ⟨r, hr, hl.1, hl.2.1, hl.2.2.1, hl.2.2.2⟩

/-! ## Properties of the generated maze -/

/-- C1: in every maze returned by `GenerateMaze`, for every stream of `rand()` results,
every cell whose tag is not `Wall` is reachable from the start cell (1,1) by a path of
4-adjacent cells none of which is `Wall`. -/
theorem GenerateMaze_connected (rnd : Nat → Nat) (fuel : Nat) (maze : Maze) (k : Nat)
    (r : Maze × Nat) (h : GenerateMaze rnd fuel maze k = some r) (x y : Int)
    (hw : GetCellType r.1 x y ≠ CellType.Wall) :
    Reachable (fun c => GetCellType r.1 c.1 c.2 ≠ CellType.Wall) (1, 1) (x, y) := by
  obtain ⟨s, hs, hp⟩ := GenerateMaze_some h
  obtain ⟨hcarved, _, hconn⟩ := CarveMaze_init hs
  have hpl := PlaceObjects_placed hp
  have hget := GetCellType_eq_grid hcarved hpl
  rw [hget] at hw
  refine Reachable_mono ?_ (Connected_placed hconn hpl x y hw)
  intro c hc
  rw [hget]
  exact hc

theorem GenerateMaze_connected_witness :
    ∃ r, GenerateMaze sampleRand 200 blankMaze 0 = some r ∧
      GetCellType r.1 13 13 ≠ CellType.Wall ∧
      Reachable (fun c => GetCellType r.1 c.1 c.2 ≠ CellType.Wall) (1, 1) (13, 13) := by
  obtain ⟨r, hr, hexit, _⟩ := sample_run
  have hw : GetCellType r.1 13 13 ≠ CellType.Wall := by rw [hexit]; decide
  exact ⟨r, hr, hw, GenerateMaze_connected sampleRand 200 blankMaze 0 r hr 13 13 hw⟩

theorem not_interior_of_border {x y : Int} (hb : Border x y) : ¬Interior x y := by
  unfold Border at hb
  unfold Interior
  omega

/-- C2: in every maze returned by `GenerateMaze` every border cell is tagged `Wall`;
a returning call of `CarveMaze` (from an interior cell, on any maze) and a returning
call of `PlaceObjects` leave every border cell as it was. -/
theorem GenerateMaze_border (rnd : Nat → Nat) (fuel : Nat) (maze : Maze) (k : Nat)
    (r : Maze × Nat) (h : GenerateMaze rnd fuel maze k = some r) (x y : Int)
    (hb : Border x y) :
    GetCellType r.1 x y = CellType.Wall ∧
    (∀ (rnd' : Nat → Nat) (fuel' : Nat) (s s' : Maze × Nat) (x0 y0 : Int), Interior x0 y0 →
      CarveMaze rnd' fuel' s x0 y0 = some s' → s'.1.grid y x = s.1.grid y x) ∧
    (∀ (rnd' : Nat → Nat) (fuel' : Nat) (s s' : Maze × Nat),
      PlaceObjects rnd' fuel' s = some s' → s'.1.grid y x = s.1.grid y x) := by
  have hni := not_interior_of_border hb
  refine ⟨?_, ?_, ?_⟩
  · obtain ⟨s, hs, hp⟩ := GenerateMaze_some h
    obtain ⟨hcarved, _, _⟩ := CarveMaze_init hs
    have hpl := PlaceObjects_placed hp
    rw [GetCellType_eq_grid hcarved hpl]
    rcases hpl.2 y x with h1 | ⟨_, hi, _⟩
    · rcases hcarved y x with h0 | ⟨_, hi⟩
      · rw [h1, h0]
      · exact absurd hi hni
    · exact absurd hi hni
  · intro rnd' fuel' s s' x0 y0 hi0 hc
    rcases (CarveMaze_post rnd' (1, 1) fuel' s x0 y0 s' hi0 hc).1.2.2 y x with h1 | ⟨_, hi⟩
    · exact h1
    · exact absurd hi hni
  · intro rnd' fuel' s s' hp
    rcases (PlaceObjects_placed hp).2 y x with h1 | ⟨_, hi, _⟩
    · exact h1
    · exact absurd hi hni

theorem GenerateMaze_border_witness :
    ∃ r, GenerateMaze sampleRand 200 blankMaze 0 = some r ∧ Border 0 5 ∧
      GetCellType r.1 0 5 = CellType.Wall := by
  obtain ⟨r, hr, _⟩ := sample_run
  have hb : Border 0 5 := by
    unfold Border MAZE_WIDTH MAZE_HEIGHT
    omega
  exact ⟨r, hr, hb, (GenerateMaze_border sampleRand 200 blankMaze 0 r hr 0 5 hb).1⟩

theorem GetCellType_carved {m : Maze} (hc : Carved m) (x y : Int) :
    GetCellType m x y = m.grid y x := by
  have hp : Placed m m := ⟨rfl, fun _ _ => Or.inl rfl⟩
  exact GetCellType_eq_grid hc hp x y

theorem exit_cell_final {rnd : Nat → Nat} {fuel : Nat} {s r : Maze × Nat}
    (hc : Carved s.1) (h : PlaceObjects rnd fuel s = some r) :
    ∃ ex ey, (findExit s.1).exit = some (ex, ey) ∧ r.1.exitPos = { x := (ex : ℚ), y := (ey : ℚ) } ∧
      ∀ y x, r.1.grid y x = CellType.Exit ↔ (y = ey ∧ x = ex) := by
  obtain ⟨ex, ey, s3, hex, hk, hen⟩ := PlaceObjects_some h
  have hK := placeKeys_post rnd ex ey fuel _ _ _ hk
  have hE := placeEnemies_post rnd fuel _ _ _ hen
  refine ⟨ex, ey, hex, ?_, fun y x => ?_⟩
  · rw [hE.2.1, hK.2.1]; rfl
  · have h3 : r.1.grid y x = CellType.Exit ↔ s3.1.grid y x = CellType.Exit := by
      rcases hE.2.2 y x with h3 | ⟨h3e, h3n, _⟩
      · rw [h3]
      · rw [h3e, h3n]; decide
    have h2 : s3.1.grid y x = CellType.Exit ↔ (withExit s.1 ex ey).grid y x = CellType.Exit := by
      rcases hK.2.2 y x with h2 | ⟨h2e, h2k, _⟩
      · rw [h2]
      · rw [h2e, h2k]; decide
    rw [h3, h2, withExit_grid]
    by_cases hq : y = ey ∧ x = ex
    · simp [hq]
    · rw [if_neg hq]
      constructor
      · intro hx
        rcases hc y x with h0 | ⟨h0, _⟩ <;> rw [h0] at hx <;> exact absurd hx (by decide)
      · intro hx; exact absurd hx hq

theorem indexOf_le_of_pairwise {α : Type} [DecidableEq α] (R : α → α → Prop)
    (hasym : ∀ a b, R a b → ¬R b a) :
    ∀ (l : List α), l.Pairwise R → ∀ m a, m ∈ l → a ∈ l → (a = m ∨ R m a) →
      l.indexOf m ≤ l.indexOf a := by
  intro l
  induction l with
  | nil => intro _ m a hm; exact absurd hm (List.not_mem_nil m)
  | cons x xs ih =>
    intro hp m a hm ha hr
    rw [List.pairwise_cons] at hp
    by_cases hxm : x = m
    · rw [List.indexOf_cons_eq _ hxm]
      exact Nat.zero_le _
    · have hm' : m ∈ xs := by
        rcases List.mem_cons.1 hm with h | h
        · exact absurd h.symm hxm
        · exact h
      by_cases hxa : x = a
      · exfalso
        rcases hr with h | h
        · exact hxm (hxa.trans h)
        · have := hp.1 m hm'
          rw [hxa] at this
          exact hasym _ _ h this
      · have ha' : a ∈ xs := by
          rcases List.mem_cons.1 ha with h | h
          · exact absurd h.symm hxa
          · exact h
        rw [List.indexOf_cons_ne _ hxm, List.indexOf_cons_ne _ hxa]
        exact Nat.succ_le_succ (ih hp.2 m a hm' ha' hr)

theorem RowMajorLt_asymm (a b : Int × Int) (h : RowMajorLt a b) : ¬RowMajorLt b a := by
  unfold RowMajorLt at *
  omega

/-- C3: the cell that `PlaceObjects` tags `Exit` and stores in `exitPos` is an `Empty`
cell of the carved grid whose squared distance from the start is at least that of
every `Empty` cell, and among the `Empty` cells at that distance it is the first in
row-major order; it is the cell that the brute-force search `bruteForceExit` returns
on the carved grid. -/
theorem PlaceObjects_exit (rnd : Nat → Nat) (fuel : Nat) (maze : Maze) (k : Nat)
    (s r : Maze × Nat) (hcarve : CarveMaze rnd fuel (initMaze maze, k) 1 1 = some s)
    (hplace : PlaceObjects rnd fuel s = some r) :
    ∃ ex ey : Int, r.1.exitPos = { x := (ex : ℚ), y := (ey : ℚ) } ∧
      GetCellType r.1 ex ey = CellType.Exit ∧
      GetCellType s.1 ex ey = CellType.Empty ∧
      (∀ x y, GetCellType s.1 x y = CellType.Empty →
        sqDist s.1.startPos x y ≤ sqDist s.1.startPos ex ey) ∧
      (∀ x y, GetCellType s.1 x y = CellType.Empty →
        sqDist s.1.startPos x y = sqDist s.1.startPos ex ey →
          (x, y) = (ex, ey) ∨ RowMajorLt (ex, ey) (x, y)) ∧
      bruteForceExit s.1 = some (ex, ey) := by
  obtain ⟨hcarved, _, _⟩ := CarveMaze_init hcarve
  have hpl := PlaceObjects_placed hplace
  obtain ⟨ex, ey, hex, hpos, htag⟩ := exit_cell_final hcarved hplace
  obtain ⟨_, he, hmax, hfirst⟩ := findExit_some s.1 (ex, ey) hex
  have hint : ∀ x y, GetCellType s.1 x y = CellType.Empty →
      Interior x y ∧ s.1.grid y x = CellType.Empty := by
    intro x y hxy
    rw [GetCellType_carved hcarved] at hxy
    rcases hcarved y x with h0 | ⟨_, hi⟩
    · rw [h0] at hxy; exact absurd hxy (by decide)
    · exact ⟨hi, hxy⟩
  have hgrid : ∀ c : Int × Int, s.1.grid c.2 c.1 = CellType.Empty → Interior c.1 c.2 := by
    intro c hc
    rcases hcarved c.2 c.1 with h0 | ⟨_, hi⟩
    · rw [h0] at hc; exact absurd hc (by decide)
    · exact hi
  refine ⟨ex, ey, hpos, ?_, ?_, ?_, ?_, ?_⟩
  · rw [GetCellType_eq_grid hcarved hpl]
    exact (htag ey ex).2 ⟨rfl, rfl⟩
  · rw [GetCellType_carved hcarved]; exact he
  · intro x y hxy
    exact hmax x y (hint x y hxy).1 (hint x y hxy).2
  · intro x y hxy heq
    exact hfirst x y (hint x y hxy).1 (hint x y hxy).2 heq
  · unfold bruteForceExit
    rw [List.argmax_eq_some_iff]
    have hmem : ∀ c : Int × Int,
        c ∈ gridCells.filter (fun c => decide (s.1.grid c.2 c.1 = CellType.Empty)) →
          s.1.grid c.2 c.1 = CellType.Empty := by
      intro c hc
      have := (List.mem_filter.1 hc).2
      simpa using this
    have hself : (ex, ey) ∈
        gridCells.filter (fun c => decide (s.1.grid c.2 c.1 = CellType.Empty)) := by
      rw [List.mem_filter]
      exact ⟨interior_mem_gridCells (hgrid (ex, ey) he), by simpa using he⟩
    refine ⟨hself, ?_, ?_⟩
    · intro a ha
      exact hmax a.1 a.2 (hgrid a (hmem a ha)) (hmem a ha)
    · intro a ha hle
      have hp : (gridCells.filter
          (fun c => decide (s.1.grid c.2 c.1 = CellType.Empty))).Pairwise RowMajorLt :=
        (cellRows_pairwise _ _ (intRange_pairwise _ _) (intRange_pairwise _ _)).filter _
      refine indexOf_le_of_pairwise RowMajorLt RowMajorLt_asymm _ hp (ex, ey) a hself ha ?_
      have heq : sqDist s.1.startPos a.1 a.2 = sqDist s.1.startPos ex ey :=
        le_antisymm (hmax a.1 a.2 (hgrid a (hmem a ha)) (hmem a ha)) hle
      exact hfirst a.1 a.2 (hgrid a (hmem a ha)) (hmem a ha) heq

theorem PlaceObjects_exit_witness :
    ∃ s r, CarveMaze sampleRand 200 (initMaze blankMaze, 0) 1 1 = some s ∧
      PlaceObjects sampleRand 200 s = some r ∧
      ∃ ex ey : Int, r.1.exitPos = { x := (ex : ℚ), y := (ey : ℚ) } ∧
        GetCellType r.1 ex ey = CellType.Exit ∧
        GetCellType s.1 ex ey = CellType.Empty ∧
        (∀ x y, GetCellType s.1 x y = CellType.Empty →
          sqDist s.1.startPos x y ≤ sqDist s.1.startPos ex ey) ∧
        (∀ x y, GetCellType s.1 x y = CellType.Empty →
          sqDist s.1.startPos x y = sqDist s.1.startPos ex ey →
            (x, y) = (ex, ey) ∨ RowMajorLt (ex, ey) (x, y)) ∧
        bruteForceExit s.1 = some (ex, ey) := by
  obtain ⟨r, hr, _⟩ := sample_run
  obtain ⟨s, hs, hp⟩ := GenerateMaze_some hr
  exact ⟨s, r, hs, hp, PlaceObjects_exit sampleRand 200 blankMaze 0 s r hs hp⟩

/-- C4: in every maze returned by `GenerateMaze`, every cell tagged `Key` has squared
distance greater than 5 from the start cell (1,1) and from the cell tagged `Exit`, and
every cell tagged `Enemy` has squared distance greater than 9 from the start cell. -/
theorem GenerateMaze_distances (rnd : Nat → Nat) (fuel : Nat) (maze : Maze) (k : Nat)
    (r : Maze × Nat) (h : GenerateMaze rnd fuel maze k = some r) :
    (∀ x y, GetCellType r.1 x y = CellType.Key →
      5 < sqDist { x := 1, y := 1 } x y ∧
      ∀ ex ey : Int, GetCellType r.1 ex ey = CellType.Exit →
        5 < sqDist { x := (ex : ℚ), y := (ey : ℚ) } x y) ∧
    (∀ x y, GetCellType r.1 x y = CellType.Enemy → 9 < sqDist { x := 1, y := 1 } x y) := by
  obtain ⟨s, hs, hp⟩ := GenerateMaze_some h
  obtain ⟨hcarved, hstart, _⟩ := CarveMaze_init hs
  have hpl := PlaceObjects_placed hp
  have hget := GetCellType_eq_grid hcarved hpl
  obtain ⟨ex, ey, s3, hex, hk, hen⟩ := PlaceObjects_some hp
  have hK := placeKeys_post rnd ex ey fuel _ _ _ hk
  have hE := placeEnemies_post rnd fuel _ _ _ hen
  obtain ⟨ex', ey', hex', _, htag⟩ := exit_cell_final hcarved hp
  have hsame : (ex', ey') = (ex, ey) := by
    rw [hex] at hex'
    exact (Option.some.inj hex').symm
  have hstart2 : (withExit s.1 ex ey).startPos = { x := 1, y := 1 } := hstart
  have hstart3 : s3.1.startPos = { x := 1, y := 1 } := by rw [hK.1]; exact hstart2
  have hwe : ∀ y x, (withExit s.1 ex ey).grid y x ≠ CellType.Key ∧
      (withExit s.1 ex ey).grid y x ≠ CellType.Enemy := by
    intro y x
    rw [withExit_grid]
    split
    · exact ⟨by decide, by decide⟩
    · rcases hcarved y x with h0 | ⟨h0, _⟩ <;> rw [h0] <;> exact ⟨by decide, by decide⟩
  constructor
  · intro x y hkey
    rw [hget] at hkey
    have hkey3 : s3.1.grid y x = CellType.Key := by
      rcases hE.2.2 y x with h3 | ⟨_, h3n, _⟩
      · rw [← h3]; exact hkey
      · rw [h3n] at hkey; exact absurd hkey (by decide)
    rcases hK.2.2 y x with h2 | ⟨_, _, _, hd1, hd2⟩
    · rw [h2] at hkey3; exact absurd hkey3 (hwe y x).1
    · rw [hstart2] at hd1
      refine ⟨hd1, fun ex2 ey2 hx2 => ?_⟩
      rw [hget] at hx2
      have := (htag ey2 ex2).1 hx2
      have he1 : ex' = ex := congrArg Prod.fst hsame
      have he2 : ey' = ey := congrArg Prod.snd hsame
      rw [this.1, this.2, he1, he2]
      exact hd2
  · intro x y hen'
    rw [hget] at hen'
    rcases hE.2.2 y x with h3 | ⟨_, _, _, hd⟩
    · rw [h3] at hen'
      rcases hK.2.2 y x with h2 | ⟨_, h2k, _⟩
      · rw [h2] at hen'; exact absurd hen' (hwe y x).2
      · rw [h2k] at hen'; exact absurd hen' (by decide)
    · rw [hstart3] at hd
      exact hd

theorem GenerateMaze_distances_witness :
    ∃ r, GenerateMaze sampleRand 200 blankMaze 0 = some r ∧
      GetCellType r.1 13 7 = CellType.Key ∧ GetCellType r.1 13 13 = CellType.Exit ∧
      GetCellType r.1 6 1 = CellType.Enemy ∧
      5 < sqDist { x := 1, y := 1 } 13 7 ∧ 5 < sqDist { x := 13, y := 13 } 13 7 ∧
      9 < sqDist { x := 1, y := 1 } 6 1 := by
  obtain ⟨r, hr, hexit, hkey, henemy, _⟩ := sample_run
  have hd := GenerateMaze_distances sampleRand 200 blankMaze 0 r hr
  have h1 := hd.1 13 7 hkey
  have h2 := h1.2 13 13 hexit
  have h3 := hd.2 6 1 henemy
  refine ⟨r, hr, hkey, hexit, henemy, h1.1, ?_, h3⟩
  simpa using h2

/-! ## Counting the placed objects -/

theorem countP_update_one {α : Type} (l : List α) (hnd : l.Nodup) (p q : α → Bool) (a : α)
    (ha : a ∈ l) (hpa : p a = false) (hqa : q a = true)
    (hrest : ∀ b ∈ l, b ≠ a → q b = p b) : l.countP q = l.countP p + 1 := by
  induction l with
  | nil => exact absurd ha (List.not_mem_nil a)
  | cons b l ih =>
    rw [List.nodup_cons] at hnd
    rw [List.countP_cons, List.countP_cons]
    rcases List.mem_cons.1 ha with rfl | hm
    · have hsame : l.countP q = l.countP p := by
        refine List.countP_congr ?_
        intro c hc
        have hne : c ≠ a := fun hca => hnd.1 (hca ▸ hc)
        rw [hrest c (List.mem_cons_of_mem _ hc) hne]
      rw [hsame, hpa, hqa]
      simp
    · have hne : b ≠ a := fun hba => hnd.1 (hba ▸ hm)
      rw [ih hnd.2 hm (fun c hc hca => hrest c (List.mem_cons_of_mem _ hc) hca),
        hrest b (List.mem_cons_self _ _) hne]
      omega

/-- Writing the tag `t` to an interior cell that did not have it adds one `t` cell. -/
theorem countCells_set_new (m : Maze) (x y : Int) (t : CellType) (hi : Interior x y)
    (hold : m.grid y x ≠ t) : countCells (m.set y x t) t = countCells m t + 1 := by
  unfold countCells
  refine countP_update_one gridCells gridCells_nodup _ _ (x, y) (interior_mem_gridCells hi)
    ?_ ?_ ?_
  · simpa using hold
  · simp [Maze.set, setCell]
  · intro b _ hb
    have : ¬(b.2 = y ∧ b.1 = x) := by
      rintro ⟨h1, h2⟩
      exact hb (Prod.ext h2 h1)
    simp only [Maze.set, setCell, if_neg this]

/-- Writing the tag `t` over a cell tagged `u` leaves the number of cells with any
third tag as it was. -/
theorem countCells_set_other (m : Maze) (x y : Int) (t t' : CellType) (h1 : t' ≠ t)
    (h2 : m.grid y x ≠ t') : countCells (m.set y x t) t' = countCells m t' := by
  unfold countCells
  refine List.countP_congr ?_
  intro b _
  by_cases hb : b.2 = y ∧ b.1 = x
  · simp only [Maze.set, setCell, if_pos hb]
    rw [hb.1, hb.2]
    simp only [decide_eq_true_eq]
    constructor
    · intro h; exact absurd h.symm h1
    · intro h; exact absurd h h2
  · simp only [Maze.set, setCell, if_neg hb]

theorem countCells_carved {m : Maze} (hc : Carved m) (t : CellType) (h1 : t ≠ CellType.Wall)
    (h2 : t ≠ CellType.Empty) : countCells m t = 0 := by
  unfold countCells
  rw [List.countP_eq_zero]
  intro c _
  simp only [decide_eq_true_eq]
  rcases hc c.2 c.1 with h | ⟨h, _⟩ <;> rw [h] <;> intro hq
  · exact h1 hq.symm
  · exact h2 hq.symm

theorem placeKeys_count (rnd : Nat → Nat) (ex ey : Int) :
    ∀ (fuel : Nat) (s : Maze × Nat) (keys : Int) (s' : Maze × Nat), keys ≤ 3 →
      placeKeys rnd ex ey fuel s keys = some s' →
      (countCells s'.1 CellType.Key : Int) = countCells s.1 CellType.Key + (3 - keys) ∧
      countCells s'.1 CellType.Exit = countCells s.1 CellType.Exit ∧
      countCells s'.1 CellType.Enemy = countCells s.1 CellType.Enemy := by
  intro fuel
  induction fuel with
  | zero =>
    intro s keys s' hk h
    simp only [placeKeys] at h
    split at h
    · exact absurd h (by simp)
    · simp only [Option.some.injEq] at h
      subst h
      exact ⟨by omega, rfl, rfl⟩
  | succ fuel ih =>
    intro s keys s' hk h
    simp only [placeKeys] at h
    split at h
    · split at h
      · rename_i he
        split at h
        · have hi : Interior ((rnd s.2 : Int) % (MAZE_WIDTH - 2) + 1)
              ((rnd (s.2 + 1) : Int) % (MAZE_HEIGHT - 2) + 1) :=
            ⟨(sample_interior (rnd s.2)).1, (sample_interior (rnd s.2)).2,
              (sample_interior (rnd (s.2 + 1))).1, (sample_interior (rnd (s.2 + 1))).2⟩
          obtain ⟨c1, c2, c3⟩ := ih _ _ _ (by omega) h
          simp only at c1 c2 c3
          rw [countCells_set_new _ _ _ _ hi (by rw [he]; decide)] at c1
          rw [countCells_set_other _ _ _ _ _ (by decide) (by rw [he]; decide)] at c2 c3
          refine ⟨?_, c2, c3⟩
          rw [c1]
          push_cast
          ring
        · exact ih (s.1, s.2 + 2) _ _ hk h
      · exact ih (s.1, s.2 + 2) _ _ hk h
    · simp only [Option.some.injEq] at h
      subst h
      exact ⟨by omega, rfl, rfl⟩

theorem placeEnemies_count (rnd : Nat → Nat) :
    ∀ (fuel : Nat) (s : Maze × Nat) (enemies : Int) (s' : Maze × Nat), enemies ≤ 5 →
      placeEnemies rnd fuel s enemies = some s' →
      (countCells s'.1 CellType.Enemy : Int) = countCells s.1 CellType.Enemy + (5 - enemies) ∧
      countCells s'.1 CellType.Exit = countCells s.1 CellType.Exit ∧
      countCells s'.1 CellType.Key = countCells s.1 CellType.Key := by
  intro fuel
  induction fuel with
  | zero =>
    intro s enemies s' hk h
    simp only [placeEnemies] at h
    split at h
    · exact absurd h (by simp)
    · simp only [Option.some.injEq] at h
      subst h
      exact ⟨by omega, rfl, rfl⟩
  | succ fuel ih =>
    intro s enemies s' hk h
    simp only [placeEnemies] at h
    split at h
    · split at h
      · rename_i he
        split at h
        · have hi : Interior ((rnd s.2 : Int) % (MAZE_WIDTH - 2) + 1)
              ((rnd (s.2 + 1) : Int) % (MAZE_HEIGHT - 2) + 1) :=
            ⟨(sample_interior (rnd s.2)).1, (sample_interior (rnd s.2)).2,
              (sample_interior (rnd (s.2 + 1))).1, (sample_interior (rnd (s.2 + 1))).2⟩
          obtain ⟨c1, c2, c3⟩ := ih _ _ _ (by omega) h
          simp only at c1 c2 c3
          rw [countCells_set_new _ _ _ _ hi (by rw [he]; decide)] at c1
          rw [countCells_set_other _ _ _ _ _ (by decide) (by rw [he]; decide)] at c2 c3
          refine ⟨?_, c2, c3⟩
          rw [c1]
          push_cast
          ring
        · exact ih (s.1, s.2 + 2) _ _ hk h
      · exact ih (s.1, s.2 + 2) _ _ hk h
    · simp only [Option.some.injEq] at h
      subst h
      exact ⟨by omega, rfl, rfl⟩

/-- C5: a maze returned by `GenerateMaze` has exactly three `Key` cells, five `Enemy`
cells and one `Exit` cell; a cell whose tag differs from the one after carving was
`Empty` after carving and now holds `Exit`, `Key` or `Enemy`, so walls stay walls and
walkable cells stay walkable. -/
theorem GenerateMaze_counts (rnd : Nat → Nat) (fuel : Nat) (maze : Maze) (k : Nat)
    (s r : Maze × Nat) (hcarve : CarveMaze rnd fuel (initMaze maze, k) 1 1 = some s)
    (hplace : PlaceObjects rnd fuel s = some r) :
    countCells r.1 CellType.Key = 3 ∧ countCells r.1 CellType.Enemy = 5 ∧
    countCells r.1 CellType.Exit = 1 ∧
    (∀ x y, GetCellType r.1 x y = GetCellType s.1 x y ∨
      (GetCellType s.1 x y = CellType.Empty ∧
        (GetCellType r.1 x y = CellType.Exit ∨ GetCellType r.1 x y = CellType.Key ∨
          GetCellType r.1 x y = CellType.Enemy))) ∧
    (∀ x y, GetCellType r.1 x y = CellType.Wall ↔ GetCellType s.1 x y = CellType.Wall) := by
  obtain ⟨hcarved, _, _⟩ := CarveMaze_init hcarve
  have hpl := PlaceObjects_placed hplace
  have hget := GetCellType_eq_grid hcarved hpl
  have hget0 := GetCellType_carved hcarved
  obtain ⟨ex, ey, s3, hex, hk, hen⟩ := PlaceObjects_some hplace
  obtain ⟨hei, hee, _, _⟩ := findExit_some s.1 (ex, ey) hex
  obtain ⟨k1, k2, k3⟩ := placeKeys_count rnd ex ey fuel _ _ _ (by norm_num) hk
  obtain ⟨e1, e2, e3⟩ := placeEnemies_count rnd fuel _ _ _ (by norm_num) hen
  have w1 : countCells (withExit s.1 ex ey) CellType.Exit = 1 := by
    have := countCells_set_new s.1 ex ey CellType.Exit hei (by rw [hee]; decide)
    rw [countCells_carved hcarved CellType.Exit (by decide) (by decide)] at this
    exact this
  have w2 : countCells (withExit s.1 ex ey) CellType.Key = 0 := by
    have := countCells_set_other s.1 ex ey CellType.Exit CellType.Key (by decide)
      (by rw [hee]; decide)
    rw [countCells_carved hcarved CellType.Key (by decide) (by decide)] at this
    exact this
  have w3 : countCells (withExit s.1 ex ey) CellType.Enemy = 0 := by
    have := countCells_set_other s.1 ex ey CellType.Exit CellType.Enemy (by decide)
      (by rw [hee]; decide)
    rw [countCells_carved hcarved CellType.Enemy (by decide) (by decide)] at this
    exact this
  simp only at k1 k2 k3
  refine ⟨?_, ?_, ?_, ?_, ?_⟩
  · rw [e3]
    have : (countCells s3.1 CellType.Key : Int) = 3 := by rw [k1, w2]; norm_num
    exact_mod_cast this
  · have : (countCells r.1 CellType.Enemy : Int) = 5 := by rw [e1, k3, w3]; norm_num
    exact_mod_cast this
  · rw [e2, k2, w1]
  · intro x y
    rw [hget, hget0]
    rcases hpl.2 y x with h1 | ⟨h1, _, h2⟩
    · exact Or.inl h1
    · exact Or.inr ⟨h1, h2⟩
  · intro x y
    rw [hget, hget0]
    exact Placed_wall_iff hpl y x

theorem GenerateMaze_counts_witness :
    ∃ s r, CarveMaze sampleRand 200 (initMaze blankMaze, 0) 1 1 = some s ∧
      PlaceObjects sampleRand 200 s = some r ∧
      countCells r.1 CellType.Key = 3 ∧ countCells r.1 CellType.Enemy = 5 ∧
      countCells r.1 CellType.Exit = 1 := by
  obtain ⟨r, hr, _⟩ := sample_run
  obtain ⟨s, hs, hp⟩ := GenerateMaze_some hr
  have h := GenerateMaze_counts sampleRand 200 blankMaze 0 s r hs hp
  exact ⟨s, r, hs, hp, h.1, h.2.1, h.2.2.1⟩

/-! ## Termination of the carving, and the unbounded sampling loops -/

theorem carveDir_mono (c1 c2 : Maze × Nat → Int → Int → Option (Maze × Nat))
    (h : ∀ s x y r, c1 s x y = some r → c2 s x y = some r) (x y : Int) (t : Maze × Nat)
    (d : Nat) (r : Maze × Nat) (h1 : carveDir c1 x y t d = some r) :
    carveDir c2 x y t d = some r := by
  unfold carveDir at h1 ⊢
  simp only at h1 ⊢
  split
  · rename_i hin
    rw [if_pos hin] at h1
    split
    · rename_i hw
      rw [if_pos hw] at h1
      exact h _ _ _ _ h1
    · rename_i hw
      rw [if_neg hw] at h1
      exact h1
  · rename_i hin
    rw [if_neg hin] at h1
    exact h1

theorem carveLoop_mono (c1 c2 : Maze × Nat → Int → Int → Option (Maze × Nat))
    (h : ∀ s x y r, c1 s x y = some r → c2 s x y = some r) (x y : Int) :
    ∀ (ds : List Nat) (t r : Maze × Nat),
      ds.foldlM (carveDir c1 x y) t = some r → ds.foldlM (carveDir c2 x y) t = some r := by
  intro ds
  induction ds with
  | nil => intro t r h1; exact h1
  | cons d ds ih =>
    intro t r h1
    rw [List.foldlM_cons] at h1 ⊢
    simp only [Option.bind_eq_bind, Option.bind_eq_some] at h1 ⊢
    obtain ⟨u, hu, hrest⟩ := h1
    exact ⟨u, carveDir_mono c1 c2 h x y t d u hu, ih u r hrest⟩

theorem CarveMaze_succ (rnd : Nat → Nat) :
    ∀ (fuel : Nat) (s : Maze × Nat) (x y : Int) (r : Maze × Nat),
      CarveMaze rnd fuel s x y = some r → CarveMaze rnd (fuel + 1) s x y = some r := by
  intro fuel
  induction fuel with
  | zero => intro s x y r h; simp [CarveMaze] at h
  | succ fuel ih =>
    intro s x y r h
    rw [CarveMaze] at h ⊢
    exact carveLoop_mono _ _ ih x y _ _ r h

theorem CarveMaze_mono (rnd : Nat → Nat) {fuel fuel' : Nat} (hle : fuel ≤ fuel')
    {s : Maze × Nat} {x y : Int} {r : Maze × Nat} (h : CarveMaze rnd fuel s x y = some r) :
    CarveMaze rnd fuel' s x y = some r := by
  induction hle with
  | refl => exact h
  | step _ ih => exact CarveMaze_succ rnd _ s x y r ih

theorem placeKeys_succ (rnd : Nat → Nat) (ex ey : Int) :
    ∀ (fuel : Nat) (s : Maze × Nat) (keys : Int) (r : Maze × Nat),
      placeKeys rnd ex ey fuel s keys = some r →
      placeKeys rnd ex ey (fuel + 1) s keys = some r := by
  intro fuel
  induction fuel with
  | zero =>
    intro s keys r h
    simp only [placeKeys] at h ⊢
    split at h
    · exact absurd h (by simp)
    · rename_i hk
      rw [if_neg hk]
      exact h
  | succ fuel ih =>
    intro s keys r h
    rw [placeKeys] at h ⊢
    simp only at h ⊢
    split
    · rename_i hk
      rw [if_pos hk] at h
      split
      · rename_i he
        rw [if_pos he] at h
        split
        · rename_i hd
          rw [if_pos hd] at h
          exact ih _ _ _ h
        · rename_i hd
          rw [if_neg hd] at h
          exact ih _ _ _ h
      · rename_i he
        rw [if_neg he] at h
        exact ih _ _ _ h
    · rename_i hk
      rw [if_neg hk] at h
      exact h

theorem placeEnemies_succ (rnd : Nat → Nat) :
    ∀ (fuel : Nat) (s : Maze × Nat) (enemies : Int) (r : Maze × Nat),
      placeEnemies rnd fuel s enemies = some r →
      placeEnemies rnd (fuel + 1) s enemies = some r := by
  intro fuel
  induction fuel with
  | zero =>
    intro s enemies r h
    simp only [placeEnemies] at h ⊢
    split at h
    · exact absurd h (by simp)
    · rename_i hk
      rw [if_neg hk]
      exact h
  | succ fuel ih =>
    intro s enemies r h
    rw [placeEnemies] at h ⊢
    simp only at h ⊢
    split
    · rename_i hk
      rw [if_pos hk] at h
      split
      · rename_i he
        rw [if_pos he] at h
        split
        · rename_i hd
          rw [if_pos hd] at h
          exact ih _ _ _ h
        · rename_i hd
          rw [if_neg hd] at h
          exact ih _ _ _ h
      · rename_i he
        rw [if_neg he] at h
        exact ih _ _ _ h
    · rename_i hk
      rw [if_neg hk] at h
      exact h

theorem PlaceObjects_succ (rnd : Nat → Nat) (fuel : Nat) (s r : Maze × Nat)
    (h : PlaceObjects rnd fuel s = some r) : PlaceObjects rnd (fuel + 1) s = some r := by
  obtain ⟨ex, ey, s3, hex, hk, hen⟩ := PlaceObjects_some h
  unfold PlaceObjects
  rw [hex]
  simp only
  have hk' := placeKeys_succ rnd ex ey fuel _ _ _ hk
  have hen' := placeEnemies_succ rnd fuel _ _ _ hen
  unfold withExit at hk'
  rw [hk']
  exact hen'

theorem GenerateMaze_succ (rnd : Nat → Nat) (fuel : Nat) (maze : Maze) (k : Nat)
    (r : Maze × Nat) (h : GenerateMaze rnd fuel maze k = some r) :
    GenerateMaze rnd (fuel + 1) maze k = some r := by
  obtain ⟨s, hs, hp⟩ := GenerateMaze_some h
  unfold GenerateMaze
  rw [CarveMaze_succ rnd fuel _ _ _ _ hs]
  exact PlaceObjects_succ rnd fuel s r hp

/-- More fuel never changes a result. -/
theorem GenerateMaze_mono (rnd : Nat → Nat) {fuel fuel' : Nat} (hle : fuel ≤ fuel')
    (maze : Maze) (k : Nat) {r : Maze × Nat} (h : GenerateMaze rnd fuel maze k = some r) :
    GenerateMaze rnd fuel' maze k = some r := by
  induction hle with
  | refl => exact h
  | step _ ih => exact GenerateMaze_succ rnd _ maze k r ih

theorem scanCells_nodup : scanCells.Nodup :=
  scanCells_pairwise.imp (by intro a b hab heq; subst heq; exact RowMajorLt_irrefl a hab)

theorem wallCount_frame {m m' : Maze} (h : Frame m m') : wallCount m' ≤ wallCount m := by
  unfold wallCount
  refine List.countP_mono_left ?_
  intro c _ hc
  simp only [decide_eq_true_eq] at hc ⊢
  rcases h.2.2 c.2 c.1 with h1 | ⟨h1, _⟩
  · rw [← h1]; exact hc
  · rw [h1] at hc; exact absurd hc (by decide)

/-- Opening an interior wall cell lowers the number of interior walls by one. -/
theorem wallCount_open (m : Maze) (x y : Int) (hi : Interior x y)
    (hw : m.grid y x = CellType.Wall) :
    wallCount (m.set y x CellType.Empty) + 1 = wallCount m := by
  unfold wallCount
  symm
  refine countP_update_one scanCells scanCells_nodup _ _ (x, y) ((mem_scanCells (x, y)).2 hi)
    ?_ ?_ ?_
  · simp [Maze.set, setCell]
  · simpa using hw
  · intro b _ hb
    have : ¬(b.2 = y ∧ b.1 = x) := by
      rintro ⟨h1, h2⟩
      exact hb (Prod.ext h2 h1)
    simp only [Maze.set, setCell, if_neg this]

theorem wallCount_set_le (m : Maze) (x y : Int) :
    wallCount (m.set y x CellType.Empty) ≤ wallCount m := by
  unfold wallCount
  refine List.countP_mono_left ?_
  intro c _ hc
  simp only [decide_eq_true_eq, Maze.set, setCell] at hc ⊢
  split at hc
  · exact absurd hc (by decide)
  · exact hc

theorem carveLoop_total (rnd : Nat → Nat) (fuel : Nat)
    (ih : ∀ (s : Maze × Nat) (x y : Int), wallCount s.1 < fuel →
      ∃ r, CarveMaze rnd fuel s x y = some r)
    (x y : Int) :
    ∀ (ds : List Nat) (t : Maze × Nat), wallCount t.1 < fuel + 1 →
      ∃ r, ds.foldlM (carveDir (CarveMaze rnd fuel) x y) t = some r := by
  intro ds
  induction ds with
  | nil => intro t _; exact ⟨t, rfl⟩
  | cons d ds ihd =>
    intro t ht
    have hstep : ∃ u, carveDir (CarveMaze rnd fuel) x y t d = some u ∧
        wallCount u.1 ≤ wallCount t.1 := by
      unfold carveDir
      simp only
      split
      · rename_i hin
        split
        · rename_i hw
          have hw1 : (t.1.set (y + (DIRS d).2) (x + (DIRS d).1) CellType.Empty).grid
              (y + (DIRS d).2 * 2) (x + (DIRS d).1 * 2) = CellType.Wall := by
            simp only [Maze.set, setCell]
            rw [if_neg]
            · exact hw
            · rcases DIRS_unit d with h | h | h | h <;> rw [h] <;> simp
          have hdec := wallCount_open _ _ _ hin hw1
          have hle := wallCount_set_le t.1 (x + (DIRS d).1) (y + (DIRS d).2)
          obtain ⟨u, hu⟩ := ih ((t.1.set (y + (DIRS d).2) (x + (DIRS d).1) CellType.Empty).set
            (y + (DIRS d).2 * 2) (x + (DIRS d).1 * 2) CellType.Empty, t.2) _ _
            (by simp only; omega)
          refine ⟨u, hu, ?_⟩
          have hfr := (CarveMaze_post rnd (1, 1) fuel _ _ _ u hin hu).1
          have := wallCount_frame hfr
          simp only at this
          omega
        · exact ⟨t, rfl, le_refl _⟩
      · exact ⟨t, rfl, le_refl _⟩
    obtain ⟨u, hu, hle⟩ := hstep
    obtain ⟨r, hr⟩ := ihd u (by omega)
    refine ⟨r, ?_⟩
    rw [List.foldlM_cons]
    simp only [Option.bind_eq_bind, Option.bind_eq_some]
    exact ⟨u, hu, hr⟩

/-- `CarveMaze` returns whenever the fuel exceeds the number of interior walls. -/
theorem CarveMaze_total (rnd : Nat → Nat) :
    ∀ (fuel : Nat) (s : Maze × Nat) (x y : Int), wallCount s.1 < fuel →
      ∃ r, CarveMaze rnd fuel s x y = some r := by
  intro fuel
  induction fuel with
  | zero => intro s x y h; exact absurd h (Nat.not_lt_zero _)
  | succ fuel ih =>
    intro s x y h
    rw [CarveMaze]
    exact carveLoop_total rnd fuel ih x y _ (s.1, _) h

theorem scanCells_length : scanCells.length = 169 := by
  decide!

theorem wallCount_le (m : Maze) : wallCount m ≤ 169 := by
  unfold wallCount
  rw [← scanCells_length]
  exact List.countP_le_length _

/-- After a round of the carving loop for the direction `d`, and after any further
rounds, the cell two steps away in that direction is open when it is interior. -/
theorem carveLoop_opens (rnd : Nat → Nat) (fuel : Nat) (x y : Int) (hxy : Interior x y) :
    ∀ (ds : List Nat) (t r : Maze × Nat),
      ds.foldlM (carveDir (CarveMaze rnd fuel) x y) t = some r →
      ∀ d ∈ ds, Interior (x + (DIRS d).1 * 2) (y + (DIRS d).2 * 2) →
        r.1.grid (y + (DIRS d).2 * 2) (x + (DIRS d).1 * 2) ≠ CellType.Wall := by
  intro ds
  induction ds with
  | nil => intro t r _ d hd; exact absurd hd (List.not_mem_nil d)
  | cons d0 ds ih =>
    intro t r h d hd hin
    rw [List.foldlM_cons] at h
    simp only [Option.bind_eq_bind, Option.bind_eq_some] at h
    obtain ⟨u, hu, hrest⟩ := h
    rcases List.mem_cons.1 hd with rfl | hm
    · have hfr := (carveLoop_post (1, 1) (CarveMaze rnd fuel) (CarveMaze_post rnd (1, 1) fuel)
        x y hxy ds u r hrest).1
      refine Frame_notWall hfr ?_
      unfold carveDir at hu
      simp only at hu
      have hin' : 0 < x + (DIRS d).1 * 2 ∧ x + (DIRS d).1 * 2 < MAZE_WIDTH - 1 ∧
          0 < y + (DIRS d).2 * 2 ∧ y + (DIRS d).2 * 2 < MAZE_HEIGHT - 1 := hin
      rw [if_pos hin'] at hu
      split at hu
      · have hfr2 := (CarveMaze_post rnd (1, 1) fuel _ _ _ u hin hu).1
        refine Frame_notWall hfr2 ?_
        simp [Maze.set, setCell]
      · rename_i hnw
        simp only [Option.some.injEq] at hu
        subst hu
        exact hnw
    · exact ih u r hrest d hm hin

theorem ShuffleDirections_mem (rnd : Nat → Nat) (k d : Nat) (hd : d < 4) :
    d ∈ (ShuffleDirections rnd k).1 := by
  unfold ShuffleDirections
  simp only
  have h4 : rnd k % 4 < 4 := Nat.mod_lt _ (by norm_num)
  have h3 : rnd (k + 1) % 3 < 3 := Nat.mod_lt _ (by norm_num)
  have h2 : rnd (k + 2) % 2 < 2 := Nat.mod_lt _ (by norm_num)
  generalize rnd k % 4 = a at h4
  generalize rnd (k + 1) % 3 = b at h3
  generalize rnd (k + 2) % 2 = c at h2
  interval_cases a <;> interval_cases b <;> interval_cases c <;> interval_cases d <;>
    simp [swapDirs]

/-- A returning call of `CarveMaze` at `(x, y)` leaves every interior cell two steps
away open. -/
theorem CarveMaze_opens (rnd : Nat → Nat) (fuel : Nat) (s r : Maze × Nat) (x y : Int)
    (hxy : Interior x y) (h : CarveMaze rnd fuel s x y = some r) (d : Nat) (hd : d < 4)
    (hin : Interior (x + (DIRS d).1 * 2) (y + (DIRS d).2 * 2)) :
    r.1.grid (y + (DIRS d).2 * 2) (x + (DIRS d).1 * 2) ≠ CellType.Wall := by
  cases fuel with
  | zero => simp [CarveMaze] at h
  | succ fuel =>
    rw [CarveMaze] at h
    exact carveLoop_opens rnd fuel x y hxy _ _ r h d (ShuffleDirections_mem rnd s.2 d hd) hin

/-- On the grid that `GenerateMaze` carves, the exit search finds a cell. -/
theorem findExit_carved {rnd : Nat → Nat} {fuel : Nat} {maze : Maze} {k : Nat}
    {s : Maze × Nat} (h : CarveMaze rnd fuel (initMaze maze, k) 1 1 = some s) :
    (findExit s.1).exit ≠ none := by
  obtain ⟨hcarved, hstart, _⟩ := CarveMaze_init h
  have h31 : Interior (1 + (DIRS 1).1 * 2) (1 + (DIRS 1).2 * 2) := by
    unfold Interior MAZE_WIDTH MAZE_HEIGHT DIRS
    simp
  have hopen := CarveMaze_opens rnd fuel _ s 1 1 interior_one h 1 (by norm_num) h31
  have he : s.1.grid (1 + (DIRS 1).2 * 2) (1 + (DIRS 1).1 * 2) = CellType.Empty := by
    rcases hcarved (1 + (DIRS 1).2 * 2) (1 + (DIRS 1).1 * 2) with h0 | ⟨h0, _⟩
    · exact absurd h0 hopen
    · exact h0
  intro hnone
  have hs := exitStep_fold s.1 scanCells { maxDist := 0, exit := none } scanCells_pairwise
  rcases hs with ⟨_, hall⟩ | ⟨c, _, hex, _⟩
  · have := hall (1 + (DIRS 1).1 * 2, 1 + (DIRS 1).2 * 2) ((mem_scanCells _).2 h31) he
    rw [hstart] at this
    simp only [DIRS, sqDist] at this
    norm_num at this
  · unfold findExit at hnone
    rw [hnone] at hex
    exact absurd hex (by simp)

/-- On the zero stream every sample is the start cell (1,1), at squared distance 0 from
the start: the key loop never accepts it, whatever the grid. -/
theorem placeKeys_zeroRand (ex ey : Int) :
    ∀ (fuel : Nat) (s : Maze × Nat) (keys : Int), keys < 3 →
      s.1.startPos = { x := 1, y := 1 } → placeKeys zeroRand ex ey fuel s keys = none := by
  intro fuel
  induction fuel with
  | zero =>
    intro s keys hk _
    simp only [placeKeys, if_pos hk]
  | succ fuel ih =>
    intro s keys hk hs
    rw [placeKeys]
    simp only [if_pos hk]
    split
    · rw [if_neg]
      · exact ih (s.1, s.2 + 2) keys hk hs
      · rw [hs]
        simp only [zeroRand, MAZE_WIDTH, MAZE_HEIGHT]
        norm_num
    · exact ih (s.1, s.2 + 2) keys hk hs

theorem GenerateMaze_zeroRand_none (maze : Maze) (k : Nat) (fuel : Nat) :
    GenerateMaze zeroRand fuel maze k = none := by
  cases hg : GenerateMaze zeroRand fuel maze k with
  | none => rfl
  | some r =>
    exfalso
    obtain ⟨s, hs, hp⟩ := GenerateMaze_some hg
    obtain ⟨_, hstart, _⟩ := CarveMaze_init hs
    obtain ⟨ex, ey, s3, _, hk, _⟩ := PlaceObjects_some hp
    have hnone := placeKeys_zeroRand ex ey fuel (withExit s.1 ex ey, s.2) 0 (by norm_num) hstart
    rw [hnone] at hk
    exact absurd hk (by simp)

/-- C6, counterexample: when `rand()` always returns 0 the carving returns and the exit
search finds the cell (13,13), but `GenerateMaze` never returns, with a maze or
otherwise: the key loop draws the start cell again and again, and nothing caps it. -/
theorem GenerateMaze_no_retry_cap :
    ((CarveMaze zeroRand 200 (initMaze blankMaze, 0) 1 1).map fun s => (findExit s.1).exit) =
        some (some (13, 13)) ∧
      ∀ fuel, GenerateMaze zeroRand fuel blankMaze 0 = none := by
  constructor
  · decide!
  · exact GenerateMaze_zeroRand_none blankMaze 0

/-- C6, amended: for every stream of `rand()` results the carving returns (a recursion
depth of 170 is never exceeded) and the exit search finds a cell; the sampling loops
have no retry cap and no error result, so `GenerateMaze` either returns a maze, the
same one for every larger fuel, or never returns. -/
theorem GenerateMaze_returns_or_retries_forever (rnd : Nat → Nat) (maze : Maze) (k : Nat) :
    (∃ s, CarveMaze rnd 170 (initMaze maze, k) 1 1 = some s ∧ (findExit s.1).exit ≠ none) ∧
    ((∃ fuel r, ∀ fuel', fuel ≤ fuel' → GenerateMaze rnd fuel' maze k = some r) ∨
      (∀ fuel, GenerateMaze rnd fuel maze k = none)) := by
  constructor
  · obtain ⟨s, hs⟩ := CarveMaze_total rnd 170 (initMaze maze, k) 1 1
      (Nat.lt_succ_of_le (wallCount_le _))
    exact ⟨s, hs, findExit_carved hs⟩
  · by_cases h : ∃ fuel r, GenerateMaze rnd fuel maze k = some r
    · obtain ⟨fuel, r, hr⟩ := h
      exact Or.inl ⟨fuel, r, fun fuel' hle => GenerateMaze_mono rnd hle maze k hr⟩
    · right
      intro fuel
      cases hg : GenerateMaze rnd fuel maze k with
      | none => rfl
      | some r => exact absurd ⟨fuel, r, hg⟩ h

/-! ## The depth sort of `RenderSprites` -/

theorem intRange_zero_succ (n : Nat) :
    intRange 0 ((n : Int) + 1) = intRange 0 (n : Int) ++ [(n : Int)] := by
  unfold intRange
  have h1 : ((n : Int) + 1 - 0).toNat = n + 1 := by omega
  have h2 : ((n : Int) - 0).toNat = n := by omega
  rw [h1, h2, List.range_succ, List.map_append]
  simp

theorem intRange_zero_zero : intRange 0 0 = [] := by
  simp [intRange]

theorem intRange_of_le (lo hi : Int) (h : hi ≤ lo) : intRange lo hi = [] := by
  unfold intRange
  have : (hi - lo).toNat = 0 := by omega
  rw [this]
  rfl

theorem SortInv_refl (g : Game) (lo hi : Int) : SortInv g g lo hi 1 := by
  refine ⟨rfl, rfl, rfl, fun _ _ => rfl, fun _ => rfl, fun k => ?_, rfl⟩
  split <;> rfl

theorem SortInv_trans {g g1 g2 : Game} {lo hi : Int} {σ1 σ2 : Equiv.Perm Int}
    (h1 : SortInv g g1 lo hi σ1) (h2 : SortInv g1 g2 lo hi σ2) :
    SortInv g g2 lo hi (σ1 * σ2) := by
  obtain ⟨a1, a2, a3, a4, a5, a6, a7⟩ := h1
  obtain ⟨b1, b2, b3, b4, b5, b6, b7⟩ := h2
  refine ⟨b1.trans a1, b2.trans a2, b3.trans a3, ?_, ?_, ?_, ?_⟩
  · intro i hi'
    rw [Equiv.Perm.mul_apply, b4 i hi', a4 i hi']
  · intro i
    rw [b5, a5, Equiv.Perm.mul_apply]
  · intro k
    rw [b6 k, a6 k, a3]
    split
    · rfl
    · rfl
  · rw [b7, a7]
    rfl

theorem SortInv_widen {g g' : Game} {lo hi lo' hi' : Int} {σ : Equiv.Perm Int}
    (h : SortInv g g' lo hi σ) (h1 : lo' ≤ lo) (h2 : hi ≤ hi') : SortInv g g' lo' hi' σ := by
  obtain ⟨a1, a2, a3, a4, a5, a6, a7⟩ := h
  exact ⟨a1, a2, a3, fun i hi'' => a4 i (by omega), a5, a6, a7⟩

theorem swapIndex_eq_swap (j idx : Int) : swapIndex j idx = Equiv.swap j (j + 1) idx := by
  unfold swapIndex
  rw [Equiv.swap_apply_def]

/-- One swap of the sort, as a permutation step. -/
theorem sortSwap_inv (g : Game) (j : Int) :
    SortInv g (sortSwap g j) j (j + 1) (Equiv.swap j (j + 1)) := by
  refine ⟨rfl, rfl, rfl, ?_, ?_, ?_, ?_⟩
  · intro i hi
    exact Equiv.swap_apply_of_ne_of_ne (by omega) (by omega)
  · intro i
    simp only [sortSwap, arrSet]
    rw [Equiv.swap_apply_def]
    by_cases h1 : i = j + 1
    · have h2 : i ≠ j := by omega
      rw [if_pos h1, if_neg h2, if_pos h1]
    · rw [if_neg h1]
      by_cases h2 : i = j
      · rw [if_pos h2, if_pos h2]
      · rw [if_neg h2, if_neg h2, if_neg h1]
  · intro k
    simp only [sortSwap]
    split
    · simp only [Equiv.symm_swap]
      exact swapIndex_eq_swap _ _
    · rfl
  · simp only [sortSwap, Equiv.symm_swap]
    exact swapIndex_eq_swap _ _

theorem spriteDist_congr (lm : Libm) {g g' : Game} (hp : g'.player = g.player) {i j : Int}
    (hs : g'.sprites i = g.sprites j) : spriteDist lm g' i = spriteDist lm g j := by
  unfold spriteDist
  rw [hp, hs]

/-- The body of the inner loop either swaps or leaves the game as it is; afterwards
`sprites[j+1]` is not farther than `sprites[j]`. -/
theorem sortInner_inv (lm : Libm) (g : Game) (j : Int) :
    ∃ σ, SortInv g (sortInner lm g j) j (j + 1) σ ∧
      spriteDist lm (sortInner lm g j) (j + 1) ≤ spriteDist lm (sortInner lm g j) j := by
  unfold sortInner
  simp only
  split
  · rename_i hlt
    refine ⟨Equiv.swap j (j + 1), sortSwap_inv g j, ?_⟩
    have hinv := sortSwap_inv g j
    rw [spriteDist_congr lm hinv.1 (hinv.2.2.2.2.1 (j + 1)),
      spriteDist_congr lm hinv.1 (hinv.2.2.2.2.1 j)]
    rw [Equiv.swap_apply_right, Equiv.swap_apply_left]
    exact le_of_lt hlt
  · rename_i hnlt
    exact ⟨1, SortInv_refl g _ _, not_lt.1 hnlt⟩

/-- A permutation that moves only indices in `lo..hi` maps that range into itself. -/
theorem perm_maps_range (σ : Equiv.Perm Int) (lo hi : Int)
    (hfix : ∀ i, (i < lo ∨ hi < i) → σ i = i) (q : Int) (h1 : lo ≤ q) (h2 : q ≤ hi) :
    lo ≤ σ q ∧ σ q ≤ hi := by
  by_contra hcon
  have hout : σ q < lo ∨ hi < σ q := by omega
  have := hfix (σ q) hout
  have hq : σ q = q := σ.injective this
  omega

/-- The inner loop run for `j = 0 .. m-1` moves a sprite of least distance among
`sprites[0..m]` to the slot `m`. -/
theorem sortPass_fold (lm : Libm) (g : Game) :
    ∀ m : Nat, ∃ σ, SortInv g ((intRange 0 (m : Int)).foldl (sortInner lm) g) 0 (m : Int) σ ∧
      ∀ j, 0 ≤ j → j ≤ (m : Int) →
        spriteDist lm ((intRange 0 (m : Int)).foldl (sortInner lm) g) (m : Int) ≤
          spriteDist lm ((intRange 0 (m : Int)).foldl (sortInner lm) g) j := by
  intro m
  induction m with
  | zero =>
    refine ⟨1, ?_, ?_⟩
    · simp only [Nat.cast_zero, intRange_zero_zero, List.foldl_nil]
      exact SortInv_refl g 0 0
    · intro j h1 h2
      have : j = ((0 : Nat) : Int) := by omega
      rw [this]
  | succ m ih =>
    obtain ⟨σ, hσ, hmin⟩ := ih
    have hcast : ((m + 1 : Nat) : Int) = (m : Int) + 1 := by push_cast; rfl
    rw [hcast, intRange_zero_succ, List.foldl_append]
    simp only [List.foldl_cons, List.foldl_nil]
    set g1 := (intRange 0 (m : Int)).foldl (sortInner lm) g with hg1
    obtain ⟨τ, hτ, hle⟩ := sortInner_inv lm g1 (m : Int)
    refine ⟨σ * τ, ?_, ?_⟩
    · exact SortInv_trans (SortInv_widen hσ (le_refl _) (by omega))
        (SortInv_widen hτ (by omega) (le_refl _))
    · intro j h1 h2
      have hp := hτ.1
      have hs := hτ.2.2.2.2.1
      have hfix := hτ.2.2.2.1
      by_cases hj : j = (m : Int) + 1
      · rw [hj]
      · by_cases hj2 : j = (m : Int)
        · rw [hj2]; exact hle
        · have hjlt : j < (m : Int) := by omega
          have hτj : τ j = j := hfix j (Or.inl hjlt)
          have e1 : spriteDist lm (sortInner lm g1 (m : Int)) j = spriteDist lm g1 j := by
            refine spriteDist_congr lm hp ?_
            rw [hs j, hτj]
          rw [e1]
          -- the new slot m+1 holds one of the two sprites compared
          have hrange := perm_maps_range τ (m : Int) ((m : Int) + 1) hfix ((m : Int) + 1)
            (by omega) (le_refl _)
          have e2 : spriteDist lm (sortInner lm g1 (m : Int)) ((m : Int) + 1) =
              spriteDist lm g1 (τ ((m : Int) + 1)) :=
            spriteDist_congr lm hp (hs _)
          have e3 : spriteDist lm (sortInner lm g1 (m : Int)) (m : Int) =
              spriteDist lm g1 (τ (m : Int)) :=
            spriteDist_congr lm hp (hs _)
          have hrange2 := perm_maps_range τ (m : Int) ((m : Int) + 1) hfix (m : Int)
            (le_refl _) (by omega)
          have hmj := hmin j h1 (by omega)
          -- slot m+1 is at most slot m, and one of them is the old slot m
          have hcase : τ ((m : Int) + 1) = (m : Int) ∨ τ (m : Int) = (m : Int) := by
            rcases (show τ ((m : Int) + 1) = (m : Int) ∨ τ ((m : Int) + 1) = (m : Int) + 1 by
              omega) with h | h
            · exact Or.inl h
            · right
              have hne : τ (m : Int) ≠ (m : Int) + 1 := by
                intro hq
                have := τ.injective (hq.trans h.symm)
                omega
              omega
          rcases hcase with h | h
          · rw [e2, h]; exact hmj
          · rw [e3, h] at hle
            exact le_trans hle hmj

theorem sortPass_inv (lm : Libm) (g : Game) (i : Int) (hn : i + 1 < g.spriteCount) :
    ∃ σ, SortInv g (sortPass lm g i) 0 (g.spriteCount - i - 1) σ ∧
      ∀ j, 0 ≤ j → j ≤ g.spriteCount - i - 1 →
        spriteDist lm (sortPass lm g i) (g.spriteCount - i - 1) ≤
          spriteDist lm (sortPass lm g i) j := by
  have hm : g.spriteCount - i - 1 = (((g.spriteCount - i - 1).toNat : Nat) : Int) := by omega
  unfold sortPass
  rw [hm]
  exact sortPass_fold lm g _

/-- After `t` rounds of the outer loop the last `t` slots in use hold sprites that are
not farther than any sprite to their left. -/
theorem sortSprites_fold (lm : Libm) (g : Game) :
    ∀ t : Nat, (t : Int) ≤ g.spriteCount - 1 →
      ∃ σ, SortInv g ((intRange 0 (t : Int)).foldl (sortPass lm) g) 0 (g.spriteCount - 1) σ ∧
        ∀ p, g.spriteCount - (t : Int) ≤ p → p < g.spriteCount → ∀ q, 0 ≤ q → q ≤ p →
          spriteDist lm ((intRange 0 (t : Int)).foldl (sortPass lm) g) p ≤
            spriteDist lm ((intRange 0 (t : Int)).foldl (sortPass lm) g) q := by
  intro t
  induction t with
  | zero =>
    intro _
    refine ⟨1, ?_, ?_⟩
    · simp only [Nat.cast_zero, intRange_zero_zero, List.foldl_nil]
      exact SortInv_refl g _ _
    · intro p h1 h2
      simp only [Nat.cast_zero] at h1
      omega
  | succ t ih =>
    intro ht
    have hcast : ((t + 1 : Nat) : Int) = (t : Int) + 1 := by push_cast; rfl
    rw [hcast] at ht ⊢
    obtain ⟨σ, hσ, hsuf⟩ := ih (by omega)
    rw [intRange_zero_succ, List.foldl_append]
    simp only [List.foldl_cons, List.foldl_nil]
    set g1 := (intRange 0 (t : Int)).foldl (sortPass lm) g with hg1
    have hcount : g1.spriteCount = g.spriteCount := hσ.2.1
    obtain ⟨τ, hτ, hmin⟩ := sortPass_inv lm g1 (t : Int) (by omega)
    rw [hcount] at hτ hmin
    refine ⟨σ * τ, SortInv_trans hσ (SortInv_widen hτ (le_refl _) (by omega)), ?_⟩
    intro p hp1 hp2 q hq1 hq2
    have hp := hτ.1
    have hs := hτ.2.2.2.2.1
    have hfix := hτ.2.2.2.1
    by_cases hpm : p = g.spriteCount - (t : Int) - 1
    · rw [hpm]
      exact hmin q hq1 (by omega)
    · have hpgt : g.spriteCount - (t : Int) - 1 < p := by omega
      have hτp : τ p = p := hfix p (Or.inr hpgt)
      have e1 : spriteDist lm (sortPass lm g1 (t : Int)) p = spriteDist lm g1 p := by
        refine spriteDist_congr lm hp ?_
        rw [hs p, hτp]
      have e2 : spriteDist lm (sortPass lm g1 (t : Int)) q = spriteDist lm g1 (τ q) :=
        spriteDist_congr lm hp (hs q)
      rw [e1, e2]
      have hτq : 0 ≤ τ q ∧ τ q ≤ p := by
        by_cases hqm : q ≤ g.spriteCount - (t : Int) - 1
        · have := perm_maps_range τ 0 (g.spriteCount - (t : Int) - 1) hfix q hq1 hqm
          omega
        · have : τ q = q := hfix q (Or.inr (by omega))
          omega
      exact hsuf p (by omega) hp2 (τ q) hτq.1 hτq.2

/-- The sorting loop permutes the slots in use, carries the back-references along and
leaves the sprites in order of non-increasing distance. -/
theorem sortSprites_inv (lm : Libm) (g : Game) :
    ∃ σ, SortInv g (sortSprites lm g) 0 (g.spriteCount - 1) σ ∧
      ∀ p, 1 ≤ p → p < g.spriteCount → ∀ q, 0 ≤ q → q ≤ p →
        spriteDist lm (sortSprites lm g) p ≤ spriteDist lm (sortSprites lm g) q := by
  unfold sortSprites
  by_cases hn : 1 ≤ g.spriteCount
  · have hm : g.spriteCount - 1 = (((g.spriteCount - 1).toNat : Nat) : Int) := by omega
    obtain ⟨σ, hσ, hsuf⟩ := sortSprites_fold lm g (g.spriteCount - 1).toNat (by omega)
    rw [← hm] at hσ hsuf
    exact ⟨σ, hσ, fun p h1 h2 q h3 h4 => hsuf p (by omega) h2 q h3 h4⟩
  · rw [intRange_of_le 0 (g.spriteCount - 1) (by omega)]
    refine ⟨1, SortInv_refl g _ _, ?_⟩
    intro p h1 h2
    omega

/-- C7: after the sorting loop of `RenderSprites`, for every index `i` with
`0 <= i < spriteCount - 1` the distance from the player to `sprites[i]` is at least the
distance to `sprites[i+1]`; the player and `spriteCount` are as before and the array
is a permutation of the array before the sort (of its slots `0 .. spriteCount - 1`). -/
theorem sortSprites_sorted (lm : Libm) (g : Game) (i : Int) (h0 : 0 ≤ i)
    (h1 : i < g.spriteCount - 1) :
    spriteDist lm (sortSprites lm g) (i + 1) ≤ spriteDist lm (sortSprites lm g) i ∧
    (sortSprites lm g).player = g.player ∧
    (sortSprites lm g).spriteCount = g.spriteCount ∧
    ∃ σ : Equiv.Perm Int, (∀ j, (j < 0 ∨ g.spriteCount ≤ j) → σ j = j) ∧
      ∀ j, (sortSprites lm g).sprites j = g.sprites (σ j) := by
  obtain ⟨σ, hσ, hsorted⟩ := sortSprites_inv lm g
  refine ⟨hsorted (i + 1) (by omega) (by omega) i h0 (by omega), hσ.1, hσ.2.1, σ, ?_, hσ.2.2.2.2.1⟩
  intro j hj
  exact hσ.2.2.2.1 j (by omega)

theorem sortSprites_sorted_witness :
    spriteDist sampleLibm (sortSprites sampleLibm sampleGame) (0 + 1) ≤
      spriteDist sampleLibm (sortSprites sampleLibm sampleGame) 0 ∧
    (sortSprites sampleLibm sampleGame).player = sampleGame.player ∧
    (sortSprites sampleLibm sampleGame).spriteCount = sampleGame.spriteCount ∧
    ∃ σ : Equiv.Perm Int, (∀ j, (j < 0 ∨ sampleGame.spriteCount ≤ j) → σ j = j) ∧
      ∀ j, (sortSprites sampleLibm sampleGame).sprites j = sampleGame.sprites (σ j) :=
  sortSprites_sorted sampleLibm sampleGame 0 (by decide) (by decide)

/-- C8: the sort of `RenderSprites` keeps every back-reference.  For every enemy
`k < enemyCount` the sprite found at its `spriteIndex` after the sort is the sprite
found there before, and likewise for the exit door; an index that was in
`[0, spriteCount)` stays there; and two owners (two enemies, or an enemy and the
door) refer to the same slot after the sort only if they did before. -/
theorem sortSprites_backrefs (lm : Libm) (g : Game) (k : Int) (hk0 : 0 ≤ k)
    (hk1 : k < g.enemyCount) :
    (sortSprites lm g).sprites ((sortSprites lm g).enemies k).spriteIndex =
      g.sprites (g.enemies k).spriteIndex ∧
    (sortSprites lm g).sprites (sortSprites lm g).exitDoor.spriteIndex =
      g.sprites g.exitDoor.spriteIndex ∧
    ((0 ≤ (g.enemies k).spriteIndex ∧ (g.enemies k).spriteIndex < g.spriteCount) →
      (0 ≤ ((sortSprites lm g).enemies k).spriteIndex ∧
        ((sortSprites lm g).enemies k).spriteIndex < g.spriteCount)) ∧
    ((0 ≤ g.exitDoor.spriteIndex ∧ g.exitDoor.spriteIndex < g.spriteCount) →
      (0 ≤ (sortSprites lm g).exitDoor.spriteIndex ∧
        (sortSprites lm g).exitDoor.spriteIndex < g.spriteCount)) ∧
    (∀ k2, 0 ≤ k2 → k2 < g.enemyCount →
      ((sortSprites lm g).enemies k).spriteIndex = ((sortSprites lm g).enemies k2).spriteIndex →
        (g.enemies k).spriteIndex = (g.enemies k2).spriteIndex) ∧
    (((sortSprites lm g).enemies k).spriteIndex = (sortSprites lm g).exitDoor.spriteIndex →
      (g.enemies k).spriteIndex = g.exitDoor.spriteIndex) := by
  obtain ⟨σ, ⟨_, _, _, hfix, hs, he, hd⟩, _⟩ := sortSprites_inv lm g
  have hek : ∀ k', 0 ≤ k' → k' < g.enemyCount →
      ((sortSprites lm g).enemies k').spriteIndex = σ.symm (g.enemies k').spriteIndex := by
    intro k' h1 h2
    rw [he k', if_pos ⟨h1, h2⟩]
  have hfix' : ∀ i, (i < 0 ∨ g.spriteCount - 1 < i) → σ.symm i = i := by
    intro i hi
    have := hfix i hi
    exact (Equiv.symm_apply_eq σ).2 this.symm
  have hin : ∀ i, 0 ≤ i ∧ i < g.spriteCount → 0 ≤ σ.symm i ∧ σ.symm i < g.spriteCount := by
    intro i hi
    have := perm_maps_range σ.symm 0 (g.spriteCount - 1) hfix' i hi.1 (by omega)
    omega
  refine ⟨?_, ?_, ?_, ?_, ?_, ?_⟩
  · rw [hek k hk0 hk1, hs, Equiv.apply_symm_apply]
  · rw [hd, hs, Equiv.apply_symm_apply]
  · intro h
    rw [hek k hk0 hk1]
    exact hin _ h
  · intro h
    rw [hd]
    exact hin _ h
  · intro k2 h1 h2 heq
    rw [hek k hk0 hk1, hek k2 h1 h2] at heq
    exact σ.symm.injective heq
  · intro heq
    rw [hek k hk0 hk1, hd] at heq
    exact σ.symm.injective heq

theorem sortSprites_backrefs_witness :
    (sortSprites sampleLibm sampleGame).sprites
        ((sortSprites sampleLibm sampleGame).enemies 0).spriteIndex =
      sampleGame.sprites (sampleGame.enemies 0).spriteIndex ∧
    (sortSprites sampleLibm sampleGame).sprites
        (sortSprites sampleLibm sampleGame).exitDoor.spriteIndex =
      sampleGame.sprites sampleGame.exitDoor.spriteIndex :=
  ⟨(sortSprites_backrefs sampleLibm sampleGame 0 (by decide) (by decide)).1,
    (sortSprites_backrefs sampleLibm sampleGame 0 (by decide) (by decide)).2.1⟩

/-! ## Occlusion of sprite columns -/

theorem renderStripe_mem (zBuffer : Int → ℚ) (sp : Sprite) (transformY : ℚ)
    (dsx dex dsy dey stripe : Int) (c : DrawCall)
    (hc : c ∈ renderStripe zBuffer sp transformY dsx dex dsy dey stripe) :
    transformY < zBuffer stripe ∧ c.destRect.x = (stripe : ℚ) := by
  unfold renderStripe at hc
  split at hc
  · rename_i hlt
    refine ⟨hlt, ?_⟩
    simp only at hc
    split at hc
    · rw [List.mem_singleton] at hc; rw [hc]
    · split at hc
      · rw [List.mem_singleton] at hc; rw [hc]
      · split at hc
        · rw [List.mem_singleton] at hc; rw [hc]
        · exact absurd hc (List.not_mem_nil c)
  · exact absurd hc (List.not_mem_nil c)

theorem renderStripe_drawn (zBuffer : Int → ℚ) (sp : Sprite) (transformY : ℚ)
    (dsx dex dsy dey stripe : Int)
    (htype : sp.type = CellType.Key ∨ sp.type = CellType.Enemy ∨ sp.type = CellType.Exit)
    (hlt : transformY < zBuffer stripe) :
    ∃ c ∈ renderStripe zBuffer sp transformY dsx dex dsy dey stripe,
      c.destRect.x = (stripe : ℚ) := by
  unfold renderStripe
  rw [if_pos hlt]
  simp only
  rcases htype with h | h | h <;> rw [h] <;> simp

/-- C9: for an active sprite (of type Key, Enemy or Exit, the types of the sprites that
`InitEnemies` creates) with positive camera-space depth and a screen column `s` in
`[drawStartX, drawEndX)`, a stripe is drawn at `s` if and only if the depth is strictly
less than `zBuffer[s]`; and no sprite is drawn at any column where its depth is not
less than the stored wall depth. -/
theorem renderSprite_occlusion (screenW screenH : Int) (zBuffer : Int → ℚ) (cam : Camera)
    (player : Player) (sp : Sprite) (s : Int) (hact : sp.active = true)
    (hfront : 0 < spriteTransformY cam player sp)
    (htype : sp.type = CellType.Key ∨ sp.type = CellType.Enemy ∨ sp.type = CellType.Exit)
    (h1 : (spriteColumns screenW screenH cam player sp).1 ≤ s)
    (h2 : s < (spriteColumns screenW screenH cam player sp).2) :
    (StripeDrawn (renderSprite screenW screenH zBuffer cam player sp) s ↔
      spriteTransformY cam player sp < zBuffer s) ∧
    (∀ (sp' : Sprite) (s' : Int),
      StripeDrawn (renderSprite screenW screenH zBuffer cam player sp') s' →
        spriteTransformY cam player sp' < zBuffer s') := by
  have honly : ∀ (sp' : Sprite) (s' : Int),
      StripeDrawn (renderSprite screenW screenH zBuffer cam player sp') s' →
        spriteTransformY cam player sp' < zBuffer s' := by
    intro sp' s' hd
    obtain ⟨c, hc, hx⟩ := hd
    unfold renderSprite at hc
    split at hc
    · exact absurd hc (List.not_mem_nil c)
    · simp only at hc
      split at hc
      · exact absurd hc (List.not_mem_nil c)
      · rw [List.mem_flatMap] at hc
        obtain ⟨stripe, _, hcs⟩ := hc
        obtain ⟨hlt, hx'⟩ := renderStripe_mem _ _ _ _ _ _ _ _ _ hcs
        rw [hx] at hx'
        have : s' = stripe := by exact_mod_cast hx'
        rw [this]
        exact hlt
  refine ⟨⟨honly sp s, ?_⟩, honly⟩
  intro hlt
  unfold StripeDrawn renderSprite
  rw [hact]
  simp only [Bool.not_true, Bool.false_eq_true, if_false, if_neg (not_le.2 hfront)]
  obtain ⟨c, hc, hx⟩ := renderStripe_drawn zBuffer sp (spriteTransformY cam player sp)
    (spriteColumns screenW screenH cam player sp).1 (spriteColumns screenW screenH cam player sp).2
    (spriteRows screenH (spriteHeight screenH (spriteTransformY cam player sp) sp.type) sp.type).1
    (spriteRows screenH (spriteHeight screenH (spriteTransformY cam player sp) sp.type) sp.type).2
    s htype hlt
  refine ⟨c, ?_, hx⟩
  rw [List.mem_flatMap]
  exact ⟨s, (mem_intRange _ _ _).2 ⟨h1, h2⟩, hc⟩

theorem renderSprite_occlusion_witness :
    StripeDrawn (renderSprite 1280 720 (fun _ => 5) (camera sampleLibm sampleGame.player)
      sampleGame.player (sampleGame.sprites 0)) 640 ∧
    ¬StripeDrawn (renderSprite 1280 720 (fun _ => 1) (camera sampleLibm sampleGame.player)
      sampleGame.player (sampleGame.sprites 0)) 640 :=
  ⟨(renderSprite_occlusion 1280 720 (fun _ => 5) (camera sampleLibm sampleGame.player)
      sampleGame.player (sampleGame.sprites 0) 640 (by decide) (by decide!) (by decide)
      (by decide!) (by decide!)).1.2 (by decide!),
    fun h => absurd ((renderSprite_occlusion 1280 720 (fun _ => 1)
      (camera sampleLibm sampleGame.player) sampleGame.player (sampleGame.sprites 0) 640
      (by decide) (by decide!) (by decide) (by decide!) (by decide!)).1.1 h) (by decide!)⟩

/-! ## Rays along a corridor -/

theorem GetCellType_out (maze : Maze) (x y : Int)
    (h : ¬(x ≥ 0 ∧ x < MAZE_WIDTH ∧ y ≥ 0 ∧ y < MAZE_HEIGHT)) :
    GetCellType maze x y = CellType.Wall := by
  unfold GetCellType
  rw [if_pos]
  omega

/-- A round of the DDA loop that advances along x. -/
theorem ddaStep_x (maze : Maze) (dX dY : ℚ) (stepX stepY : Int) (st : RayState)
    (h : st.sideDistX < st.sideDistY) :
    ddaStep maze dX dY stepX stepY st =
      { mapX := st.mapX + stepX, mapY := st.mapY, sideDistX := st.sideDistX + dX,
        sideDistY := st.sideDistY,
        hit := if GetCellType maze (st.mapX + stepX) st.mapY = CellType.Wall then 1 else st.hit,
        side := some 0 } := by
  unfold ddaStep
  rw [if_pos h]
  simp only
  split
  · split
    · rfl
    · rfl
  · rename_i hout
    rw [if_pos (GetCellType_out maze _ _ hout)]

/-- A round of the DDA loop that advances along y. -/
theorem ddaStep_y (maze : Maze) (dX dY : ℚ) (stepX stepY : Int) (st : RayState)
    (h : ¬st.sideDistX < st.sideDistY) :
    ddaStep maze dX dY stepX stepY st =
      { mapX := st.mapX, mapY := st.mapY + stepY, sideDistX := st.sideDistX,
        sideDistY := st.sideDistY + dY,
        hit := if GetCellType maze st.mapX (st.mapY + stepY) = CellType.Wall then 1 else st.hit,
        side := some 1 } := by
  unfold ddaStep
  rw [if_neg h]
  simp only
  split
  · split
    · rfl
    · rfl
  · rename_i hout
    rw [if_pos (GetCellType_out maze _ _ hout)]

theorem ddaLoop_done (maze : Maze) (dX dY : ℚ) (stepX stepY : Int) (fuel : Nat)
    (st : RayState) (h : st.hit ≠ 0) : ddaLoop maze dX dY stepX stepY fuel st = some st := by
  cases fuel with
  | zero =>
    unfold ddaLoop
    rw [if_neg]
    exact fun hc => h hc.1
  | succ fuel =>
    unfold ddaLoop
    rw [if_neg]
    exact fun hc => h hc.1

/-- The DDA loop walking along x through `n` open cells to a wall, the side distance of
the y axis staying ahead. -/
theorem ddaLoop_x (maze : Maze) (dY : ℚ) (stepX stepY : Int) (S : ℚ) (mapY : Int) :
    ∀ (n : Nat) (x0 : Int) (d0 : ℚ) (side : Option Int) (fuel : Nat), n + 1 ≤ fuel →
      (∀ k : Int, 1 ≤ k → k ≤ (n : Int) →
        GetCellType maze (x0 + stepX * k) mapY ≠ CellType.Wall) →
      GetCellType maze (x0 + stepX * ((n : Int) + 1)) mapY = CellType.Wall →
      d0 + (n : ℚ) < raycastMaxDistance → d0 + (n : ℚ) < S →
      ddaLoop maze 1 dY stepX stepY fuel
        { mapX := x0, mapY := mapY, sideDistX := d0, sideDistY := S, hit := 0, side := side } =
      some { mapX := x0 + stepX * ((n : Int) + 1), mapY := mapY,
             sideDistX := d0 + (n : ℚ) + 1, sideDistY := S, hit := 1, side := some 0 } := by
  intro n
  induction n with
  | zero =>
    intro x0 d0 side fuel hf _ hwall hr hs
    obtain ⟨f, rfl⟩ : ∃ f, fuel = f + 1 := ⟨fuel - 1, by omega⟩
    simp only [Nat.cast_zero, add_zero, zero_add, mul_one] at hwall hr hs ⊢
    unfold ddaLoop
    rw [if_pos ⟨rfl, Or.inl hr⟩, ddaStep_x maze 1 dY stepX stepY _ hs]
    simp only [if_pos hwall]
    exact ddaLoop_done _ _ _ _ _ _ _ (by simp)
  | succ n ih =>
    intro x0 d0 side fuel hf hopen hwall hr hs
    obtain ⟨f, rfl⟩ : ∃ f, fuel = f + 1 := ⟨fuel - 1, by omega⟩
    have hn0 : (0 : ℚ) ≤ (n : ℚ) := Nat.cast_nonneg n
    have hcast : (((n + 1 : Nat) : Int)) = (n : Int) + 1 := by push_cast; rfl
    have hcastq : (((n + 1 : Nat) : ℚ)) = (n : ℚ) + 1 := by push_cast; rfl
    rw [hcast] at hopen hwall
    rw [hcastq] at hr hs
    have hr0 : d0 < raycastMaxDistance := by linarith
    have hs0 : d0 < S := by linarith
    have hfirst : GetCellType maze (x0 + stepX) mapY ≠ CellType.Wall := by
      have := hopen 1 (le_refl _) (by omega)
      rwa [mul_one] at this
    unfold ddaLoop
    rw [if_pos ⟨rfl, Or.inl hr0⟩, ddaStep_x maze 1 dY stepX stepY _ hs0]
    simp only [if_neg hfirst]
    have := ih (x0 + stepX) (d0 + 1) (some 0) f (by omega)
      (by
        intro k hk1 hk2
        have := hopen (k + 1) (by omega) (by omega)
        rwa [show x0 + stepX * (k + 1) = x0 + stepX + stepX * k by ring] at this)
      (by rwa [show x0 + stepX + stepX * ((n : Int) + 1) = x0 + stepX * ((n : Int) + 1 + 1) by ring])
      (by linarith) (by linarith)
    rw [this, hcast, hcastq]
    congr 2
    · ring
    · ring

/-- The DDA loop walking along y through `n` open cells to a wall, the side distance of
the x axis staying ahead. -/
theorem ddaLoop_y (maze : Maze) (dX : ℚ) (stepX stepY : Int) (S : ℚ) (mapX : Int) :
    ∀ (n : Nat) (y0 : Int) (d0 : ℚ) (side : Option Int) (fuel : Nat), n + 1 ≤ fuel →
      (∀ k : Int, 1 ≤ k → k ≤ (n : Int) →
        GetCellType maze mapX (y0 + stepY * k) ≠ CellType.Wall) →
      GetCellType maze mapX (y0 + stepY * ((n : Int) + 1)) = CellType.Wall →
      d0 + (n : ℚ) < raycastMaxDistance → d0 + (n : ℚ) < S →
      ddaLoop maze dX 1 stepX stepY fuel
        { mapX := mapX, mapY := y0, sideDistX := S, sideDistY := d0, hit := 0, side := side } =
      some { mapX := mapX, mapY := y0 + stepY * ((n : Int) + 1),
             sideDistX := S, sideDistY := d0 + (n : ℚ) + 1, hit := 1, side := some 1 } := by
  intro n
  induction n with
  | zero =>
    intro y0 d0 side fuel hf _ hwall hr hs
    obtain ⟨f, rfl⟩ : ∃ f, fuel = f + 1 := ⟨fuel - 1, by omega⟩
    simp only [Nat.cast_zero, add_zero, zero_add, mul_one] at hwall hr hs ⊢
    unfold ddaLoop
    rw [if_pos ⟨rfl, Or.inr hr⟩, ddaStep_y maze dX 1 stepX stepY _ (not_lt.2 (le_of_lt hs))]
    simp only [if_pos hwall]
    exact ddaLoop_done _ _ _ _ _ _ _ (by simp)
  | succ n ih =>
    intro y0 d0 side fuel hf hopen hwall hr hs
    obtain ⟨f, rfl⟩ : ∃ f, fuel = f + 1 := ⟨fuel - 1, by omega⟩
    have hn0 : (0 : ℚ) ≤ (n : ℚ) := Nat.cast_nonneg n
    have hcast : (((n + 1 : Nat) : Int)) = (n : Int) + 1 := by push_cast; rfl
    have hcastq : (((n + 1 : Nat) : ℚ)) = (n : ℚ) + 1 := by push_cast; rfl
    rw [hcast] at hopen hwall
    rw [hcastq] at hr hs
    have hr0 : d0 < raycastMaxDistance := by linarith
    have hs0 : d0 < S := by linarith
    have hfirst : GetCellType maze mapX (y0 + stepY) ≠ CellType.Wall := by
      have := hopen 1 (le_refl _) (by omega)
      rwa [mul_one] at this
    unfold ddaLoop
    rw [if_pos ⟨rfl, Or.inr hr0⟩, ddaStep_y maze dX 1 stepX stepY _ (not_lt.2 (le_of_lt hs0))]
    simp only [if_neg hfirst]
    have := ih (y0 + stepY) (d0 + 1) (some 1) f (by omega)
      (by
        intro k hk1 hk2
        have := hopen (k + 1) (by omega) (by omega)
        rwa [show y0 + stepY * (k + 1) = y0 + stepY + stepY * k by ring] at this)
      (by rwa [show y0 + stepY + stepY * ((n : Int) + 1) = y0 + stepY * ((n : Int) + 1 + 1) by ring])
      (by linarith) (by linarith)
    rw [this, hcast, hcastq]
    congr 2
    · ring
    · ring

/-- A ray with direction (1,0). -/
theorem castRay_east (maze : Maze) (player : Player) (m : Int) (fuel : Nat)
    (hm : truncToInt player.position.x < m)
    (hopen : ∀ c, truncToInt player.position.x < c → c < m →
      GetCellType maze c (truncToInt player.position.y) ≠ CellType.Wall)
    (hwall : GetCellType maze m (truncToInt player.position.y) = CellType.Wall)
    (hr : (m : ℚ) - player.position.x < raycastMaxDistance)
    (hs : (m : ℚ) - player.position.x <
      ((truncToInt player.position.y : ℚ) + 1 - player.position.y) * 10 ^ 30)
    (hf : (m - truncToInt player.position.x).toNat ≤ fuel) :
    castRay maze player 1 0 fuel = some ((m : ℚ) - player.position.x) := by
  have e1 : ¬(|(1 : ℚ)| < 1 / 100000) := by norm_num
  have e2 : |(0 : ℚ)| < 1 / 100000 := by norm_num
  have e3 : ¬((1 : ℚ) < 0) := by norm_num
  have e4 : ¬((0 : ℚ) < 0) := by norm_num
  have e5 : |(1 : ℚ) / 1| = 1 := by norm_num
  simp only [castRay, if_neg e1, if_pos e2, if_neg e3, if_neg e4, e5, mul_one]
  obtain ⟨n, hn⟩ : ∃ n : Nat, (n : Int) = m - truncToInt player.position.x - 1 :=
    ⟨(m - truncToInt player.position.x - 1).toNat, by omega⟩
  have hnq : (n : ℚ) = (m : ℚ) - (truncToInt player.position.x : ℚ) - 1 := by
    have : ((n : Int) : ℚ) = ((m - truncToInt player.position.x - 1 : Int) : ℚ) := by rw [hn]
    push_cast at this
    exact this
  rw [ddaLoop_x maze (10 ^ 30) 1 1 _ (truncToInt player.position.y) n
    (truncToInt player.position.x) _ none fuel (by omega)
    (by
      intro k hk1 hk2
      exact hopen _ (by omega) (by omega))
    (by rw [show truncToInt player.position.x + 1 * ((n : Int) + 1) = m by omega]; exact hwall)
    (by rw [hnq]; linarith) (by rw [hnq]; linarith)]
  simp only [Option.some_bind, if_pos]
  rw [show truncToInt player.position.x + 1 * ((n : Int) + 1) = m by omega]
  norm_num

/-- A ray with direction (-1,0). -/
theorem castRay_west (maze : Maze) (player : Player) (m : Int) (fuel : Nat)
    (hm : m < truncToInt player.position.x)
    (hopen : ∀ c, m < c → c < truncToInt player.position.x →
      GetCellType maze c (truncToInt player.position.y) ≠ CellType.Wall)
    (hwall : GetCellType maze m (truncToInt player.position.y) = CellType.Wall)
    (hr : player.position.x - ((m : ℚ) + 1) < raycastMaxDistance)
    (hs : player.position.x - ((m : ℚ) + 1) <
      ((truncToInt player.position.y : ℚ) + 1 - player.position.y) * 10 ^ 30)
    (hf : (truncToInt player.position.x - m).toNat ≤ fuel) :
    castRay maze player (-1) 0 fuel = some (player.position.x - ((m : ℚ) + 1)) := by
  have e1 : ¬(|(-1 : ℚ)| < 1 / 100000) := by norm_num
  have e2 : |(0 : ℚ)| < 1 / 100000 := by norm_num
  have e3 : (-1 : ℚ) < 0 := by norm_num
  have e4 : ¬((0 : ℚ) < 0) := by norm_num
  have e5 : |(1 : ℚ) / -1| = 1 := by norm_num
  simp only [castRay, if_neg e1, if_pos e2, if_pos e3, if_neg e4, e5, mul_one]
  obtain ⟨n, hn⟩ : ∃ n : Nat, (n : Int) = truncToInt player.position.x - m - 1 :=
    ⟨(truncToInt player.position.x - m - 1).toNat, by omega⟩
  have hnq : (n : ℚ) = (truncToInt player.position.x : ℚ) - (m : ℚ) - 1 := by
    have : ((n : Int) : ℚ) = ((truncToInt player.position.x - m - 1 : Int) : ℚ) := by rw [hn]
    push_cast at this
    exact this
  rw [ddaLoop_x maze (10 ^ 30) (-1) 1 _ (truncToInt player.position.y) n
    (truncToInt player.position.x) _ none fuel (by omega)
    (by
      intro k hk1 hk2
      exact hopen _ (by omega) (by omega))
    (by rw [show truncToInt player.position.x + -1 * ((n : Int) + 1) = m by omega]; exact hwall)
    (by rw [hnq]; linarith) (by rw [hnq]; linarith)]
  simp only [Option.some_bind, if_pos]
  rw [show truncToInt player.position.x + -1 * ((n : Int) + 1) = m by omega]
  norm_num
  ring

/-- A ray with direction (0,1). -/
theorem castRay_south (maze : Maze) (player : Player) (m : Int) (fuel : Nat)
    (hm : truncToInt player.position.y < m)
    (hopen : ∀ c, truncToInt player.position.y < c → c < m →
      GetCellType maze (truncToInt player.position.x) c ≠ CellType.Wall)
    (hwall : GetCellType maze (truncToInt player.position.x) m = CellType.Wall)
    (hr : (m : ℚ) - player.position.y < raycastMaxDistance)
    (hs : (m : ℚ) - player.position.y <
      ((truncToInt player.position.x : ℚ) + 1 - player.position.x) * 10 ^ 30)
    (hf : (m - truncToInt player.position.y).toNat ≤ fuel) :
    castRay maze player 0 1 fuel = some ((m : ℚ) - player.position.y) := by
  have e1 : ¬(|(1 : ℚ)| < 1 / 100000) := by norm_num
  have e2 : |(0 : ℚ)| < 1 / 100000 := by norm_num
  have e3 : ¬((1 : ℚ) < 0) := by norm_num
  have e4 : ¬((0 : ℚ) < 0) := by norm_num
  have e5 : |(1 : ℚ) / 1| = 1 := by norm_num
  simp only [castRay, if_neg e1, if_pos e2, if_neg e3, if_neg e4, e5, mul_one]
  obtain ⟨n, hn⟩ : ∃ n : Nat, (n : Int) = m - truncToInt player.position.y - 1 :=
    ⟨(m - truncToInt player.position.y - 1).toNat, by omega⟩
  have hnq : (n : ℚ) = (m : ℚ) - (truncToInt player.position.y : ℚ) - 1 := by
    have : ((n : Int) : ℚ) = ((m - truncToInt player.position.y - 1 : Int) : ℚ) := by rw [hn]
    push_cast at this
    exact this
  rw [ddaLoop_y maze (10 ^ 30) 1 1 _ (truncToInt player.position.x) n
    (truncToInt player.position.y) _ none fuel (by omega)
    (by
      intro k hk1 hk2
      exact hopen _ (by omega) (by omega))
    (by rw [show truncToInt player.position.y + 1 * ((n : Int) + 1) = m by omega]; exact hwall)
    (by rw [hnq]; linarith) (by rw [hnq]; linarith)]
  simp only [Option.some_bind]
  rw [show truncToInt player.position.y + 1 * ((n : Int) + 1) = m by omega]
  norm_num

/-- A ray with direction (0,-1). -/
theorem castRay_north (maze : Maze) (player : Player) (m : Int) (fuel : Nat)
    (hm : m < truncToInt player.position.y)
    (hopen : ∀ c, m < c → c < truncToInt player.position.y →
      GetCellType maze (truncToInt player.position.x) c ≠ CellType.Wall)
    (hwall : GetCellType maze (truncToInt player.position.x) m = CellType.Wall)
    (hr : player.position.y - ((m : ℚ) + 1) < raycastMaxDistance)
    (hs : player.position.y - ((m : ℚ) + 1) <
      ((truncToInt player.position.x : ℚ) + 1 - player.position.x) * 10 ^ 30)
    (hf : (truncToInt player.position.y - m).toNat ≤ fuel) :
    castRay maze player 0 (-1) fuel = some (player.position.y - ((m : ℚ) + 1)) := by
  have e1 : ¬(|(-1 : ℚ)| < 1 / 100000) := by norm_num
  have e2 : |(0 : ℚ)| < 1 / 100000 := by norm_num
  have e3 : (-1 : ℚ) < 0 := by norm_num
  have e4 : ¬((0 : ℚ) < 0) := by norm_num
  have e5 : |(1 : ℚ) / -1| = 1 := by norm_num
  simp only [castRay, if_neg e1, if_pos e2, if_pos e3, if_neg e4, e5, mul_one]
  obtain ⟨n, hn⟩ : ∃ n : Nat, (n : Int) = truncToInt player.position.y - m - 1 :=
    ⟨(truncToInt player.position.y - m - 1).toNat, by omega⟩
  have hnq : (n : ℚ) = (truncToInt player.position.y : ℚ) - (m : ℚ) - 1 := by
    have : ((n : Int) : ℚ) = ((truncToInt player.position.y - m - 1 : Int) : ℚ) := by rw [hn]
    push_cast at this
    exact this
  rw [ddaLoop_y maze (10 ^ 30) 1 (-1) _ (truncToInt player.position.x) n
    (truncToInt player.position.y) _ none fuel (by omega)
    (by
      intro k hk1 hk2
      exact hopen _ (by omega) (by omega))
    (by rw [show truncToInt player.position.y + -1 * ((n : Int) + 1) = m by omega]; exact hwall)
    (by rw [hnq]; linarith) (by rw [hnq]; linarith)]
  simp only [Option.some_bind]
  rw [show truncToInt player.position.y + -1 * ((n : Int) + 1) = m by omega]
  norm_num
  ring

/-- A `float` lies at least `2^-24` below the next cell boundary `(int)q + 1`. -/
theorem float32_gap (q : ℚ) (h : isFloat32 q) :
    1 / 2 ^ 24 ≤ (truncToInt q : ℚ) + 1 - q := by
  by_cases hq : 0 ≤ q
  · unfold truncToInt
    rw [if_pos hq]
    change 1 / 2 ^ 24 ≤ ((⌊q⌋ : Int) : ℚ) + 1 - q
    have hlt : q < (⌊q⌋ : ℚ) + 1 := Int.lt_floor_add_one q
    obtain ⟨m, k, hm, ⟨_, hk⟩ | ⟨_, hk⟩⟩ := h
    · have hint : q = ((m * 2 ^ k : Int) : ℚ) := by rw [hk]; push_cast; rfl
      rw [hint, Int.floor_intCast]
      norm_num
    · by_cases hk24 : k ≤ 24
      · have hpos : (0 : ℚ) < 2 ^ k := by positivity
        have hN : q * 2 ^ 24 = ((m * 2 ^ (24 - k) : Int) : ℚ) := by
          rw [hk]
          push_cast
          have : (2 : ℚ) ^ 24 = 2 ^ k * 2 ^ (24 - k) := by
            rw [← pow_add]
            congr 1
            omega
          rw [this]
          field_simp
          ring
        have hgap : (0 : ℚ) < (((⌊q⌋ + 1) * 2 ^ 24 - m * 2 ^ (24 - k) : Int) : ℚ) := by
          push_cast
          have := hN
          push_cast at this
          rw [← this]
          nlinarith
        have h1 : (1 : Int) ≤ (⌊q⌋ + 1) * 2 ^ 24 - m * 2 ^ (24 - k) := by
          have : (0 : Int) < (⌊q⌋ + 1) * 2 ^ 24 - m * 2 ^ (24 - k) := by exact_mod_cast hgap
          omega
        have h2 : (1 : ℚ) ≤ (((⌊q⌋ + 1) * 2 ^ 24 - m * 2 ^ (24 - k) : Int) : ℚ) := by
          exact_mod_cast h1
        push_cast at h2
        have := hN
        push_cast at this
        rw [← this] at h2
        rw [div_le_iff₀ (by norm_num)]
        linarith
      · have hk25 : 25 ≤ k := by omega
        have hpow : (2 : ℚ) ^ 25 ≤ 2 ^ k := pow_le_pow_right₀ (by norm_num) hk25
        have hmq : (m : ℚ) < 2 ^ 24 := by
          have : m < 2 ^ 24 := lt_of_le_of_lt (le_abs_self m) hm
          exact_mod_cast this
        have hpos : (0 : ℚ) < 2 ^ k := by positivity
        have hhalf : q < 1 / 2 := by
          rw [hk, div_lt_iff₀ hpos]
          linarith
        have hfl : ⌊q⌋ = 0 := by
          rw [Int.floor_eq_iff]
          constructor
          · simpa using hq
          · norm_num; linarith
        rw [hfl]
        norm_num
        linarith
  · unfold truncToInt
    rw [if_neg hq]
    change 1 / 2 ^ 24 ≤ ((-⌊-q⌋ : Int) : ℚ) + 1 - q
    have := Int.floor_le (-q)
    push_cast
    have h1 : (1 : ℚ) / 2 ^ 24 ≤ 1 := by norm_num
    linarith

/-- The side distance the code gives the axis of a zero direction component,
`(next cell boundary - coordinate) * 1e30`, lies beyond the cast range for a `float`
coordinate. -/
theorem float32_sentinel (q d : ℚ) (h : isFloat32 q) (hd : d < raycastMaxDistance) :
    d < ((truncToInt q : ℚ) + 1 - q) * 10 ^ 30 := by
  have hg := float32_gap q h
  have h20 : d < 20 := hd
  have : (20 : ℚ) ≤ 1 / 2 ^ 24 * 10 ^ 30 := by norm_num
  have h2 : (1 : ℚ) / 2 ^ 24 * 10 ^ 30 ≤ ((truncToInt q : ℚ) + 1 - q) * 10 ^ 30 :=
    mul_le_mul_of_nonneg_right hg (by norm_num)
  linarith

/-- Why the coordinate has to be a `float`: in the maze `twoCorridors`, at
(3/2, 2 - 10^-30), a height no `float` holds, the ray along (1,0) has the side distance
10^-30 * 10^30 = 1 on the y axis, so the second round of the DDA steps into row 2 and
the ray ends on the wall x = 6 of that row, at 9/2 instead of 5/2. -/
theorem RenderRaycasting_sentinel_step :
    ¬isFloat32 (corridorGame (3 / 2) (2 - 1 / 10 ^ 30)).player.position.y ∧
    rayDirection (camera sampleLibm (corridorGame (3 / 2) (2 - 1 / 10 ^ 30)).player) 1280 640 =
      (1, 0) ∧
    truncToInt (corridorGame (3 / 2) (2 - 1 / 10 ^ 30)).player.position.x = 1 ∧
    truncToInt (corridorGame (3 / 2) (2 - 1 / 10 ^ 30)).player.position.y = 1 ∧
    GetCellType twoCorridors 4 1 = CellType.Wall ∧
    RenderRaycasting sampleLibm 1280 (corridorGame (3 / 2) (2 - 1 / 10 ^ 30)) 20 640 =
      some (9 / 2) := by
  refine ⟨fun h => ?_, by decide!, by decide!, by decide!, by decide!, by decide!⟩
  have hg := float32_gap _ h
  have ey : truncToInt (corridorGame (3 / 2) (2 - 1 / 10 ^ 30)).player.position.y = 1 := by
    decide!
  rw [ey] at hg
  simp only [corridorGame, playerAt] at hg
  norm_num at hg

/-- C10: for a ray with direction exactly (1,0), (-1,0), (0,1) or (0,-1), cast from a
player whose coordinate on the other axis is a value of the C type `float`, with every
cell between the player's cell and the cell `m` on the ray's axis open, the cell `m` a
wall and its near face within the cast range, `RenderRaycasting` ends (given the fuel
for the cells on the way) and stores in the depth buffer exactly the distance from the
player to the near face of that wall: `m - px`, `px - (m+1)`, `m - py`, `py - (m+1)`. -/
theorem RenderRaycasting_corridor (lm : Libm) (screenWidth : Int) (g : Game) (fuel : Nat)
    (x m : Int) :
    (rayDirection (camera lm g.player) screenWidth x = (1, 0) →
      isFloat32 g.player.position.y →
      truncToInt g.player.position.x < m →
      (∀ c, truncToInt g.player.position.x < c → c < m →
        GetCellType g.gameMaze c (truncToInt g.player.position.y) ≠ CellType.Wall) →
      GetCellType g.gameMaze m (truncToInt g.player.position.y) = CellType.Wall →
      (m : ℚ) - g.player.position.x < raycastMaxDistance →
      (m - truncToInt g.player.position.x).toNat ≤ fuel →
      RenderRaycasting lm screenWidth g fuel x = some ((m : ℚ) - g.player.position.x)) ∧
    (rayDirection (camera lm g.player) screenWidth x = (-1, 0) →
      isFloat32 g.player.position.y →
      m < truncToInt g.player.position.x →
      (∀ c, m < c → c < truncToInt g.player.position.x →
        GetCellType g.gameMaze c (truncToInt g.player.position.y) ≠ CellType.Wall) →
      GetCellType g.gameMaze m (truncToInt g.player.position.y) = CellType.Wall →
      g.player.position.x - ((m : ℚ) + 1) < raycastMaxDistance →
      (truncToInt g.player.position.x - m).toNat ≤ fuel →
      RenderRaycasting lm screenWidth g fuel x =
        some (g.player.position.x - ((m : ℚ) + 1))) ∧
    (rayDirection (camera lm g.player) screenWidth x = (0, 1) →
      isFloat32 g.player.position.x →
      truncToInt g.player.position.y < m →
      (∀ c, truncToInt g.player.position.y < c → c < m →
        GetCellType g.gameMaze (truncToInt g.player.position.x) c ≠ CellType.Wall) →
      GetCellType g.gameMaze (truncToInt g.player.position.x) m = CellType.Wall →
      (m : ℚ) - g.player.position.y < raycastMaxDistance →
      (m - truncToInt g.player.position.y).toNat ≤ fuel →
      RenderRaycasting lm screenWidth g fuel x = some ((m : ℚ) - g.player.position.y)) ∧
    (rayDirection (camera lm g.player) screenWidth x = (0, -1) →
      isFloat32 g.player.position.x →
      m < truncToInt g.player.position.y →
      (∀ c, m < c → c < truncToInt g.player.position.y →
        GetCellType g.gameMaze (truncToInt g.player.position.x) c ≠ CellType.Wall) →
      GetCellType g.gameMaze (truncToInt g.player.position.x) m = CellType.Wall →
      g.player.position.y - ((m : ℚ) + 1) < raycastMaxDistance →
      (truncToInt g.player.position.y - m).toNat ≤ fuel →
      RenderRaycasting lm screenWidth g fuel x =
        some (g.player.position.y - ((m : ℚ) + 1))) := by
  refine ⟨?_, ?_, ?_, ?_⟩
  · intro hd hfl h1 h2 h3 h4 h6
    unfold RenderRaycasting
    rw [hd]
    exact castRay_east g.gameMaze g.player m fuel h1 h2 h3 h4 (float32_sentinel _ _ hfl h4) h6
  · intro hd hfl h1 h2 h3 h4 h6
    unfold RenderRaycasting
    rw [hd]
    exact castRay_west g.gameMaze g.player m fuel h1 h2 h3 h4 (float32_sentinel _ _ hfl h4) h6
  · intro hd hfl h1 h2 h3 h4 h6
    unfold RenderRaycasting
    rw [hd]
    exact castRay_south g.gameMaze g.player m fuel h1 h2 h3 h4 (float32_sentinel _ _ hfl h4) h6
  · intro hd hfl h1 h2 h3 h4 h6
    unfold RenderRaycasting
    rw [hd]
    exact castRay_north g.gameMaze g.player m fuel h1 h2 h3 h4 (float32_sentinel _ _ hfl h4) h6

theorem twoCorridors_row1 (c : Int) (h1 : 1 < c) (h2 : c < 4) :
    GetCellType twoCorridors c 1 ≠ CellType.Wall := by
  interval_cases c <;> decide

theorem twoCorridors_row1_west (c : Int) (h1 : 0 < c) (h2 : c < 3) :
    GetCellType twoCorridors c 1 ≠ CellType.Wall := by
  interval_cases c <;> decide

theorem twoCorridors_col1 (c : Int) (h1 : 1 < c) (h2 : c < 3) :
    GetCellType twoCorridors 1 c ≠ CellType.Wall := by
  interval_cases c
  decide

theorem twoCorridors_col1_north (c : Int) (h1 : 0 < c) (h2 : c < 2) :
    GetCellType twoCorridors 1 c ≠ CellType.Wall := by
  interval_cases c
  decide

/-- The coordinates 3/2 = 3 / 2^1 used below are values of `float`. -/
theorem isFloat32_three_halves : isFloat32 (3 / 2) :=
  ⟨3, 1, by norm_num, Or.inr ⟨by norm_num, by norm_num⟩⟩

theorem RenderRaycasting_corridor_witness :
    RenderRaycasting (axisLibm 1 0) 1280 (corridorGame (3 / 2) (3 / 2)) 20 640 = some (4 - 3 / 2) ∧
    RenderRaycasting (axisLibm (-1) 0) 1280 (corridorGame (7 / 2) (3 / 2)) 20 640 =
      some (7 / 2 - (0 + 1)) ∧
    RenderRaycasting (axisLibm 0 1) 1280 (corridorGame (3 / 2) (3 / 2)) 20 640 = some (3 - 3 / 2) ∧
    RenderRaycasting (axisLibm 0 (-1)) 1280 (corridorGame (3 / 2) (5 / 2)) 20 640 =
      some (5 / 2 - (0 + 1)) := by
  have ex1 : truncToInt (corridorGame (3 / 2) (3 / 2)).player.position.x = 1 := by decide!
  have ey1 : truncToInt (corridorGame (3 / 2) (3 / 2)).player.position.y = 1 := by decide!
  have ex2 : truncToInt (corridorGame (7 / 2) (3 / 2)).player.position.x = 3 := by decide!
  have ey2 : truncToInt (corridorGame (7 / 2) (3 / 2)).player.position.y = 1 := by decide!
  have ex4 : truncToInt (corridorGame (3 / 2) (5 / 2)).player.position.x = 1 := by decide!
  have ey4 : truncToInt (corridorGame (3 / 2) (5 / 2)).player.position.y = 2 := by decide!
  refine ⟨?_, ?_, ?_, ?_⟩
  · have h := (RenderRaycasting_corridor (axisLibm 1 0) 1280 (corridorGame (3 / 2) (3 / 2)) 20
      640 4).1 (by decide!) isFloat32_three_halves (by decide!)
      (by rw [ex1, ey1]; exact twoCorridors_row1) (by decide!) (by decide!) (by decide!)
    simpa [corridorGame, playerAt] using h
  · have h := (RenderRaycasting_corridor (axisLibm (-1) 0) 1280 (corridorGame (7 / 2) (3 / 2)) 20
      640 0).2.1 (by decide!) isFloat32_three_halves (by decide!)
      (by rw [ex2, ey2]; exact twoCorridors_row1_west) (by decide!) (by decide!) (by decide!)
    simpa [corridorGame, playerAt] using h
  · have h := (RenderRaycasting_corridor (axisLibm 0 1) 1280 (corridorGame (3 / 2) (3 / 2)) 20
      640 3).2.2.1 (by decide!) isFloat32_three_halves (by decide!)
      (by rw [ex1, ey1]; exact twoCorridors_col1) (by decide!) (by decide!) (by decide!)
    simpa [corridorGame, playerAt] using h
  · have h := (RenderRaycasting_corridor (axisLibm 0 (-1)) 1280 (corridorGame (3 / 2) (5 / 2)) 20
      640 0).2.2.2 (by decide!) isFloat32_three_halves (by decide!)
      (by rw [ex4, ey4]; exact twoCorridors_col1_north) (by decide!) (by decide!) (by decide!)
    simpa [corridorGame, playerAt] using h

/-! ## Grid and world coordinates -/

theorem truncToInt_cell (n : Int) (q : ℚ) (hn : 0 ≤ n) (h1 : (n : ℚ) ≤ q)
    (h2 : q < (n : ℚ) + 1) : truncToInt q = n := by
  have hq : (0 : ℚ) ≤ q := le_trans (by exact_mod_cast hn) h1
  unfold truncToInt
  rw [if_pos hq]
  change ⌊q⌋ = n
  rw [Int.floor_eq_iff]
  exact ⟨h1, h2⟩

/-- C19, as the code has it: `WorldToGrid` does not undo `GridToWorld`; for the cell
(1,1) it returns the centre (1.5, 1.5) of the cell, not the cell. -/
theorem WorldToGrid_keeps_offset :
    WorldToGrid (GridToWorld 1 1) = { x := 3 / 2, y := 3 / 2 } ∧
    WorldToGrid (GridToWorld 1 1) ≠ { x := 1, y := 1 } := by
  constructor
  · simp only [WorldToGrid, GridToWorld, GRID_SCALE]
    norm_num
  · simp only [WorldToGrid, GridToWorld, GRID_SCALE]
    norm_num

/-- C19, amended: `GridToWorld(gx, gy)` is `(gx + 0.5, gy + 0.5)`; `WorldToGrid` only
divides by `GRID_SCALE = 1`, so it returns its argument; the cell comes back when the
result is converted to `int`, as every caller does, for `gx, gy >= 0`. -/
theorem GridToWorld_WorldToGrid (gx gy : Int) (hx : 0 ≤ gx) (hy : 0 ≤ gy) :
    GridToWorld gx gy = { x := (gx : ℚ) + 1 / 2, y := (gy : ℚ) + 1 / 2 } ∧
    WorldToGrid (GridToWorld gx gy) = GridToWorld gx gy ∧
    truncToInt (WorldToGrid (GridToWorld gx gy)).x = gx ∧
    truncToInt (WorldToGrid (GridToWorld gx gy)).y = gy := by
  have h0 : GridToWorld gx gy = { x := (gx : ℚ) + 1 / 2, y := (gy : ℚ) + 1 / 2 } := by
    simp only [GridToWorld, GRID_SCALE]
    norm_num
  have h1 : ∀ p : Vector2, WorldToGrid p = p := by
    intro p
    simp only [WorldToGrid, GRID_SCALE, div_one]
  refine ⟨h0, h1 _, ?_, ?_⟩
  · rw [h1, h0]
    exact truncToInt_cell gx _ hx (by simp) (by simp; norm_num)
  · rw [h1, h0]
    exact truncToInt_cell gy _ hy (by simp) (by simp; norm_num)

theorem GridToWorld_WorldToGrid_witness :
    GridToWorld 13 7 = { x := (13 : ℚ) + 1 / 2, y := (7 : ℚ) + 1 / 2 } ∧
    WorldToGrid (GridToWorld 13 7) = GridToWorld 13 7 ∧
    truncToInt (WorldToGrid (GridToWorld 13 7)).x = 13 ∧
    truncToInt (WorldToGrid (GridToWorld 13 7)).y = 7 := by
  have h := GridToWorld_WorldToGrid 13 7 (by decide) (by decide)
  exact_mod_cast h

/-! ## Ticks outside play -/

/-- C20: a tick of `UpdateGame` in `GAME_TITLE` or `GAME_PAUSED` returns, and changes
at most `currentState`, to `GAME_PLAYING`, and only when ENTER (title) or P (pause) is
pressed; every other variable, the `rand()` counter included, is as before.  A tick in
`GAME_VICTORY` or `GAME_OVER` without R pressed changes nothing. -/
theorem UpdateGame_idle (env : Env) (inp : Input) (fuel : Nat) (s : Game × Nat) :
    (s.1.currentState = GameState.GAME_TITLE →
      UpdateGame env inp fuel s =
        some (if inp.enterPressed = true
          then ({ s.1 with currentState := GameState.GAME_PLAYING }, s.2) else s)) ∧
    (s.1.currentState = GameState.GAME_PAUSED →
      UpdateGame env inp fuel s =
        some (if inp.pPressed = true
          then ({ s.1 with currentState := GameState.GAME_PLAYING }, s.2) else s)) ∧
    ((s.1.currentState = GameState.GAME_VICTORY ∨ s.1.currentState = GameState.GAME_OVER) →
      inp.rPressed = false → UpdateGame env inp fuel s = some s) := by
  refine ⟨fun h => ?_, fun h => ?_, fun h hr => ?_⟩
  · unfold UpdateGame
    rw [h]
    simp only
    split <;> rfl
  · unfold UpdateGame
    rw [h]
    simp only
    split <;> rfl
  · unfold UpdateGame
    rcases h with h | h <;> rw [h] <;> simp [hr]

theorem UpdateGame_idle_witness :
    UpdateGame playEnv { idleInput (1 / 60) with enterPressed := true } 0
        ({ sampleGame with currentState := GameState.GAME_TITLE }, 0) =
      some ({ sampleGame with currentState := GameState.GAME_PLAYING }, 0) ∧
    UpdateGame playEnv (idleInput (1 / 60)) 0
        ({ sampleGame with currentState := GameState.GAME_PAUSED }, 0) =
      some ({ sampleGame with currentState := GameState.GAME_PAUSED }, 0) ∧
    UpdateGame playEnv (idleInput (1 / 60)) 0 (wonGame, 0) = some (wonGame, 0) :=
  ⟨(UpdateGame_idle playEnv { idleInput (1 / 60) with enterPressed := true } 0
      ({ sampleGame with currentState := GameState.GAME_TITLE }, 0)).1 rfl,
    (UpdateGame_idle playEnv (idleInput (1 / 60)) 0
      ({ sampleGame with currentState := GameState.GAME_PAUSED }, 0)).2.1 rfl,
    (UpdateGame_idle playEnv (idleInput (1 / 60)) 0 (wonGame, 0)).2.2 (Or.inl rfl) rfl⟩

/-! ## Loops over the arrays -/

theorem foldl_inv {α β : Type} (P : α → Prop) (f : α → β → α) :
    ∀ (l : List β) (a : α), P a → (∀ a b, b ∈ l → P a → P (f a b)) → P (l.foldl f a) := by
  intro l
  induction l with
  | nil => intro a h _; exact h
  | cons b l ih =>
    intro a h hs
    rw [List.foldl_cons]
    exact ih _ (hs a b (List.mem_cons_self _ _) h)
      (fun a' b' hb' => hs a' b' (List.mem_cons_of_mem _ hb'))

theorem intRange_nodup (lo hi : Int) : (intRange lo hi).Nodup :=
  (intRange_pairwise lo hi).imp (fun h => ne_of_lt h)

theorem arrSet_same {α : Type} (a : Int → α) (i : Int) (v : α) : arrSet a i v i = v := by
  simp [arrSet]

theorem arrSet_other {α : Type} (a : Int → α) (i k : Int) (v : α) (h : k ≠ i) :
    arrSet a i v k = a k := by
  simp [arrSet, h]

/-! ## The player's attack -/

theorem attackEnemy_frame (env : Env) (g : Game) (i : Int) :
    (attackEnemy env g i).player = g.player ∧
    (attackEnemy env g i).gameMaze = g.gameMaze ∧
    (attackEnemy env g i).currentState = g.currentState ∧
    (attackEnemy env g i).sprites = g.sprites ∧
    (attackEnemy env g i).spriteCount = g.spriteCount ∧
    (attackEnemy env g i).enemyCount = g.enemyCount ∧
    (attackEnemy env g i).exitDoor = g.exitDoor ∧
    (attackEnemy env g i).katanaAnim = g.katanaAnim ∧
    (attackEnemy env g i).showExitMessage = g.showExitMessage ∧
    (attackEnemy env g i).exitMessageTimer = g.exitMessageTimer ∧
    ∀ k, k ≠ i → (attackEnemy env g i).enemies k = g.enemies k := by
  unfold attackEnemy
  simp only
  split_ifs <;> simp [arrSet]
  all_goals intro k hk; simp [hk]

theorem attackEnemy_congr (env : Env) (g g1 : Game) (i : Int) (hp : g1.player = g.player)
    (hm : g1.gameMaze = g.gameMaze) (he : g1.enemies i = g.enemies i) :
    (attackEnemy env g1 i).enemies i = (attackEnemy env g i).enemies i := by
  unfold attackEnemy
  simp only [hp, hm, he]
  split_ifs <;> simp [arrSet, he]

/-- What `CheckPlayerAttacks` does to one enemy: nothing, or a hit. -/
theorem attackEnemy_cases (env : Env) (g : Game) (i : Int) :
    (attackEnemy env g i).enemies i = g.enemies i ∨
    ((g.enemies i).active = true ∧ (g.enemies i).isDying = false ∧
      ((attackEnemy env g i).enemies i).health = (g.enemies i).health - PLAYER_ATTACK_DAMAGE ∧
      ((attackEnemy env g i).enemies i).active = true ∧
      (((attackEnemy env g i).enemies i).health ≤ 0 →
        ((attackEnemy env g i).enemies i).isDying = true ∧
        ((attackEnemy env g i).enemies i).anim.currentAnim = ANIM_DEATH ∧
        ((attackEnemy env g i).enemies i).anim.currentFrame = 0 ∧
        ((attackEnemy env g i).enemies i).anim.loop = false) ∧
      (0 < ((attackEnemy env g i).enemies i).health →
        ((attackEnemy env g i).enemies i).isDying = false)) := by
  unfold attackEnemy
  simp only
  by_cases h1 : (g.enemies i).active = false ∨ (g.enemies i).isDying = true
  · rw [if_pos h1]; exact Or.inl rfl
  · rw [if_neg h1]
    have ha : (g.enemies i).active = true := by
      cases h : (g.enemies i).active
      · exact absurd (Or.inl h) h1
      · rfl
    have hd : (g.enemies i).isDying = false := by
      cases h : (g.enemies i).isDying
      · rfl
      · exact absurd (Or.inr h) h1
    split_ifs
    all_goals first
      | exact Or.inl rfl
      | (right
         simp only [arrSet_same]
         refine ⟨ha, hd, ?_, ?_, fun h => ?_, fun h => ?_⟩
         · trivial
         · trivial
         · first
             | exact absurd h ‹_›
             | simp
         · first
             | exact hd
             | exact absurd h (not_lt.2 ‹_›))

theorem attackLoop_frame (env : Env) (g : Game) :
    ∀ (l : List Int), l.Nodup →
      (l.foldl (attackEnemy env) g).player = g.player ∧
      (l.foldl (attackEnemy env) g).gameMaze = g.gameMaze ∧
      (l.foldl (attackEnemy env) g).currentState = g.currentState ∧
      (l.foldl (attackEnemy env) g).sprites = g.sprites ∧
      (l.foldl (attackEnemy env) g).spriteCount = g.spriteCount ∧
      (l.foldl (attackEnemy env) g).enemyCount = g.enemyCount ∧
      (l.foldl (attackEnemy env) g).exitDoor = g.exitDoor ∧
      (l.foldl (attackEnemy env) g).katanaAnim = g.katanaAnim ∧
      (l.foldl (attackEnemy env) g).showExitMessage = g.showExitMessage ∧
      (l.foldl (attackEnemy env) g).exitMessageTimer = g.exitMessageTimer ∧
      ∀ k, (l.foldl (attackEnemy env) g).enemies k =
        if k ∈ l then (attackEnemy env g k).enemies k else g.enemies k := by
  intro l
  induction l using List.reverseRecOn with
  | nil => intro _; simp
  | append_singleton l i ih =>
    intro hnd
    have hnd' := List.nodup_append.1 hnd
    obtain ⟨h1, h2, h3, h4, h5, h6, h7, h8, h9, h10, h11⟩ := ih hnd'.1
    have hi : i ∉ l := fun hm => hnd'.2.2 hm (List.mem_singleton_self i)
    rw [List.foldl_append, List.foldl_cons, List.foldl_nil]
    obtain ⟨f1, f2, f3, f4, f5, f6, f7, f8, f9, f10, f11⟩ :=
      attackEnemy_frame env (l.foldl (attackEnemy env) g) i
    refine ⟨f1.trans h1, f2.trans h2, f3.trans h3, f4.trans h4, f5.trans h5, f6.trans h6,
      f7.trans h7, f8.trans h8, f9.trans h9, f10.trans h10, fun k => ?_⟩
    by_cases hk : k = i
    · subst hk
      rw [if_pos (by simp)]
      refine attackEnemy_congr env g _ k h1 h2 ?_
      rw [h11 k, if_neg hi]
    · rw [f11 k hk, h11 k]
      by_cases hkl : k ∈ l
      · rw [if_pos hkl, if_pos (by simp [hkl])]
      · rw [if_neg hkl, if_neg (by simp [hkl, hk])]

/-- `CheckPlayerAttacks` changes the enemies only; the enemy `k` comes out as the body
of the loop for `k` leaves it, when the weapon is swinging and `k` is in use. -/
theorem CheckPlayerAttacks_frame (env : Env) (g : Game) :
    (CheckPlayerAttacks env g).player = g.player ∧
    (CheckPlayerAttacks env g).gameMaze = g.gameMaze ∧
    (CheckPlayerAttacks env g).currentState = g.currentState ∧
    (CheckPlayerAttacks env g).sprites = g.sprites ∧
    (CheckPlayerAttacks env g).spriteCount = g.spriteCount ∧
    (CheckPlayerAttacks env g).enemyCount = g.enemyCount ∧
    (CheckPlayerAttacks env g).exitDoor = g.exitDoor ∧
    (CheckPlayerAttacks env g).katanaAnim = g.katanaAnim ∧
    (CheckPlayerAttacks env g).showExitMessage = g.showExitMessage ∧
    (CheckPlayerAttacks env g).exitMessageTimer = g.exitMessageTimer ∧
    ∀ k, (CheckPlayerAttacks env g).enemies k =
      if g.katanaAnim.isSwinging = true ∧ 0 ≤ k ∧ k < g.enemyCount
      then (attackEnemy env g k).enemies k else g.enemies k := by
  unfold CheckPlayerAttacks
  by_cases hs : g.katanaAnim.isSwinging = false
  · rw [if_pos hs]
    simp [hs]
  · rw [if_neg hs]
    have hs' : g.katanaAnim.isSwinging = true := by
      cases h : g.katanaAnim.isSwinging
      · exact absurd h hs
      · rfl
    obtain ⟨h1, h2, h3, h4, h5, h6, h7, h8, h9, h10, h11⟩ :=
      attackLoop_frame env g (intRange 0 g.enemyCount) (intRange_nodup _ _)
    refine ⟨h1, h2, h3, h4, h5, h6, h7, h8, h9, h10, fun k => ?_⟩
    rw [h11 k]
    simp only [mem_intRange, hs', true_and]

/-- `CheckPlayerAttacks` leaves an enemy that is inactive or dying as it is. -/
theorem CheckPlayerAttacks_skip (env : Env) (g : Game) (k : Int)
    (hskip : (g.enemies k).active = false ∨ (g.enemies k).isDying = true) :
    (CheckPlayerAttacks env g).enemies k = g.enemies k := by
  have hk := (CheckPlayerAttacks_frame env g).2.2.2.2.2.2.2.2.2.2 k
  have hc := attackEnemy_cases env g k
  rw [hk]
  split_ifs
  · rcases hc with hc | ⟨ha, hd, _⟩
    · exact hc
    · rcases hskip with h | h
      · rw [ha] at h; exact absurd h (by decide)
      · rw [hd] at h; exact absurd h (by decide)
  · rfl

/-- C12: in `CheckPlayerAttacks`, an enemy that is inactive or already dying is left
as it is (its health included); an active enemy that is not dying is either left as
it is or takes the damage `PLAYER_ATTACK_DAMAGE`, stays active, and within the same
call is marked dying and put on frame 0 of the death animation with `loop = false`
when its health has dropped to 0 or below, and is not marked dying when its health
stays positive. -/
theorem CheckPlayerAttacks_hit (env : Env) (g : Game) (k : Int) :
    (((g.enemies k).active = false ∨ (g.enemies k).isDying = true) →
      (CheckPlayerAttacks env g).enemies k = g.enemies k) ∧
    ((CheckPlayerAttacks env g).enemies k = g.enemies k ∨
      ((g.enemies k).active = true ∧ (g.enemies k).isDying = false ∧
        ((CheckPlayerAttacks env g).enemies k).health =
          (g.enemies k).health - PLAYER_ATTACK_DAMAGE ∧
        ((CheckPlayerAttacks env g).enemies k).active = true ∧
        (((CheckPlayerAttacks env g).enemies k).health ≤ 0 →
          ((CheckPlayerAttacks env g).enemies k).isDying = true ∧
          ((CheckPlayerAttacks env g).enemies k).anim.currentAnim = ANIM_DEATH ∧
          ((CheckPlayerAttacks env g).enemies k).anim.currentFrame = 0 ∧
          ((CheckPlayerAttacks env g).enemies k).anim.loop = false) ∧
        (0 < ((CheckPlayerAttacks env g).enemies k).health →
          ((CheckPlayerAttacks env g).enemies k).isDying = false))) := by
  have hk := (CheckPlayerAttacks_frame env g).2.2.2.2.2.2.2.2.2.2 k
  have hc := attackEnemy_cases env g k
  constructor
  · exact CheckPlayerAttacks_skip env g k
  · rw [hk]
    split_ifs
    · exact hc
    · exact Or.inl rfl

theorem CheckPlayerAttacks_hit_witness :
    ((((wallGame.enemies 0).active = false ∨ (wallGame.enemies 0).isDying = true) →
      (CheckPlayerAttacks playEnv wallGame).enemies 0 = wallGame.enemies 0) ∧
    ((CheckPlayerAttacks playEnv wallGame).enemies 0 = wallGame.enemies 0 ∨
      ((wallGame.enemies 0).active = true ∧ (wallGame.enemies 0).isDying = false ∧
        ((CheckPlayerAttacks playEnv wallGame).enemies 0).health =
          (wallGame.enemies 0).health - PLAYER_ATTACK_DAMAGE ∧
        ((CheckPlayerAttacks playEnv wallGame).enemies 0).active = true ∧
        (((CheckPlayerAttacks playEnv wallGame).enemies 0).health ≤ 0 →
          ((CheckPlayerAttacks playEnv wallGame).enemies 0).isDying = true ∧
          ((CheckPlayerAttacks playEnv wallGame).enemies 0).anim.currentAnim = ANIM_DEATH ∧
          ((CheckPlayerAttacks playEnv wallGame).enemies 0).anim.currentFrame = 0 ∧
          ((CheckPlayerAttacks playEnv wallGame).enemies 0).anim.loop = false) ∧
        (0 < ((CheckPlayerAttacks playEnv wallGame).enemies 0).health →
          ((CheckPlayerAttacks playEnv wallGame).enemies 0).isDying = false)))) ∧
    ((CheckPlayerAttacks playEnv wallGame).enemies 0).health = 15 ∧
    ((CheckPlayerAttacks playEnv wallGame).enemies 0).isDying = false :=
  ⟨CheckPlayerAttacks_hit playEnv wallGame 0, by decide!, by decide!⟩

/-- C13 at a concrete input: the player at (1.5, 1.5) faces along the upper corridor,
the enemy stands at (6.3, 3.5) in the lower corridor, inside the attack cone (the
cosine of the angle is above 0.9).  The midpoint (3.9, 2.5) of the segment from the
player to the enemy lies in the cell (3,2), a wall, and so do all its points with
2.7 <= x < 5.1.  The ray of `CheckPlayerAttacks` runs along the facing direction
instead, through the open corridor, and the enemy's health drops from 30 to 15. -/
theorem CheckPlayerAttacks_through_wall :
    wallGame.player.position = { x := 3 / 2, y := 3 / 2 } ∧
    (wallGame.enemies 0).position = { x := 63 / 10, y := 7 / 2 } ∧
    (wallGame.enemies 0).health = 30 ∧
    GetCellType wallGame.gameMaze 3 2 = CellType.Wall ∧
    CheckWallCollision wallGame.gameMaze
      { x := (3 / 2 + 63 / 10) / 2, y := (3 / 2 + 7 / 2) / 2 } = true ∧
    ((CheckPlayerAttacks playEnv wallGame).enemies 0).health = 15 := by
  refine ⟨rfl, rfl, rfl, by decide!, by decide!, by decide!⟩

/-! ## The enemy loop -/

theorem Kept_refl (g : Game) : Kept g g :=
  ⟨rfl, rfl, rfl, rfl, rfl, rfl, rfl, fun _ => rfl, fun _ => ⟨rfl, rfl⟩, fun _ _ => rfl⟩

theorem Kept_trans {a b c : Game} (h1 : Kept a b) (h2 : Kept b c) : Kept a c := by
  obtain ⟨a1, a2, a3, a4, a5, a6, a7, a8, a9, a10⟩ := h1
  obtain ⟨b1, b2, b3, b4, b5, b6, b7, b8, b9, b10⟩ := h2
  refine ⟨b1.trans a1, b2.trans a2, b3.trans a3, b4.trans a4, b5.trans a5, b6.trans a6,
    b7.trans a7, fun k => (b8 k).trans (a8 k),
    fun j => ⟨(b9 j).1.trans (a9 j).1, (b9 j).2.trans (a9 j).2⟩, fun j hj => ?_⟩
  rw [b10 j, a10 j hj]
  intro k hk0 hk1
  rw [a8 k]
  exact hj k hk0 (by rw [← a2]; exact hk1)

theorem enemySprite_kept (env : Env) (g : Game) (i : Int) (h0 : 0 ≤ i)
    (h1 : i < g.enemyCount) :
    Kept g (enemySprite env g i) ∧ (enemySprite env g i).enemies = g.enemies ∧
    (enemySprite env g i).player = g.player ∧
    (enemySprite env g i).currentState = g.currentState := by
  unfold enemySprite
  simp only
  split_ifs with h
  · refine ⟨⟨rfl, rfl, rfl, rfl, rfl, rfl, rfl, fun _ => rfl, fun j => ?_, fun j hj => ?_⟩,
      rfl, rfl, rfl⟩
    · by_cases hji : j = (g.enemies i).spriteIndex
      · subst hji; simp [arrSet]
      · simp [arrSet, hji]
    · have := hj i h0 h1
      simp [arrSet, Ne.symm this]
  · exact ⟨Kept_refl g, rfl, rfl, rfl⟩

theorem enemyAttack_kept (g : Game) (i : Int) :
    Kept g (enemyAttack g i) ∧ HitStep g (enemyAttack g i) ∧
    (∀ k, k ≠ i → (enemyAttack g i).enemies k = g.enemies k) ∧
    ((enemyAttack g i).enemies i).anim = (g.enemies i).anim ∧
    ((enemyAttack g i).enemies i).active = (g.enemies i).active ∧
    ((enemyAttack g i).enemies i).isDying = (g.enemies i).isDying ∧
    ((enemyAttack g i).enemies i).health = (g.enemies i).health := by
  unfold enemyAttack
  simp only
  split_ifs with h1 h2
  · refine ⟨⟨rfl, rfl, rfl, rfl, rfl, rfl, rfl, fun k => ?_, fun _ => ⟨rfl, rfl⟩,
      fun _ _ => rfl⟩, Or.inr ⟨rfl, rfl, ?_⟩, fun k hk => ?_, ?_, ?_, ?_, ?_⟩
    · by_cases hk : k = i
      · subst hk; simp [arrSet]
      · simp [arrSet, hk]
    · have : g.player.health - ENEMY_ATTACK_DAMAGE ≤ 0 := h2
      omega
    · simp [arrSet, hk]
    all_goals simp [arrSet]
  · refine ⟨⟨rfl, rfl, rfl, rfl, rfl, rfl, rfl, fun k => ?_, fun _ => ⟨rfl, rfl⟩,
      fun _ _ => rfl⟩, Or.inl ⟨rfl, Or.inr ⟨rfl, ?_⟩⟩, fun k hk => ?_, ?_, ?_, ?_, ?_⟩
    · by_cases hk : k = i
      · subst hk; simp [arrSet]
      · simp [arrSet, hk]
    · exact not_le.1 h2
    · simp [arrSet, hk]
    all_goals simp [arrSet]
  · exact ⟨Kept_refl g, Or.inl ⟨rfl, Or.inl rfl⟩, fun _ _ => rfl, rfl, rfl, rfl, rfl⟩

theorem enemyTurn_same (env : Env) (dt dist : ℚ) (player : Player) (e : Enemy) (k : Nat) :
    (enemyTurn env dt dist player e k).1.anim = e.anim ∧
    (enemyTurn env dt dist player e k).1.active = e.active ∧
    (enemyTurn env dt dist player e k).1.isDying = e.isDying ∧
    (enemyTurn env dt dist player e k).1.health = e.health ∧
    (enemyTurn env dt dist player e k).1.spriteIndex = e.spriteIndex := by
  unfold enemyTurn
  simp only
  split_ifs <;> exact ⟨rfl, rfl, rfl, rfl, rfl⟩

theorem enemyStep_same (maze : Maze) (dt : ℚ) (e : Enemy) :
    (enemyStep maze dt e).anim = e.anim ∧
    (enemyStep maze dt e).active = e.active ∧
    (enemyStep maze dt e).isDying = e.isDying ∧
    (enemyStep maze dt e).health = e.health ∧
    (enemyStep maze dt e).spriteIndex = e.spriteIndex := by
  unfold enemyStep
  simp only
  split_ifs <;> exact ⟨rfl, rfl, rfl, rfl, rfl⟩

theorem enemyMove_kept (env : Env) (dt dist : ℚ) (s : Game × Nat) (i : Int) :
    Kept s.1 (enemyMove env dt dist s i).1 ∧
    (enemyMove env dt dist s i).1.player = s.1.player ∧
    (enemyMove env dt dist s i).1.currentState = s.1.currentState ∧
    (∀ k, k ≠ i → (enemyMove env dt dist s i).1.enemies k = s.1.enemies k) ∧
    ((enemyMove env dt dist s i).1.enemies i).anim = (s.1.enemies i).anim ∧
    ((enemyMove env dt dist s i).1.enemies i).active = (s.1.enemies i).active ∧
    ((enemyMove env dt dist s i).1.enemies i).isDying = (s.1.enemies i).isDying ∧
    ((enemyMove env dt dist s i).1.enemies i).health = (s.1.enemies i).health := by
  have hi : ((enemyMove env dt dist s i).1.enemies i) =
      enemyStep s.1.gameMaze dt (enemyTurn env dt dist s.1.player (s.1.enemies i) s.2).1 := by
    simp [enemyMove, arrSet]
  have ht := enemyTurn_same env dt dist s.1.player (s.1.enemies i) s.2
  have hs := enemyStep_same s.1.gameMaze dt
    (enemyTurn env dt dist s.1.player (s.1.enemies i) s.2).1
  have ho : ∀ k, k ≠ i → (enemyMove env dt dist s i).1.enemies k = s.1.enemies k := by
    intro k hk
    simp [enemyMove, arrSet, hk]
  refine ⟨⟨rfl, rfl, rfl, rfl, rfl, rfl, rfl, fun k => ?_, fun _ => ⟨rfl, rfl⟩,
    fun _ _ => rfl⟩, rfl, rfl, ho, ?_, ?_, ?_, ?_⟩
  · by_cases hk : k = i
    · subst hk
      rw [hi, hs.2.2.2.2, ht.2.2.2.2]
    · rw [ho k hk]
  · rw [hi, hs.1, ht.1]
  · rw [hi, hs.2.1, ht.2.1]
  · rw [hi, hs.2.2.1, ht.2.2.1]
  · rw [hi, hs.2.2.2.1, ht.2.2.2.1]

theorem advanceFrame_same (e : Enemy) :
    (advanceFrame e).isDying = e.isDying ∧ (advanceFrame e).health = e.health ∧
    (advanceFrame e).spriteIndex = e.spriteIndex ∧ (advanceFrame e).position = e.position := by
  unfold advanceFrame
  simp only
  split_ifs <;> exact ⟨rfl, rfl, rfl, rfl⟩

theorem enemyTimers_same (dt : ℚ) (e : Enemy) :
    (enemyTimers dt e).isDying = e.isDying ∧ (enemyTimers dt e).health = e.health ∧
    (enemyTimers dt e).spriteIndex = e.spriteIndex ∧
    (enemyTimers dt e).position = e.position ∧ (enemyTimers dt e).active = e.active ∧
    (enemyTimers dt e).anim = { e.anim with frameTimer := e.anim.frameTimer + dt } := by
  unfold enemyTimers
  simp only
  split_ifs <;> exact ⟨rfl, rfl, rfl, rfl, rfl, rfl⟩

theorem enemyChooseAnim_same (env : Env) (player : Player) (e : Enemy) :
    (enemyChooseAnim env player e).isDying = e.isDying ∧
    (enemyChooseAnim env player e).health = e.health ∧
    (enemyChooseAnim env player e).spriteIndex = e.spriteIndex ∧
    (enemyChooseAnim env player e).position = e.position ∧
    (enemyChooseAnim env player e).active = e.active := by
  unfold enemyChooseAnim
  simp only
  split_ifs <;> exact ⟨rfl, rfl, rfl, rfl, rfl⟩

theorem enemyAnimate_same (env : Env) (dt : ℚ) (player : Player) (e : Enemy) :
    (enemyAnimate env dt player e).isDying = e.isDying ∧
    (enemyAnimate env dt player e).health = e.health ∧
    (enemyAnimate env dt player e).spriteIndex = e.spriteIndex ∧
    (enemyAnimate env dt player e).position = e.position := by
  obtain ⟨a1, a2, a3, a4, _, _⟩ := enemyTimers_same dt e
  obtain ⟨b1, b2, b3, b4, _⟩ := enemyChooseAnim_same env player (enemyTimers dt e)
  obtain ⟨c1, c2, c3, c4⟩ := advanceFrame_same (enemyChooseAnim env player (enemyTimers dt e))
  unfold enemyAnimate
  simp only
  exact ⟨c1.trans (b1.trans a1), c2.trans (b2.trans a2), c3.trans (b3.trans a3),
    c4.trans (b4.trans a4)⟩

theorem HitStep_refl (g : Game) : HitStep g g := Or.inl ⟨rfl, Or.inl rfl⟩

/-- One round of the enemy loop. -/
theorem updateEnemy_kept (env : Env) (dt : ℚ) (s : Game × Nat) (i : Int) (h0 : 0 ≤ i)
    (h1 : i < s.1.enemyCount) :
    Kept s.1 (updateEnemy env dt s i).1 ∧ HitStep s.1 (updateEnemy env dt s i).1 ∧
    (∀ k, k ≠ i → (updateEnemy env dt s i).1.enemies k = s.1.enemies k) ∧
    ((updateEnemy env dt s i).1.enemies i).anim =
      (if (s.1.enemies i).active = false then s.1.enemies i
        else enemyAnimate env dt s.1.player (s.1.enemies i)).anim ∧
    ((updateEnemy env dt s i).1.enemies i).active =
      (if (s.1.enemies i).active = false then s.1.enemies i
        else enemyAnimate env dt s.1.player (s.1.enemies i)).active ∧
    ((updateEnemy env dt s i).1.enemies i).isDying = (s.1.enemies i).isDying ∧
    ((updateEnemy env dt s i).1.enemies i).health = (s.1.enemies i).health := by
  unfold updateEnemy
  simp only
  by_cases ha : (s.1.enemies i).active = false
  · simp only [if_pos ha]
    refine ⟨Kept_refl _, ?_⟩
    simp [HitStep_refl]
  · simp only [if_neg ha]
    obtain ⟨e1, e2, e3, e4⟩ := enemyAnimate_same env dt s.1.player (s.1.enemies i)
    generalize hE : enemyAnimate env dt s.1.player (s.1.enemies i) = E at e1 e2 e3 e4 ⊢
    generalize hg1 : ({ s.1 with enemies := arrSet s.1.enemies i E } : Game) = g1
    have k1 : Kept s.1 g1 := by
      subst hg1
      refine ⟨rfl, rfl, rfl, rfl, rfl, rfl, rfl, fun k => ?_, fun _ => ⟨rfl, rfl⟩,
        fun _ _ => rfl⟩
      by_cases hk : k = i
      · subst hk; simp only [arrSet_same]; exact e3
      · simp only [arrSet_other _ _ _ _ hk]
    have hen1 : g1.enemies = arrSet s.1.enemies i E := by subst hg1; rfl
    have hpl1 : g1.player = s.1.player := by subst hg1; rfl
    have hst1 : g1.currentState = s.1.currentState := by subst hg1; rfl
    have hc1 : i < g1.enemyCount := by subst hg1; exact h1
    obtain ⟨s1, s2, s3, s4⟩ := enemySprite_kept env g1 i h0 hc1
    generalize hg2 : enemySprite env g1 i = g2 at s1 s2 s3 s4 ⊢
    have k2 := Kept_trans k1 s1
    have hen : ∀ k, g2.enemies k = arrSet s.1.enemies i E k := by
      intro k; rw [s2, hen1]
    split_ifs with hr
    · obtain ⟨a1, a2, a3, a4, a5, a6, a7⟩ := enemyAttack_kept g2 i
      refine ⟨Kept_trans k2 a1, ?_, fun k hk => ?_, ?_, ?_, ?_, ?_⟩
      · unfold HitStep at a2 ⊢
        rw [s3, s4, hpl1, hst1] at a2
        exact a2
      · rw [a3 k hk, hen k, arrSet_other _ _ _ _ hk]
      · rw [a4, hen i, arrSet_same]
      · rw [a5, hen i, arrSet_same]
      · rw [a6, hen i, arrSet_same, e1]
      · rw [a7, hen i, arrSet_same, e2]
    · obtain ⟨a1, a2, a3, a4, a5, a6, a7, a8⟩ := enemyMove_kept env dt
        (Distance env.lm (s.1.enemies i).position.x (s.1.enemies i).position.y
          s.1.player.position.x s.1.player.position.y) (g2, s.2) i
      refine ⟨Kept_trans k2 a1, ?_, fun k hk => ?_, ?_, ?_, ?_, ?_⟩
      · refine Or.inl ⟨?_, Or.inl ?_⟩
        · rw [a3]; exact s4.trans hst1
        · rw [a2]; exact congrArg Player.health (s3.trans hpl1)
      · rw [a4 k hk]; exact (hen k).trans (arrSet_other _ _ _ _ hk)
      · rw [a5]; exact (congrArg Enemy.anim (hen i)).trans (by rw [arrSet_same])
      · rw [a6]; exact (congrArg Enemy.active (hen i)).trans (by rw [arrSet_same])
      · rw [a7]; exact ((congrArg Enemy.isDying (hen i)).trans (by rw [arrSet_same])).trans e1
      · rw [a8]; exact ((congrArg Enemy.health (hen i)).trans (by rw [arrSet_same])).trans e2

theorem DetermineEnemyAnimation_congr (env : Env) (p1 p2 : Player) (e : Enemy) (a d : Bool)
    (hp : p1.position = p2.position) (ha : p1.angle = p2.angle) :
    DetermineEnemyAnimation env p1 e a d = DetermineEnemyAnimation env p2 e a d := by
  unfold DetermineEnemyAnimation
  rw [hp, ha]

theorem enemyAnimate_congr (env : Env) (dt : ℚ) (p1 p2 : Player) (e : Enemy)
    (hp : p1.position = p2.position) (ha : p1.angle = p2.angle) :
    enemyAnimate env dt p1 e = enemyAnimate env dt p2 e := by
  unfold enemyAnimate enemyChooseAnim
  simp only [fun e a d => DetermineEnemyAnimation_congr env p1 p2 e a d hp ha, hp]

/-- The enemy loop over a list of distinct indices in use. -/
theorem updateLoop_kept (env : Env) (dt : ℚ) (g : Game) (k0 : Nat) :
    ∀ (l : List Int), l.Nodup → (∀ i ∈ l, 0 ≤ i ∧ i < g.enemyCount) →
      Kept g (l.foldl (updateEnemy env dt) (g, k0)).1 ∧
      ((l.foldl (updateEnemy env dt) (g, k0)).1.currentState = g.currentState ∨
        ((l.foldl (updateEnemy env dt) (g, k0)).1.currentState = GameState.GAME_OVER ∧
          (l.foldl (updateEnemy env dt) (g, k0)).1.player.health = 0)) ∧
      (∀ b : Int, 0 ≤ b → g.player.health ≤ b →
        (l.foldl (updateEnemy env dt) (g, k0)).1.player.health ≤ b) ∧
      (0 ≤ g.player.health → 0 ≤ (l.foldl (updateEnemy env dt) (g, k0)).1.player.health) ∧
      ∀ k, ((l.foldl (updateEnemy env dt) (g, k0)).1.enemies k).anim =
          (if k ∈ l ∧ (g.enemies k).active = true
            then enemyAnimate env dt g.player (g.enemies k) else g.enemies k).anim ∧
        ((l.foldl (updateEnemy env dt) (g, k0)).1.enemies k).active =
          (if k ∈ l ∧ (g.enemies k).active = true
            then enemyAnimate env dt g.player (g.enemies k) else g.enemies k).active ∧
        ((l.foldl (updateEnemy env dt) (g, k0)).1.enemies k).isDying = (g.enemies k).isDying ∧
        ((l.foldl (updateEnemy env dt) (g, k0)).1.enemies k).health = (g.enemies k).health ∧
        (k ∉ l → (l.foldl (updateEnemy env dt) (g, k0)).1.enemies k = g.enemies k) := by
  intro l
  induction l using List.reverseRecOn with
  | nil =>
    intro _ _
    refine ⟨Kept_refl g, Or.inl rfl, fun _ _ h => h, fun h => h, fun k => ?_⟩
    simp
  | append_singleton l i ih =>
    intro hnd hin
    have hnd' := List.nodup_append.1 hnd
    have hi : i ∉ l := fun hm => hnd'.2.2 hm (List.mem_singleton_self i)
    obtain ⟨h1, h2, h3, h4, h5⟩ := ih hnd'.1 (fun j hj => hin j (List.mem_append_left _ hj))
    rw [List.foldl_append, List.foldl_cons, List.foldl_nil]
    generalize hs : l.foldl (updateEnemy env dt) (g, k0) = s at h1 h2 h3 h4 h5 ⊢
    have hir := hin i (List.mem_append_right _ (List.mem_singleton_self i))
    obtain ⟨u1, u2, u3, u4, u5, u6, u7⟩ := updateEnemy_kept env dt s i hir.1
      (by rw [h1.2.1]; exact hir.2)
    have hdmg : ENEMY_ATTACK_DAMAGE = 10 := rfl
    refine ⟨Kept_trans h1 u1, ?_, ?_, ?_, fun k => ?_⟩
    · rcases u2 with ⟨a, b⟩ | ⟨a, b, _⟩
      · rcases h2 with c | ⟨c, d⟩
        · exact Or.inl (a.trans c)
        · refine Or.inr ⟨a.trans c, ?_⟩
          rcases b with b | ⟨b, b'⟩
          · rw [b, d]
          · rw [b, d] at b'
            exact absurd b' (by decide)
      · exact Or.inr ⟨a, b⟩
    · intro b hb0 hb
      have := h3 b hb0 hb
      rcases u2 with ⟨_, c | ⟨c, _⟩⟩ | ⟨_, c, _⟩
      · rw [c]; exact this
      · rw [c, hdmg]; omega
      · rw [c]; exact hb0
    · intro hg0
      have := h4 hg0
      rcases u2 with ⟨_, c | ⟨_, c⟩⟩ | ⟨_, c, _⟩
      · rw [c]; exact this
      · exact le_of_lt c
      · rw [c]
    · obtain ⟨c1, c2, c3, c4, c5⟩ := h5 k
      by_cases hk : k = i
      · subst hk
        have hsk := c5 hi
        have hpl : enemyAnimate env dt s.1.player (g.enemies k) =
            enemyAnimate env dt g.player (g.enemies k) :=
          enemyAnimate_congr env dt _ _ _ h1.2.2.2.2.1 h1.2.2.2.2.2.1
        rw [u4, u5, u6, u7, hsk, hpl]
        refine ⟨?_, ?_, rfl, rfl, fun hn => absurd (by simp) hn⟩
        · cases hact : (g.enemies k).active <;> simp
        · cases hact : (g.enemies k).active <;> simp [hact]
      · rw [u3 k hk]
        have hmem : k ∈ l ++ [i] ↔ k ∈ l := by simp [hk]
        simp only [hmem]
        exact ⟨c1, c2, c3, c4, c5⟩

/-- `UpdateEnemies`: what it keeps, how health and game state move, and what becomes
of the animation of each enemy. -/
theorem UpdateEnemies_kept (env : Env) (inp : Input) (s : Game × Nat) :
    Kept s.1 (UpdateEnemies env inp s).1 ∧
    ((UpdateEnemies env inp s).1.currentState = s.1.currentState ∨
      ((UpdateEnemies env inp s).1.currentState = GameState.GAME_OVER ∧
        (UpdateEnemies env inp s).1.player.health = 0)) ∧
    (∀ b : Int, 0 ≤ b → s.1.player.health ≤ b →
      (UpdateEnemies env inp s).1.player.health ≤ b) ∧
    (0 ≤ s.1.player.health → 0 ≤ (UpdateEnemies env inp s).1.player.health) ∧
    ∀ k, ((UpdateEnemies env inp s).1.enemies k).anim =
        (if (0 ≤ k ∧ k < s.1.enemyCount) ∧ (s.1.enemies k).active = true
          then enemyAnimate env inp.frameTime s.1.player (s.1.enemies k)
          else s.1.enemies k).anim ∧
      ((UpdateEnemies env inp s).1.enemies k).active =
        (if (0 ≤ k ∧ k < s.1.enemyCount) ∧ (s.1.enemies k).active = true
          then enemyAnimate env inp.frameTime s.1.player (s.1.enemies k)
          else s.1.enemies k).active ∧
      ((UpdateEnemies env inp s).1.enemies k).isDying = (s.1.enemies k).isDying ∧
      ((UpdateEnemies env inp s).1.enemies k).health = (s.1.enemies k).health := by
  have h := updateLoop_kept env inp.frameTime s.1 s.2 (intRange 0 s.1.enemyCount)
    (intRange_nodup _ _) (fun i hi => (mem_intRange _ _ _).1 hi)
  unfold UpdateEnemies
  obtain ⟨h1, h2, h3, h4, h5⟩ := h
  refine ⟨h1, h2, h3, h4, fun k => ?_⟩
  obtain ⟨c1, c2, c3, c4, _⟩ := h5 k
  simp only [mem_intRange] at c1 c2
  exact ⟨c1, c2, c3, c4⟩

/-! ## The rest of a playing tick -/

theorem attackEnemy_index (env : Env) (g : Game) (i : Int) :
    ((attackEnemy env g i).enemies i).spriteIndex = (g.enemies i).spriteIndex := by
  unfold attackEnemy
  simp only
  split_ifs <;> simp [arrSet]

theorem CheckPlayerAttacks_kept (env : Env) (g : Game) :
    Kept g (CheckPlayerAttacks env g) := by
  obtain ⟨h1, h2, _, h4, h5, h6, h7, _, _, _, h11⟩ := CheckPlayerAttacks_frame env g
  refine ⟨h2, h6, h5, h7, by rw [h1], by rw [h1], by rw [h1], fun k => ?_,
    fun j => by rw [h4]; exact ⟨rfl, rfl⟩, fun j _ => by rw [h4]⟩
  rw [h11 k]
  split_ifs
  · exact attackEnemy_index env g k
  · rfl

theorem swingStart_kept (inp : Input) (g : Game) :
    Kept g (swingStart inp g) ∧ (swingStart inp g).player.health = g.player.health ∧
    (swingStart inp g).currentState = g.currentState ∧
    (swingStart inp g).enemies = g.enemies := by
  unfold swingStart
  split_ifs
  · exact ⟨⟨rfl, rfl, rfl, rfl, rfl, rfl, rfl, fun _ => rfl, fun _ => ⟨rfl, rfl⟩,
      fun _ _ => rfl⟩, rfl, rfl, rfl⟩
  · exact ⟨Kept_refl g, rfl, rfl, rfl⟩

theorem swingTick_kept (env : Env) (inp : Input) (g : Game) :
    Kept g (swingTick env inp g) ∧ (swingTick env inp g).player.health = g.player.health ∧
    (swingTick env inp g).currentState = g.currentState ∧
    ∀ k, ((g.enemies k).active = false ∨ (g.enemies k).isDying = true) →
      (swingTick env inp g).enemies k = g.enemies k := by
  unfold swingTick
  by_cases hs : g.katanaAnim.isSwinging = true
  · simp only [if_pos hs]
    generalize hga : ({ g with katanaAnim := _ } : Game) = ga
    have hk0 : Kept g ga := by
      subst hga
      exact ⟨rfl, rfl, rfl, rfl, rfl, rfl, rfl, fun _ => rfl, fun _ => ⟨rfl, rfl⟩,
        fun _ _ => rfl⟩
    have hen : ga.enemies = g.enemies := by subst hga; rfl
    have hpl : ga.player = g.player := by subst hga; rfl
    have hst : ga.currentState = g.currentState := by subst hga; rfl
    have hk1 := Kept_trans hk0 (CheckPlayerAttacks_kept env ga)
    obtain ⟨f1, _, f3, _⟩ := CheckPlayerAttacks_frame env ga
    have hskip : ∀ k, ((g.enemies k).active = false ∨ (g.enemies k).isDying = true) →
        (CheckPlayerAttacks env ga).enemies k = g.enemies k := by
      intro k hk
      have := CheckPlayerAttacks_skip env ga k (by rw [hen]; exact hk)
      rw [this, hen]
    generalize CheckPlayerAttacks env ga = gb at hk1 f1 f3 hskip
    split_ifs
    · refine ⟨?_, ?_, ?_, hskip⟩
      · obtain ⟨a1, a2, a3, a4, a5, a6, a7, a8, a9, a10⟩ := hk1
        exact ⟨a1, a2, a3, a4, a5, a6, a7, a8, a9, a10⟩
      · change gb.player.health = _
        rw [f1, hpl]
      · change gb.currentState = _
        rw [f3, hst]
    · exact ⟨hk1, by rw [f1, hpl], by rw [f3, hst], hskip⟩
  · rw [if_neg hs]
    exact ⟨Kept_refl g, rfl, rfl, fun _ _ => rfl⟩

/-- The rest of a playing tick keeps what `Kept` lists and the player's health; the
game state changes only to `GAME_PAUSED`, and only when P is pressed; an enemy that is
inactive or dying is left as it is. -/
theorem playingRest_kept (env : Env) (inp : Input) (g : Game) :
    Kept g (playingRest env inp g) ∧
    (playingRest env inp g).player.health = g.player.health ∧
    ((playingRest env inp g).currentState = g.currentState ∨
      (inp.pPressed = true ∧ (playingRest env inp g).currentState = GameState.GAME_PAUSED)) ∧
    ∀ k, ((g.enemies k).active = false ∨ (g.enemies k).isDying = true) →
      (playingRest env inp g).enemies k = g.enemies k := by
  obtain ⟨a1, a2, a3, a4⟩ := swingStart_kept inp g
  obtain ⟨b1, b2, b3, b4⟩ := swingTick_kept env inp (swingStart inp g)
  have hk := Kept_trans a1 b1
  have hskip : ∀ k, ((g.enemies k).active = false ∨ (g.enemies k).isDying = true) →
      (swingTick env inp (swingStart inp g)).enemies k = g.enemies k := by
    intro k hk'
    rw [b4 k (by rw [a4]; exact hk'), a4]
  have hh := b2.trans a2
  have hs := b3.trans a3
  unfold playingRest
  simp only
  generalize swingTick env inp (swingStart inp g) = g2 at hk hskip hh hs
  obtain ⟨c1, c2, c3, c4, c5, c6, c7, c8, c9, c10⟩ := hk
  split_ifs with hp hc hc
  · exact ⟨⟨c1, c2, c3, c4, c5, c6, c7, c8, c9, c10⟩, hh, Or.inr ⟨hp, rfl⟩, hskip⟩
  · exact ⟨⟨c1, c2, c3, c4, c5, c6, c7, c8, c9, c10⟩, hh, Or.inr ⟨hp, rfl⟩, hskip⟩
  · exact ⟨⟨c1, c2, c3, c4, c5, c6, c7, c8, c9, c10⟩, hh, Or.inl hs, hskip⟩
  · exact ⟨⟨c1, c2, c3, c4, c5, c6, c7, c8, c9, c10⟩, hh, Or.inl hs, hskip⟩

/-! ## The interactions of the player -/

theorem Interacted_refl (lm : Libm) (g : Game) : Interacted lm g g :=
  ⟨rfl, rfl, rfl, rfl, rfl, rfl, rfl, rfl, fun _ => ⟨rfl, rfl, fun h => h⟩, rfl, le_refl _,
    rfl, rfl, fun _ _ => Or.inl rfl, Or.inl rfl⟩

/-- Switching off an active key sprite in use takes one from the count. -/
theorem activeKeys_pickup (g g' : Game) (i : Int) (h0 : 0 ≤ i) (h1 : i < g.spriteCount)
    (hc : g'.spriteCount = g.spriteCount) (ha : (g.sprites i).active = true)
    (ht : (g.sprites i).type = CellType.Key)
    (hs : g'.sprites = arrSet g.sprites i { g.sprites i with active := false }) :
    activeKeys g = activeKeys g' + 1 := by
  unfold activeKeys
  rw [hc]
  refine countP_update_one (intRange 0 g.spriteCount) (intRange_nodup _ _) _ _ i
    ((mem_intRange _ _ _).2 ⟨h0, h1⟩) ?_ ?_ ?_
  · rw [hs]; simp [arrSet]
  · rw [ha, ht]; simp
  · intro b _ hb
    rw [hs]
    simp [arrSet, hb]

/-- A loop round that changes no sprite leaves the count as it is. -/
theorem activeKeys_congr (g g' : Game) (hc : g'.spriteCount = g.spriteCount)
    (hs : ∀ j, (g'.sprites j).active = (g.sprites j).active ∧
      (g'.sprites j).type = (g.sprites j).type) : activeKeys g' = activeKeys g := by
  unfold activeKeys
  rw [hc]
  refine List.countP_congr ?_
  intro j _
  rw [(hs j).1, (hs j).2]

theorem interactSprite_step (env : Env) (g g' : Game) (i : Int)
    (h : Interacted env.lm g g') (h0 : 0 ≤ i) (h1 : i < g.spriteCount) :
    Interacted env.lm g (interactSprite env g' i) := by
  obtain ⟨a1, a2, a3, a4, a5, a6, a7, a8, a9, a10, a11, a12, a13, a14, a15⟩ := h
  unfold interactSprite
  simp only
  by_cases hact : (g'.sprites i).active = false
  · rw [if_pos hact]
    exact ⟨a1, a2, a3, a4, a5, a6, a7, a8, a9, a10, a11, a12, a13, a14, a15⟩
  · rw [if_neg hact]
    have hact' : (g'.sprites i).active = true := by
      cases hh : (g'.sprites i).active
      · exact absurd hh hact
      · rfl
    by_cases hd : Distance env.lm g'.player.position.x g'.player.position.y
        (g'.sprites i).position.x (g'.sprites i).position.y < 1 / 2
    · rw [if_pos hd]
      by_cases hkey : (g'.sprites i).type = CellType.Key
      · rw [if_pos hkey]
        generalize hm : (if GetCellType g'.gameMaze (truncToInt (WorldToGrid (g'.sprites i).position).x)
            (truncToInt (WorldToGrid (g'.sprites i).position).y) = CellType.Key then
            g'.gameMaze.set (truncToInt (WorldToGrid (g'.sprites i).position).y)
              (truncToInt (WorldToGrid (g'.sprites i).position).x) CellType.Empty
            else g'.gameMaze) = maze
        have hmaze : maze.startPos = g'.gameMaze.startPos ∧ maze.exitPos = g'.gameMaze.exitPos ∧
            ∀ y x, maze.grid y x = g'.gameMaze.grid y x ∨
              (g'.gameMaze.grid y x = CellType.Key ∧ maze.grid y x = CellType.Empty) := by
          subst hm
          split_ifs with hc
          · refine ⟨rfl, rfl, fun y x => ?_⟩
            by_cases hyx : y = truncToInt (WorldToGrid (g'.sprites i).position).y ∧
                x = truncToInt (WorldToGrid (g'.sprites i).position).x
            · right
              obtain ⟨rfl, rfl⟩ := hyx
              unfold GetCellType at hc
              split_ifs at hc
              exact ⟨hc, by simp [Maze.set, setCell]⟩
            · left
              simp only [Maze.set, setCell, if_neg hyx]
          · exact ⟨rfl, rfl, fun _ _ => Or.inl rfl⟩
        have hcount := activeKeys_pickup g'
          { g' with
            player := { g'.player with keys := g'.player.keys + 1 }
            sprites := arrSet g'.sprites i { g'.sprites i with active := false }
            gameMaze := maze } i h0 (by rw [a1]; exact h1) rfl hact' hkey rfl
        refine ⟨a1, a2, a3, a4, a5, a6, a7, a8, fun j => ?_, ?_, ?_, hmaze.1.trans a12,
          hmaze.2.1.trans a13, fun y x => ?_, a15⟩
        · by_cases hj : j = i
          · subst hj
            simp only [arrSet_same]
            exact ⟨(a9 j).1, (a9 j).2.1, fun hf => absurd hf (by decide)⟩
          · simp only [arrSet_other _ _ _ _ hj]
            exact a9 j
        · simp only
          rw [← a10, hcount]
          push_cast
          ring
        · simp only
          omega
        · rcases hmaze.2.2 y x with hx | ⟨hx1, hx2⟩
          · rw [hx]; exact a14 y x
          · rcases a14 y x with hy | ⟨hy1, hy2⟩
            · right; rw [← hy]; exact ⟨hx1, hx2⟩
            · rw [hy2] at hx1; exact absurd hx1 (by decide)
      · rw [if_neg hkey]
        by_cases hex : (g'.sprites i).type = CellType.Exit ∧ g'.exitDoor.isOpen = true
        · rw [if_pos hex]
          refine ⟨a1, a2, a3, a4, a5, a6, a7, a8, a9, ?_, a11, a12, a13, a14, Or.inr ⟨rfl, ?_, i, h0, h1, ?_, ?_⟩⟩
          · exact a10
          · rw [← a4]; exact hex.2
          · rw [← (a9 i).1]; exact hex.1
          · rw [← (a9 i).2.1, ← a7]; exact hd
        · rw [if_neg hex]
          exact ⟨a1, a2, a3, a4, a5, a6, a7, a8, a9, a10, a11, a12, a13, a14, a15⟩
    · rw [if_neg hd]
      exact ⟨a1, a2, a3, a4, a5, a6, a7, a8, a9, a10, a11, a12, a13, a14, a15⟩

theorem interactLoop (env : Env) (g : Game) :
    Interacted env.lm g ((intRange 0 g.spriteCount).foldl (interactSprite env) g) := by
  refine foldl_inv (Interacted env.lm g) (interactSprite env) _ g (Interacted_refl _ g) ?_
  intro a b hb ha
  obtain ⟨h0, h1⟩ := (mem_intRange _ _ _).1 hb
  exact interactSprite_step env g a b ha h0 h1

theorem exitMessage_step (lm : Libm) (inp : Input) (g g3 : Game) (h : Interacted lm g g3) :
    Interacted lm g (exitMessage inp g3) := by
  obtain ⟨a1, a2, a3, a4, a5, a6, a7, a8, a9, a10, a11, a12, a13, a14, a15⟩ := h
  unfold exitMessage
  simp only
  split_ifs <;>
    exact ⟨a1, a2, a3, a4, a5, a6, a7, a8, a9, a10, a11, a12, a13, a14, a15⟩

/-- The head of `CheckPlayerInteractions` sets `exitDoor.isOpen` from the key count and
touches nothing else but texture and frame of one sprite. -/
theorem refreshDoor_spec (g : Game) :
    (refreshDoor g).exitDoor = { g.exitDoor with isOpen := decide (g.player.keys ≥ MAX_KEYS) } ∧
    (refreshDoor g).player = g.player ∧ (refreshDoor g).enemies = g.enemies ∧
    (refreshDoor g).gameMaze = g.gameMaze ∧ (refreshDoor g).spriteCount = g.spriteCount ∧
    (refreshDoor g).enemyCount = g.enemyCount ∧
    (refreshDoor g).currentState = g.currentState ∧
    (refreshDoor g).katanaAnim = g.katanaAnim ∧
    ∀ j, ((refreshDoor g).sprites j).type = (g.sprites j).type ∧
      ((refreshDoor g).sprites j).position = (g.sprites j).position ∧
      ((refreshDoor g).sprites j).active = (g.sprites j).active := by
  unfold refreshDoor
  simp only
  split_ifs
  all_goals
    refine ⟨rfl, rfl, rfl, rfl, rfl, rfl, rfl, rfl, fun j => ?_⟩
    first
      | exact ⟨rfl, rfl, rfl⟩
      | (by_cases hj : j = g.exitDoor.spriteIndex
         · subst hj; simp [arrSet]
         · simp [arrSet, hj])

theorem activeKeys_refreshDoor (g : Game) : activeKeys (refreshDoor g) = activeKeys g := by
  obtain ⟨_, _, _, _, h5, _, _, _, h9⟩ := refreshDoor_spec g
  exact activeKeys_congr g (refreshDoor g) h5 (fun j => ⟨(h9 j).2.2, (h9 j).1⟩)

theorem CheckPlayerInteractions_spec (env : Env) (inp : Input) (g : Game) :
    Interacted env.lm (refreshDoor g) (CheckPlayerInteractions env inp g) := by
  unfold CheckPlayerInteractions
  simp only
  exact exitMessage_step env.lm inp _ _ (interactLoop env (refreshDoor g))

theorem stepPlayer_same (env : Env) (inp : Input) (maze : Maze) (player : Player) :
    (stepPlayer env inp maze player).health = player.health ∧
    (stepPlayer env inp maze player).keys = player.keys ∧
    (stepPlayer env inp maze player).shootCooldown = player.shootCooldown := by
  unfold stepPlayer
  exact ⟨rfl, rfl, rfl⟩

/-! ## The tick -/

theorem UpdateGame_playing (env : Env) (inp : Input) (fuel : Nat) (s : Game × Nat)
    (hs : s.1.currentState = GameState.GAME_PLAYING) :
    UpdateGame env inp fuel s =
      some (playingRest env inp (UpdateEnemies env inp (MovePlayer env inp s.1, s.2)).1,
        (UpdateEnemies env inp (MovePlayer env inp s.1, s.2)).2) := by
  unfold UpdateGame
  rw [hs]

theorem UpdateGame_title (env : Env) (inp : Input) (fuel : Nat) (s : Game × Nat)
    (hs : s.1.currentState = GameState.GAME_TITLE) :
    UpdateGame env inp fuel s =
      if inp.enterPressed = true
      then some ({ s.1 with currentState := GameState.GAME_PLAYING }, s.2) else some s := by
  unfold UpdateGame
  rw [hs]

theorem UpdateGame_paused (env : Env) (inp : Input) (fuel : Nat) (s : Game × Nat)
    (hs : s.1.currentState = GameState.GAME_PAUSED) :
    UpdateGame env inp fuel s =
      if inp.pPressed = true
      then some ({ s.1 with currentState := GameState.GAME_PLAYING }, s.2) else some s := by
  unfold UpdateGame
  rw [hs]

theorem UpdateGame_ended (env : Env) (inp : Input) (fuel : Nat) (s : Game × Nat)
    (hs : s.1.currentState = GameState.GAME_VICTORY ∨
      s.1.currentState = GameState.GAME_OVER) :
    UpdateGame env inp fuel s =
      if inp.rPressed = true then
        (GenerateMaze env.rnd fuel s.1.gameMaze s.2).map fun r =>
          ({ (InitEnemies env (InitPlayer { s.1 with gameMaze := r.1 }, r.2)).1 with
              currentState := GameState.GAME_PLAYING },
            (InitEnemies env (InitPlayer { s.1 with gameMaze := r.1 }, r.2)).2)
      else some s := by
  unfold UpdateGame
  rcases hs with hs | hs <;> rw [hs]

/-- The outcomes of a tick: a playing tick; no change; `GAME_PLAYING` out of the title
screen or the pause; a restart. -/
theorem UpdateGame_cases (env : Env) (inp : Input) (fuel : Nat) (s s' : Game × Nat)
    (h : UpdateGame env inp fuel s = some s') :
    (s.1.currentState = GameState.GAME_PLAYING ∧
      s' = (playingRest env inp (UpdateEnemies env inp (MovePlayer env inp s.1, s.2)).1,
        (UpdateEnemies env inp (MovePlayer env inp s.1, s.2)).2)) ∨
    (s.1.currentState ≠ GameState.GAME_PLAYING ∧ s' = s) ∨
    ((s.1.currentState = GameState.GAME_TITLE ∨ s.1.currentState = GameState.GAME_PAUSED) ∧
      s' = ({ s.1 with currentState := GameState.GAME_PLAYING }, s.2)) ∨
    ((s.1.currentState = GameState.GAME_VICTORY ∨ s.1.currentState = GameState.GAME_OVER) ∧
      inp.rPressed = true ∧ ∃ r, GenerateMaze env.rnd fuel s.1.gameMaze s.2 = some r ∧
        s' = ({ (InitEnemies env (InitPlayer { s.1 with gameMaze := r.1 }, r.2)).1 with
                currentState := GameState.GAME_PLAYING },
              (InitEnemies env (InitPlayer { s.1 with gameMaze := r.1 }, r.2)).2)) := by
  cases hst : s.1.currentState
  · rw [UpdateGame_title env inp fuel s hst] at h
    split_ifs at h
    · right; right; left
      exact ⟨Or.inl rfl, (Option.some.inj h).symm⟩
    · right; left
      exact ⟨by decide, (Option.some.inj h).symm⟩
  · rw [UpdateGame_playing env inp fuel s hst] at h
    left
    exact ⟨rfl, (Option.some.inj h).symm⟩
  · rw [UpdateGame_paused env inp fuel s hst] at h
    split_ifs at h
    · right; right; left
      exact ⟨Or.inr rfl, (Option.some.inj h).symm⟩
    · right; left
      exact ⟨by decide, (Option.some.inj h).symm⟩
  · rw [UpdateGame_ended env inp fuel s (Or.inl hst)] at h
    split_ifs at h with hr
    · right; right; right
      obtain ⟨r, hr1, hr2⟩ := Option.map_eq_some'.1 h
      exact ⟨Or.inl rfl, hr, r, hr1, hr2.symm⟩
    · right; left
      exact ⟨by decide, (Option.some.inj h).symm⟩
  · rw [UpdateGame_ended env inp fuel s (Or.inr hst)] at h
    split_ifs at h with hr
    · right; right; right
      obtain ⟨r, hr1, hr2⟩ := Option.map_eq_some'.1 h
      exact ⟨Or.inr rfl, hr, r, hr1, hr2.symm⟩
    · right; left
      exact ⟨by decide, (Option.some.inj h).symm⟩

/-- What `MovePlayer` does, in terms of the game `g1` after the step. -/
theorem MovePlayer_spec (env : Env) (inp : Input) (g : Game) :
    Interacted env.lm
      (refreshDoor { g with player := stepPlayer env inp g.gameMaze g.player })
      (MovePlayer env inp g) := by
  unfold MovePlayer
  exact CheckPlayerInteractions_spec env inp _

/-- The game state after `MovePlayer`: as before, or `GAME_VICTORY`. -/
theorem MovePlayer_state (env : Env) (inp : Input) (g : Game) :
    (MovePlayer env inp g).currentState = g.currentState ∨
    (MovePlayer env inp g).currentState = GameState.GAME_VICTORY := by
  have h := (MovePlayer_spec env inp g).2.2.2.2.2.2.2.2.2.2.2.2.2.2
  have h7 := (refreshDoor_spec { g with player := stepPlayer env inp g.gameMaze g.player }).2.2.2.2.2.2.1
  rcases h with h | ⟨h, _⟩
  · left; rw [h, h7]
  · right; exact h

/-- C15: a tick of `UpdateGame` that starts in another state than `GAME_OVER` and ends
in `GAME_OVER` ends with `player.health = 0`: the only assignment of `GAME_OVER` stands
behind the test `health <= 0` in the enemy loop, next to `health = 0`, and a later hit
in the same tick ends at 0 again. -/
theorem UpdateGame_game_over (env : Env) (inp : Input) (fuel : Nat) (s s' : Game × Nat)
    (h : UpdateGame env inp fuel s = some s')
    (h0 : s.1.currentState ≠ GameState.GAME_OVER)
    (h1 : s'.1.currentState = GameState.GAME_OVER) : s'.1.player.health = 0 := by
  rcases UpdateGame_cases env inp fuel s s' h with ⟨hp, hs'⟩ | ⟨_, hs'⟩ | ⟨_, hs'⟩ |
    ⟨_, _, r, _, hs'⟩
  · subst hs'
    obtain ⟨_, u2, _⟩ := UpdateEnemies_kept env inp (MovePlayer env inp s.1, s.2)
    obtain ⟨_, p2, p3, _⟩ := playingRest_kept env inp
      (UpdateEnemies env inp (MovePlayer env inp s.1, s.2)).1
    simp only at h1 ⊢
    rw [p2]
    rcases p3 with p3 | ⟨_, p3⟩
    · rw [p3] at h1
      rcases u2 with u2 | ⟨_, u2⟩
      · rw [u2] at h1
        simp only at h1
        rcases MovePlayer_state env inp s.1 with m | m
        · rw [m] at h1; rw [hp] at h1; exact absurd h1 (by decide)
        · rw [m] at h1; exact absurd h1 (by decide)
      · exact u2
    · rw [p3] at h1; exact absurd h1 (by decide)
  · subst hs'; exact absurd h1 h0
  · subst hs'; simp at h1
  · subst hs'; simp at h1

theorem UpdateGame_game_over_witness :
    ∃ s', UpdateGame playEnv (idleInput (1 / 60)) 0 (lastHitGame, 0) = some s' ∧
      lastHitGame.currentState = GameState.GAME_PLAYING ∧
      s'.1.currentState = GameState.GAME_OVER ∧ s'.1.player.health = 0 := by
  have h : ((UpdateGame playEnv (idleInput (1 / 60)) 0 (lastHitGame, 0)).map fun s' =>
      s'.1.currentState) = some GameState.GAME_OVER := by decide!
  obtain ⟨s', hs, hst⟩ := Option.map_eq_some'.1 h
  exact ⟨s', hs, rfl, hst,
    UpdateGame_game_over playEnv (idleInput (1 / 60)) 0 (lastHitGame, 0) s' hs (by decide) hst⟩

/-! ## The door -/

theorem CheckPlayerInteractions_isOpen (env : Env) (inp : Input) (g : Game) :
    (CheckPlayerInteractions env inp g).exitDoor =
      { g.exitDoor with isOpen := decide (g.player.keys ≥ MAX_KEYS) } ∧
    g.player.keys ≤ (CheckPlayerInteractions env inp g).player.keys := by
  obtain ⟨_, _, _, a4, _, _, _, _, _, _, a11, _⟩ := CheckPlayerInteractions_spec env inp g
  obtain ⟨r1, r2, _⟩ := refreshDoor_spec g
  rw [r2] at a11
  exact ⟨a4.trans r1, a11⟩

theorem MovePlayer_isOpen (env : Env) (inp : Input) (g : Game) :
    (MovePlayer env inp g).exitDoor =
      { g.exitDoor with isOpen := decide (g.player.keys ≥ MAX_KEYS) } ∧
    g.player.keys ≤ (MovePlayer env inp g).player.keys := by
  unfold MovePlayer
  have h := CheckPlayerInteractions_isOpen env inp
    { g with player := stepPlayer env inp g.gameMaze g.player }
  have hk := (stepPlayer_same env inp g.gameMaze g.player).2.1
  simp only [hk] at h
  exact h

/-- C18, amended: `exitDoor.isOpen` is recomputed at the head of
`CheckPlayerInteractions`, before the keys are collected.  After every call, and after
every playing tick (which returns), the door is open if and only if `player.keys` was
at least `MAX_KEYS` when the call or tick began; the key count never drops, so an open
door implies `player.keys >= MAX_KEYS`. -/
theorem door_open_iff_keys_before (env : Env) (inp : Input) (fuel : Nat) (s : Game × Nat)
    (hs : s.1.currentState = GameState.GAME_PLAYING) :
    ((CheckPlayerInteractions env inp s.1).exitDoor.isOpen = true ↔
      s.1.player.keys ≥ MAX_KEYS) ∧
    s.1.player.keys ≤ (CheckPlayerInteractions env inp s.1).player.keys ∧
    ((CheckPlayerInteractions env inp s.1).exitDoor.isOpen = true →
      (CheckPlayerInteractions env inp s.1).player.keys ≥ MAX_KEYS) ∧
    ∃ s', UpdateGame env inp fuel s = some s' ∧
      (s'.1.exitDoor.isOpen = true ↔ s.1.player.keys ≥ MAX_KEYS) ∧
      s.1.player.keys ≤ s'.1.player.keys ∧
      (s'.1.exitDoor.isOpen = true → s'.1.player.keys ≥ MAX_KEYS) := by
  obtain ⟨c1, c2⟩ := CheckPlayerInteractions_isOpen env inp s.1
  have hc : (CheckPlayerInteractions env inp s.1).exitDoor.isOpen = true ↔
      s.1.player.keys ≥ MAX_KEYS := by
    rw [c1]; simp
  refine ⟨hc, c2, fun h => le_trans (hc.1 h) c2, _, UpdateGame_playing env inp fuel s hs, ?_⟩
  obtain ⟨m1, m2⟩ := MovePlayer_isOpen env inp s.1
  obtain ⟨u1, _⟩ := UpdateEnemies_kept env inp (MovePlayer env inp s.1, s.2)
  obtain ⟨p1, _⟩ := playingRest_kept env inp
    (UpdateEnemies env inp (MovePlayer env inp s.1, s.2)).1
  have hk := Kept_trans u1 p1
  have hd := hk.2.2.2.1
  have hkeys := hk.2.2.2.2.2.2.1
  simp only at hd hkeys ⊢
  have ho : (playingRest env inp (UpdateEnemies env inp
      (MovePlayer env inp s.1, s.2)).1).exitDoor.isOpen = true ↔
      s.1.player.keys ≥ MAX_KEYS := by
    rw [hd, m1]; simp
  refine ⟨ho, ?_, fun h => ?_⟩
  · rw [hkeys]; exact m2
  · rw [hkeys]; exact le_trans (ho.1 h) m2

theorem door_open_iff_keys_before_witness :
    ((CheckPlayerInteractions playEnv (idleInput (1 / 60)) (sampleGame, 0).1).exitDoor.isOpen
        = true ↔ (sampleGame, 0).1.player.keys ≥ MAX_KEYS) ∧
    (sampleGame, 0).1.player.keys ≤
      (CheckPlayerInteractions playEnv (idleInput (1 / 60)) (sampleGame, 0).1).player.keys ∧
    ((CheckPlayerInteractions playEnv (idleInput (1 / 60)) (sampleGame, 0).1).exitDoor.isOpen
        = true →
      (CheckPlayerInteractions playEnv (idleInput (1 / 60)) (sampleGame, 0).1).player.keys
        ≥ MAX_KEYS) ∧
    ∃ s', UpdateGame playEnv (idleInput (1 / 60)) 0 (sampleGame, 0) = some s' ∧
      (s'.1.exitDoor.isOpen = true ↔ (sampleGame, 0).1.player.keys ≥ MAX_KEYS) ∧
      (sampleGame, 0).1.player.keys ≤ s'.1.player.keys ∧
      (s'.1.exitDoor.isOpen = true → s'.1.player.keys ≥ MAX_KEYS) :=
  door_open_iff_keys_before playEnv (idleInput (1 / 60)) 0 (sampleGame, 0) rfl

/-! ## The sort and the rest of the game -/

theorem SortKept_refl (g : Game) : SortKept g g :=
  ⟨rfl, rfl, rfl, rfl, rfl, rfl, fun _ => rfl⟩

theorem sortSwap_kept (g g' : Game) (j : Int) (h : SortKept g g') :
    SortKept g (sortSwap g' j) := by
  obtain ⟨a1, a2, a3, a4, a5, a6, a7⟩ := h
  unfold sortSwap
  refine ⟨a1, a2, a3, a4, a5, ?_, fun k => ?_⟩
  · simp only
    rw [a6]
  · simp only
    split_ifs
    · rw [a7 k]
    · exact a7 k

theorem sortInner_kept (lm : Libm) (g g' : Game) (j : Int) (h : SortKept g g') :
    SortKept g (sortInner lm g' j) := by
  unfold sortInner
  simp only
  split_ifs
  · exact sortSwap_kept g g' j h
  · exact h

theorem sortPass_kept (lm : Libm) (g g' : Game) (i : Int) (h : SortKept g g') :
    SortKept g (sortPass lm g' i) := by
  unfold sortPass
  exact foldl_inv (SortKept g) (sortInner lm) _ g' h
    (fun a b _ ha => sortInner_kept lm g a b ha)

theorem sortSprites_kept (lm : Libm) (g : Game) : SortKept g (sortSprites lm g) := by
  unfold sortSprites
  exact foldl_inv (SortKept g) (sortPass lm) _ g (SortKept_refl g)
    (fun a b _ ha => sortPass_kept lm g a b ha)

/-- The head of `RenderSprites` changes texture and frame of one sprite. -/
theorem updateDoorSprite_spec (g : Game) :
    (updateDoorSprite g).currentState = g.currentState ∧
    (updateDoorSprite g).player = g.player ∧ (updateDoorSprite g).enemies = g.enemies ∧
    (updateDoorSprite g).gameMaze = g.gameMaze ∧
    (updateDoorSprite g).enemyCount = g.enemyCount ∧
    (updateDoorSprite g).spriteCount = g.spriteCount ∧
    (updateDoorSprite g).exitDoor = g.exitDoor ∧
    (updateDoorSprite g).katanaAnim = g.katanaAnim ∧
    ∀ j, ((updateDoorSprite g).sprites j).type = (g.sprites j).type ∧
      ((updateDoorSprite g).sprites j).position = (g.sprites j).position ∧
      ((updateDoorSprite g).sprites j).active = (g.sprites j).active := by
  unfold updateDoorSprite
  simp only
  split_ifs
  all_goals
    refine ⟨rfl, rfl, rfl, rfl, rfl, rfl, rfl, rfl, fun j => ?_⟩
    first
      | exact ⟨rfl, rfl, rfl⟩
      | (by_cases hj : j = g.exitDoor.spriteIndex
         · subst hj; simp [arrSet]
         · simp [arrSet, hj])

/-- A count over the slots in use does not change when they are permuted. -/
theorem countP_perm_range (σ : Equiv.Perm Int) (n : Int)
    (hfix : ∀ i, (i < 0 ∨ n - 1 < i) → σ i = i) (p : Int → Bool) :
    (intRange 0 n).countP (fun i => p (σ i)) = (intRange 0 n).countP p := by
  have hperm : ((intRange 0 n).map σ).Perm (intRange 0 n) := by
    refine (List.perm_ext_iff_of_nodup ?_ (intRange_nodup 0 n)).2 ?_
    · exact (intRange_nodup 0 n).map σ.injective
    · intro a
      rw [List.mem_map]
      constructor
      · rintro ⟨b, hb, rfl⟩
        obtain ⟨h0, h1⟩ := (mem_intRange _ _ _).1 hb
        have := perm_maps_range σ 0 (n - 1) hfix b h0 (by omega)
        exact (mem_intRange _ _ _).2 ⟨this.1, by omega⟩
      · intro ha
        obtain ⟨h0, h1⟩ := (mem_intRange _ _ _).1 ha
        have hfix' : ∀ i, (i < 0 ∨ n - 1 < i) → σ.symm i = i := by
          intro i hi
          exact (Equiv.symm_apply_eq σ).2 (hfix i hi).symm
        have := perm_maps_range σ.symm 0 (n - 1) hfix' a h0 (by omega)
        exact ⟨σ.symm a, (mem_intRange _ _ _).2 ⟨this.1, by omega⟩, by simp⟩
  rw [← hperm.countP_eq p, List.countP_map]
  rfl

theorem RenderGame_playing (env : Env) (screenW screenH : Int) (zBuffer : Int → ℚ) (g : Game)
    (hp : g.currentState = GameState.GAME_PLAYING) :
    RenderGame env screenW screenH zBuffer g =
      sortSprites env.lm (updateDoorSprite g) := by
  unfold RenderGame
  rw [hp]
  rfl

theorem RenderGame_other (env : Env) (screenW screenH : Int) (zBuffer : Int → ℚ) (g : Game)
    (hp : g.currentState ≠ GameState.GAME_PLAYING) :
    RenderGame env screenW screenH zBuffer g = g := by
  unfold RenderGame
  cases hst : g.currentState <;> first | rfl | exact absurd hst hp

/-- `RenderGame` keeps the player, the counts, the maze and the state, and everything
about the enemies and the door but the back-references; it permutes the sprites in
use. -/
theorem RenderGame_spec (env : Env) (screenW screenH : Int) (zBuffer : Int → ℚ) (g : Game) :
    SortKept g (RenderGame env screenW screenH zBuffer g) ∧
    (RenderGame env screenW screenH zBuffer g).player = g.player ∧
    (RenderGame env screenW screenH zBuffer g).spriteCount = g.spriteCount ∧
    (RenderGame env screenW screenH zBuffer g).enemyCount = g.enemyCount ∧
    ∃ σ : Equiv.Perm Int, (∀ i, (i < 0 ∨ g.spriteCount - 1 < i) → σ i = i) ∧
      (∀ i, ((RenderGame env screenW screenH zBuffer g).sprites i).type =
          (g.sprites (σ i)).type ∧
        ((RenderGame env screenW screenH zBuffer g).sprites i).position =
          (g.sprites (σ i)).position ∧
        ((RenderGame env screenW screenH zBuffer g).sprites i).active =
          (g.sprites (σ i)).active) ∧
      (∀ k, 0 ≤ k → k < g.enemyCount →
        σ ((RenderGame env screenW screenH zBuffer g).enemies k).spriteIndex =
          (g.enemies k).spriteIndex) := by
  by_cases hp : g.currentState = GameState.GAME_PLAYING
  · rw [RenderGame_playing env screenW screenH zBuffer g hp]
    obtain ⟨u1, u2, u3, u4, u5, u6, u7, u8, u9⟩ := updateDoorSprite_spec g
    obtain ⟨σ, ⟨s1, s2, s3, s4, s5, s6, s7⟩, _⟩ := sortSprites_inv env.lm (updateDoorSprite g)
    obtain ⟨k1, k2, k3, k4, k5, k6, k7⟩ := sortSprites_kept env.lm (updateDoorSprite g)
    refine ⟨⟨k1.trans u1, k2.trans u4, k3.trans u8, ?_, ?_, ?_, fun k => ?_⟩, s1.trans u2,
      s2.trans u6, s3.trans u5, σ, ?_, fun i => ?_, fun k hk0 hk1 => ?_⟩
    · rw [k4]; unfold updateDoorSprite; split_ifs <;> rfl
    · rw [k5]; unfold updateDoorSprite; split_ifs <;> rfl
    · rw [k6, u7]
    · rw [k7 k, u3]
    · rw [← u6]; exact s4
    · rw [s5 i]; exact u9 (σ i)
    · rw [s6 k, if_pos ⟨hk0, by rw [u5]; exact hk1⟩, Equiv.apply_symm_apply, u3]
  · rw [RenderGame_other env screenW screenH zBuffer g hp]
    exact ⟨SortKept_refl g, rfl, rfl, rfl, 1, fun _ _ => rfl, fun _ => ⟨rfl, rfl, rfl⟩,
      fun _ _ _ => rfl⟩

/-! ## The carving reaches every odd cell -/

theorem Settled_frame {m m' : Maze} (hf : Frame m m') {x y : Int} (h : Settled m x y) :
    Settled m' x y :=
  fun d hd hi => Frame_notWall hf (h d hd hi)

theorem NewSettled_refl (m : Maze) : NewSettled m m :=
  fun _ _ _ hw hn => absurd hw hn

theorem NewSettled_trans {a b c : Maze} (h1 : NewSettled a b) (h2 : NewSettled b c)
    (hf : Frame b c) : NewSettled a c := by
  intro x y ho hw hn
  by_cases hb : b.grid y x = CellType.Wall
  · exact h2 x y ho hb hn
  · exact Settled_frame hf (h1 x y ho hw hb)

theorem carveLoop_settles (rnd : Nat → Nat) (fuel : Nat)
    (ih : ∀ (s : Maze × Nat) (x y : Int) (s' : Maze × Nat), Interior x y → OddCell x y →
      CarveMaze rnd fuel s x y = some s' → NewSettled s.1 s'.1)
    (x y : Int) (hxy : Interior x y) (ho : OddCell x y) :
    ∀ (ds : List Nat) (t t' : Maze × Nat),
      ds.foldlM (carveDir (CarveMaze rnd fuel) x y) t = some t' → NewSettled t.1 t'.1 := by
  intro ds
  induction ds with
  | nil =>
    intro t t' h
    simp only [List.foldlM_nil, Option.pure_def, Option.some.injEq] at h
    subst h
    exact NewSettled_refl _
  | cons d ds ihl =>
    intro t t' h
    rw [List.foldlM_cons] at h
    simp only [Option.bind_eq_bind, Option.bind_eq_some] at h
    obtain ⟨u, hu, hrest⟩ := h
    have hrestF := (carveLoop_post (1, 1) (CarveMaze rnd fuel) (CarveMaze_post rnd (1, 1) fuel)
      x y hxy ds u t' hrest).1
    refine NewSettled_trans ?_ (ihl u t' hrest) hrestF
    unfold carveDir at hu
    simp only at hu
    split at hu
    · rename_i hin
      have hin' : Interior (x + (DIRS d).1 * 2) (y + (DIRS d).2 * 2) := hin
      split at hu
      · have hodd : OddCell (x + (DIRS d).1 * 2) (y + (DIRS d).2 * 2) := by
          unfold OddCell at ho ⊢
          omega
        have h1 := ih _ _ _ u hin' hodd hu
        have hset : Settled u.1 (x + (DIRS d).1 * 2) (y + (DIRS d).2 * 2) :=
          fun d' hd' hi' => CarveMaze_opens rnd fuel _ u _ _ hin' hu d' hd' hi'
        intro cx cy hc hw hn
        by_cases hm2 : ((t.1.set (y + (DIRS d).2) (x + (DIRS d).1) CellType.Empty).set
            (y + (DIRS d).2 * 2) (x + (DIRS d).1 * 2) CellType.Empty).grid cy cx = CellType.Wall
        · exact h1 cx cy hc hm2 hn
        · simp only [Maze.set, setCell] at hm2
          by_cases hc2 : cy = y + (DIRS d).2 * 2 ∧ cx = x + (DIRS d).1 * 2
          · rw [hc2.1, hc2.2]; exact hset
          · rw [if_neg hc2] at hm2
            by_cases hc1 : cy = y + (DIRS d).2 ∧ cx = x + (DIRS d).1
            · exfalso
              unfold OddCell at ho hc
              rcases DIRS_unit d with hd | hd | hd | hd <;> rw [hd] at hc1 <;>
                simp only at hc1 <;> omega
            · rw [if_neg hc1] at hm2
              exact absurd hw hm2
      · simp only [Option.some.injEq] at hu
        subst hu
        exact NewSettled_refl _
    · simp only [Option.some.injEq] at hu
      subst hu
      exact NewSettled_refl _

theorem CarveMaze_settles (rnd : Nat → Nat) :
    ∀ (fuel : Nat) (s : Maze × Nat) (x y : Int) (s' : Maze × Nat), Interior x y →
      OddCell x y → CarveMaze rnd fuel s x y = some s' → NewSettled s.1 s'.1 := by
  intro fuel
  induction fuel with
  | zero => intro s x y s' _ _ h; simp [CarveMaze] at h
  | succ fuel ih =>
    intro s x y s' hxy ho h
    simp only [CarveMaze] at h
    exact carveLoop_settles rnd fuel ih x y hxy ho _ (s.1, (ShuffleDirections rnd s.2).2) s' h

/-- After the carving from (1,1) on the grid of walls, every odd interior cell is
open. -/
theorem CarveMaze_odd_open {rnd : Nat → Nat} {fuel : Nat} {maze : Maze} {k : Nat}
    {s : Maze × Nat} (h : CarveMaze rnd fuel (initMaze maze, k) 1 1 = some s) :
    ∀ (i j : Nat), i ≤ 6 → j ≤ 6 →
      s.1.grid (2 * (j : Int) + 1) (2 * (i : Int) + 1) ≠ CellType.Wall := by
  have hnew := CarveMaze_settles rnd fuel _ 1 1 s interior_one (by unfold OddCell; decide) h
  have hfr := (CarveMaze_post rnd (1, 1) fuel _ 1 1 s interior_one h).1
  have h11 : s.1.grid 1 1 ≠ CellType.Wall :=
    Frame_notWall hfr (by simp [initMaze_grid])
  have hset : ∀ x y, OddCell x y → s.1.grid y x ≠ CellType.Wall → Settled s.1 x y := by
    intro x y ho hn
    by_cases h1 : y = 1 ∧ x = 1
    · rw [h1.1, h1.2]
      exact fun d hd hi => CarveMaze_opens rnd fuel _ s 1 1 interior_one h d hd hi
    · refine hnew x y ho ?_ hn
      rw [initMaze_grid, if_neg h1]
  -- along the first row, then down each column
  have hrow : ∀ (i : Nat), i ≤ 6 → s.1.grid 1 (2 * (i : Int) + 1) ≠ CellType.Wall := by
    intro i
    induction i with
    | zero => intro _; simpa using h11
    | succ i ih =>
      intro hi
      have hprev := ih (by omega)
      have hs := hset (2 * (i : Int) + 1) 1 (by unfold OddCell; omega) hprev 1 (by norm_num)
        (by unfold Interior MAZE_WIDTH MAZE_HEIGHT DIRS; simp; omega)
      simp only [DIRS] at hs
      have e1 : (2 : Int) * ((i + 1 : Nat) : Int) + 1 = 2 * (i : Int) + 1 + 1 * 2 := by
        push_cast; ring
      rw [e1]
      simpa using hs
  intro i j hi hj
  induction j with
  | zero => simpa using hrow i hi
  | succ j ih =>
    have hprev := ih (by omega)
    have hs := hset (2 * (i : Int) + 1) (2 * (j : Int) + 1) (by unfold OddCell; omega) hprev 2
      (by norm_num) (by unfold Interior MAZE_WIDTH MAZE_HEIGHT DIRS; simp; omega)
    simp only [DIRS] at hs
    have e1 : (2 : Int) * ((j + 1 : Nat) : Int) + 1 = 2 * (j : Int) + 1 + 1 * 2 := by
      push_cast; ring
    rw [e1]
    simpa using hs

/-! ## The generated maze, as the game uses it -/

/-- Every maze that `GenerateMaze` returns has its start at (1,1) and its exit at
(13,13), the only cell tagged `Exit`, and three cells tagged `Key`. -/
theorem generated_maze {rnd : Nat → Nat} {fuel : Nat} {maze : Maze} {k : Nat}
    {r : Maze × Nat} (h : GenerateMaze rnd fuel maze k = some r) :
    r.1.startPos = { x := 1, y := 1 } ∧ r.1.exitPos = { x := 13, y := 13 } ∧
    (∀ y x, r.1.grid y x = CellType.Exit ↔ (y = 13 ∧ x = 13)) ∧
    countCells r.1 CellType.Key = 3 := by
  obtain ⟨s, hcarve, hplace⟩ := GenerateMaze_some h
  obtain ⟨hcarved, hstart, _⟩ := CarveMaze_init hcarve
  have hpl := PlaceObjects_placed hplace
  obtain ⟨ex, ey, hex, hpos, hcell⟩ := exit_cell_final hcarved hplace
  obtain ⟨hei, hee, hmax, _⟩ := findExit_some s.1 (ex, ey) hex
  have hopen := CarveMaze_odd_open hcarve 6 6 (le_refl _) (le_refl _)
  have h13 : s.1.grid 13 13 = CellType.Empty := by
    rcases hcarved 13 13 with h0 | ⟨h0, _⟩
    · exact absurd h0 (by simpa using hopen)
    · exact h0
  have hfar := hmax 13 13 (by unfold Interior MAZE_WIDTH MAZE_HEIGHT; decide) h13
  rw [hstart] at hfar
  simp only [sqDist] at hfar
  have hfarZ : (288 : Int) ≤ (ex - 1) * (ex - 1) + (ey - 1) * (ey - 1) := by
    have : ((288 : Int) : ℚ) ≤ (((ex - 1) * (ex - 1) + (ey - 1) * (ey - 1) : Int) : ℚ) := by
      push_cast
      norm_num at hfar ⊢
      linarith
    exact_mod_cast this
  have hexy : ex = 13 ∧ ey = 13 := by
    unfold Interior MAZE_WIDTH MAZE_HEIGHT at hei
    simp only at hei
    obtain ⟨x0, x1, y0, y1⟩ := hei
    have hx : ex ≤ 13 := by omega
    have hy : ey ≤ 13 := by omega
    constructor
    · by_contra hne
      have hx' : ex ≤ 12 := by omega
      nlinarith
    · by_contra hne
      have hy' : ey ≤ 12 := by omega
      nlinarith
  obtain ⟨rfl, rfl⟩ := hexy
  obtain ⟨ex', ey', s3, hex', hk, hen⟩ := PlaceObjects_some hplace
  rw [hex] at hex'
  simp only [Option.some.injEq, Prod.mk.injEq] at hex'
  obtain ⟨rfl, rfl⟩ := hex'
  obtain ⟨k1, _, _⟩ := placeKeys_count rnd 13 13 fuel _ _ _ (by norm_num) hk
  obtain ⟨_, _, e3⟩ := placeEnemies_count rnd fuel _ _ _ (by norm_num) hen
  have w2 : countCells (withExit s.1 13 13) CellType.Key = 0 := by
    have := countCells_set_other s.1 13 13 CellType.Exit CellType.Key (by decide)
      (by rw [hee]; decide)
    rw [countCells_carved hcarved CellType.Key (by decide) (by decide)] at this
    exact this
  simp only at k1
  refine ⟨?_, ?_, hcell, ?_⟩
  · rw [hpl.1]; exact hstart
  · rw [hpos]; norm_num
  · rw [e3]
    have : (countCells s3.1 CellType.Key : Int) = 3 := by rw [k1, w2]; norm_num
    exact_mod_cast this

/-! ## `InitEnemies` -/

theorem addKeySprite_spec (env : Env) (g : Game) (c : Int × Int) :
    (addKeySprite env g c).player = g.player ∧
    (addKeySprite env g c).gameMaze = g.gameMaze ∧
    (addKeySprite env g c).exitDoor = g.exitDoor ∧
    (addKeySprite env g c).enemies = g.enemies ∧
    (addKeySprite env g c).enemyCount = g.enemyCount ∧
    (addKeySprite env g c).currentState = g.currentState ∧
    (addKeySprite env g c).katanaAnim = g.katanaAnim ∧
    g.spriteCount ≤ (addKeySprite env g c).spriteCount ∧
    (addKeySprite env g c).spriteCount ≤ g.spriteCount +
      (if GetCellType g.gameMaze c.1 c.2 = CellType.Key then 1 else 0) ∧
    (∀ i, i < g.spriteCount → (addKeySprite env g c).sprites i = g.sprites i) ∧
    (∀ i, g.spriteCount ≤ i → i < (addKeySprite env g c).spriteCount →
      ((addKeySprite env g c).sprites i).type = CellType.Key) := by
  unfold addKeySprite
  simp only
  split_ifs with h1 h2 h2
  · refine ⟨rfl, rfl, rfl, rfl, rfl, rfl, rfl, by simp, by simp, fun i hi => ?_, fun i h0 h1 => ?_⟩
    · simp [arrSet, ne_of_lt hi]
    · have : i = g.spriteCount := by simp only at h1; omega
      subst this
      simp [arrSet]
  · exact absurd h1.1 h2
  · refine ⟨rfl, rfl, rfl, rfl, rfl, rfl, rfl, le_refl _, by simp, fun _ _ => rfl,
      fun i h0 h1 => ?_⟩
    omega
  · refine ⟨rfl, rfl, rfl, rfl, rfl, rfl, rfl, le_refl _, by simp, fun _ _ => rfl,
      fun i h0 h1 => ?_⟩
    omega

theorem keyLoop_spec (env : Env) :
    ∀ (l : List (Int × Int)) (g : Game),
      (l.foldl (addKeySprite env) g).player = g.player ∧
      (l.foldl (addKeySprite env) g).gameMaze = g.gameMaze ∧
      (l.foldl (addKeySprite env) g).exitDoor = g.exitDoor ∧
      (l.foldl (addKeySprite env) g).enemies = g.enemies ∧
      (l.foldl (addKeySprite env) g).enemyCount = g.enemyCount ∧
      (l.foldl (addKeySprite env) g).currentState = g.currentState ∧
      (l.foldl (addKeySprite env) g).katanaAnim = g.katanaAnim ∧
      g.spriteCount ≤ (l.foldl (addKeySprite env) g).spriteCount ∧
      (l.foldl (addKeySprite env) g).spriteCount ≤ g.spriteCount +
        (l.countP fun c => decide (GetCellType g.gameMaze c.1 c.2 = CellType.Key) : Nat) ∧
      (∀ i, i < g.spriteCount → (l.foldl (addKeySprite env) g).sprites i = g.sprites i) ∧
      (∀ i, g.spriteCount ≤ i → i < (l.foldl (addKeySprite env) g).spriteCount →
        ((l.foldl (addKeySprite env) g).sprites i).type = CellType.Key) := by
  intro l
  induction l with
  | nil =>
    intro g
    refine ⟨rfl, rfl, rfl, rfl, rfl, rfl, rfl, le_refl _, by simp, fun _ _ => rfl,
      fun i h0 h1 => ?_⟩
    simp only [List.foldl_nil] at h1
    omega
  | cons c l ih =>
    intro g
    rw [List.foldl_cons]
    obtain ⟨a1, a2, a3, a4, a5, a6, a7, a8, a9, a10, a11⟩ := addKeySprite_spec env g c
    obtain ⟨b1, b2, b3, b4, b5, b6, b7, b8, b9, b10, b11⟩ := ih (addKeySprite env g c)
    refine ⟨b1.trans a1, b2.trans a2, b3.trans a3, b4.trans a4, b5.trans a5, b6.trans a6,
      b7.trans a7, le_trans a8 b8, ?_, fun i hi => ?_, fun i h0 h1 => ?_⟩
    · rw [a2] at b9
      rw [List.countP_cons]
      by_cases hk : GetCellType g.gameMaze c.1 c.2 = CellType.Key
      · rw [if_pos hk] at a9
        simp [hk]
        omega
      · rw [if_neg hk] at a9
        simp [hk]
        omega
    · rw [b10 i (lt_of_lt_of_le hi a8), a10 i hi]
    · by_cases hlt : i < (addKeySprite env g c).spriteCount
      · rw [b10 i hlt]
        exact a11 i h0 hlt
      · exact b11 i (not_lt.1 hlt) h1

theorem addEnemy_spec (env : Env) (s : Game × Nat) (c : Int × Int) (base : Int)
    (hb : base ≤ 4) (hm : s.1.enemyCount ≤ MAX_ENEMIES)
    (hs : s.1.spriteCount = base + s.1.enemyCount) :
    (addEnemy env s c).1.player = s.1.player ∧
    (addEnemy env s c).1.gameMaze = s.1.gameMaze ∧
    (addEnemy env s c).1.exitDoor = s.1.exitDoor ∧
    (addEnemy env s c).1.currentState = s.1.currentState ∧
    (addEnemy env s c).1.katanaAnim = s.1.katanaAnim ∧
    (addEnemy env s c).1.spriteCount = base + (addEnemy env s c).1.enemyCount ∧
    s.1.enemyCount ≤ (addEnemy env s c).1.enemyCount ∧
    (addEnemy env s c).1.enemyCount ≤ MAX_ENEMIES ∧
    (∀ i, i < s.1.spriteCount → (addEnemy env s c).1.sprites i = s.1.sprites i) ∧
    (∀ i, s.1.spriteCount ≤ i → i < (addEnemy env s c).1.spriteCount →
      ((addEnemy env s c).1.sprites i).type = CellType.Enemy) ∧
    (∀ k, k < s.1.enemyCount → (addEnemy env s c).1.enemies k = s.1.enemies k) ∧
    (∀ k, s.1.enemyCount ≤ k → k < (addEnemy env s c).1.enemyCount →
      ((addEnemy env s c).1.enemies k).spriteIndex = base + k ∧
      ((addEnemy env s c).1.enemies k).active = true ∧
      ((addEnemy env s c).1.enemies k).isDying = false ∧
      ((addEnemy env s c).1.enemies k).health = ENEMY_HEALTH) := by
  unfold addEnemy
  simp only
  have hmax : MAX_ENEMIES = 10 := rfl
  have hspr : MAX_SPRITES = 15 := rfl
  by_cases h1 : GetCellType s.1.gameMaze c.1 c.2 = CellType.Enemy ∧ s.1.enemyCount < MAX_ENEMIES
  · rw [if_pos h1]
    have hroom : s.1.spriteCount < MAX_SPRITES := by omega
    rw [if_pos hroom]
    refine ⟨rfl, rfl, rfl, rfl, rfl, ?_, ?_, ?_, fun i hi => ?_, fun i hi0 hi1 => ?_,
      fun k hk => ?_, fun k hk0 hk1 => ?_⟩
    · simp only; omega
    · simp only; omega
    · simp only; omega
    · simp [arrSet, ne_of_lt hi]
    · have : i = s.1.spriteCount := by simp only at hi1; omega
      subst this
      simp [arrSet]
    · simp [arrSet, ne_of_lt hk]
    · have : k = s.1.enemyCount := by simp only at hk1; omega
      subst this
      simp only [arrSet_same]
      exact ⟨hs, trivial, trivial, trivial⟩
  · rw [if_neg h1]
    refine ⟨rfl, rfl, rfl, rfl, rfl, hs, le_refl _, hm, fun _ _ => rfl, fun i hi0 hi1 => ?_,
      fun _ _ => rfl, fun k hk0 hk1 => ?_⟩
    · omega
    · omega

theorem enemyLoop_spec (env : Env) (base : Int) (hb : base ≤ 4) :
    ∀ (l : List (Int × Int)) (s : Game × Nat),
      s.1.enemyCount ≤ MAX_ENEMIES → s.1.spriteCount = base + s.1.enemyCount →
      (l.foldl (addEnemy env) s).1.player = s.1.player ∧
      (l.foldl (addEnemy env) s).1.gameMaze = s.1.gameMaze ∧
      (l.foldl (addEnemy env) s).1.exitDoor = s.1.exitDoor ∧
      (l.foldl (addEnemy env) s).1.currentState = s.1.currentState ∧
      (l.foldl (addEnemy env) s).1.katanaAnim = s.1.katanaAnim ∧
      (l.foldl (addEnemy env) s).1.spriteCount = base + (l.foldl (addEnemy env) s).1.enemyCount ∧
      s.1.enemyCount ≤ (l.foldl (addEnemy env) s).1.enemyCount ∧
      (l.foldl (addEnemy env) s).1.enemyCount ≤ MAX_ENEMIES ∧
      (∀ i, i < s.1.spriteCount → (l.foldl (addEnemy env) s).1.sprites i = s.1.sprites i) ∧
      (∀ i, s.1.spriteCount ≤ i → i < (l.foldl (addEnemy env) s).1.spriteCount →
        ((l.foldl (addEnemy env) s).1.sprites i).type = CellType.Enemy) ∧
      (∀ k, k < s.1.enemyCount → (l.foldl (addEnemy env) s).1.enemies k = s.1.enemies k) ∧
      (∀ k, s.1.enemyCount ≤ k → k < (l.foldl (addEnemy env) s).1.enemyCount →
        ((l.foldl (addEnemy env) s).1.enemies k).spriteIndex = base + k ∧
        ((l.foldl (addEnemy env) s).1.enemies k).active = true ∧
        ((l.foldl (addEnemy env) s).1.enemies k).isDying = false ∧
        ((l.foldl (addEnemy env) s).1.enemies k).health = ENEMY_HEALTH) := by
  intro l
  induction l with
  | nil =>
    intro s hm hs
    refine ⟨rfl, rfl, rfl, rfl, rfl, hs, le_refl _, hm, fun _ _ => rfl, fun i h0 h1 => ?_,
      fun _ _ => rfl, fun k h0 h1 => ?_⟩
    · simp only [List.foldl_nil] at h1; omega
    · simp only [List.foldl_nil] at h1; omega
  | cons c l ih =>
    intro s hm hs
    rw [List.foldl_cons]
    obtain ⟨a1, a2, a3, a4, a5, a6, a7, a8, a9, a10, a11, a12⟩ :=
      addEnemy_spec env s c base hb hm hs
    obtain ⟨b1, b2, b3, b4, b5, b6, b7, b8, b9, b10, b11, b12⟩ :=
      ih (addEnemy env s c) a8 a6
    have hsc : s.1.spriteCount ≤ (addEnemy env s c).1.spriteCount := by omega
    refine ⟨b1.trans a1, b2.trans a2, b3.trans a3, b4.trans a4, b5.trans a5, b6,
      le_trans a7 b7, b8, fun i hi => ?_, fun i hi0 hi1 => ?_, fun k hk => ?_,
      fun k hk0 hk1 => ?_⟩
    · rw [b9 i (lt_of_lt_of_le hi hsc), a9 i hi]
    · by_cases hlt : i < (addEnemy env s c).1.spriteCount
      · rw [b9 i hlt]; exact a10 i hi0 hlt
      · exact b10 i (not_lt.1 hlt) hi1
    · rw [b11 k (lt_of_lt_of_le hk a7), a11 k hk]
    · by_cases hlt : k < (addEnemy env s c).1.enemyCount
      · rw [b11 k hlt]; exact a12 k hk0 hlt
      · exact b12 k (not_lt.1 hlt) hk1

theorem keyCells_count (m : Maze) :
    (gridCells.countP fun c => decide (GetCellType m c.1 c.2 = CellType.Key)) =
      countCells m CellType.Key := by
  unfold countCells
  refine List.countP_congr ?_
  intro c hc
  obtain ⟨h1, h2, h3, h4⟩ := (mem_gridCells c).1 hc
  have : GetCellType m c.1 c.2 = m.grid c.2 c.1 := by
    unfold GetCellType
    rw [if_neg (by omega)]
  rw [this]

/-- What `InitEnemies` builds on a maze with at most three `Key` cells: `n <= 3` key
sprites in the slots `0 .. n-1`, the door sprite in the slot `n` at the door's place,
then one sprite of type `Enemy` for each enemy; every enemy is active, not dying, has
full health and refers to its own sprite. -/
theorem InitEnemies_spec (env : Env) (s : Game × Nat)
    (hkeys : countCells s.1.gameMaze CellType.Key ≤ 3) :
    (InitEnemies env s).1.player = s.1.player ∧
    (InitEnemies env s).1.gameMaze = s.1.gameMaze ∧
    (InitEnemies env s).1.currentState = s.1.currentState ∧
    (InitEnemies env s).1.katanaAnim = s.1.katanaAnim ∧
    (InitEnemies env s).1.exitDoor.position = s.1.exitDoor.position ∧
    (InitEnemies env s).1.exitDoor.isOpen = s.1.exitDoor.isOpen ∧
    0 ≤ (InitEnemies env s).1.enemyCount ∧
    (InitEnemies env s).1.enemyCount ≤ MAX_ENEMIES ∧
    ∃ n : Int, 0 ≤ n ∧ n ≤ 3 ∧
      (InitEnemies env s).1.spriteCount = n + 1 + (InitEnemies env s).1.enemyCount ∧
      (InitEnemies env s).1.exitDoor.spriteIndex = n ∧
      (∀ i, 0 ≤ i → i < n → ((InitEnemies env s).1.sprites i).type = CellType.Key) ∧
      ((InitEnemies env s).1.sprites n).type = CellType.Exit ∧
      ((InitEnemies env s).1.sprites n).position = s.1.exitDoor.position ∧
      (∀ i, n < i → i < (InitEnemies env s).1.spriteCount →
        ((InitEnemies env s).1.sprites i).type = CellType.Enemy) ∧
      (∀ k, 0 ≤ k → k < (InitEnemies env s).1.enemyCount →
        ((InitEnemies env s).1.enemies k).spriteIndex = n + 1 + k ∧
        ((InitEnemies env s).1.enemies k).active = true ∧
        ((InitEnemies env s).1.enemies k).isDying = false ∧
        ((InitEnemies env s).1.enemies k).health = ENEMY_HEALTH) := by
  unfold InitEnemies
  simp only
  generalize hg0 : ({ s.1 with enemyCount := 0, spriteCount := 0 } : Game) = g0
  have e0 : g0.spriteCount = 0 := by subst hg0; rfl
  have e1 : g0.enemyCount = 0 := by subst hg0; rfl
  have e2 : g0.player = s.1.player := by subst hg0; rfl
  have e3 : g0.gameMaze = s.1.gameMaze := by subst hg0; rfl
  have e4 : g0.exitDoor = s.1.exitDoor := by subst hg0; rfl
  have e5 : g0.currentState = s.1.currentState := by subst hg0; rfl
  have e6 : g0.katanaAnim = s.1.katanaAnim := by subst hg0; rfl
  obtain ⟨a1, a2, a3, a4, a5, a6, a7, a8, a9, a10, a11⟩ := keyLoop_spec env gridCells g0
  generalize hg1 : gridCells.foldl (addKeySprite env) g0 = g1 at a1 a2 a3 a4 a5 a6 a7 a8 a9 a10 a11
  rw [keyCells_count, e3, e0] at a9
  rw [e0] at a8 a11
  have hn3 : g1.spriteCount ≤ 3 := by
    have : ((countCells s.1.gameMaze CellType.Key : Nat) : Int) ≤ 3 := by exact_mod_cast hkeys
    omega
  have hmax : MAX_ENEMIES = 10 := rfl
  obtain ⟨b1, b2, b3, b4, b5, b6, b7, b8, b9, b10, b11, b12⟩ :=
    enemyLoop_spec env (g1.spriteCount + 1) (by omega) gridCells (addDoorSprite g1, s.2)
      (by simp [addDoorSprite, a5, e1, hmax]) (by simp [addDoorSprite, a5, e1])
  have d1 : (addDoorSprite g1).player = g1.player := rfl
  have d2 : (addDoorSprite g1).gameMaze = g1.gameMaze := rfl
  have d3 : (addDoorSprite g1).currentState = g1.currentState := rfl
  have d4 : (addDoorSprite g1).katanaAnim = g1.katanaAnim := rfl
  have d5 : (addDoorSprite g1).exitDoor = { g1.exitDoor with spriteIndex := g1.spriteCount } := rfl
  have d6 : (addDoorSprite g1).spriteCount = g1.spriteCount + 1 := rfl
  have d7 : (addDoorSprite g1).enemyCount = 0 := by
    change g1.enemyCount = 0
    rw [a5, e1]
  have d8 : ∀ i, i < g1.spriteCount → (addDoorSprite g1).sprites i = g1.sprites i := by
    intro i hi
    simp [addDoorSprite, arrSet, ne_of_lt hi]
  have d9 : ((addDoorSprite g1).sprites g1.spriteCount).type = CellType.Exit ∧
      ((addDoorSprite g1).sprites g1.spriteCount).position = g1.exitDoor.position := by
    simp [addDoorSprite, arrSet]
  simp only at b1 b2 b3 b4 b5 b6 b7 b8 b9 b10 b11 b12
  rw [d7] at b7 b12
  rw [d6] at b9 b10
  refine ⟨b1.trans (d1.trans (a1.trans e2)), b2.trans (d2.trans (a2.trans e3)),
    b4.trans (d3.trans (a6.trans e5)), b5.trans (d4.trans (a7.trans e6)), ?_, ?_, b7, b8,
    g1.spriteCount, a8, hn3, b6, ?_, fun i hi0 hi1 => ?_, ?_, ?_, fun i hi0 hi1 => ?_,
    fun k hk0 hk1 => b12 k hk0 hk1⟩
  · rw [b3, d5, a3, e4]
  · rw [b3, d5, a3, e4]
  · rw [b3, d5]
  · rw [b9 i (by omega), d8 i hi1]
    exact a11 i hi0 hi1
  · rw [b9 _ (by omega)]
    exact d9.1
  · rw [b9 _ (by omega), d9.2, a3, e4]
  · exact b10 i (by omega) hi1

/-! ## The invariant of a run -/

theorem GameInv_kept {g g' : Game} (h : GameInv g) (hk : Kept g g')
    (h0 : 0 ≤ g'.player.health) (h1 : g'.player.health ≤ 100) : GameInv g' := by
  obtain ⟨_, _, i3, i4, i5, i6, i7, i8⟩ := h
  obtain ⟨k1, k2, k3, k4, _, _, k7, k8, k9, k10⟩ := hk
  have hact : activeKeys g' = activeKeys g :=
    activeKeys_congr g g' k3 (fun j => ⟨(k9 j).2, (k9 j).1⟩)
  refine ⟨h0, h1, by rw [k7]; exact i3, by rw [k7, hact]; exact i4, fun i hi0 hi1 ht => ?_,
    fun k hk0 hk1 hs0 hs1 => ?_, by rw [k1]; exact i7, by rw [k4]; exact i8⟩
  · rw [k3] at hi1
    rw [(k9 i).1] at ht
    have hfree : ∀ k, 0 ≤ k → k < g.enemyCount → (g.enemies k).spriteIndex ≠ i := by
      intro k hk0 hk1 hidx
      have := i6 k hk0 hk1 (by rw [hidx]; exact hi0) (by rw [hidx]; exact hi1)
      rw [hidx, ht] at this
      exact absurd this (by decide)
    rw [k10 i hfree]
    exact i5 i hi0 hi1 ht
  · rw [k2] at hk1
    rw [k8 k] at hs0 hs1 ⊢
    rw [k3] at hs1
    rw [(k9 _).1]
    exact i6 k hk0 hk1 hs0 hs1

theorem GameInv_interacted {lm : Libm} {g g' : Game} (h : GameInv g)
    (hi : Interacted lm g g') : GameInv g' := by
  obtain ⟨i1, i2, i3, i4, i5, i6, i7, i8⟩ := h
  obtain ⟨a1, a2, a3, a4, _, a6, _, _, a9, a10, a11, _, _, a14, _⟩ := hi
  refine ⟨by rw [a6]; exact i1, by rw [a6]; exact i2, le_trans i3 a11, by rw [a10]; exact i4,
    fun i hi0 hi1 ht => ?_, fun k hk0 hk1 hs0 hs1 => ?_, ?_, by rw [a4]; exact i8⟩
  · rw [(a9 i).2.1]
    exact i5 i hi0 (by rw [← a1]; exact hi1) (by rw [← (a9 i).1]; exact ht)
  · rw [a3] at hs0 hs1 ⊢
    rw [(a9 _).1]
    exact i6 k hk0 (by rw [← a2]; exact hk1) hs0 (by rw [← a1]; exact hs1)
  · rcases a14 13 13 with hx | ⟨hx, _⟩
    · rw [hx]; exact i7
    · rw [i7] at hx; exact absurd hx (by decide)

theorem GameInv_refreshDoor {g : Game} (h : GameInv g) : GameInv (refreshDoor g) := by
  obtain ⟨i1, i2, i3, i4, i5, i6, i7, i8⟩ := h
  obtain ⟨r1, r2, r3, r4, r5, r6, _, _, r9⟩ := refreshDoor_spec g
  refine ⟨by rw [r2]; exact i1, by rw [r2]; exact i2, by rw [r2]; exact i3,
    by rw [r2, activeKeys_refreshDoor]; exact i4, fun i hi0 hi1 ht => ?_,
    fun k hk0 hk1 hs0 hs1 => ?_, by rw [r4]; exact i7, by rw [r1]; exact i8⟩
  · rw [(r9 i).2.1]
    exact i5 i hi0 (by rw [← r5]; exact hi1) (by rw [← (r9 i).1]; exact ht)
  · rw [r3] at hs0 hs1 ⊢
    rw [(r9 _).1]
    exact i6 k hk0 (by rw [← r6]; exact hk1) hs0 (by rw [← r5]; exact hs1)

theorem GameInv_step {g : Game} (h : GameInv g) (p : Player) (hh : p.health = g.player.health)
    (hk : p.keys = g.player.keys) : GameInv { g with player := p } := by
  obtain ⟨i1, i2, i3, i4, i5, i6, i7, i8⟩ := h
  exact ⟨by rw [← hh] at i1; exact i1, by rw [← hh] at i2; exact i2,
    by rw [← hk] at i3; exact i3, by rw [← hk] at i4; exact i4, i5, i6, i7, i8⟩

theorem GameInv_MovePlayer (env : Env) (inp : Input) {g : Game} (h : GameInv g) :
    GameInv (MovePlayer env inp g) := by
  obtain ⟨s1, s2, _⟩ := stepPlayer_same env inp g.gameMaze g.player
  exact GameInv_interacted (GameInv_refreshDoor (GameInv_step h _ s1 s2))
    (MovePlayer_spec env inp g)

theorem GameInv_state {g : Game} (h : GameInv g) (st : GameState) :
    GameInv { g with currentState := st } := h

theorem GameInv_render (env : Env) (screenW screenH : Int) (zBuffer : Int → ℚ) {g : Game}
    (h : GameInv g) : GameInv (RenderGame env screenW screenH zBuffer g) := by
  obtain ⟨i1, i2, i3, i4, i5, i6, i7, i8⟩ := h
  obtain ⟨⟨_, k2, _, _, _, k6, _⟩, hp, hsc, hec, σ, hfix, hsp, hidx⟩ :=
    RenderGame_spec env screenW screenH zBuffer g
  have hrange : ∀ i, 0 ≤ i → i < g.spriteCount → 0 ≤ σ i ∧ σ i < g.spriteCount := by
    intro i h0 h1
    have := perm_maps_range σ 0 (g.spriteCount - 1) hfix i h0 (by omega)
    omega
  have hact : activeKeys (RenderGame env screenW screenH zBuffer g) = activeKeys g := by
    unfold activeKeys
    rw [hsc]
    have hc := countP_perm_range σ g.spriteCount hfix
      (fun i => (g.sprites i).active && decide ((g.sprites i).type = CellType.Key))
    rw [← hc]
    refine List.countP_congr ?_
    intro i _
    simp only [(hsp i).1, (hsp i).2.2]
  refine ⟨by rw [hp]; exact i1, by rw [hp]; exact i2, by rw [hp]; exact i3,
    by rw [hp, hact]; exact i4, fun i hi0 hi1 ht => ?_, fun k hk0 hk1 hs0 hs1 => ?_,
    by rw [k2]; exact i7, by rw [k6]; exact i8⟩
  · rw [hsc] at hi1
    obtain ⟨r0, r1⟩ := hrange i hi0 hi1
    rw [(hsp i).2.1]
    exact i5 (σ i) r0 r1 (by rw [← (hsp i).1]; exact ht)
  · rw [hec] at hk1
    rw [hsc] at hs1
    obtain ⟨r0, r1⟩ := hrange _ hs0 hs1
    have hi := hidx k hk0 hk1
    rw [(hsp _).1, hi]
    rw [hi] at r0 r1
    exact i6 k hk0 hk1 r0 r1

theorem activeKeys_le (g : Game) (n : Int) (hn : 0 ≤ n)
    (h : ∀ i, 0 ≤ i → i < g.spriteCount → (g.sprites i).type = CellType.Key → i < n) :
    (activeKeys g : Int) ≤ n := by
  unfold activeKeys
  have h1 : (intRange 0 g.spriteCount).countP (fun i =>
      (g.sprites i).active && decide ((g.sprites i).type = CellType.Key)) ≤
      (intRange 0 g.spriteCount).countP (fun i => decide (i < n)) := by
    refine List.countP_mono_left ?_
    intro i hi hp
    obtain ⟨h0, h1⟩ := (mem_intRange _ _ _).1 hi
    simp only [Bool.and_eq_true, decide_eq_true_eq] at hp ⊢
    exact h i h0 h1 hp.2
  have h2 : (intRange 0 g.spriteCount).countP (fun i => decide (i < n)) ≤
      (intRange 0 n).length := by
    rw [List.countP_eq_length_filter]
    refine (List.subperm_of_subset ((intRange_nodup _ _).filter _) ?_).length_le
    intro i hi
    obtain ⟨hm, hp⟩ := List.mem_filter.1 hi
    obtain ⟨h0, _⟩ := (mem_intRange _ _ _).1 hm
    simp only [decide_eq_true_eq] at hp
    exact (mem_intRange _ _ _).2 ⟨h0, hp⟩
  have h3 : (intRange 0 n).length = n.toNat := by
    simp [intRange]
  have : ((n.toNat : Nat) : Int) = n := Int.toNat_of_nonneg hn
  omega

/-- `InitEnemies` sets up the invariant on a maze with at most three `Key` cells and
the exit at (13,13), when the player has just been reset and the door stands there. -/
theorem GameInv_fresh (env : Env) (s : Game × Nat)
    (hkeys : countCells s.1.gameMaze CellType.Key ≤ 3)
    (hexit : s.1.gameMaze.grid 13 13 = CellType.Exit)
    (hdoor : s.1.exitDoor.position = { x := 27 / 2, y := 27 / 2 })
    (hh : s.1.player.health = 100) (hk : s.1.player.keys = 0) :
    GameInv (InitEnemies env s).1 := by
  obtain ⟨a1, a2, _, _, a5, _, a7, a8, n, n0, n3, hsc, _, hkey, hex, hpos, hen, henemy⟩ :=
    InitEnemies_spec env s hkeys
  have htype : ∀ i, 0 ≤ i → i < (InitEnemies env s).1.spriteCount →
      ((InitEnemies env s).1.sprites i).type = CellType.Key → i < n := by
    intro i hi0 hi1 ht
    by_contra hge
    rcases eq_or_lt_of_le (not_lt.1 hge) with heq | hlt
    · rw [← heq, hex] at ht; exact absurd ht (by decide)
    · rw [hen i hlt hi1] at ht; exact absurd ht (by decide)
  have hact := activeKeys_le (InitEnemies env s).1 n n0 htype
  have hmk : MAX_KEYS = 3 := rfl
  refine ⟨by rw [a1, hh]; decide, by rw [a1, hh], by rw [a1, hk], by rw [a1, hk]; omega,
    fun i hi0 hi1 ht => ?_, fun k hk0 hk1 _ hs1 => ?_, by rw [a2]; exact hexit,
    by rw [a5]; exact hdoor⟩
  · have hi : i = n := by
      by_contra hne
      rcases lt_or_gt_of_ne hne with hlt | hgt
      · rw [hkey i hi0 hlt] at ht; exact absurd ht (by decide)
      · rw [hen i hgt hi1] at ht; exact absurd ht (by decide)
    rw [hi, hpos]; exact hdoor
  · obtain ⟨e1, _⟩ := henemy k hk0 hk1
    rw [e1] at hs1 ⊢
    exact hen _ (by omega) hs1

theorem GameInv_UpdateGame (env : Env) (inp : Input) (fuel : Nat) (s s' : Game × Nat)
    (h : GameInv s.1) (ht : UpdateGame env inp fuel s = some s') : GameInv s'.1 := by
  rcases UpdateGame_cases env inp fuel s s' ht with ⟨_, hs'⟩ | ⟨_, hs'⟩ | ⟨_, hs'⟩ |
    ⟨_, _, r, hr, hs'⟩
  · subst hs'
    have hm := GameInv_MovePlayer env inp h
    obtain ⟨u1, _, u3, u4, _⟩ := UpdateEnemies_kept env inp (MovePlayer env inp s.1, s.2)
    obtain ⟨p1, p2, _⟩ := playingRest_kept env inp
      (UpdateEnemies env inp (MovePlayer env inp s.1, s.2)).1
    have hu := GameInv_kept hm u1 (u4 hm.1) (u3 100 (by decide) hm.2.1)
    exact GameInv_kept hu p1 (by rw [p2]; exact hu.1) (by rw [p2]; exact hu.2.1)
  · subst hs'; exact h
  · subst hs'; exact h
  · subst hs'
    obtain ⟨g1, g2, g3, g4⟩ := generated_maze hr
    refine GameInv_state (GameInv_fresh env _ ?_ ?_ ?_ rfl rfl) _
    · change countCells r.1 CellType.Key ≤ 3
      rw [g4]
    · exact (g3 13 13).2 ⟨rfl, rfl⟩
    · exact h.2.2.2.2.2.2.2

theorem GameInv_InitGame (env : Env) (fuel : Nat) (s s' : Game × Nat)
    (h : InitGame env fuel s = some s') : GameInv s'.1 := by
  unfold InitGame at h
  obtain ⟨r, hr, hs'⟩ := Option.map_eq_some'.1 h
  subst hs'
  obtain ⟨g1, g2, g3, g4⟩ := generated_maze hr
  refine GameInv_fresh env _ ?_ ?_ ?_ rfl rfl
  · change countCells r.1 CellType.Key ≤ 3
    rw [g4]
  · exact (g3 13 13).2 ⟨rfl, rfl⟩
  · change GridToWorld (truncToInt r.1.exitPos.x) (truncToInt r.1.exitPos.y) = _
    rw [g2]
    have h13 : truncToInt (13 : ℚ) = 13 := by
      have := truncToInt_cell 13 13 (by decide) (by norm_num) (by norm_num)
      exact_mod_cast this
    simp only [h13, GridToWorld, GRID_SCALE]
    norm_num

theorem GameInv_mainLoop (env : Env) (screenW screenH : Int) (fuel : Nat) :
    ∀ (frames : List (Input × (Int → ℚ))) (s s' : Game × Nat), GameInv s.1 →
      mainLoop env screenW screenH fuel frames s = some s' → GameInv s'.1 := by
  intro frames
  induction frames with
  | nil =>
    intro s s' h hs
    simp only [mainLoop, Option.some.injEq] at hs
    subst hs
    exact h
  | cons fr rest ih =>
    intro s s' h hs
    simp only [mainLoop, Option.bind_eq_some] at hs
    obtain ⟨s1, hs1, hrest⟩ := hs
    exact ih _ s' (GameInv_render env screenW screenH fr.2
      (GameInv_UpdateGame env fr.1 fuel s s1 h hs1)) hrest

theorem GameInv_updateTicks (env : Env) (fuel : Nat) :
    ∀ (inputs : List Input) (s s' : Game × Nat), GameInv s.1 →
      updateTicks env fuel inputs s = some s' → GameInv s'.1 := by
  intro inputs
  induction inputs with
  | nil =>
    intro s s' h hs
    simp only [updateTicks, Option.some.injEq] at hs
    subst hs
    exact h
  | cons inp rest ih =>
    intro s s' h hs
    simp only [updateTicks, Option.bind_eq_some] at hs
    obtain ⟨s1, hs1, hrest⟩ := hs
    exact ih s1 s' (GameInv_UpdateGame env inp fuel s s1 h hs1) hrest

/-- Every state of a run satisfies the invariant. -/
theorem GameInv_run (env : Env) (screenW screenH : Int) (fuel : Nat) (s0 s : Game × Nat)
    (frames : List (Input × (Int → ℚ)))
    (h : runGame env screenW screenH fuel s0 frames = some s) : GameInv s.1 := by
  unfold runGame at h
  obtain ⟨s1, hs1, hrest⟩ := Option.bind_eq_some.1 h
  exact GameInv_mainLoop env screenW screenH fuel frames s1 s
    (GameInv_InitGame env fuel s0 s1 hs1) hrest

/-! ## Runs -/

theorem mainLoop_append (env : Env) (screenW screenH : Int) (fuel : Nat) :
    ∀ (l1 l2 : List (Input × (Int → ℚ))) (s : Game × Nat),
      mainLoop env screenW screenH fuel (l1 ++ l2) s =
        (mainLoop env screenW screenH fuel l1 s).bind
          (mainLoop env screenW screenH fuel l2) := by
  intro l1
  induction l1 with
  | nil => intro l2 s; rfl
  | cons fr rest ih =>
    intro l2 s
    simp only [List.cons_append, mainLoop]
    cases UpdateGame env fr.1 fuel s with
    | none => rfl
    | some s1 => simp only [Option.some_bind]; exact ih l2 _

theorem runGame_append (env : Env) (screenW screenH : Int) (fuel : Nat) (s0 : Game × Nat)
    (l1 l2 : List (Input × (Int → ℚ))) :
    runGame env screenW screenH fuel s0 (l1 ++ l2) =
      (runGame env screenW screenH fuel s0 l1).bind
        (mainLoop env screenW screenH fuel l2) := by
  unfold runGame
  cases InitGame env fuel s0 with
  | none => rfl
  | some s1 => simp only [Option.some_bind]; exact mainLoop_append env _ _ _ l1 l2 s1

theorem sqrtLike_half (q : ℚ) (h : sqrtLike q < 1 / 2) : q < 1 / 4 := by
  unfold sqrtLike at h
  split_ifs at h <;> linarith


/-! ## Health and keys -/

theorem GameInv_bounds {g : Game} (h : GameInv g) :
    0 ≤ g.player.health ∧ g.player.health ≤ 100 ∧ 0 ≤ g.player.keys ∧
    g.player.keys ≤ MAX_KEYS := by
  obtain ⟨i1, i2, i3, i4, _⟩ := h
  have : (0 : Int) ≤ (activeKeys g : Int) := Int.natCast_nonneg _
  exact ⟨i1, i2, i3, by omega⟩

/-- C17: in every state of a run that starts with `InitGame` (after any frames of the
main loop, with any inputs and frame times), after any further ticks of `UpdateGame`
with nothing drawn in between, `0 <= player.health <= 100` and
`0 <= player.keys <= MAX_KEYS`. -/
theorem run_health_keys_bounded (env : Env) (screenW screenH : Int) (fuel : Nat)
    (s0 s : Game × Nat) (frames : List (Input × (Int → ℚ)))
    (h : runGame env screenW screenH fuel s0 frames = some s) :
    (0 ≤ s.1.player.health ∧ s.1.player.health ≤ 100 ∧ 0 ≤ s.1.player.keys ∧
      s.1.player.keys ≤ MAX_KEYS) ∧
    ∀ inputs s', updateTicks env fuel inputs s = some s' →
      0 ≤ s'.1.player.health ∧ s'.1.player.health ≤ 100 ∧ 0 ≤ s'.1.player.keys ∧
      s'.1.player.keys ≤ MAX_KEYS := by
  have hinv := GameInv_run env screenW screenH fuel s0 s frames h
  exact ⟨GameInv_bounds hinv,
    fun inputs s' ht => GameInv_bounds (GameInv_updateTicks env fuel inputs s s' hinv ht)⟩

/-! ## Victory -/

theorem Distance_half (lm : Libm) (hsqrt : ∀ q, lm.sqrtf q < 1 / 2 → q < 1 / 4)
    (px py : ℚ) (h : Distance lm px py (27 / 2) (27 / 2) < 1 / 2) :
    truncToInt px = 13 ∧ truncToInt py = 13 := by
  unfold Distance at h
  have hq := hsqrt _ h
  simp only at hq
  have hx : (27 / 2 - px) * (27 / 2 - px) < 1 / 4 := by nlinarith [mul_self_nonneg (27 / 2 - py)]
  have hy : (27 / 2 - py) * (27 / 2 - py) < 1 / 4 := by nlinarith [mul_self_nonneg (27 / 2 - px)]
  have hx1 : (13 : ℚ) < px := by nlinarith
  have hx2 : px < 14 := by nlinarith
  have hy1 : (13 : ℚ) < py := by nlinarith
  have hy2 : py < 14 := by nlinarith
  constructor
  · exact truncToInt_cell 13 px (by decide) (by push_cast; linarith) (by push_cast; linarith)
  · exact truncToInt_cell 13 py (by decide) (by push_cast; linarith) (by push_cast; linarith)

/-- C14: in every run that starts with `InitGame`, a tick of `UpdateGame` that begins
in another state than `GAME_VICTORY` and ends in `GAME_VICTORY` is a playing tick in
which `player.keys` equals `MAX_KEYS` (before and after the tick, with the door open)
and after which the cell of the player's position, as the code computes it, is tagged
`Exit`.  `sqrtf` is taken to return less than 0.5 only for arguments below 0.25. -/
theorem victory_only_with_keys_at_exit (env : Env)
    (hsqrt : ∀ q, env.lm.sqrtf q < 1 / 2 → q < 1 / 4)
    (screenW screenH : Int) (fuel : Nat) (s0 s s' : Game × Nat)
    (frames : List (Input × (Int → ℚ))) (inp : Input)
    (hrun : runGame env screenW screenH fuel s0 frames = some s)
    (htick : UpdateGame env inp fuel s = some s')
    (h0 : s.1.currentState ≠ GameState.GAME_VICTORY)
    (h1 : s'.1.currentState = GameState.GAME_VICTORY) :
    s.1.currentState = GameState.GAME_PLAYING ∧
    s.1.player.keys = MAX_KEYS ∧ s'.1.player.keys = MAX_KEYS ∧
    s'.1.exitDoor.isOpen = true ∧
    GetCellType s'.1.gameMaze (truncToInt (WorldToGrid s'.1.player.position).x)
      (truncToInt (WorldToGrid s'.1.player.position).y) = CellType.Exit := by
  have hinv := GameInv_run env screenW screenH fuel s0 s frames hrun
  rcases UpdateGame_cases env inp fuel s s' htick with ⟨hp, hs'⟩ | ⟨_, hs'⟩ | ⟨_, hs'⟩ |
    ⟨_, _, r, _, hs'⟩
  · subst hs'
    obtain ⟨u1, u2, _⟩ := UpdateEnemies_kept env inp (MovePlayer env inp s.1, s.2)
    obtain ⟨p1, _, p3, _⟩ := playingRest_kept env inp
      (UpdateEnemies env inp (MovePlayer env inp s.1, s.2)).1
    have hk := Kept_trans u1 p1
    simp only at h1 hk u2 p3 ⊢
    -- the state after `MovePlayer` is already `GAME_VICTORY`
    have hm : (MovePlayer env inp s.1).currentState = GameState.GAME_VICTORY := by
      rcases p3 with p3 | ⟨_, p3⟩
      · rw [p3] at h1
        rcases u2 with u2 | ⟨u2, _⟩
        · rw [u2] at h1; exact h1
        · rw [u2] at h1; exact absurd h1 (by decide)
      · rw [p3] at h1; exact absurd h1 (by decide)
    obtain ⟨s1, s2, _⟩ := stepPlayer_same env inp s.1.gameMaze s.1.player
    have hinv1 := GameInv_step hinv (stepPlayer env inp s.1.gameMaze s.1.player) s1 s2
    have hinv2 := GameInv_refreshDoor hinv1
    have hint := MovePlayer_spec env inp s.1
    have hinvm := GameInv_interacted hinv2 hint
    obtain ⟨r1, r2, _, _, r5, _, r7, _, r9⟩ :=
      refreshDoor_spec { s.1 with player := stepPlayer env inp s.1.gameMaze s.1.player }
    obtain ⟨_, _, _, a4, _, _, a7, _, _, a10, a11, _, _, _, a15⟩ := hint
    rcases a15 with hst | ⟨_, hopen, i, hi0, hi1, hty, hdist⟩
    · rw [hst, r7] at hm
      exact absurd (hp.symm.trans hm) (by decide)
    · rw [r1] at hopen
      simp only [decide_eq_true_eq, s2] at hopen
      have hb := GameInv_bounds hinv
      have hkeys : s.1.player.keys = MAX_KEYS := le_antisymm hb.2.2.2 hopen
      have hbm := GameInv_bounds hinvm
      have hkm : (MovePlayer env inp s.1).player.keys = MAX_KEYS := by
        rw [r2] at a11
        simp only [s2] at a11
        exact le_antisymm hbm.2.2.2 (by rw [← hkeys]; exact a11)
      have hpos := hinv2.2.2.2.2.1 i hi0 hi1 hty
      rw [hpos] at hdist
      rw [r2] at hdist a7
      simp only at hdist a7
      obtain ⟨tx, ty⟩ := Distance_half env.lm hsqrt _ _ hdist
      have hW : ∀ p : Vector2, WorldToGrid p = p := by
        intro p
        simp only [WorldToGrid, GRID_SCALE, div_one]
      refine ⟨hp, hkeys, by rw [hk.2.2.2.2.2.2.1]; exact hkm, ?_, ?_⟩
      · rw [hk.2.2.2.1, a4, r1]
        simp only [decide_eq_true_eq, s2]
        exact hopen
      · rw [hW, hk.1, hk.2.2.2.2.1, a7, tx, ty]
        unfold GetCellType
        rw [if_neg (by unfold MAZE_WIDTH MAZE_HEIGHT; omega)]
        exact hinvm.2.2.2.2.2.2.1
  · subst hs'; exact absurd h1 h0
  · subst hs'; simp at h1
  · subst hs'; simp at h1


/-! ## Restart -/

theorem generated_connected {rnd : Nat → Nat} {fuel : Nat} {maze : Maze} {k : Nat}
    {r : Maze × Nat} (h : GenerateMaze rnd fuel maze k = some r) (x y : Int)
    (hw : GetCellType r.1 x y ≠ CellType.Wall) :
    Reachable (fun c => GetCellType r.1 c.1 c.2 ≠ CellType.Wall) (1, 1) (x, y) := by
  obtain ⟨s, hs, hp⟩ := GenerateMaze_some h
  obtain ⟨hcarved, _, hconn⟩ := CarveMaze_init hs
  have hpl := PlaceObjects_placed hp
  have hget := GetCellType_eq_grid hcarved hpl
  rw [hget] at hw
  refine Reachable_mono ?_ (Connected_placed hconn hpl x y hw)
  intro c hc
  rw [hget]
  exact hc

theorem generated_border {rnd : Nat → Nat} {fuel : Nat} {maze : Maze} {k : Nat}
    {r : Maze × Nat} (h : GenerateMaze rnd fuel maze k = some r) (x y : Int)
    (hb : Border x y) : GetCellType r.1 x y = CellType.Wall := by
  have hni := not_interior_of_border hb
  obtain ⟨s, hs, hp⟩ := GenerateMaze_some h
  obtain ⟨hcarved, _, _⟩ := CarveMaze_init hs
  have hpl := PlaceObjects_placed hp
  rw [GetCellType_eq_grid hcarved hpl]
  rcases hpl.2 y x with h1 | ⟨_, hi, _⟩
  · rcases hcarved y x with h0 | ⟨_, hi⟩
    · rw [h1, h0]
    · exact absurd hi hni
  · exact absurd hi hni

/-- Why the restart needs a stream that is fair to the sampling loops: on the stream
that always returns 0, which no library `rand()` produces, the tick with R pressed has
no result, whatever the fuel; the restart calls `GenerateMaze`, whose key loop never
ends on that stream. -/
theorem restart_never_returns :
    wonGame.currentState = GameState.GAME_VICTORY ∧ restartInput.rPressed = true ∧
    ∀ fuel, UpdateGame zeroEnv restartInput fuel (wonGame, 0) = none := by
  refine ⟨rfl, rfl, fun fuel => ?_⟩
  rw [UpdateGame_ended zeroEnv restartInput fuel (wonGame, 0) (Or.inl rfl)]
  rw [if_pos (show restartInput.rPressed = true from rfl)]
  have : GenerateMaze zeroEnv.rnd fuel (wonGame, 0).1.gameMaze (wonGame, 0).2 = none :=
    GenerateMaze_zeroRand_none _ _ fuel
  rw [this]
  rfl

/-- The restart tick, fuel by fuel: in `GAME_VICTORY` or `GAME_OVER`, without R the tick
returns the state unchanged.  With R the tick returns exactly when `GenerateMaze` does
with that fuel, and then it ends in `GAME_PLAYING` with `player.health = 100`,
`player.keys = 0`, the player at (1.5, 1.5), the centre of the start cell (1,1) of the
new maze, which is the maze `GenerateMaze` returned: every cell that is not a wall can be
reached from the start, and every border cell is a wall; every enemy in use is active,
not dying, and has health `ENEMY_HEALTH`. -/
theorem restart_tick (env : Env) (inp : Input) (fuel : Nat) (s : Game × Nat)
    (hs : s.1.currentState = GameState.GAME_VICTORY ∨
      s.1.currentState = GameState.GAME_OVER) :
    (inp.rPressed = false → UpdateGame env inp fuel s = some s) ∧
    (inp.rPressed = true →
      (UpdateGame env inp fuel s = none ↔
        GenerateMaze env.rnd fuel s.1.gameMaze s.2 = none) ∧
      ∀ s', UpdateGame env inp fuel s = some s' →
        s'.1.currentState = GameState.GAME_PLAYING ∧
        s'.1.player.health = 100 ∧ s'.1.player.keys = 0 ∧
        s'.1.gameMaze.startPos = { x := 1, y := 1 } ∧
        s'.1.player.position = { x := 3 / 2, y := 3 / 2 } ∧
        (∃ r, GenerateMaze env.rnd fuel s.1.gameMaze s.2 = some r ∧ s'.1.gameMaze = r.1) ∧
        (∀ x y, GetCellType s'.1.gameMaze x y ≠ CellType.Wall →
          Reachable (fun c => GetCellType s'.1.gameMaze c.1 c.2 ≠ CellType.Wall)
            (1, 1) (x, y)) ∧
        (∀ x y, Border x y → GetCellType s'.1.gameMaze x y = CellType.Wall) ∧
        ∀ k, 0 ≤ k → k < s'.1.enemyCount →
          (s'.1.enemies k).active = true ∧ (s'.1.enemies k).isDying = false ∧
          (s'.1.enemies k).health = ENEMY_HEALTH) := by
  have heq := UpdateGame_ended env inp fuel s hs
  refine ⟨fun hr => ?_, fun hr => ⟨?_, fun s' ht => ?_⟩⟩
  · rw [heq, if_neg (by rw [hr]; decide)]
  · rw [heq, if_pos hr]
    cases GenerateMaze env.rnd fuel s.1.gameMaze s.2 <;> simp
  · rw [heq, if_pos hr] at ht
    obtain ⟨r, hgen, hs'⟩ := Option.map_eq_some'.1 ht
    subst hs'
    obtain ⟨g1, _, _, g4⟩ := generated_maze hgen
    obtain ⟨a1, a2, _, _, _, _, _, _, n, _, _, _, _, _, _, _, _, henemy⟩ :=
      InitEnemies_spec env (InitPlayer { s.1 with gameMaze := r.1 }, r.2)
        (by change countCells r.1 CellType.Key ≤ 3; rw [g4])
    have hmaze : (InitEnemies env (InitPlayer { s.1 with gameMaze := r.1 }, r.2)).1.gameMaze
        = r.1 := a2
    have h1 : truncToInt (1 : ℚ) = 1 := by
      have := truncToInt_cell 1 1 (by decide) (by norm_num) (by norm_num)
      exact_mod_cast this
    have hplayer : (InitEnemies env (InitPlayer { s.1 with gameMaze := r.1 }, r.2)).1.player =
        { position := { x := 3 / 2, y := 3 / 2 }, angle := 0, health := 100, keys := 0,
          shootCooldown := 0 } := by
      rw [a1]
      simp only [InitPlayer, g1, h1, GridToWorld, GRID_SCALE]
      norm_num
    have hen : ∀ k, 0 ≤ k →
        k < (InitEnemies env (InitPlayer { s.1 with gameMaze := r.1 }, r.2)).1.enemyCount →
        ((InitEnemies env (InitPlayer { s.1 with gameMaze := r.1 }, r.2)).1.enemies k).active
          = true ∧
        ((InitEnemies env (InitPlayer { s.1 with gameMaze := r.1 }, r.2)).1.enemies k).isDying
          = false ∧
        ((InitEnemies env (InitPlayer { s.1 with gameMaze := r.1 }, r.2)).1.enemies k).health
          = ENEMY_HEALTH := fun k hk0 hk1 => (henemy k hk0 hk1).2
    generalize InitEnemies env (InitPlayer { s.1 with gameMaze := r.1 }, r.2) = S
      at hmaze hplayer hen
    change S.1.gameMaze = r.1 at hmaze
    refine ⟨rfl, congrArg Player.health hplayer, congrArg Player.keys hplayer,
      ?_, congrArg Player.position hplayer,
      ⟨r, hgen, hmaze⟩, ?_, ?_, hen⟩
    · exact (congrArg Maze.startPos hmaze).trans g1
    · change ∀ x y, GetCellType S.1.gameMaze x y ≠ CellType.Wall → _
      rw [hmaze]; exact fun x y hw => generated_connected hgen x y hw
    · change ∀ x y, Border x y → GetCellType S.1.gameMaze x y = CellType.Wall
      rw [hmaze]; exact fun x y hb => generated_border hgen x y hb


/-! ## The death animation -/

theorem animationRanges_loop (a : Int) (h0 : 0 ≤ a) (h1 : a < ANIM_DEATH) :
    (animationRanges a).loop = true := by
  have h11 : ANIM_DEATH = 11 := rfl
  rw [h11] at h1
  interval_cases a <;> rfl

theorem animationRanges_death :
    animationRanges ANIM_DEATH = { startFrame := 49, endFrame := 55, loop := false } := rfl

theorem DetermineEnemyAnimation_dying (env : Env) (player : Player) (e : Enemy) (a : Bool) :
    DetermineEnemyAnimation env player e a true = ANIM_DEATH := by
  unfold DetermineEnemyAnimation
  rfl

theorem DetermineEnemyAnimation_alive (env : Env) (player : Player) (e : Enemy) (a : Bool) :
    0 ≤ DetermineEnemyAnimation env player e a false ∧
    DetermineEnemyAnimation env player e a false < ANIM_DEATH := by
  unfold DetermineEnemyAnimation
  simp only [Bool.false_eq_true, if_false]
  split_ifs <;> decide

theorem advanceFrame_death (e : Enemy) (f : Int) (ha : e.anim.currentAnim = ANIM_DEATH)
    (hl : e.anim.loop = false) (hf : e.anim.currentFrame = f) (hf0 : 0 ≤ f) (hf6 : f ≤ 6) :
    (advanceFrame e).anim.currentAnim = ANIM_DEATH ∧ (advanceFrame e).anim.loop = false ∧
    (e.anim.frameTimer < ENEMY_FRAME_TIME → advanceFrame e = e) ∧
    (ENEMY_FRAME_TIME ≤ e.anim.frameTimer → f < 6 →
      (advanceFrame e).active = e.active ∧ (advanceFrame e).anim.currentFrame = f + 1 ∧
      (advanceFrame e).anim.frameTimer = 0) ∧
    (ENEMY_FRAME_TIME ≤ e.anim.frameTimer → f = 6 →
      (advanceFrame e).active = false ∧ (advanceFrame e).anim.currentFrame = 6) := by
  have hcount : (animationRanges e.anim.currentAnim).endFrame -
      (animationRanges e.anim.currentAnim).startFrame + 1 = 7 := by
    rw [ha, animationRanges_death]; rfl
  unfold advanceFrame
  simp only [hcount, hl, hf]
  by_cases ht : e.anim.frameTimer ≥ ENEMY_FRAME_TIME
  · rw [if_pos ht]
    by_cases h6 : f + 1 ≥ 7
    · rw [if_pos h6]
      simp only [Bool.false_eq_true, if_false, ha, if_true]
      refine ⟨trivial, trivial, fun h => absurd ht (not_le.2 h), fun _ h => by omega,
        fun _ _ => ⟨trivial, ?_⟩⟩
      norm_num
    · rw [if_neg h6]
      simp only [ha, hl]
      refine ⟨trivial, trivial, fun h => absurd ht (not_le.2 h), fun _ _ => ⟨trivial, trivial, trivial⟩,
        fun _ h => by omega⟩
  · rw [if_neg ht]
    exact ⟨ha, hl, fun _ => rfl, fun h => absurd h ht, fun h => absurd h ht⟩

theorem advanceFrame_other (e : Enemy) (ha : e.anim.currentAnim ≠ ANIM_DEATH) :
    (advanceFrame e).active = e.active ∧
    (e.anim.loop = true → ENEMY_FRAME_TIME ≤ e.anim.frameTimer →
      (advanceFrame e).anim.currentFrame =
        if e.anim.currentFrame + 1 ≥
            (animationRanges e.anim.currentAnim).endFrame -
              (animationRanges e.anim.currentAnim).startFrame + 1
        then 0 else e.anim.currentFrame + 1) := by
  unfold advanceFrame
  simp only
  constructor
  · split_ifs <;> rfl
  · intro hl ht
    rw [if_pos ht]
    split_ifs <;> rfl

/-- The animation part of the enemy loop, for an enemy in its death animation. -/
theorem enemyAnimate_death (env : Env) (dt : ℚ) (player : Player) (e : Enemy) (f : Int)
    (h : InDeath e f) (hf0 : 0 ≤ f) (hf6 : f ≤ 6) :
    DeathStep dt e (enemyAnimate env dt player e) f := by
  obtain ⟨hact, hdy, han, hlo, hfr⟩ := h
  obtain ⟨t1, _, _, _, t5, t6⟩ := enemyTimers_same dt e
  have hch : enemyChooseAnim env player (enemyTimers dt e) = enemyTimers dt e := by
    unfold enemyChooseAnim
    simp only [t1, hdy, DetermineEnemyAnimation_dying, t6, han, ne_eq, not_true_eq_false,
      if_false]
  obtain ⟨a1, a2, a3, a4, a5⟩ := advanceFrame_death (enemyTimers dt e) f
    (by rw [t6]; exact han) (by rw [t6]; exact hlo) (by rw [t6]; exact hfr) hf0 hf6
  have htimer : (enemyTimers dt e).anim.frameTimer = e.anim.frameTimer + dt := by rw [t6]
  rw [htimer] at a3 a4 a5
  obtain ⟨e1, _, _, _⟩ := enemyAnimate_same env dt player e
  have hanim : (enemyAnimate env dt player e).anim = (advanceFrame (enemyTimers dt e)).anim := by
    unfold enemyAnimate
    simp only [hch]
  have hactive : (enemyAnimate env dt player e).active =
      (advanceFrame (enemyTimers dt e)).active := by
    unfold enemyAnimate
    simp only [hch]
  refine ⟨by rw [e1]; exact hdy, by rw [hanim]; exact a1, by rw [hanim]; exact a2,
    fun hlt => ?_, fun hge h6 => ?_, fun hge h6 => ?_⟩
  · rw [hactive, hanim, a3 hlt, t5, t6]
    exact ⟨hact, hfr, rfl⟩
  · obtain ⟨b1, b2, b3⟩ := a4 hge h6
    rw [hactive, hanim, b1, t5]
    exact ⟨hact, b2, b3⟩
  · obtain ⟨b1, b2⟩ := a5 hge h6
    rw [hactive, hanim]
    exact ⟨b1, b2⟩

/-- The animation part of the enemy loop never switches off an enemy that is not
dying. -/
theorem enemyAnimate_alive (env : Env) (dt : ℚ) (player : Player) (e : Enemy)
    (h : e.isDying = false) : (enemyAnimate env dt player e).active = e.active := by
  obtain ⟨t1, _, _, _, t5, _⟩ := enemyTimers_same dt e
  obtain ⟨_, _, _, _, c5⟩ := enemyChooseAnim_same env player (enemyTimers dt e)
  have hne : (enemyChooseAnim env player (enemyTimers dt e)).anim.currentAnim ≠ ANIM_DEATH := by
    unfold enemyChooseAnim
    simp only [t1, h]
    have hb := DetermineEnemyAnimation_alive env player (enemyTimers dt e)
      (decide (Distance env.lm (enemyTimers dt e).position.x (enemyTimers dt e).position.y
        player.position.x player.position.y ≤ ENEMY_ATTACK_RANGE))
    split_ifs with hc
    · simp only
      exact ne_of_lt hb.2
    · rw [not_not.1 hc]
      exact ne_of_lt hb.2
  have ha := (advanceFrame_other _ hne).1
  have : (enemyAnimate env dt player e).active =
      (advanceFrame (enemyChooseAnim env player (enemyTimers dt e))).active := by
    unfold enemyAnimate
    rfl
  rw [this, ha, c5, t5]

theorem DeathStep_congr {dt : ℚ} {e e1 e2 : Enemy} {f : Int} (h : DeathStep dt e e1 f)
    (ha : e2.anim = e1.anim) (hb : e2.active = e1.active) (hc : e2.isDying = e1.isDying) :
    DeathStep dt e e2 f := by
  unfold DeathStep at h ⊢
  rw [ha, hb, hc]
  exact h

/-- After a step of the death animation the enemy is on the same frame, on the next
frame, or switched off. -/
theorem DeathStep_cases {dt : ℚ} {e e' : Enemy} {f : Int} (h : DeathStep dt e e' f)
    (hf6 : f ≤ 6) :
    (e.anim.frameTimer + dt < ENEMY_FRAME_TIME ∧ InDeath e' f) ∨
    (ENEMY_FRAME_TIME ≤ e.anim.frameTimer + dt ∧ f < 6 ∧ InDeath e' (f + 1)) ∨
    (ENEMY_FRAME_TIME ≤ e.anim.frameTimer + dt ∧ f = 6 ∧ DeathDone e') := by
  obtain ⟨h1, h2, h3, h4, h5, h6⟩ := h
  by_cases ht : e.anim.frameTimer + dt < ENEMY_FRAME_TIME
  · obtain ⟨a, b, _⟩ := h4 ht
    exact Or.inl ⟨ht, a, h1, h2, h3, b⟩
  · have hge := not_lt.1 ht
    by_cases hf : f < 6
    · obtain ⟨a, b, _⟩ := h5 hge hf
      exact Or.inr (Or.inl ⟨hge, hf, a, h1, h2, h3, b⟩)
    · have hf' : f = 6 := by omega
      obtain ⟨a, b⟩ := h6 hge hf'
      exact Or.inr (Or.inr ⟨hge, hf', a, h1, h2, h3, b⟩)

/-- `UpdateEnemies` on an enemy in its death animation. -/
theorem UpdateEnemies_death (env : Env) (inp : Input) (s : Game × Nat) (k : Int) (f : Int)
    (hk0 : 0 ≤ k) (hk1 : k < s.1.enemyCount) (h : InDeath (s.1.enemies k) f) (hf0 : 0 ≤ f)
    (hf6 : f ≤ 6) :
    DeathStep inp.frameTime (s.1.enemies k) ((UpdateEnemies env inp s).1.enemies k) f := by
  obtain ⟨_, _, _, _, u5⟩ := UpdateEnemies_kept env inp s
  obtain ⟨c1, c2, c3, _⟩ := u5 k
  have hcond : (0 ≤ k ∧ k < s.1.enemyCount) ∧ (s.1.enemies k).active = true := ⟨⟨hk0, hk1⟩, h.1⟩
  rw [if_pos hcond] at c1 c2
  have hd := enemyAnimate_death env inp.frameTime s.1.player (s.1.enemies k) f h hf0 hf6
  exact DeathStep_congr hd c1 c2 (by rw [c3, h.2.1, hd.1])

/-- `UpdateEnemies` leaves an inactive enemy as it is, and never switches off an enemy
that is not dying. -/
theorem UpdateEnemies_other (env : Env) (inp : Input) (s : Game × Nat) (k : Int) :
    ((s.1.enemies k).active = false →
      ((UpdateEnemies env inp s).1.enemies k).anim = (s.1.enemies k).anim ∧
      ((UpdateEnemies env inp s).1.enemies k).active = false ∧
      ((UpdateEnemies env inp s).1.enemies k).isDying = (s.1.enemies k).isDying) ∧
    ((s.1.enemies k).isDying = false →
      ((UpdateEnemies env inp s).1.enemies k).active = (s.1.enemies k).active) := by
  obtain ⟨_, _, _, _, u5⟩ := UpdateEnemies_kept env inp s
  obtain ⟨c1, c2, c3, _⟩ := u5 k
  constructor
  · intro ha
    have hcond : ¬((0 ≤ k ∧ k < s.1.enemyCount) ∧ (s.1.enemies k).active = true) := by
      rw [ha]; simp
    rw [if_neg hcond] at c1 c2
    exact ⟨c1, c2.trans ha, c3⟩
  · intro hd
    rw [c2]
    split_ifs
    · exact enemyAnimate_alive env inp.frameTime s.1.player (s.1.enemies k) hd
    · rfl

theorem MovePlayer_enemies (env : Env) (inp : Input) (g : Game) :
    (MovePlayer env inp g).enemies = g.enemies ∧
    (MovePlayer env inp g).enemyCount = g.enemyCount := by
  obtain ⟨_, a2, a3, _⟩ := MovePlayer_spec env inp g
  obtain ⟨_, _, r3, _, _, r6, _⟩ :=
    refreshDoor_spec { g with player := stepPlayer env inp g.gameMaze g.player }
  exact ⟨a3.trans r3, a2.trans r6⟩

/-- A playing tick on an enemy in its death animation, and on an enemy that has
finished it. -/
theorem playing_tick_death (env : Env) (inp : Input) (fuel : Nat) (s s' : Game × Nat)
    (k : Int) (hk0 : 0 ≤ k) (hk1 : k < s.1.enemyCount)
    (hp : s.1.currentState = GameState.GAME_PLAYING)
    (ht : UpdateGame env inp fuel s = some s') :
    s'.1.enemyCount = s.1.enemyCount ∧
    (∀ f, 0 ≤ f → f ≤ 6 → InDeath (s.1.enemies k) f →
      DeathStep inp.frameTime (s.1.enemies k) (s'.1.enemies k) f) ∧
    (DeathDone (s.1.enemies k) → DeathDone (s'.1.enemies k)) := by
  rw [UpdateGame_playing env inp fuel s hp] at ht
  have hs' := (Option.some.inj ht).symm
  subst hs'
  obtain ⟨m1, m2⟩ := MovePlayer_enemies env inp s.1
  obtain ⟨u1, _⟩ := UpdateEnemies_kept env inp (MovePlayer env inp s.1, s.2)
  obtain ⟨p1, _, _, p4⟩ := playingRest_kept env inp
    (UpdateEnemies env inp (MovePlayer env inp s.1, s.2)).1
  have hcount := (p1.2.1.trans u1.2.1).trans m2
  refine ⟨hcount, fun f hf0 hf6 hin => ?_, fun hdone => ?_⟩
  · have hd := UpdateEnemies_death env inp (MovePlayer env inp s.1, s.2) k f hk0
      (by rw [m2]; exact hk1) (by rw [m1]; exact hin) hf0 hf6
    simp only [m1] at hd
    have hkeep := p4 k (Or.inr hd.1)
    simp only
    rw [hkeep]
    exact hd
  · obtain ⟨o1, _⟩ := UpdateEnemies_other env inp (MovePlayer env inp s.1, s.2) k
    simp only [m1] at o1
    obtain ⟨a1, a2, a3⟩ := o1 hdone.1
    have hkeep := p4 k (Or.inl a2)
    simp only
    rw [hkeep]
    obtain ⟨_, d2, d3, d4, d5⟩ := hdone
    exact ⟨a2, by rw [a3]; exact d2, by rw [a1]; exact d3, by rw [a1]; exact d4,
      by rw [a1]; exact d5⟩

/-- A tick in another state than `GAME_PLAYING` that does not restart the game leaves
the enemies as they are. -/
theorem idle_tick_enemies (env : Env) (inp : Input) (fuel : Nat) (s s' : Game × Nat)
    (hp : s.1.currentState ≠ GameState.GAME_PLAYING) (hr : inp.rPressed = false)
    (ht : UpdateGame env inp fuel s = some s') :
    s'.1.enemies = s.1.enemies ∧ s'.1.enemyCount = s.1.enemyCount := by
  rcases UpdateGame_cases env inp fuel s s' ht with ⟨hp', _⟩ | ⟨_, hs'⟩ | ⟨_, hs'⟩ |
    ⟨_, hr', _⟩
  · exact absurd hp' hp
  · subst hs'; exact ⟨rfl, rfl⟩
  · subst hs'; exact ⟨rfl, rfl⟩
  · rw [hr] at hr'; exact absurd hr' (by decide)

theorem RenderGame_enemies (env : Env) (screenW screenH : Int) (zBuffer : Int → ℚ) (g : Game)
    (k : Int) :
    (RenderGame env screenW screenH zBuffer g).enemyCount = g.enemyCount ∧
    (RenderGame env screenW screenH zBuffer g).currentState = g.currentState ∧
    ((RenderGame env screenW screenH zBuffer g).enemies k).anim = (g.enemies k).anim ∧
    ((RenderGame env screenW screenH zBuffer g).enemies k).active = (g.enemies k).active ∧
    ((RenderGame env screenW screenH zBuffer g).enemies k).isDying = (g.enemies k).isDying := by
  obtain ⟨⟨k1, _, _, _, _, _, k7⟩, _, _, hec, _⟩ := RenderGame_spec env screenW screenH zBuffer g
  refine ⟨hec, k1, ?_, ?_, ?_⟩ <;> rw [k7 k]

theorem InDeath_congr {e e' : Enemy} {f : Int} (h : InDeath e f) (ha : e'.anim = e.anim)
    (hb : e'.active = e.active) (hc : e'.isDying = e.isDying) : InDeath e' f := by
  unfold InDeath at h ⊢
  rw [ha, hb, hc]
  exact h

theorem DeathDone_congr {e e' : Enemy} (h : DeathDone e) (ha : e'.anim = e.anim)
    (hb : e'.active = e.active) (hc : e'.isDying = e.isDying) : DeathDone e' := by
  unfold DeathDone at h ⊢
  rw [ha, hb, hc]
  exact h

/-- Along a run of the main loop without restart, the death animation of an enemy
counts its frame advances: on frame `f`, after `n` advances, it is on frame `f + n`
while `f + n <= 6`, and switched off once `f + n = 7`; after that nothing advances. -/
theorem death_run (env : Env) (screenW screenH : Int) (fuel : Nat) (k : Int) (hk0 : 0 ≤ k) :
    ∀ (frames : List (Input × (Int → ℚ))) (s s' : Game × Nat),
      (∀ fr ∈ frames, fr.1.rPressed = false) → k < s.1.enemyCount →
      mainLoop env screenW screenH fuel frames s = some s' →
      (∀ f, 0 ≤ f → f ≤ 6 → InDeath (s.1.enemies k) f →
        (f + (frameAdvances env screenW screenH fuel k frames s : Int) ≤ 6 ∧
          InDeath (s'.1.enemies k)
            (f + (frameAdvances env screenW screenH fuel k frames s : Int))) ∨
        (f + (frameAdvances env screenW screenH fuel k frames s : Int) = 7 ∧
          DeathDone (s'.1.enemies k))) ∧
      (DeathDone (s.1.enemies k) →
        frameAdvances env screenW screenH fuel k frames s = 0 ∧
        DeathDone (s'.1.enemies k)) := by
  intro frames
  induction frames with
  | nil =>
    intro s s' _ _ hs
    simp only [mainLoop, Option.some.injEq] at hs
    subst hs
    refine ⟨fun f _ hf6 hin => Or.inl ?_, fun hd => ⟨rfl, hd⟩⟩
    simp only [frameAdvances, Nat.cast_zero, add_zero]
    exact ⟨hf6, hin⟩
  | cons fr rest ih =>
    intro s s' hnr hk1 hs
    simp only [mainLoop, Option.bind_eq_some] at hs
    obtain ⟨s1, hs1, hrest⟩ := hs
    have hr := hnr fr (List.mem_cons_self _ _)
    obtain ⟨r1, r2, r3, r4, r5⟩ := RenderGame_enemies env screenW screenH fr.2 s1.1 k
    have hadv : frameAdvances env screenW screenH fuel k (fr :: rest) s =
        (if s.1.currentState = GameState.GAME_PLAYING ∧ (s.1.enemies k).active = true ∧
            (s.1.enemies k).anim.frameTimer + fr.1.frameTime ≥ ENEMY_FRAME_TIME
          then 1 else 0) +
        frameAdvances env screenW screenH fuel k rest
          (RenderGame env screenW screenH fr.2 s1.1, s1.2) := by
      simp only [frameAdvances, hs1]
    by_cases hp : s.1.currentState = GameState.GAME_PLAYING
    · obtain ⟨t1, t2, t3⟩ := playing_tick_death env fr.1 fuel s s1 k hk0 hk1 hp hs1
      obtain ⟨ih1, ih2⟩ := ih (RenderGame env screenW screenH fr.2 s1.1, s1.2) s'
        (fun fr' hfr' => hnr fr' (List.mem_cons_of_mem _ hfr'))
        (by simp only; rw [r1, t1]; exact hk1) hrest
      simp only at ih1 ih2
      refine ⟨fun f hf0 hf6 hin => ?_, fun hd => ?_⟩
      · rcases DeathStep_cases (t2 f hf0 hf6 hin) hf6 with ⟨c1, c2⟩ | ⟨c1, c2, c3⟩ | ⟨c1, c2, c3⟩
        · have hhere : ¬(s.1.currentState = GameState.GAME_PLAYING ∧
              (s.1.enemies k).active = true ∧
              (s.1.enemies k).anim.frameTimer + fr.1.frameTime ≥ ENEMY_FRAME_TIME) :=
            fun hc => absurd hc.2.2 (not_le.2 c1)
          rw [hadv, if_neg hhere]
          have := ih1 f hf0 hf6 (InDeath_congr c2 r3 r4 r5)
          simpa using this
        · have hhere : s.1.currentState = GameState.GAME_PLAYING ∧
              (s.1.enemies k).active = true ∧
              (s.1.enemies k).anim.frameTimer + fr.1.frameTime ≥ ENEMY_FRAME_TIME :=
            ⟨hp, hin.1, c1⟩
          rw [hadv, if_pos hhere]
          have := ih1 (f + 1) (by omega) (by omega) (InDeath_congr c3 r3 r4 r5)
          push_cast
          rw [← add_assoc]
          exact this
        · have hhere : s.1.currentState = GameState.GAME_PLAYING ∧
              (s.1.enemies k).active = true ∧
              (s.1.enemies k).anim.frameTimer + fr.1.frameTime ≥ ENEMY_FRAME_TIME :=
            ⟨hp, hin.1, c1⟩
          obtain ⟨z1, z2⟩ := ih2 (DeathDone_congr c3 r3 r4 r5)
          rw [hadv, if_pos hhere, z1]
          right
          exact ⟨by rw [c2]; norm_num, z2⟩
      · have hhere : ¬(s.1.currentState = GameState.GAME_PLAYING ∧
            (s.1.enemies k).active = true ∧
            (s.1.enemies k).anim.frameTimer + fr.1.frameTime ≥ ENEMY_FRAME_TIME) := by
          intro hc
          rw [hd.1] at hc
          exact absurd hc.2.1 (by decide)
        obtain ⟨z1, z2⟩ := ih2 (DeathDone_congr (t3 hd) r3 r4 r5)
        rw [hadv, if_neg hhere, z1]
        exact ⟨rfl, z2⟩
    · obtain ⟨t1, t2⟩ := idle_tick_enemies env fr.1 fuel s s1 hp hr hs1
      obtain ⟨ih1, ih2⟩ := ih (RenderGame env screenW screenH fr.2 s1.1, s1.2) s'
        (fun fr' hfr' => hnr fr' (List.mem_cons_of_mem _ hfr'))
        (by simp only; rw [r1, t2]; exact hk1) hrest
      simp only at ih1 ih2
      have hhere : ¬(s.1.currentState = GameState.GAME_PLAYING ∧
          (s.1.enemies k).active = true ∧
          (s.1.enemies k).anim.frameTimer + fr.1.frameTime ≥ ENEMY_FRAME_TIME) :=
        fun hc => hp hc.1
      rw [hadv, if_neg hhere]
      have he : s1.1.enemies k = s.1.enemies k := by rw [t1]
      refine ⟨fun f hf0 hf6 hin => ?_, fun hd => ?_⟩
      · have := ih1 f hf0 hf6 (InDeath_congr hin (by rw [r3, he]) (by rw [r4, he])
          (by rw [r5, he]))
        simpa using this
      · obtain ⟨z1, z2⟩ := ih2 (DeathDone_congr hd (by rw [r3, he]) (by rw [r4, he])
          (by rw [r5, he]))
        rw [z1]
        exact ⟨rfl, z2⟩

/-- C11: an enemy that has just been marked dying (active, on frame 0 of the death
animation, `loop = false`) stays in the death animation along every run of the main
loop without restart: after `n` frame advances (ticks of `UpdateEnemies` in which its
frame timer reaches `ENEMY_FRAME_TIME`) it is active on frame `n` as long as `n <= 6`,
and it is inactive, on frame 6, once `n = 7`; the count never passes 7.  One tick of
`UpdateEnemies` takes an enemy on frame `f` of the death animation to frame `f` (timer
not yet full), to frame `f + 1` (when `f < 6`) or to inactive (when `f = 6`), never back
to 0, and leaves a finished enemy finished.  Every other entry of `animationRanges`
has `loop = true`; an animation other than death never switches the enemy off, wraps
to frame 0 after its last frame when it loops, and `UpdateEnemies` never switches off
an enemy that is not dying. -/
theorem death_animation (env : Env) (screenW screenH : Int) (fuel : Nat) (k : Int)
    (frames : List (Input × (Int → ℚ))) (s s' : Game × Nat)
    (hk0 : 0 ≤ k) (hk1 : k < s.1.enemyCount)
    (hnr : ∀ fr ∈ frames, fr.1.rPressed = false)
    (hin : InDeath (s.1.enemies k) 0)
    (hrun : mainLoop env screenW screenH fuel frames s = some s') :
    ((frameAdvances env screenW screenH fuel k frames s ≤ 6 ∧
        InDeath (s'.1.enemies k) (frameAdvances env screenW screenH fuel k frames s : Int)) ∨
      (frameAdvances env screenW screenH fuel k frames s = 7 ∧
        DeathDone (s'.1.enemies k))) ∧
    (∀ (inp : Input) (t : Game × Nat) (f : Int), 0 ≤ f → f ≤ 6 → k < t.1.enemyCount →
      InDeath (t.1.enemies k) f →
      DeathStep inp.frameTime (t.1.enemies k) ((UpdateEnemies env inp t).1.enemies k) f) ∧
    (∀ (inp : Input) (t : Game × Nat), DeathDone (t.1.enemies k) →
      DeathDone ((UpdateEnemies env inp t).1.enemies k)) ∧
    (∀ a, 0 ≤ a → a < ANIM_DEATH → (animationRanges a).loop = true) ∧
    (animationRanges ANIM_DEATH).loop = false ∧
    (animationRanges ANIM_DEATH).endFrame - (animationRanges ANIM_DEATH).startFrame + 1 = 7 ∧
    (∀ e : Enemy, e.anim.currentAnim ≠ ANIM_DEATH →
      (advanceFrame e).active = e.active ∧
      (e.anim.loop = true → ENEMY_FRAME_TIME ≤ e.anim.frameTimer →
        (advanceFrame e).anim.currentFrame =
          if e.anim.currentFrame + 1 ≥
              (animationRanges e.anim.currentAnim).endFrame -
                (animationRanges e.anim.currentAnim).startFrame + 1
          then 0 else e.anim.currentFrame + 1)) ∧
    (∀ (inp : Input) (t : Game × Nat) (j : Int), (t.1.enemies j).isDying = false →
      ((UpdateEnemies env inp t).1.enemies j).active = (t.1.enemies j).active) := by
  refine ⟨?_, fun inp t f hf0 hf6 ht hi => UpdateEnemies_death env inp t k f hk0 ht hi hf0 hf6,
    fun inp t hd => ?_, animationRanges_loop, rfl, rfl, advanceFrame_other,
    fun inp t j hd => (UpdateEnemies_other env inp t j).2 hd⟩
  · have h := (death_run env screenW screenH fuel k hk0 frames s s' hnr hk1 hrun).1 0
      (le_refl _) (by norm_num) hin
    simp only [zero_add] at h
    rcases h with ⟨h1, h2⟩ | ⟨h1, h2⟩
    · exact Or.inl ⟨by exact_mod_cast h1, h2⟩
    · exact Or.inr ⟨by exact_mod_cast h1, h2⟩
  · obtain ⟨a1, a2, a3⟩ := (UpdateEnemies_other env inp t k).1 hd.1
    exact DeathDone_congr hd a1 (a2.trans hd.1.symm) a3

theorem death_animation_witness :
    ∃ s', mainLoop playEnv 1280 720 0 (idleFrames 7) (dyingGame, 0) = some s' ∧
      InDeath (dyingGame.enemies 0) 0 ∧
      frameAdvances playEnv 1280 720 0 0 (idleFrames 7) (dyingGame, 0) = 7 ∧
      DeathDone (s'.1.enemies 0) := by
  have hrun : (mainLoop playEnv 1280 720 0 (idleFrames 7) (dyingGame, 0)).isSome = true := by
    decide!
  have hadv : frameAdvances playEnv 1280 720 0 0 (idleFrames 7) (dyingGame, 0) = 7 := by
    decide!
  obtain ⟨s', hs'⟩ := Option.isSome_iff_exists.1 hrun
  have hin : InDeath (dyingGame.enemies 0) 0 := ⟨rfl, rfl, rfl, rfl, rfl⟩
  have hnr : ∀ fr ∈ idleFrames 7, fr.1.rPressed = false := by
    intro fr hfr
    rw [List.eq_of_mem_replicate hfr]
    rfl
  have h := (death_animation playEnv 1280 720 0 0 (idleFrames 7) (dyingGame, 0) s'
    (le_refl _) (by decide) hnr hin hs').1
  rcases h with ⟨h1, _⟩ | ⟨_, h2⟩
  · rw [hadv] at h1
    exact absurd h1 (by decide)
  · exact ⟨s', hs', hin, hadv, h2⟩

/-! ## The loops that the model cuts off -/

theorem truncToInt_rounds (q : ℚ) (hq : 0 ≤ q) : q < (((truncToInt q).toNat + 1 : Nat) : ℚ) := by
  unfold truncToInt
  rw [if_pos hq]
  change q < (((⌊q⌋).toNat + 1 : Nat) : ℚ)
  have h0 : (0 : Int) ≤ ⌊q⌋ := Int.floor_nonneg.2 hq
  have h1 : ((⌊q⌋.toNat : Nat) : Int) = ⌊q⌋ := Int.toNat_of_nonneg h0
  have h2 : q < (⌊q⌋ : ℚ) + 1 := Int.lt_floor_add_one q
  have h3 : ((⌊q⌋.toNat : Nat) : ℚ) = (⌊q⌋ : ℚ) := by
    have : (((⌊q⌋.toNat : Nat) : Int) : ℚ) = ((⌊q⌋ : Int) : ℚ) := by rw [h1]
    exact_mod_cast this
  push_cast
  rw [h3]
  exact h2

theorem wrapRounds_gt (period a : ℚ) (hp : 0 < period) :
    |a| < (wrapRounds period a : ℚ) * period := by
  unfold wrapRounds
  have h := truncToInt_rounds (|a| / period) (div_nonneg (abs_nonneg a) (le_of_lt hp))
  rwa [div_lt_iff₀ hp] at h

theorem addWhileNegative_nonneg (period : ℚ) :
    ∀ (n : Nat) (a : ℚ), 0 ≤ a + (n : ℚ) * period → 0 ≤ addWhileNegative period n a := by
  intro n
  induction n with
  | zero =>
    intro a h
    simpa [addWhileNegative] using h
  | succ n ih =>
    intro a h
    unfold addWhileNegative
    split_ifs with hneg
    · refine ih (a + period) ?_
      push_cast at h
      linarith
    · exact not_lt.1 hneg

theorem subWhileAtLeast_range (period : ℚ) :
    ∀ (n : Nat) (a : ℚ), 0 ≤ a → a < (n : ℚ) * period →
      0 ≤ subWhileAtLeast period n a ∧ subWhileAtLeast period n a < period := by
  intro n
  induction n with
  | zero =>
    intro a h0 h1
    simp only [Nat.cast_zero, zero_mul] at h1
    exact absurd h0 (not_le.2 h1)
  | succ n ih =>
    intro a h0 h1
    unfold subWhileAtLeast
    split_ifs with hge
    · refine ih (a - period) (by linarith) ?_
      push_cast at h1
      linarith
    · exact ⟨h0, not_le.1 hge⟩

/-- The two loops of `NormalizeAngle` end within the rounds the model gives them: the
result lies in `[0, period)`. -/
theorem wrapInto_range (period a : ℚ) (hp : 0 < period) :
    0 ≤ wrapInto period a ∧ wrapInto period a < period := by
  unfold wrapInto
  simp only
  have h1 : 0 ≤ addWhileNegative period (wrapRounds period a) a := by
    refine addWhileNegative_nonneg period _ a ?_
    have := wrapRounds_gt period a hp
    have := neg_abs_le a
    linarith
  refine subWhileAtLeast_range period _ _ h1 ?_
  have := wrapRounds_gt period (addWhileNegative period (wrapRounds period a) a) hp
  have := le_abs_self (addWhileNegative period (wrapRounds period a) a)
  linarith

/-- `NormalizeAngle` returns an angle in `[0, 2 PI)`. -/
theorem NormalizeAngle_range (angle : ℚ) :
    0 ≤ NormalizeAngle angle ∧ NormalizeAngle angle < 2 * PI := by
  unfold NormalizeAngle
  exact wrapInto_range (2 * PI) angle (by unfold PI; norm_num)

/-- Once `n` rounds of the ray loop reach the distance, more rounds change nothing. -/
theorem marchRay_enough (maze : Maze) (player : Player) (dirX dirY dist : ℚ) :
    ∀ (n : Nat) (r : ℚ) (h : Bool), dist ≤ r + (n : ℚ) / 10 → ∀ m,
      marchRay maze player dirX dirY dist (n + m) r h =
        marchRay maze player dirX dirY dist n r h := by
  intro n
  induction n with
  | zero =>
    intro r h hd m
    simp only [Nat.cast_zero, zero_div, add_zero] at hd
    cases m with
    | zero => rfl
    | succ m =>
      simp only [Nat.zero_add, marchRay]
      rw [if_neg (fun hc => absurd hc.1 (not_lt.2 hd))]
  | succ n ih =>
    intro r h hd m
    have e : n + 1 + m = (n + m) + 1 := by omega
    rw [e]
    simp only [marchRay]
    split_ifs
    all_goals first
      | rfl
      | (refine ih _ _ ?_ m
         push_cast at hd
         linarith)

/-- The rounds that `CheckPlayerAttacks` gives its ray loop in the model are enough. -/
theorem marchRounds_enough (maze : Maze) (player : Player) (dirX dirY dist : ℚ) (m : Nat) :
    marchRay maze player dirX dirY dist (marchRounds dist + m) 0 false =
      marchRay maze player dirX dirY dist (marchRounds dist) 0 false := by
  refine marchRay_enough maze player dirX dirY dist _ 0 false ?_ m
  unfold marchRounds
  by_cases hd : 0 ≤ dist
  · have := truncToInt_rounds (dist * 10) (by linarith)
    linarith
  · have : (0 : ℚ) ≤ (((truncToInt (dist * 10)).toNat + 1 : Nat) : ℚ) := Nat.cast_nonneg _
    linarith [div_nonneg this (by norm_num : (0 : ℚ) ≤ 10)]

/-- The sample run, read off by evaluation: after eight frames the player holds two
keys; the ninth tick brings the third key and leaves the door closed; after the tenth
frame the door is open; the eleventh tick ends in `GAME_VICTORY`. -/
theorem sample_play :
    ∃ s8 s9 s10 s11,
      runGame playEnv 1280 720 200 (sampleGame, 0) (winFrames.take 8) = some s8 ∧
      UpdateGame playEnv (playFrame (21 / 5) true false false false).1 200 s8 = some s9 ∧
      runGame playEnv 1280 720 200 (sampleGame, 0) (winFrames.take 10) = some s10 ∧
      UpdateGame playEnv (playFrame (16 / 5) true false false false).1 200 s10 = some s11 ∧
      s8.1.currentState = GameState.GAME_PLAYING ∧ s8.1.player.keys = 2 ∧
      s9.1.currentState = GameState.GAME_PLAYING ∧ s9.1.player.keys = 3 ∧
      s9.1.exitDoor.isOpen = false ∧
      s10.1.currentState = GameState.GAME_PLAYING ∧ s10.1.player.health = 80 ∧
      s11.1.currentState = GameState.GAME_VICTORY ∧
      s11.1.player.position = { x := 27 / 2, y := 27 / 2 } := by
  have h : ((runGame playEnv 1280 720 200 (sampleGame, 0) (winFrames.take 8)).bind fun s8 =>
      (UpdateGame playEnv (playFrame (21 / 5) true false false false).1 200 s8).bind fun s9 =>
      (mainLoop playEnv 1280 720 200 [playFrame (4 / 5) true true false false]
        (RenderGame playEnv 1280 720 (fun _ => 5) s9.1, s9.2)).bind fun s10 =>
      (UpdateGame playEnv (playFrame (16 / 5) true false false false).1 200 s10).map
        fun s11 =>
          (decide (s8.1.currentState = GameState.GAME_PLAYING) &&
            decide (s8.1.player.keys = 2) &&
            decide (s9.1.currentState = GameState.GAME_PLAYING) &&
            decide (s9.1.player.keys = 3) && decide (s9.1.exitDoor.isOpen = false) &&
            decide (s10.1.currentState = GameState.GAME_PLAYING) &&
            decide (s10.1.player.health = 80) &&
            decide (s11.1.currentState = GameState.GAME_VICTORY) &&
            decide (s11.1.player.position = { x := 27 / 2, y := 27 / 2 }))) =
      some true := by
    decide!
  obtain ⟨s8, h8, h⟩ := Option.bind_eq_some.1 h
  obtain ⟨s9, h9, h⟩ := Option.bind_eq_some.1 h
  obtain ⟨s10, h10, h⟩ := Option.bind_eq_some.1 h
  obtain ⟨s11, h11, h⟩ := Option.map_eq_some'.1 h
  simp only [Bool.and_eq_true, decide_eq_true_eq] at h
  obtain ⟨⟨⟨⟨⟨⟨⟨⟨f1, f2⟩, f3⟩, f4⟩, f5⟩, f6⟩, f7⟩, f8⟩, f9⟩ := h
  refine ⟨s8, s9, s10, s11, h8, h9, ?_, h11, f1, f2, f3, f4, f5, f6, f7, f8, f9⟩
  have hsplit : winFrames.take 10 = winFrames.take 8 ++
      [playFrame (21 / 5) true false false false, playFrame (4 / 5) true true false false] :=
    rfl
  rw [hsplit, runGame_append, h8]
  simp only [Option.some_bind, mainLoop, h9]
  exact h10

/-- C18, as the code has it: in the sample run the player collects the third key in
the ninth frame; after that tick `player.keys` is 3 = `MAX_KEYS` and `exitDoor.isOpen`
is still false. -/
theorem door_lags_behind_keys :
    ∃ s s', runGame playEnv 1280 720 200 (sampleGame, 0) (winFrames.take 8) = some s ∧
      UpdateGame playEnv (playFrame (21 / 5) true false false false).1 200 s = some s' ∧
      s.1.currentState = GameState.GAME_PLAYING ∧ s.1.player.keys = 2 ∧
      s'.1.currentState = GameState.GAME_PLAYING ∧
      s'.1.player.keys = MAX_KEYS ∧ s'.1.exitDoor.isOpen = false := by
  obtain ⟨s8, s9, _, _, h8, h9, _, _, f1, f2, f3, f4, f5, _⟩ := sample_play
  exact ⟨s8, s9, h8, h9, f1, f2, f3, f4, f5⟩

theorem run_health_keys_bounded_witness :
    ∃ s, runGame playEnv 1280 720 200 (sampleGame, 0) (winFrames.take 10) = some s ∧
      s.1.player.health = 80 ∧
      (0 ≤ s.1.player.health ∧ s.1.player.health ≤ 100 ∧ 0 ≤ s.1.player.keys ∧
        s.1.player.keys ≤ MAX_KEYS) ∧
      ∀ inputs s', updateTicks playEnv 200 inputs s = some s' →
        0 ≤ s'.1.player.health ∧ s'.1.player.health ≤ 100 ∧ 0 ≤ s'.1.player.keys ∧
        s'.1.player.keys ≤ MAX_KEYS := by
  obtain ⟨_, _, s10, _, _, _, h10, _, _, _, _, _, _, _, f7, _⟩ := sample_play
  obtain ⟨b1, b2⟩ := run_health_keys_bounded playEnv 1280 720 200 (sampleGame, 0) s10
    (winFrames.take 10) h10
  exact ⟨s10, h10, f7, b1, b2⟩

theorem victory_only_with_keys_at_exit_witness :
    ∃ s s', runGame playEnv 1280 720 200 (sampleGame, 0) (winFrames.take 10) = some s ∧
      UpdateGame playEnv (playFrame (16 / 5) true false false false).1 200 s = some s' ∧
      s.1.currentState ≠ GameState.GAME_VICTORY ∧
      s'.1.currentState = GameState.GAME_VICTORY ∧
      s.1.currentState = GameState.GAME_PLAYING ∧
      s.1.player.keys = MAX_KEYS ∧ s'.1.player.keys = MAX_KEYS ∧
      s'.1.exitDoor.isOpen = true ∧
      GetCellType s'.1.gameMaze (truncToInt (WorldToGrid s'.1.player.position).x)
        (truncToInt (WorldToGrid s'.1.player.position).y) = CellType.Exit := by
  obtain ⟨_, _, s10, s11, _, _, h10, h11, _, _, _, _, _, f6, _, f8, _⟩ := sample_play
  have hne : s10.1.currentState ≠ GameState.GAME_VICTORY := by rw [f6]; decide
  exact ⟨s10, s11, h10, h11, hne, f8,
    victory_only_with_keys_at_exit playEnv sqrtLike_half 1280 720 200 (sampleGame, 0) s10 s11
      (winFrames.take 10) _ h10 h11 hne f8⟩

set_option maxRecDepth 100000 in
theorem restart_tick_witness :
    (restartInput.rPressed = false →
      UpdateGame playEnv restartInput 200 (wonGame, 0) = some (wonGame, 0)) ∧
    (restartInput.rPressed = true →
      (UpdateGame playEnv restartInput 200 (wonGame, 0) = none ↔
        GenerateMaze playEnv.rnd 200 (wonGame, 0).1.gameMaze (wonGame, 0).2 = none) ∧
      ∀ s', UpdateGame playEnv restartInput 200 (wonGame, 0) = some s' →
        s'.1.currentState = GameState.GAME_PLAYING ∧
        s'.1.player.health = 100 ∧ s'.1.player.keys = 0 ∧
        s'.1.gameMaze.startPos = { x := 1, y := 1 } ∧
        s'.1.player.position = { x := 3 / 2, y := 3 / 2 } ∧
        (∃ r, GenerateMaze playEnv.rnd 200 (wonGame, 0).1.gameMaze (wonGame, 0).2 = some r ∧
          s'.1.gameMaze = r.1) ∧
        (∀ x y, GetCellType s'.1.gameMaze x y ≠ CellType.Wall →
          Reachable (fun c => GetCellType s'.1.gameMaze c.1 c.2 ≠ CellType.Wall)
            (1, 1) (x, y)) ∧
        (∀ x y, Border x y → GetCellType s'.1.gameMaze x y = CellType.Wall) ∧
        ∀ k, 0 ≤ k → k < s'.1.enemyCount →
          (s'.1.enemies k).active = true ∧ (s'.1.enemies k).isDying = false ∧
          (s'.1.enemies k).health = ENEMY_HEALTH) ∧
    ((UpdateGame playEnv restartInput 200 (wonGame, 0)).map fun s' =>
      (s'.1.currentState, s'.1.enemyCount)) = some (GameState.GAME_PLAYING, 5) := by
  obtain ⟨h1, h2⟩ := restart_tick playEnv restartInput 200 (wonGame, 0) (Or.inl rfl)
  exact ⟨h1, h2, by decide!⟩

/-! ## The camera transform of `RenderSprites` -/

/-- C27: when the camera plane is the facing vector turned by a right angle and
scaled by `t`, with the facing vector not (0,0) and `t` not 0 (as `RenderSprites`
computes it, with `t = tanf(fovHalf)`), then `transformX` and `transformY` are the
coordinates of the sprite offset in the basis (cameraPlane, facing); for a unit facing
vector `transformY` is the dot product of the offset with the facing vector; and a
sprite with `transformY <= 0` issues no draw call. -/
theorem sprite_transform_inverts_basis (cam : Camera) (player : Player) (sp : Sprite)
    (t : ℚ) (screenW screenH : Int) (zBuffer : Int → ℚ)
    (hdir : ¬(cam.playerDirX = 0 ∧ cam.playerDirY = 0)) (ht : t ≠ 0)
    (hpx : cam.planeX = -cam.playerDirY * t) (hpy : cam.planeY = cam.playerDirX * t) :
    sp.position.x - player.position.x =
      spriteTransformX cam player sp * cam.planeX +
        spriteTransformY cam player sp * cam.playerDirX ∧
    sp.position.y - player.position.y =
      spriteTransformX cam player sp * cam.planeY +
        spriteTransformY cam player sp * cam.playerDirY ∧
    (cam.playerDirX * cam.playerDirX + cam.playerDirY * cam.playerDirY = 1 →
      spriteTransformY cam player sp =
        (sp.position.x - player.position.x) * cam.playerDirX +
          (sp.position.y - player.position.y) * cam.playerDirY) ∧
    (spriteTransformY cam player sp ≤ 0 →
      renderSprite screenW screenH zBuffer cam player sp = []) ∧
    (∀ (lm : Libm) (p : Player),
      (camera lm p).playerDirX = lm.cosf p.angle ∧ (camera lm p).playerDirY = lm.sinf p.angle ∧
      (camera lm p).planeX = -(camera lm p).playerDirY * lm.tanf (DegToRad (FOV / 2)) ∧
      (camera lm p).planeY = (camera lm p).playerDirX * lm.tanf (DegToRad (FOV / 2))) := by
  have hn : cam.playerDirX * cam.playerDirX + cam.playerDirY * cam.playerDirY ≠ 0 := by
    intro h0
    have h1 : cam.playerDirX * cam.playerDirX = 0 := by
      nlinarith [mul_self_nonneg cam.playerDirX, mul_self_nonneg cam.playerDirY]
    have h2 : cam.playerDirY * cam.playerDirY = 0 := by
      nlinarith [mul_self_nonneg cam.playerDirX, mul_self_nonneg cam.playerDirY]
    exact hdir ⟨mul_self_eq_zero.1 h1, mul_self_eq_zero.1 h2⟩
  have hdet : cam.planeX * cam.playerDirY - cam.playerDirX * cam.planeY ≠ 0 := by
    rw [hpx, hpy]
    intro h0
    apply hn
    have : -t * (cam.playerDirX * cam.playerDirX + cam.playerDirY * cam.playerDirY) = 0 := by
      linarith
    rcases mul_eq_zero.1 this with h | h
    · exact absurd (neg_eq_zero.1 h) ht
    · exact h
  refine ⟨?_, ?_, ?_, ?_, ?_⟩
  · unfold spriteTransformX spriteTransformY
    field_simp
    ring
  · unfold spriteTransformX spriteTransformY
    field_simp
    ring
  · intro hunit
    unfold spriteTransformY
    have hdet' : cam.planeX * cam.playerDirY - cam.playerDirX * cam.planeY = -t := by
      rw [hpx, hpy]
      linear_combination -t * hunit
    simp only [hdet']
    rw [hpx, hpy, one_div, inv_mul_eq_iff_eq_mul₀ (neg_ne_zero.2 ht)]
    ring
  · intro hle
    unfold renderSprite
    cases hact : sp.active
    · simp
    · simp [hle]
  · intro lm p
    exact ⟨rfl, rfl, rfl, rfl⟩

theorem sprite_transform_inverts_basis_witness :
    (spriteBehind.position.x - sampleGame.player.position.x =
      spriteTransformX sampleCamera sampleGame.player spriteBehind * sampleCamera.planeX +
        spriteTransformY sampleCamera sampleGame.player spriteBehind *
          sampleCamera.playerDirX ∧
    spriteBehind.position.y - sampleGame.player.position.y =
      spriteTransformX sampleCamera sampleGame.player spriteBehind * sampleCamera.planeY +
        spriteTransformY sampleCamera sampleGame.player spriteBehind *
          sampleCamera.playerDirY) ∧
    spriteTransformY sampleCamera sampleGame.player spriteBehind = -1 ∧
    renderSprite 1280 720 (fun _ => 5) sampleCamera sampleGame.player spriteBehind = [] := by
  have hY : spriteTransformY sampleCamera sampleGame.player spriteBehind = -1 := by decide!
  obtain ⟨h1, h2, _, h4, _⟩ := sprite_transform_inverts_basis sampleCamera sampleGame.player
    spriteBehind (1 / 2) 1280 720 (fun _ => 5) (by decide!) (by norm_num) (by decide!)
    (by decide!)
  exact ⟨⟨h1, h2⟩, hY, h4 (by rw [hY]; norm_num)⟩

/-! ## The choice of the animation -/

theorem DetermineEnemyAnimation_eq (env : Env) (player : Player) (enemy : Enemy)
    (isAttacking : Bool) :
    DetermineEnemyAnimation env player enemy isAttacking false =
      if isAttacking then
        if relativeDegrees env player enemy ≥ 315 ∨ relativeDegrees env player enemy < 45
        then ANIM_ATTACK_FRONT
        else if relativeDegrees env player enemy ≥ 45 ∧ relativeDegrees env player enemy < 90
        then ANIM_ATTACK_DIAG_FRONT_L
        else if relativeDegrees env player enemy ≥ 90 ∧ relativeDegrees env player enemy < 135
        then ANIM_ATTACK_SIDE
        else if relativeDegrees env player enemy ≥ 135 ∧ relativeDegrees env player enemy < 225
        then ANIM_ATTACK_BACK
        else if relativeDegrees env player enemy ≥ 225 ∧ relativeDegrees env player enemy < 270
        then ANIM_ATTACK_DIAG_BACK_L
        else ANIM_ATTACK_DIAG_FRONT_R
      else
        if relativeDegrees env player enemy ≥ 315 ∨ relativeDegrees env player enemy < 45
        then ANIM_WALK_FRONT
        else if relativeDegrees env player enemy ≥ 45 ∧ relativeDegrees env player enemy < 90
        then ANIM_WALK_DIAG_FRONT_L
        else if relativeDegrees env player enemy ≥ 90 ∧ relativeDegrees env player enemy < 135
        then ANIM_WALK_SIDE
        else if relativeDegrees env player enemy ≥ 135 ∧ relativeDegrees env player enemy < 225
        then ANIM_WALK_BACK
        else ANIM_WALK_DIAG_BACK_L := by
  unfold DetermineEnemyAnimation relativeDegrees
  rfl

theorem relativeDegrees_range (env : Env) (player : Player) (enemy : Enemy) :
    0 ≤ relativeDegrees env player enemy ∧ relativeDegrees env player enemy < 360 := by
  unfold relativeDegrees
  exact wrapInto_range 360 _ (by norm_num)

/-- C24, as the code has it: with the player turned to 5 rad and the enemy one unit to
the left, the relative angle lies in the sector [270, 315); the walking result is
`ANIM_WALK_DIAG_BACK_L`, the attacking result is `ANIM_ATTACK_DIAG_FRONT_R`, which is
not the attack variant of that walk animation. -/
theorem attack_variant_mismatch :
    270 ≤ relativeDegrees playEnv sidePlayer leftEnemy ∧
    relativeDegrees playEnv sidePlayer leftEnemy < 315 ∧
    DetermineEnemyAnimation playEnv sidePlayer leftEnemy false false = ANIM_WALK_DIAG_BACK_L ∧
    DetermineEnemyAnimation playEnv sidePlayer leftEnemy true false =
      ANIM_ATTACK_DIAG_FRONT_R ∧
    attackVariant ANIM_WALK_DIAG_BACK_L = ANIM_ATTACK_DIAG_BACK_L ∧
    DetermineEnemyAnimation playEnv sidePlayer leftEnemy true false ≠
      attackVariant (DetermineEnemyAnimation playEnv sidePlayer leftEnemy false false) := by
  decide!

/-- C24, amended: `DetermineEnemyAnimation` returns `ANIM_DEATH` whenever `isDying`;
otherwise its result depends on `isAttacking` and on the relative angle in degrees
only, which lies in [0, 360).  In the sectors [315,360) with [0,45), [45,90), [90,135),
[135,225) and [225,270) the walking and the attacking result show the same side
(front, front left, side, back, back left).  The walk branch has no sixth sector: on
[270,315) it returns `ANIM_WALK_DIAG_BACK_L` as on [225,270), while the attack branch
returns `ANIM_ATTACK_DIAG_FRONT_R`, for which there is no walk animation. -/
theorem DetermineEnemyAnimation_sectors (env : Env) (player : Player) (enemy : Enemy)
    (isAttacking : Bool) :
    DetermineEnemyAnimation env player enemy isAttacking true = ANIM_DEATH ∧
    (0 ≤ relativeDegrees env player enemy ∧ relativeDegrees env player enemy < 360) ∧
    (315 ≤ relativeDegrees env player enemy ∨ relativeDegrees env player enemy < 45 →
      DetermineEnemyAnimation env player enemy false false = ANIM_WALK_FRONT ∧
      DetermineEnemyAnimation env player enemy true false = ANIM_ATTACK_FRONT) ∧
    (45 ≤ relativeDegrees env player enemy ∧ relativeDegrees env player enemy < 90 →
      DetermineEnemyAnimation env player enemy false false = ANIM_WALK_DIAG_FRONT_L ∧
      DetermineEnemyAnimation env player enemy true false = ANIM_ATTACK_DIAG_FRONT_L) ∧
    (90 ≤ relativeDegrees env player enemy ∧ relativeDegrees env player enemy < 135 →
      DetermineEnemyAnimation env player enemy false false = ANIM_WALK_SIDE ∧
      DetermineEnemyAnimation env player enemy true false = ANIM_ATTACK_SIDE) ∧
    (135 ≤ relativeDegrees env player enemy ∧ relativeDegrees env player enemy < 225 →
      DetermineEnemyAnimation env player enemy false false = ANIM_WALK_BACK ∧
      DetermineEnemyAnimation env player enemy true false = ANIM_ATTACK_BACK) ∧
    (225 ≤ relativeDegrees env player enemy ∧ relativeDegrees env player enemy < 270 →
      DetermineEnemyAnimation env player enemy false false = ANIM_WALK_DIAG_BACK_L ∧
      DetermineEnemyAnimation env player enemy true false = ANIM_ATTACK_DIAG_BACK_L) ∧
    (270 ≤ relativeDegrees env player enemy ∧ relativeDegrees env player enemy < 315 →
      DetermineEnemyAnimation env player enemy false false = ANIM_WALK_DIAG_BACK_L ∧
      DetermineEnemyAnimation env player enemy true false = ANIM_ATTACK_DIAG_FRONT_R) ∧
    (relativeDegrees env player enemy < 270 ∨ 315 ≤ relativeDegrees env player enemy →
      DetermineEnemyAnimation env player enemy true false =
        attackVariant (DetermineEnemyAnimation env player enemy false false)) ∧
    (∀ (env' : Env) (player' : Player) (enemy' : Enemy) (isDying : Bool),
      relativeDegrees env' player' enemy' = relativeDegrees env player enemy →
      DetermineEnemyAnimation env' player' enemy' isAttacking isDying =
        DetermineEnemyAnimation env player enemy isAttacking isDying) := by
  have hdeath : ∀ (e : Env) (p : Player) (en : Enemy) (a : Bool),
      DetermineEnemyAnimation e p en a true = ANIM_DEATH := by
    intro e p en a
    unfold DetermineEnemyAnimation
    rw [if_pos rfl]
  have hpure : ∀ (env' : Env) (player' : Player) (enemy' : Enemy) (isDying : Bool),
      relativeDegrees env' player' enemy' = relativeDegrees env player enemy →
      DetermineEnemyAnimation env' player' enemy' isAttacking isDying =
        DetermineEnemyAnimation env player enemy isAttacking isDying := by
    intro env' player' enemy' isDying hdeg
    cases isDying
    · rw [DetermineEnemyAnimation_eq env' player' enemy' isAttacking,
        DetermineEnemyAnimation_eq env player enemy isAttacking, hdeg]
    · rw [hdeath, hdeath]
  have hw := DetermineEnemyAnimation_eq env player enemy false
  have ha := DetermineEnemyAnimation_eq env player enemy true
  refine ⟨hdeath env player enemy isAttacking, relativeDegrees_range env player enemy,
    ?_, ?_, ?_, ?_, ?_, ?_, ?_, hpure⟩
  all_goals clear hpure hdeath
  all_goals revert hw ha
  all_goals generalize relativeDegrees env player enemy = deg
  all_goals intro hw ha
  all_goals simp only [Bool.false_eq_true, if_false] at hw
  all_goals simp only [if_true] at ha
  · intro h
    rw [hw, ha, if_pos h, if_pos h]
    exact ⟨rfl, rfl⟩
  · intro h
    have h0 : ¬(deg ≥ 315 ∨ deg < 45) := by
      intro h'; rcases h' with h' | h' <;> linarith [h.1, h.2]
    rw [hw, ha, if_neg h0, if_neg h0, if_pos h, if_pos h]
    exact ⟨rfl, rfl⟩
  · intro h
    have h0 : ¬(deg ≥ 315 ∨ deg < 45) := by
      intro h'; rcases h' with h' | h' <;> linarith [h.1, h.2]
    have h1 : ¬(deg ≥ 45 ∧ deg < 90) := by
      intro h'; linarith [h.1, h'.2]
    rw [hw, ha, if_neg h0, if_neg h0, if_neg h1, if_neg h1, if_pos h, if_pos h]
    exact ⟨rfl, rfl⟩
  · intro h
    have h0 : ¬(deg ≥ 315 ∨ deg < 45) := by
      intro h'; rcases h' with h' | h' <;> linarith [h.1, h.2]
    have h1 : ¬(deg ≥ 45 ∧ deg < 90) := by
      intro h'; linarith [h.1, h'.2]
    have h2 : ¬(deg ≥ 90 ∧ deg < 135) := by
      intro h'; linarith [h.1, h'.2]
    rw [hw, ha, if_neg h0, if_neg h0, if_neg h1, if_neg h1, if_neg h2, if_neg h2, if_pos h,
      if_pos h]
    exact ⟨rfl, rfl⟩
  · intro h
    have h0 : ¬(deg ≥ 315 ∨ deg < 45) := by
      intro h'; rcases h' with h' | h' <;> linarith [h.1, h.2]
    have h1 : ¬(deg ≥ 45 ∧ deg < 90) := by
      intro h'; linarith [h.1, h'.2]
    have h2 : ¬(deg ≥ 90 ∧ deg < 135) := by
      intro h'; linarith [h.1, h'.2]
    have h3 : ¬(deg ≥ 135 ∧ deg < 225) := by
      intro h'; linarith [h.1, h'.2]
    rw [hw, ha, if_neg h0, if_neg h0, if_neg h1, if_neg h1, if_neg h2, if_neg h2, if_neg h3,
      if_neg h3, if_pos h]
    exact ⟨rfl, rfl⟩
  · intro h
    have h0 : ¬(deg ≥ 315 ∨ deg < 45) := by
      intro h'; rcases h' with h' | h' <;> linarith [h.1, h.2]
    have h1 : ¬(deg ≥ 45 ∧ deg < 90) := by
      intro h'; linarith [h.1, h'.2]
    have h2 : ¬(deg ≥ 90 ∧ deg < 135) := by
      intro h'; linarith [h.1, h'.2]
    have h3 : ¬(deg ≥ 135 ∧ deg < 225) := by
      intro h'; linarith [h.1, h'.2]
    have h4 : ¬(deg ≥ 225 ∧ deg < 270) := by
      intro h'; linarith [h.1, h'.2]
    rw [hw, ha, if_neg h0, if_neg h0, if_neg h1, if_neg h1, if_neg h2, if_neg h2, if_neg h3,
      if_neg h3, if_neg h4]
    exact ⟨rfl, rfl⟩
  · intro h
    rw [hw, ha]
    by_cases h0 : deg ≥ 315 ∨ deg < 45
    · rw [if_pos h0, if_pos h0]; rfl
    · rw [if_neg h0, if_neg h0]
      by_cases h1 : deg ≥ 45 ∧ deg < 90
      · rw [if_pos h1, if_pos h1]; rfl
      · rw [if_neg h1, if_neg h1]
        by_cases h2 : deg ≥ 90 ∧ deg < 135
        · rw [if_pos h2, if_pos h2]; rfl
        · rw [if_neg h2, if_neg h2]
          by_cases h3 : deg ≥ 135 ∧ deg < 225
          · rw [if_pos h3, if_pos h3]; rfl
          · rw [if_neg h3, if_neg h3]
            have h4 : deg ≥ 225 ∧ deg < 270 := by
              push_neg at h0 h1 h2 h3
              rcases h with h | h
              · refine ⟨?_, h⟩
                by_contra hc
                push_neg at hc
                by_cases c1 : deg ≥ 135
                · linarith [h3 c1]
                · push_neg at c1
                  by_cases c2 : deg ≥ 90
                  · linarith [h2 c2]
                  · push_neg at c2
                    by_cases c3 : deg ≥ 45
                    · linarith [h1 c3]
                    · push_neg at c3; linarith [h0.2]
              · linarith [h0.1]
            rw [if_pos h4]; rfl

theorem DetermineEnemyAnimation_sectors_witness :
    270 ≤ relativeDegrees playEnv sidePlayer leftEnemy ∧
    relativeDegrees playEnv sidePlayer leftEnemy < 315 ∧
    DetermineEnemyAnimation playEnv sidePlayer leftEnemy false false = ANIM_WALK_DIAG_BACK_L ∧
    DetermineEnemyAnimation playEnv sidePlayer leftEnemy true false =
      ANIM_ATTACK_DIAG_FRONT_R ∧
    DetermineEnemyAnimation playEnv sidePlayer leftEnemy true true = ANIM_DEATH := by
  have h1 : 270 ≤ relativeDegrees playEnv sidePlayer leftEnemy := by decide!
  have h2 : relativeDegrees playEnv sidePlayer leftEnemy < 315 := by decide!
  obtain ⟨d, _, _, _, _, _, _, s6, _⟩ :=
    DetermineEnemyAnimation_sectors playEnv sidePlayer leftEnemy true
  exact ⟨h1, h2, (s6 ⟨h1, h2⟩).1, (s6 ⟨h1, h2⟩).2, d⟩

/-! ## The attack of an enemy -/

theorem enemyAnimate_moves (env : Env) (dt : ℚ) (player : Player) (e : Enemy) :
    (enemyAnimate env dt player e).attackCooldown = (enemyTimers dt e).attackCooldown ∧
    (enemyAnimate env dt player e).position = e.position ∧
    (enemyAnimate env dt player e).direction = e.direction ∧
    (enemyAnimate env dt player e).moveTimer = e.moveTimer := by
  have h1 : ∀ e : Enemy, (advanceFrame e).attackCooldown = e.attackCooldown ∧
      (advanceFrame e).position = e.position ∧ (advanceFrame e).direction = e.direction ∧
      (advanceFrame e).moveTimer = e.moveTimer := by
    intro e
    unfold advanceFrame
    simp only
    split_ifs <;> exact ⟨rfl, rfl, rfl, rfl⟩
  have h2 : ∀ e : Enemy, (enemyChooseAnim env player e).attackCooldown = e.attackCooldown ∧
      (enemyChooseAnim env player e).position = e.position ∧
      (enemyChooseAnim env player e).direction = e.direction ∧
      (enemyChooseAnim env player e).moveTimer = e.moveTimer := by
    intro e
    unfold enemyChooseAnim
    simp only
    split_ifs <;> exact ⟨rfl, rfl, rfl, rfl⟩
  have h3 : (enemyTimers dt e).position = e.position ∧
      (enemyTimers dt e).direction = e.direction ∧
      (enemyTimers dt e).moveTimer = e.moveTimer := by
    unfold enemyTimers
    simp only
    split_ifs <;> exact ⟨rfl, rfl, rfl⟩
  obtain ⟨a1, a2, a3, a4⟩ := h1 (enemyChooseAnim env player (enemyTimers dt e))
  obtain ⟨b1, b2, b3, b4⟩ := h2 (enemyTimers dt e)
  obtain ⟨c2, c3, c4⟩ := h3
  unfold enemyAnimate
  simp only
  exact ⟨a1.trans b1, a2.trans (b2.trans c2), a3.trans (b3.trans c3), a4.trans (b4.trans c4)⟩

theorem enemySprite_rest (env : Env) (g : Game) (i : Int) :
    (enemySprite env g i).enemies = g.enemies ∧ (enemySprite env g i).player = g.player ∧
    (enemySprite env g i).currentState = g.currentState ∧
    (enemySprite env g i).gameMaze = g.gameMaze := by
  unfold enemySprite
  simp only
  split_ifs <;> exact ⟨rfl, rfl, rfl, rfl⟩

/-- In attack range the round of the enemy loop is the animation, the sprite and the
attack. -/
theorem updateEnemy_in_range (env : Env) (dt : ℚ) (s : Game × Nat) (i : Int)
    (hact : (s.1.enemies i).active = true)
    (hrange : Distance env.lm (s.1.enemies i).position.x (s.1.enemies i).position.y
      s.1.player.position.x s.1.player.position.y ≤ ENEMY_ATTACK_RANGE) :
    updateEnemy env dt s i =
      (enemyAttack (enemySprite env
        { s.1 with enemies := (arrSet s.1.enemies i
            (enemyAnimate env dt s.1.player (s.1.enemies i))) } i) i, s.2) := by
  unfold updateEnemy
  simp only
  rw [if_neg (by rw [hact]; decide), if_pos hrange]

/-- C26: in the round of `UpdateEnemies` for an active enemy within
`ENEMY_ATTACK_RANGE` of the player: when its attack cooldown, after the decrement of
this tick, is `<= 0`, `player.health` drops by `ENEMY_ATTACK_DAMAGE`, floored at 0, and
the cooldown is set to `ENEMY_ATTACK_COOLDOWN`; when the cooldown is still `> 0`, the
health stays and the cooldown keeps its decremented value; in both cases position and
direction of the enemy stay, and `rand()` is not called.  The round of an inactive
enemy changes nothing. -/
theorem updateEnemy_attack (env : Env) (dt : ℚ) (s : Game × Nat) (i : Int) :
    ((s.1.enemies i).active = false → updateEnemy env dt s i = s) ∧
    ((s.1.enemies i).active = true →
      Distance env.lm (s.1.enemies i).position.x (s.1.enemies i).position.y
        s.1.player.position.x s.1.player.position.y ≤ ENEMY_ATTACK_RANGE →
      (enemyTimers dt (s.1.enemies i)).attackCooldown =
        (if (s.1.enemies i).attackCooldown > 0 then (s.1.enemies i).attackCooldown - dt
          else (s.1.enemies i).attackCooldown) ∧
      ((enemyTimers dt (s.1.enemies i)).attackCooldown ≤ 0 →
        (updateEnemy env dt s i).1.player.health =
          max (s.1.player.health - ENEMY_ATTACK_DAMAGE) 0 ∧
        ((updateEnemy env dt s i).1.enemies i).attackCooldown = ENEMY_ATTACK_COOLDOWN) ∧
      (0 < (enemyTimers dt (s.1.enemies i)).attackCooldown →
        (updateEnemy env dt s i).1.player.health = s.1.player.health ∧
        (updateEnemy env dt s i).1.currentState = s.1.currentState ∧
        ((updateEnemy env dt s i).1.enemies i).attackCooldown =
          (enemyTimers dt (s.1.enemies i)).attackCooldown) ∧
      ((updateEnemy env dt s i).1.enemies i).position = (s.1.enemies i).position ∧
      ((updateEnemy env dt s i).1.enemies i).direction = (s.1.enemies i).direction ∧
      (updateEnemy env dt s i).2 = s.2) := by
  refine ⟨fun hin => ?_, fun hact hrange => ?_⟩
  · unfold updateEnemy
    simp only
    rw [if_pos hin]
  · rw [updateEnemy_in_range env dt s i hact hrange]
    obtain ⟨m1, m2, m3, _⟩ := enemyAnimate_moves env dt s.1.player (s.1.enemies i)
    generalize enemyAnimate env dt s.1.player (s.1.enemies i) = e at m1 m2 m3
    generalize hg1 : ({ s.1 with enemies := arrSet s.1.enemies i e } : Game) = g1
    have g1e : g1.enemies i = e := by subst hg1; simp [arrSet]
    have g1p : g1.player = s.1.player := by subst hg1; rfl
    have g1s : g1.currentState = s.1.currentState := by subst hg1; rfl
    obtain ⟨q1, q2, q3, _⟩ := enemySprite_rest env g1 i
    generalize enemySprite env g1 i = g2 at q1 q2 q3
    have g2e : g2.enemies i = e := by rw [q1, g1e]
    have g2p : g2.player = s.1.player := by rw [q2, g1p]
    have g2s : g2.currentState = s.1.currentState := by rw [q3, g1s]
    refine ⟨?_, fun hc => ?_, fun hc => ?_, ?_, ?_, rfl⟩
    · unfold enemyTimers
      simp only
      split_ifs <;> rfl
    · have hc' : (g2.enemies i).attackCooldown ≤ 0 := by rw [g2e, m1]; exact hc
      unfold enemyAttack
      simp only
      rw [if_pos hc', g2p]
      by_cases hh : s.1.player.health - ENEMY_ATTACK_DAMAGE ≤ 0
      · rw [if_pos hh]
        exact ⟨(max_eq_right hh).symm, by simp [arrSet]⟩
      · rw [if_neg hh]
        exact ⟨(max_eq_left (le_of_lt (not_le.1 hh))).symm, by simp [arrSet]⟩
    · have hc' : ¬(g2.enemies i).attackCooldown ≤ 0 := by rw [g2e, m1]; exact not_le.2 hc
      unfold enemyAttack
      simp only
      rw [if_neg hc', g2p, g2s, g2e]
      exact ⟨rfl, rfl, m1⟩
    · unfold enemyAttack
      simp only
      split_ifs
      · simp only [arrSet, if_true]
        rw [g2e]; exact m2
      · simp only [arrSet, if_true]
        rw [g2e]; exact m2
      · rw [g2e]; exact m2
    · unfold enemyAttack
      simp only
      split_ifs
      · simp only [arrSet, if_true]
        rw [g2e]; exact m3
      · simp only [arrSet, if_true]
        rw [g2e]; exact m3
      · rw [g2e]; exact m3

theorem updateEnemy_attack_witness :
    (lastHitGame.enemies 0).active = true ∧
    Distance playEnv.lm (lastHitGame.enemies 0).position.x (lastHitGame.enemies 0).position.y
      lastHitGame.player.position.x lastHitGame.player.position.y ≤ ENEMY_ATTACK_RANGE ∧
    (enemyTimers (1 / 60) (lastHitGame.enemies 0)).attackCooldown ≤ 0 ∧
    lastHitGame.player.health = 10 ∧
    (updateEnemy playEnv (1 / 60) (lastHitGame, 0) 0).1.player.health = 0 ∧
    ((updateEnemy playEnv (1 / 60) (lastHitGame, 0) 0).1.enemies 0).attackCooldown =
      ENEMY_ATTACK_COOLDOWN ∧
    ((updateEnemy playEnv (1 / 60) (lastHitGame, 0) 0).1.enemies 0).position =
      (lastHitGame.enemies 0).position ∧
    ((updateEnemy playEnv (1 / 60) (lastHitGame, 0) 0).1.enemies 0).direction =
      (lastHitGame.enemies 0).direction := by
  have hact : (lastHitGame.enemies 0).active = true := rfl
  have hrange : Distance playEnv.lm (lastHitGame.enemies 0).position.x
      (lastHitGame.enemies 0).position.y lastHitGame.player.position.x
      lastHitGame.player.position.y ≤ ENEMY_ATTACK_RANGE := by decide!
  have hcool : (enemyTimers (1 / 60) (lastHitGame.enemies 0)).attackCooldown ≤ 0 := by decide!
  obtain ⟨_, h⟩ := updateEnemy_attack playEnv (1 / 60) (lastHitGame, 0) 0
  obtain ⟨_, h2, _, h4, h5, _⟩ := h hact hrange
  obtain ⟨h21, h22⟩ := h2 hcool
  exact ⟨hact, hrange, hcool, rfl, h21, h22, h4, h5⟩

/-! ## Changes of the animation -/

theorem newAnimType_congr (env : Env) (player : Player) (e e2 : Enemy)
    (hp : e2.position = e.position) (hd : e2.isDying = e.isDying) :
    newAnimType env player e2 = newAnimType env player e := by
  unfold newAnimType DetermineEnemyAnimation
  rw [hp, hd]

theorem enemyChooseAnim_eq (env : Env) (player : Player) (e2 : Enemy) :
    enemyChooseAnim env player e2 =
      if e2.anim.currentAnim ≠ newAnimType env player e2 then
        { e2 with
          anim := { e2.anim with currentAnim := newAnimType env player e2, currentFrame := 0,
                                 frameTimer := 0,
                                 loop := (animationRanges (newAnimType env player e2)).loop } }
      else e2 := by
  unfold enemyChooseAnim newAnimType
  rfl

/-- The animation of an active enemy after its round of the enemy loop. -/
theorem updateEnemy_anim (env : Env) (dt : ℚ) (s : Game × Nat) (i : Int)
    (hact : (s.1.enemies i).active = true) :
    ((updateEnemy env dt s i).1.enemies i).anim =
      (enemyAnimate env dt s.1.player (s.1.enemies i)).anim := by
  unfold updateEnemy
  simp only
  rw [if_neg (by rw [hact]; decide)]
  generalize enemyAnimate env dt s.1.player (s.1.enemies i) = e
  generalize hg1 : ({ s.1 with enemies := arrSet s.1.enemies i e } : Game) = g1
  have g1e : g1.enemies i = e := by subst hg1; simp [arrSet]
  obtain ⟨q1, _, _, _⟩ := enemySprite_rest env g1 i
  split_ifs
  · obtain ⟨_, _, _, a, _⟩ := enemyAttack_kept (enemySprite env g1 i) i
    rw [a, q1, g1e]
  · obtain ⟨_, _, _, _, a, _⟩ := enemyMove_kept env dt
      (Distance env.lm (s.1.enemies i).position.x (s.1.enemies i).position.y
        s.1.player.position.x s.1.player.position.y) (enemySprite env g1 i, s.2) i
    rw [a]
    simp only
    rw [q1, g1e]

/-- The animation after `enemyAnimate`: reset to frame 0 with timer 0 when another
animation is chosen; else the same animation goes on. -/
theorem enemyAnimate_anim (env : Env) (dt : ℚ) (player : Player) (e : Enemy) :
    (e.anim.currentAnim ≠ newAnimType env player e →
      (enemyAnimate env dt player e).anim =
        { e.anim with currentAnim := newAnimType env player e, currentFrame := 0,
                      frameTimer := 0,
                      loop := (animationRanges (newAnimType env player e)).loop }) ∧
    (e.anim.currentAnim = newAnimType env player e →
      (enemyAnimate env dt player e).anim.currentAnim = e.anim.currentAnim) := by
  obtain ⟨t1, _, _, t4, _, t6⟩ := enemyTimers_same dt e
  have hn := newAnimType_congr env player e (enemyTimers dt e) t4 t1
  have hc := enemyChooseAnim_eq env player (enemyTimers dt e)
  rw [hn] at hc
  have hcur : (enemyTimers dt e).anim.currentAnim = e.anim.currentAnim := by rw [t6]
  rw [hcur] at hc
  unfold enemyAnimate
  simp only
  rw [hc]
  refine ⟨fun hne => ?_, fun heq => ?_⟩
  · rw [if_pos hne]
    unfold advanceFrame
    simp only
    rw [if_neg (by unfold ENEMY_FRAME_TIME; norm_num), t6]
  · rw [if_neg (by rw [heq]; exact fun h => h rfl)]
    have : ∀ e : Enemy, (advanceFrame e).anim.currentAnim = e.anim.currentAnim := by
      intro e
      unfold advanceFrame
      simp only
      split_ifs <;> rfl
    rw [this, hcur]

/-- The animation after the round of `CheckPlayerAttacks` for an enemy: as before, or
a kill, which sets `ANIM_DEATH`, frame 0 and no loop, and leaves the frame timer. -/
theorem attackEnemy_anim (env : Env) (g : Game) (i : Int) :
    ((attackEnemy env g i).enemies i).anim = (g.enemies i).anim ∨
    ((g.enemies i).isDying = false ∧ ((attackEnemy env g i).enemies i).isDying = true ∧
      ((attackEnemy env g i).enemies i).health ≤ 0 ∧
      ((attackEnemy env g i).enemies i).anim =
        { (g.enemies i).anim with currentAnim := ANIM_DEATH, currentFrame := 0,
                                  loop := false }) := by
  unfold attackEnemy
  simp only
  by_cases h1 : (g.enemies i).active = false ∨ (g.enemies i).isDying = true
  · rw [if_pos h1]; left; rfl
  · rw [if_neg h1]
    have hd : (g.enemies i).isDying = false := by
      cases hh : (g.enemies i).isDying
      · rfl
      · exact absurd (Or.inr hh) h1
    split_ifs
    all_goals first
      | exact Or.inl rfl
      | (left
         simp only [arrSet_same]
         done)
      | (right
         simp only [arrSet_same]
         exact ⟨hd, trivial, ‹_›, trivial⟩)

/-- C23, as the code has it: a hit of `CheckPlayerAttacks` that kills the enemy 0 of
`killGame` changes its animation from `ANIM_WALK_FRONT` to `ANIM_DEATH` and its frame
from 2 to 0, and leaves its frame timer at 0.1. -/
theorem death_keeps_frame_timer :
    (killGame.enemies 0).anim.currentAnim = ANIM_WALK_FRONT ∧
    (killGame.enemies 0).anim.currentFrame = 2 ∧
    (killGame.enemies 0).anim.frameTimer = 1 / 10 ∧
    ((CheckPlayerAttacks playEnv killGame).enemies 0).health = 0 ∧
    ((CheckPlayerAttacks playEnv killGame).enemies 0).isDying = true ∧
    ((CheckPlayerAttacks playEnv killGame).enemies 0).anim.currentAnim = ANIM_DEATH ∧
    ((CheckPlayerAttacks playEnv killGame).enemies 0).anim.currentFrame = 0 ∧
    ((CheckPlayerAttacks playEnv killGame).enemies 0).anim.frameTimer = 1 / 10 ∧
    ((CheckPlayerAttacks playEnv killGame).enemies 0).anim.frameTimer ≠ 0 := by
  decide!

/-- The changes of an enemy's animation: in the round of `UpdateEnemies` for an active enemy, when the chosen
animation differs from the current one, the enemy ends the round in the chosen
animation on frame 0 with frame timer 0 and the loop flag of the table; when it does
not differ, the animation stays.  In `CheckPlayerAttacks` the animation of an enemy
changes only by a hit that drops its health to `<= 0`: then the enemy is dying, in
`ANIM_DEATH` on frame 0 without loop, and its frame timer is left as it was (it is
not reset). -/
theorem animation_change_resets (env : Env) (dt : ℚ) (s : Game × Nat) (i : Int)
    (g : Game) (k : Int) :
    ((s.1.enemies i).active = true →
      (s.1.enemies i).anim.currentAnim ≠ newAnimType env s.1.player (s.1.enemies i) →
      ((updateEnemy env dt s i).1.enemies i).anim =
        { (s.1.enemies i).anim with
          currentAnim := newAnimType env s.1.player (s.1.enemies i), currentFrame := 0,
          frameTimer := 0,
          loop := (animationRanges (newAnimType env s.1.player (s.1.enemies i))).loop }) ∧
    ((s.1.enemies i).active = true →
      (s.1.enemies i).anim.currentAnim = newAnimType env s.1.player (s.1.enemies i) →
      ((updateEnemy env dt s i).1.enemies i).anim.currentAnim =
        (s.1.enemies i).anim.currentAnim) ∧
    (((CheckPlayerAttacks env g).enemies k).anim = (g.enemies k).anim ∨
      ((g.enemies k).isDying = false ∧ ((CheckPlayerAttacks env g).enemies k).isDying = true ∧
        ((CheckPlayerAttacks env g).enemies k).health ≤ 0 ∧
        ((CheckPlayerAttacks env g).enemies k).anim =
          { (g.enemies k).anim with currentAnim := ANIM_DEATH, currentFrame := 0,
                                    loop := false })) ∧
    ((CheckPlayerAttacks env g).enemies k).anim.frameTimer = (g.enemies k).anim.frameTimer := by
  have hA : ((CheckPlayerAttacks env g).enemies k).anim = (g.enemies k).anim ∨
      ((g.enemies k).isDying = false ∧ ((CheckPlayerAttacks env g).enemies k).isDying = true ∧
        ((CheckPlayerAttacks env g).enemies k).health ≤ 0 ∧
        ((CheckPlayerAttacks env g).enemies k).anim =
          { (g.enemies k).anim with currentAnim := ANIM_DEATH, currentFrame := 0,
                                    loop := false }) := by
    have hk := (CheckPlayerAttacks_frame env g).2.2.2.2.2.2.2.2.2.2 k
    rw [hk]
    split_ifs
    · exact attackEnemy_anim env g k
    · left; rfl
  refine ⟨fun hact hne => ?_, fun hact heq => ?_, hA, ?_⟩
  · rw [updateEnemy_anim env dt s i hact]
    exact (enemyAnimate_anim env dt s.1.player (s.1.enemies i)).1 hne
  · rw [updateEnemy_anim env dt s i hact]
    exact (enemyAnimate_anim env dt s.1.player (s.1.enemies i)).2 heq
  · rcases hA with h | ⟨_, _, _, h⟩
    · rw [h]
    · rw [h]

theorem animation_change_resets_witness :
    (sampleGame.enemies 0).active = true ∧
    (sampleGame.enemies 0).anim.currentAnim ≠
      newAnimType playEnv sampleGame.player (sampleGame.enemies 0) ∧
    ((updateEnemy playEnv (1 / 60) (sampleGame, 0) 0).1.enemies 0).anim =
      { (sampleGame.enemies 0).anim with
        currentAnim := newAnimType playEnv sampleGame.player (sampleGame.enemies 0),
        currentFrame := 0, frameTimer := 0,
        loop := (animationRanges
          (newAnimType playEnv sampleGame.player (sampleGame.enemies 0))).loop } ∧
    ((CheckPlayerAttacks playEnv killGame).enemies 0).anim =
      { (killGame.enemies 0).anim with currentAnim := ANIM_DEATH, currentFrame := 0,
                                       loop := false } := by
  have hact : (sampleGame.enemies 0).active = true := rfl
  have hne : (sampleGame.enemies 0).anim.currentAnim ≠
      newAnimType playEnv sampleGame.player (sampleGame.enemies 0) := by decide!
  obtain ⟨h1, _, h3, _⟩ :=
    animation_change_resets playEnv (1 / 60) (sampleGame, 0) 0 killGame 0
  refine ⟨hact, hne, h1 hact hne, ?_⟩
  rcases h3 with h | ⟨_, _, _, h⟩
  · have hd : ((CheckPlayerAttacks playEnv killGame).enemies 0).anim.currentAnim ≠
        (killGame.enemies 0).anim.currentAnim := by decide!
    exact absurd (by rw [h]) hd
  · exact h

/-! ## Game over and the pause key -/

/-- Over the enemy loop: either the state stays and the player, if hit at all, is
still alive, or the loop ends in `GAME_OVER` with health 0. -/
theorem updateLoop_health (env : Env) (dt : ℚ) (g : Game) (k0 : Nat) (l : List Int)
    (hl : ∀ i ∈ l, 0 ≤ i ∧ i < g.enemyCount) :
    (l.foldl (updateEnemy env dt) (g, k0)).1.enemyCount = g.enemyCount ∧
    (((l.foldl (updateEnemy env dt) (g, k0)).1.currentState = g.currentState ∧
        ((l.foldl (updateEnemy env dt) (g, k0)).1.player.health = g.player.health ∨
          0 < (l.foldl (updateEnemy env dt) (g, k0)).1.player.health)) ∨
      ((l.foldl (updateEnemy env dt) (g, k0)).1.currentState = GameState.GAME_OVER ∧
        (l.foldl (updateEnemy env dt) (g, k0)).1.player.health = 0)) := by
  refine foldl_inv (fun a : Game × Nat => a.1.enemyCount = g.enemyCount ∧
    ((a.1.currentState = g.currentState ∧
        (a.1.player.health = g.player.health ∨ 0 < a.1.player.health)) ∨
      (a.1.currentState = GameState.GAME_OVER ∧ a.1.player.health = 0)))
    (updateEnemy env dt) l (g, k0) ⟨rfl, Or.inl ⟨rfl, Or.inl rfl⟩⟩ ?_
  intro a b hb ⟨hc, hq⟩
  obtain ⟨h0, h1⟩ := hl b hb
  obtain ⟨hk, hh, _⟩ := updateEnemy_kept env dt a b h0 (by rw [hc]; exact h1)
  refine ⟨hk.2.1.trans hc, ?_⟩
  unfold HitStep at hh
  rcases hh with ⟨s1, s2⟩ | ⟨s1, s2, _⟩
  · rcases hq with ⟨q1, q2⟩ | ⟨q1, q2⟩
    · left
      refine ⟨s1.trans q1, ?_⟩
      rcases s2 with s2 | ⟨_, s2⟩
      · rcases q2 with q2 | q2
        · left; rw [s2, q2]
        · right; rw [s2]; exact q2
      · right; exact s2
    · right
      refine ⟨s1.trans q1, ?_⟩
      rcases s2 with s2 | ⟨s2, s3⟩
      · rw [s2, q2]
      · rw [q2] at s2
        unfold ENEMY_ATTACK_DAMAGE at s2
        omega
  · right
    exact ⟨s1, s2⟩

/-- The state after the rest of a playing tick: `GAME_PAUSED` when P is pressed,
whatever the state was; else as before. -/
theorem playingRest_state (env : Env) (inp : Input) (g : Game) :
    (playingRest env inp g).currentState =
      if inp.pPressed = true then GameState.GAME_PAUSED else g.currentState := by
  obtain ⟨_, _, a3, _⟩ := swingStart_kept inp g
  obtain ⟨_, _, b3, _⟩ := swingTick_kept env inp (swingStart inp g)
  have hs := b3.trans a3
  unfold playingRest
  simp only
  generalize swingTick env inp (swingStart inp g) = g2 at hs
  split_ifs
  · rfl
  · rfl
  · exact hs
  · exact hs

theorem MovePlayer_health (env : Env) (inp : Input) (g : Game) :
    (MovePlayer env inp g).player.health = g.player.health ∧
    (MovePlayer env inp g).enemies = g.enemies ∧
    (MovePlayer env inp g).enemyCount = g.enemyCount ∧
    (MovePlayer env inp g).katanaAnim = g.katanaAnim := by
  obtain ⟨_, a2, a3, _, a5, a6, _⟩ := MovePlayer_spec env inp g
  obtain ⟨_, b2, b3, _, _, b6, _, b8, _⟩ :=
    refreshDoor_spec { g with player := stepPlayer env inp g.gameMaze g.player }
  refine ⟨?_, a3.trans b3, a2.trans b6, a5.trans b8⟩
  rw [a6, b2]
  exact (stepPlayer_same env inp g.gameMaze g.player).1

/-- C25, as the code has it: a playing tick that brings `player.health` from above 0
to 0 ends in `GAME_OVER` when P is not pressed in it, and in `GAME_PAUSED` when P is
pressed: the pause test at the end of the tick overwrites the `GAME_OVER` that the
enemy loop has set. -/
theorem UpdateGame_health_zero (env : Env) (inp : Input) (fuel : Nat) (s s' : Game × Nat)
    (h : UpdateGame env inp fuel s = some s')
    (hp : s.1.currentState = GameState.GAME_PLAYING)
    (h0 : 0 < s.1.player.health) (h1 : s'.1.player.health = 0) :
    s'.1.currentState =
      if inp.pPressed = true then GameState.GAME_PAUSED else GameState.GAME_OVER := by
  rw [UpdateGame_playing env inp fuel s hp] at h
  have hs' := (Option.some.inj h).symm
  subst hs'
  simp only at h1 ⊢
  obtain ⟨_, p2, _⟩ := playingRest_kept env inp
    (UpdateEnemies env inp (MovePlayer env inp s.1, s.2)).1
  rw [p2] at h1
  rw [playingRest_state]
  have hl := updateLoop_health env inp.frameTime (MovePlayer env inp s.1) s.2
    (intRange 0 (MovePlayer env inp s.1).enemyCount)
    (fun i hi => (mem_intRange _ _ _).1 hi)
  have hu : UpdateEnemies env inp (MovePlayer env inp s.1, s.2) =
      (intRange 0 (MovePlayer env inp s.1).enemyCount).foldl
        (updateEnemy env inp.frameTime) (MovePlayer env inp s.1, s.2) := rfl
  rw [← hu] at hl
  obtain ⟨m1, _⟩ := MovePlayer_health env inp s.1
  rcases hl.2 with ⟨_, q⟩ | ⟨q, _⟩
  · rw [m1] at q
    rcases q with q | q
    · rw [q] at h1; omega
    · rw [h1] at q; exact absurd q (lt_irrefl 0)
  · rw [q]

theorem UpdateGame_health_zero_witness :
    ∃ s' s'', UpdateGame playEnv pauseInput 0 (lastHitGame, 0) = some s' ∧
      UpdateGame playEnv pauseInput 0 s' = some s'' ∧
      lastHitGame.currentState = GameState.GAME_PLAYING ∧ lastHitGame.player.health = 10 ∧
      pauseInput.pPressed = true ∧
      s'.1.player.health = 0 ∧ s'.1.currentState = GameState.GAME_PAUSED ∧
      s''.1.player.health = 0 ∧ s''.1.currentState = GameState.GAME_PLAYING := by
  have h : ((UpdateGame playEnv pauseInput 0 (lastHitGame, 0)).bind fun s' =>
      (UpdateGame playEnv pauseInput 0 s').map fun s'' =>
        decide (s'.1.player.health = 0) && decide (s''.1.player.health = 0) &&
          decide (s''.1.currentState = GameState.GAME_PLAYING)) = some true := by decide!
  obtain ⟨s', hs', h2⟩ := Option.bind_eq_some.1 h
  obtain ⟨s'', hs'', h3⟩ := Option.map_eq_some'.1 h2
  simp only [Bool.and_eq_true, decide_eq_true_eq] at h3
  obtain ⟨⟨f1, f2⟩, f3⟩ := h3
  have hst := UpdateGame_health_zero playEnv pauseInput 0 (lastHitGame, 0) s' hs' rfl
    (by decide) f1
  rw [if_pos (show pauseInput.pPressed = true from rfl)] at hst
  exact ⟨s', s'', hs', hs'', rfl, rfl, rfl, f1, hst, f2, f3⟩

/-! ## The hit test during a swing -/

theorem updateEnemy_katana (env : Env) (dt : ℚ) (s : Game × Nat) (i : Int) :
    (updateEnemy env dt s i).1.katanaAnim = s.1.katanaAnim := by
  have h1 : ∀ g : Game, (enemySprite env g i).katanaAnim = g.katanaAnim := by
    intro g
    unfold enemySprite
    simp only
    split_ifs <;> rfl
  have h2 : ∀ g : Game, (enemyAttack g i).katanaAnim = g.katanaAnim := by
    intro g
    unfold enemyAttack
    simp only
    split_ifs <;> rfl
  have h3 : ∀ (d : ℚ) (t : Game × Nat), (enemyMove env dt d t i).1.katanaAnim =
      t.1.katanaAnim := by
    intro d t
    unfold enemyMove
    rfl
  unfold updateEnemy
  simp only
  split_ifs
  · rfl
  · rw [h2, h1]
  · rw [h3]
    simp only
    rw [h1]

theorem UpdateEnemies_katana (env : Env) (inp : Input) (s : Game × Nat) :
    (UpdateEnemies env inp s).1.katanaAnim = s.1.katanaAnim := by
  unfold UpdateEnemies
  refine foldl_inv (fun a : Game × Nat => a.1.katanaAnim = s.1.katanaAnim)
    (updateEnemy env inp.frameTime) _ s rfl ?_
  intro a b _ ha
  exact (updateEnemy_katana env inp.frameTime a b).trans ha

theorem swingTick_eq (env : Env) (inp : Input) (g1 : Game) :
    swingTick env inp g1 =
      if g1.katanaAnim.isSwinging = true then
        if (CheckPlayerAttacks env (swingTimers inp g1)).katanaAnim.swingTimer ≤ 0 then
          { CheckPlayerAttacks env (swingTimers inp g1) with
            katanaAnim := { (CheckPlayerAttacks env (swingTimers inp g1)).katanaAnim with
                            isSwinging := false, currentFrame := 0 } }
        else CheckPlayerAttacks env (swingTimers inp g1)
      else g1 := by
  unfold swingTick swingTimers
  rfl

theorem swingTimers_rest (inp : Input) (g : Game) :
    (swingTimers inp g).enemies = g.enemies ∧ (swingTimers inp g).player = g.player ∧
    (swingTimers inp g).enemyCount = g.enemyCount ∧
    (swingTimers inp g).gameMaze = g.gameMaze ∧
    (swingTimers inp g).katanaAnim.isSwinging = g.katanaAnim.isSwinging ∧
    (swingTimers inp g).katanaAnim.swingTimer = g.katanaAnim.swingTimer - inp.frameTime := by
  unfold swingTimers
  exact ⟨rfl, rfl, rfl, rfl, rfl, rfl⟩

/-- The enemies and the weapon after the rest of a playing tick. -/
theorem playingRest_swing (env : Env) (inp : Input) (g : Game) :
    (playingRest env inp g).enemies =
      (CheckPlayerAttacks env (swingTimers inp (swingStart inp g))).enemies ∧
    ((swingStart inp g).katanaAnim.isSwinging = true ↔
      (g.katanaAnim.isSwinging = true ∨ inp.spacePressed = true)) ∧
    ((playingRest env inp g).katanaAnim.isSwinging = true ↔
      ((swingStart inp g).katanaAnim.isSwinging = true ∧
        0 < (swingTimers inp (swingStart inp g)).katanaAnim.swingTimer)) := by
  have hstart : (swingStart inp g).katanaAnim.isSwinging = true ↔
      (g.katanaAnim.isSwinging = true ∨ inp.spacePressed = true) := by
    unfold swingStart
    split_ifs with hc
    · simp [hc.1]
    · constructor
      · intro hh; exact Or.inl hh
      · intro hh
        rcases hh with hh | hh
        · exact hh
        · cases hsw : g.katanaAnim.isSwinging
          · exact absurd ⟨hh, hsw⟩ hc
          · rfl
  have hrest : (playingRest env inp g).enemies = (swingTick env inp (swingStart inp g)).enemies ∧
      (playingRest env inp g).katanaAnim = (swingTick env inp (swingStart inp g)).katanaAnim := by
    unfold playingRest
    simp only
    split_ifs <;> exact ⟨rfl, rfl⟩
  obtain ⟨f1, _, _, _, _, _, _, f8, _⟩ :=
    CheckPlayerAttacks_frame env (swingTimers inp (swingStart inp g))
  obtain ⟨t1, _, _, _, t5, _⟩ := swingTimers_rest inp (swingStart inp g)
  refine ⟨?_, hstart, ?_⟩
  · rw [hrest.1, swingTick_eq]
    by_cases hsw : (swingStart inp g).katanaAnim.isSwinging = true
    · rw [if_pos hsw]
      split_ifs <;> rfl
    · rw [if_neg hsw]
      unfold CheckPlayerAttacks
      rw [if_pos (by rw [t5]; cases hh : (swingStart inp g).katanaAnim.isSwinging
                     · rfl
                     · exact absurd hh hsw), t1]
  · rw [hrest.2, swingTick_eq]
    by_cases hsw : (swingStart inp g).katanaAnim.isSwinging = true
    · rw [if_pos hsw]
      by_cases hz : (CheckPlayerAttacks env (swingTimers inp (swingStart inp g))).katanaAnim.swingTimer
          ≤ 0
      · rw [if_pos hz]
        rw [f8] at hz
        constructor
        · intro hh; simp at hh
        · intro hh; exact absurd hh.2 (not_lt.2 hz)
      · rw [if_neg hz, f8, t5]
        rw [f8] at hz
        exact ⟨fun hh => ⟨hh, not_le.1 hz⟩, fun hh => hh.1⟩
    · rw [if_neg hsw]
      exact ⟨fun hh => absurd hh hsw, fun hh => absurd hh.1 hsw⟩

/-- C22, as the code has it: SPACE starts a swing in the first tick, the second tick
belongs to the same swing (`isSwinging` is true after both), and the enemy 0 in front
of the player loses `PLAYER_ATTACK_DAMAGE` in each of the two ticks: its health goes
from 30 to 15 to 0. -/
theorem swing_hits_twice :
    ∃ s1 s2, UpdateGame playEnv spaceInput 0 (strikeGame, 0) = some s1 ∧
      UpdateGame playEnv (idleInput (1 / 60)) 0 s1 = some s2 ∧
      strikeGame.katanaAnim.isSwinging = false ∧ (strikeGame.enemies 0).health = 30 ∧
      s1.1.katanaAnim.isSwinging = true ∧ (s1.1.enemies 0).health = 15 ∧
      s2.1.katanaAnim.isSwinging = true ∧ (s2.1.enemies 0).health = 0 ∧
      (strikeGame.enemies 0).health - (s2.1.enemies 0).health = 2 * PLAYER_ATTACK_DAMAGE := by
  have h : ((UpdateGame playEnv spaceInput 0 (strikeGame, 0)).bind fun s1 =>
      (UpdateGame playEnv (idleInput (1 / 60)) 0 s1).map fun s2 =>
        decide (s1.1.katanaAnim.isSwinging = true) && decide ((s1.1.enemies 0).health = 15) &&
          decide (s2.1.katanaAnim.isSwinging = true) &&
          decide ((s2.1.enemies 0).health = 0)) = some true := by decide!
  obtain ⟨s1, hs1, h2⟩ := Option.bind_eq_some.1 h
  obtain ⟨s2, hs2, h3⟩ := Option.map_eq_some'.1 h2
  simp only [Bool.and_eq_true, decide_eq_true_eq] at h3
  obtain ⟨⟨⟨f1, f2⟩, f3⟩, f4⟩ := h3
  refine ⟨s1, s2, hs1, hs2, rfl, rfl, f1, f2, f3, f4, ?_⟩
  rw [f4]
  decide

/-- C22, amended: the hit test runs in every playing tick in which the weapon swings,
that is, when it was swinging at the start of the tick or SPACE is pressed in it: the
enemies after the tick are those that `CheckPlayerAttacks` leaves, called on the game
after `MovePlayer`, `UpdateEnemies` and the timers of the swing.  In one tick the
health of an enemy stays or drops by `PLAYER_ATTACK_DAMAGE`, and it stays when the
weapon does not swing; an enemy that is inactive or dying at the call is left as it
is; the swing goes on after the tick exactly when its timer is still above 0.  So one
swing may hit the same enemy once in each of its ticks. -/
theorem swing_hits_every_tick (env : Env) (inp : Input) (fuel : Nat) (s s' : Game × Nat)
    (h : UpdateGame env inp fuel s = some s')
    (hp : s.1.currentState = GameState.GAME_PLAYING) :
    ((swingGame env inp s).katanaAnim.isSwinging = true ↔
      (s.1.katanaAnim.isSwinging = true ∨ inp.spacePressed = true)) ∧
    s'.1.enemies = (CheckPlayerAttacks env (swingGame env inp s)).enemies ∧
    (∀ k, ((swingGame env inp s).enemies k).health = (s.1.enemies k).health) ∧
    (∀ k, (s'.1.enemies k).health = (s.1.enemies k).health ∨
      ((swingGame env inp s).katanaAnim.isSwinging = true ∧
        (s'.1.enemies k).health = (s.1.enemies k).health - PLAYER_ATTACK_DAMAGE)) ∧
    (∀ k, (((swingGame env inp s).enemies k).active = false ∨
        ((swingGame env inp s).enemies k).isDying = true) →
      s'.1.enemies k = (swingGame env inp s).enemies k) ∧
    (s'.1.katanaAnim.isSwinging = true ↔
      ((swingGame env inp s).katanaAnim.isSwinging = true ∧
        0 < (swingGame env inp s).katanaAnim.swingTimer)) := by
  rw [UpdateGame_playing env inp fuel s hp] at h
  have hs' := (Option.some.inj h).symm
  subst hs'
  simp only
  obtain ⟨_, m2, _, m4⟩ := MovePlayer_health env inp s.1
  have hk := UpdateEnemies_katana env inp (MovePlayer env inp s.1, s.2)
  obtain ⟨_, _, _, _, u5⟩ := UpdateEnemies_kept env inp (MovePlayer env inp s.1, s.2)
  obtain ⟨r1, r2, r3⟩ := playingRest_swing env inp
    (UpdateEnemies env inp (MovePlayer env inp s.1, s.2)).1
  obtain ⟨a1, _, _, _, a5, _⟩ := swingTimers_rest inp
    (swingStart inp (UpdateEnemies env inp (MovePlayer env inp s.1, s.2)).1)
  obtain ⟨_, _, _, b4⟩ := swingStart_kept inp
    (UpdateEnemies env inp (MovePlayer env inp s.1, s.2)).1
  have hsg : swingGame env inp s = swingTimers inp
      (swingStart inp (UpdateEnemies env inp (MovePlayer env inp s.1, s.2)).1) := rfl
  have hhealth : ∀ k, ((swingGame env inp s).enemies k).health = (s.1.enemies k).health := by
    intro k
    rw [hsg, a1, b4, (u5 k).2.2.2]
    simp only
    rw [m2]
  have hswing : (swingGame env inp s).katanaAnim.isSwinging = true ↔
      (s.1.katanaAnim.isSwinging = true ∨ inp.spacePressed = true) := by
    rw [hsg, a5, r2, hk]
    simp only
    rw [m4]
  refine ⟨hswing, ?_, hhealth, fun k => ?_, fun k hk => ?_, ?_⟩
  · rw [r1, hsg]
  · rw [r1, ← hsg]
    have hf := (CheckPlayerAttacks_frame env (swingGame env inp s)).2.2.2.2.2.2.2.2.2.2 k
    rw [hf]
    split_ifs with hc
    · rcases attackEnemy_cases env (swingGame env inp s) k with hh | ⟨_, _, hh, _⟩
      · left; rw [hh, hhealth]
      · right; exact ⟨hc.1, by rw [hh, hhealth]⟩
    · left; exact hhealth k
  · rw [r1, ← hsg]
    exact CheckPlayerAttacks_skip env (swingGame env inp s) k hk
  · rw [r3, hsg, a5]

theorem swing_hits_every_tick_witness :
    ∃ s1, UpdateGame playEnv spaceInput 0 (strikeGame, 0) = some s1 ∧
      strikeGame.currentState = GameState.GAME_PLAYING ∧
      (swingGame playEnv spaceInput (strikeGame, 0)).katanaAnim.isSwinging = true ∧
      s1.1.enemies = (CheckPlayerAttacks playEnv
        (swingGame playEnv spaceInput (strikeGame, 0))).enemies ∧
      (s1.1.enemies 0).health = (strikeGame.enemies 0).health - PLAYER_ATTACK_DAMAGE ∧
      s1.1.katanaAnim.isSwinging = true ∧
      0 < (swingGame playEnv spaceInput (strikeGame, 0)).katanaAnim.swingTimer := by
  have h : ((UpdateGame playEnv spaceInput 0 (strikeGame, 0)).map fun s1 =>
      decide ((s1.1.enemies 0).health = 15) && decide (s1.1.katanaAnim.isSwinging = true)) =
      some true := by decide!
  obtain ⟨s1, hs1, h2⟩ := Option.map_eq_some'.1 h
  simp only [Bool.and_eq_true, decide_eq_true_eq] at h2
  obtain ⟨f1, f2⟩ := h2
  obtain ⟨g1, g2, _, _, _, g5⟩ :=
    swing_hits_every_tick playEnv spaceInput 0 (strikeGame, 0) s1 hs1 rfl
  refine ⟨s1, hs1, rfl, g1.2 (Or.inr rfl), g2, ?_, f2, (g5.1 f2).2⟩
  rw [f1]
  decide

/-! ## Picking up a key -/

theorem keyInReach_iff (env : Env) (g : Game) (i : Int) :
    keyInReach env g i = true ↔
      ((g.sprites i).active = true ∧
        Distance env.lm g.player.position.x g.player.position.y
          (g.sprites i).position.x (g.sprites i).position.y < 1 / 2 ∧
        (g.sprites i).type = CellType.Key) := by
  unfold keyInReach
  simp only [Bool.and_eq_true, decide_eq_true_eq, and_assoc]

theorem keyInReach_congr (env : Env) (g g' : Game) (i : Int)
    (hp : g'.player.position = g.player.position) (hs : g'.sprites i = g.sprites i) :
    keyInReach env g' i = keyInReach env g i := by
  unfold keyInReach
  rw [hp, hs]

/-- The round of the sprite loop for a key in reach. -/
theorem interactSprite_pickup (env : Env) (g : Game) (i : Int)
    (h : keyInReach env g i = true) :
    interactSprite env g i =
      { g with
        player := { g.player with keys := g.player.keys + 1 }
        sprites := arrSet g.sprites i { g.sprites i with active := false }
        gameMaze :=
          if GetCellType g.gameMaze (truncToInt (WorldToGrid (g.sprites i).position).x)
              (truncToInt (WorldToGrid (g.sprites i).position).y) = CellType.Key then
            g.gameMaze.set (truncToInt (WorldToGrid (g.sprites i).position).y)
              (truncToInt (WorldToGrid (g.sprites i).position).x) CellType.Empty
          else g.gameMaze } := by
  obtain ⟨h1, h2, h3⟩ := (keyInReach_iff env g i).1 h
  unfold interactSprite
  simp only
  rw [if_neg (by rw [h1]; decide), if_pos h2, if_pos h3]

/-- The round of the sprite loop for a sprite that is not a key in reach: no change
of the key count, the sprites, the maze or the player's position. -/
theorem interactSprite_pass (env : Env) (g : Game) (i : Int)
    (h : keyInReach env g i = false) :
    (interactSprite env g i).player = g.player ∧
    (interactSprite env g i).sprites = g.sprites ∧
    (interactSprite env g i).gameMaze = g.gameMaze ∧
    (interactSprite env g i).spriteCount = g.spriteCount := by
  have hn : ¬((g.sprites i).active = true ∧
      Distance env.lm g.player.position.x g.player.position.y
        (g.sprites i).position.x (g.sprites i).position.y < 1 / 2 ∧
      (g.sprites i).type = CellType.Key) := by
    rw [← keyInReach_iff, h]
    decide
  unfold interactSprite
  simp only
  by_cases ha : (g.sprites i).active = false
  · rw [if_pos ha]
    exact ⟨rfl, rfl, rfl, rfl⟩
  · rw [if_neg ha]
    have ha' : (g.sprites i).active = true := by
      cases hh : (g.sprites i).active
      · exact absurd hh ha
      · rfl
    by_cases hd : Distance env.lm g.player.position.x g.player.position.y
        (g.sprites i).position.x (g.sprites i).position.y < 1 / 2
    · rw [if_pos hd]
      by_cases hk : (g.sprites i).type = CellType.Key
      · exact absurd ⟨ha', hd, hk⟩ hn
      · rw [if_neg hk]
        split_ifs <;> exact ⟨rfl, rfl, rfl, rfl⟩
    · rw [if_neg hd]
      exact ⟨rfl, rfl, rfl, rfl⟩

/-- The sprite loop over a list of distinct indices: the key count grows by the
number of keys in reach, these sprites are switched off, and no other sprite
changes. -/
theorem pickupLoop (env : Env) :
    ∀ (l : List Int), l.Nodup → ∀ (a : Game),
      (l.foldl (interactSprite env) a).player.keys =
        a.player.keys + (l.countP (keyInReach env a) : Int) ∧
      (l.foldl (interactSprite env) a).player.position = a.player.position ∧
      (l.foldl (interactSprite env) a).spriteCount = a.spriteCount ∧
      ∀ j, (l.foldl (interactSprite env) a).sprites j =
        if j ∈ l ∧ keyInReach env a j = true then { a.sprites j with active := false }
        else a.sprites j := by
  intro l
  induction l with
  | nil =>
    intro _ a
    simp
  | cons i rest ih =>
    intro hnd a
    obtain ⟨hi, hrest⟩ := List.nodup_cons.1 hnd
    rw [List.foldl_cons]
    obtain ⟨r1, r2, r3, r4⟩ := ih hrest (interactSprite env a i)
    have hstep : (interactSprite env a i).player.keys =
          a.player.keys + (if keyInReach env a i = true then 1 else 0) ∧
        (interactSprite env a i).player.position = a.player.position ∧
        (interactSprite env a i).spriteCount = a.spriteCount ∧
        ∀ j, (interactSprite env a i).sprites j =
          if j = i ∧ keyInReach env a i = true then { a.sprites j with active := false }
          else a.sprites j := by
      cases hk : keyInReach env a i
      · obtain ⟨p1, p2, _, p4⟩ := interactSprite_pass env a i hk
        refine ⟨by rw [p1]; simp, by rw [p1], p4, fun j => ?_⟩
        rw [p2]
        simp
      · rw [interactSprite_pickup env a i hk]
        refine ⟨by simp, rfl, rfl, fun j => ?_⟩
        by_cases hj : j = i
        · subst hj; simp [arrSet]
        · simp [arrSet, hj]
    obtain ⟨s1, s2, s3, s4⟩ := hstep
    have hcongr : ∀ j ∈ rest, keyInReach env (interactSprite env a i) j = keyInReach env a j := by
      intro j hj
      refine keyInReach_congr env a _ j s2 ?_
      rw [s4 j, if_neg]
      intro hc
      exact hi (hc.1 ▸ hj)
    have hcount : rest.countP (keyInReach env (interactSprite env a i)) =
        rest.countP (keyInReach env a) := List.countP_congr (fun j hj => by rw [hcongr j hj])
    refine ⟨?_, r2.trans s2, r3.trans s3, fun j => ?_⟩
    · rw [r1, s1, hcount, List.countP_cons]
      split_ifs <;> push_cast <;> ring
    · rw [r4 j]
      by_cases hj : j = i
      · subst hj
        have e1 : ¬(j ∈ rest ∧ keyInReach env (interactSprite env a j) j = true) :=
          fun hc => hi hc.1
        rw [if_neg e1, s4 j]
        by_cases hk : keyInReach env a j = true
        · rw [if_pos ⟨rfl, hk⟩, if_pos ⟨List.mem_cons_self _ _, hk⟩]
        · rw [if_neg (fun hc => hk hc.2), if_neg (fun hc => hk hc.2)]
      · have e2 : (interactSprite env a i).sprites j = a.sprites j := by
          rw [s4 j, if_neg (fun hc => hj hc.1)]
        by_cases hjr : j ∈ rest
        · by_cases hk : keyInReach env a j = true
          · rw [if_pos ⟨hjr, by rw [hcongr j hjr]; exact hk⟩,
              if_pos ⟨List.mem_cons_of_mem _ hjr, hk⟩, e2]
          · rw [if_neg (fun hc => hk (by rw [← hcongr j hjr]; exact hc.2)),
              if_neg (fun hc => hk hc.2), e2]
        · rw [if_neg (fun hc => hjr hc.1), e2, if_neg]
          intro hc
          rcases List.mem_cons.1 hc.1 with h | h
          · exact hj h
          · exact hjr h

theorem exitMessage_rest (inp : Input) (g : Game) :
    (exitMessage inp g).player = g.player ∧ (exitMessage inp g).sprites = g.sprites ∧
    (exitMessage inp g).gameMaze = g.gameMaze := by
  unfold exitMessage
  simp only
  split_ifs <;> exact ⟨rfl, rfl, rfl⟩

theorem keyInReach_refreshDoor (env : Env) (g : Game) (j : Int) :
    keyInReach env (refreshDoor g) j = keyInReach env g j := by
  obtain ⟨_, h2, _, _, _, _, _, _, h9⟩ := refreshDoor_spec g
  unfold keyInReach
  rw [h2, (h9 j).1, (h9 j).2.1, (h9 j).2.2]

/-- C28: in the round of the sprite loop of `CheckPlayerInteractions` for an active
sprite of type `Key` nearer to the player than 0.5, `player.keys` grows by exactly 1,
the sprite becomes inactive, no other sprite changes, the grid cell under the sprite
becomes `Empty` when it was tagged `Key` and stays as it was otherwise, and no other
grid cell changes; the round of an inactive sprite changes nothing.  Over the whole
call the key count grows by the number of keys in reach, each of these sprites is
inactive afterwards, and a sprite that was inactive stays inactive. -/
theorem key_pickup (env : Env) (inp : Input) (g : Game) (i : Int) :
    ((g.sprites i).active = false → interactSprite env g i = g) ∧
    ((g.sprites i).active = true → (g.sprites i).type = CellType.Key →
      Distance env.lm g.player.position.x g.player.position.y
        (g.sprites i).position.x (g.sprites i).position.y < 1 / 2 →
      (interactSprite env g i).player.keys = g.player.keys + 1 ∧
      ((interactSprite env g i).sprites i).active = false ∧
      (∀ j, j ≠ i → (interactSprite env g i).sprites j = g.sprites j) ∧
      (GetCellType g.gameMaze (truncToInt (WorldToGrid (g.sprites i).position).x)
          (truncToInt (WorldToGrid (g.sprites i).position).y) = CellType.Key →
        (interactSprite env g i).gameMaze.grid
          (truncToInt (WorldToGrid (g.sprites i).position).y)
          (truncToInt (WorldToGrid (g.sprites i).position).x) = CellType.Empty) ∧
      (GetCellType g.gameMaze (truncToInt (WorldToGrid (g.sprites i).position).x)
          (truncToInt (WorldToGrid (g.sprites i).position).y) ≠ CellType.Key →
        (interactSprite env g i).gameMaze = g.gameMaze) ∧
      (∀ y x, ¬(y = truncToInt (WorldToGrid (g.sprites i).position).y ∧
          x = truncToInt (WorldToGrid (g.sprites i).position).x) →
        (interactSprite env g i).gameMaze.grid y x = g.gameMaze.grid y x)) ∧
    (CheckPlayerInteractions env inp g).player.keys =
      g.player.keys + ((intRange 0 g.spriteCount).countP (keyInReach env g) : Int) ∧
    (0 ≤ i → i < g.spriteCount → keyInReach env g i = true →
      ((CheckPlayerInteractions env inp g).sprites i).active = false) ∧
    ((g.sprites i).active = false →
      ((CheckPlayerInteractions env inp g).sprites i).active = false) := by
  obtain ⟨_, d2, _, _, d5, _, _, _, d9⟩ := refreshDoor_spec g
  obtain ⟨l1, _, _, l4⟩ := pickupLoop env (intRange 0 (refreshDoor g).spriteCount)
    (intRange_nodup _ _) (refreshDoor g)
  obtain ⟨e1, e2, _⟩ := exitMessage_rest inp
    ((intRange 0 (refreshDoor g).spriteCount).foldl (interactSprite env) (refreshDoor g))
  have hc : CheckPlayerInteractions env inp g = exitMessage inp
      ((intRange 0 (refreshDoor g).spriteCount).foldl (interactSprite env) (refreshDoor g)) :=
    rfl
  refine ⟨fun hin => ?_, fun hact hkey hd => ?_, ?_, fun h0 h1 hk => ?_, fun hin => ?_⟩
  · unfold interactSprite
    simp only
    rw [if_pos hin]
  · rw [interactSprite_pickup env g i ((keyInReach_iff env g i).2 ⟨hact, hd, hkey⟩)]
    refine ⟨rfl, by simp [arrSet], fun j hj => by simp [arrSet, hj], fun hc => ?_,
      fun hc => ?_, fun y x hyx => ?_⟩
    · simp only
      rw [if_pos hc]
      exact setCell_same _ _ _ _
    · simp only
      rw [if_neg hc]
    · simp only
      split_ifs
      · exact setCell_other _ _ _ _ _ _ hyx
      · rfl
  · rw [hc, e1, l1, d2, d5]
    congr 2
    exact List.countP_congr (fun j _ => by rw [keyInReach_refreshDoor])
  · rw [hc, e2, l4 i, if_pos ⟨(mem_intRange _ _ _).2 ⟨h0, by rw [d5]; exact h1⟩,
      by rw [keyInReach_refreshDoor]; exact hk⟩]
  · rw [hc, e2, l4 i]
    split_ifs
    · rfl
    · rw [(d9 i).2.2]; exact hin

theorem key_pickup_witness :
    (nearKeyGame.sprites 0).active = true ∧ (nearKeyGame.sprites 0).type = CellType.Key ∧
    Distance playEnv.lm nearKeyGame.player.position.x nearKeyGame.player.position.y
      (nearKeyGame.sprites 0).position.x (nearKeyGame.sprites 0).position.y < 1 / 2 ∧
    nearKeyGame.player.keys = 0 ∧
    (interactSprite playEnv nearKeyGame 0).player.keys = 0 + 1 ∧
    ((interactSprite playEnv nearKeyGame 0).sprites 0).active = false ∧
    (CheckPlayerInteractions playEnv (idleInput (1 / 60)) nearKeyGame).player.keys = 1 := by
  have hd : Distance playEnv.lm nearKeyGame.player.position.x nearKeyGame.player.position.y
      (nearKeyGame.sprites 0).position.x (nearKeyGame.sprites 0).position.y < 1 / 2 := by
    decide!
  obtain ⟨_, h, h3, _⟩ := key_pickup playEnv (idleInput (1 / 60)) nearKeyGame 0
  obtain ⟨h1, h2, _⟩ := h rfl rfl hd
  refine ⟨rfl, rfl, hd, rfl, h1, h2, ?_⟩
  rw [h3]
  decide!

/-! ## The player stays on walkable cells -/

/-- The step of `MovePlayer` ends on a walkable cell when it starts on one: the
position after it is the old one, or a position that passed the collision test. -/
theorem stepPlayer_walkable (env : Env) (inp : Input) (maze : Maze) (player : Player)
    (h : CheckWallCollision maze player.position = false) :
    CheckWallCollision maze (stepPlayer env inp maze player).position = false := by
  unfold stepPlayer
  simp only
  generalize (if inp.keyDown = true ∨ inp.keyS = true then _ else _ : Vector2) = newPos
  by_cases h1 : CheckWallCollision maze { player.position with x := newPos.x } = false
  · rw [if_pos h1]
    by_cases h2 : CheckWallCollision maze
        { ({ player.position with x := newPos.x } : Vector2) with y := newPos.y } = false
    · rw [if_pos h2]
      exact h2
    · rw [if_neg h2]
      exact h1
  · rw [if_neg h1]
    by_cases h2 : CheckWallCollision maze { player.position with y := newPos.y } = false
    · rw [if_pos h2]
      exact h2
    · rw [if_neg h2]
      exact h

/-- A position on a walkable cell stays on one when cells only turn from `Key` to
`Empty`. -/
theorem walkable_of_pickup (m m' : Maze) (pos : Vector2)
    (hg : ∀ y x, m'.grid y x = m.grid y x ∨
      (m.grid y x = CellType.Key ∧ m'.grid y x = CellType.Empty))
    (h : CheckWallCollision m pos = false) : CheckWallCollision m' pos = false := by
  unfold CheckWallCollision IsCellWalkable GetCellType at h ⊢
  simp only at h ⊢
  generalize truncToInt (WorldToGrid pos).x = cx at h ⊢
  generalize truncToInt (WorldToGrid pos).y = cy at h ⊢
  cases hb : IsPosInBounds cx cy
  · rw [hb] at h
    simp at h
  · rw [hb] at h
    simp only [Bool.not_true, Bool.false_eq_true, if_false, Bool.not_eq_false,
      decide_eq_true_eq] at h ⊢
    unfold IsPosInBounds at hb
    simp only [decide_eq_true_eq] at hb
    have hout : ¬(cx < 0 ∨ cx ≥ MAZE_WIDTH ∨ cy < 0 ∨ cy ≥ MAZE_HEIGHT) := by
      intro hc
      rcases hc with hc | hc | hc | hc
      · exact absurd hb.1 (not_le.2 hc)
      · exact absurd hb.2.1 (not_lt.2 hc)
      · exact absurd hb.2.2.1 (not_le.2 hc)
      · exact absurd hb.2.2.2 (not_lt.2 hc)
    rw [if_neg hout] at h ⊢
    rcases hg cy cx with e | ⟨_, e⟩
    · rw [e]; exact h
    · rw [e]; decide

theorem MovePlayer_walkable (env : Env) (inp : Input) (g : Game)
    (h : CheckWallCollision g.gameMaze g.player.position = false) :
    CheckWallCollision (MovePlayer env inp g).gameMaze
      (MovePlayer env inp g).player.position = false := by
  obtain ⟨_, _, _, _, _, _, a7, _, _, _, _, _, _, a14, _⟩ := MovePlayer_spec env inp g
  obtain ⟨_, b2, _, b4, _⟩ :=
    refreshDoor_spec { g with player := stepPlayer env inp g.gameMaze g.player }
  rw [a7, b2]
  rw [b4] at a14
  exact walkable_of_pickup g.gameMaze _ _ a14
    (stepPlayer_walkable env inp g.gameMaze g.player h)

theorem Reachable_start {free : Int × Int → Prop} {a c : Int × Int}
    (h : Reachable free a c) : free a := by
  induction h with
  | start ha => exact ha
  | step _ _ _ _ _ ih => exact ih

/-- The start cell (1,1) of a generated maze is open, and so the centre of it is a
position on a walkable cell. -/
theorem generated_start_walkable {rnd : Nat → Nat} {fuel : Nat} {maze : Maze} {k : Nat}
    {r : Maze × Nat} (h : GenerateMaze rnd fuel maze k = some r) :
    CheckWallCollision r.1 (GridToWorld (truncToInt r.1.startPos.x)
      (truncToInt r.1.startPos.y)) = false := by
  obtain ⟨g1, _, g3, _⟩ := generated_maze h
  have hexit : GetCellType r.1 13 13 ≠ CellType.Wall := by
    unfold GetCellType
    rw [if_neg (by decide), (g3 13 13).2 ⟨rfl, rfl⟩]
    decide
  have hstart : GetCellType r.1 1 1 ≠ CellType.Wall :=
    Reachable_start (generated_connected h 13 13 hexit)
  have h1 : truncToInt (1 : ℚ) = 1 := by
    have := truncToInt_cell 1 1 (by decide) (by norm_num) (by norm_num)
    exact_mod_cast this
  have h2 : truncToInt (3 / 2 : ℚ) = 1 :=
    truncToInt_cell 1 (3 / 2) (by decide) (by norm_num) (by norm_num)
  rw [g1]
  simp only [h1]
  have hpos : WorldToGrid (GridToWorld 1 1) = { x := 3 / 2, y := 3 / 2 } := by
    simp only [WorldToGrid, GridToWorld, GRID_SCALE]
    norm_num
  unfold CheckWallCollision IsCellWalkable
  simp only [hpos, h2]
  rw [if_neg (by decide)]
  simp [hstart]

/-- A game on a generated maze whose player stands where `InitPlayer` puts it. -/
theorem fresh_walkable {rnd : Nat → Nat} {fuel : Nat} {maze : Maze} {k : Nat}
    {r : Maze × Nat} (h : GenerateMaze rnd fuel maze k = some r) (g : Game)
    (hm : g.gameMaze = r.1)
    (hp : g.player.position =
      GridToWorld (truncToInt r.1.startPos.x) (truncToInt r.1.startPos.y)) :
    CheckWallCollision g.gameMaze g.player.position = false := by
  rw [hm, hp]
  exact generated_start_walkable h

theorem walkable_UpdateGame (env : Env) (inp : Input) (fuel : Nat) (s s' : Game × Nat)
    (h : CheckWallCollision s.1.gameMaze s.1.player.position = false)
    (ht : UpdateGame env inp fuel s = some s') :
    CheckWallCollision s'.1.gameMaze s'.1.player.position = false := by
  rcases UpdateGame_cases env inp fuel s s' ht with ⟨_, hs'⟩ | ⟨_, hs'⟩ | ⟨_, hs'⟩ |
    ⟨_, _, r, hr, hs'⟩
  · subst hs'
    have hm := MovePlayer_walkable env inp s.1 h
    obtain ⟨⟨u1, _, _, _, u5, _⟩, _⟩ := UpdateEnemies_kept env inp (MovePlayer env inp s.1, s.2)
    obtain ⟨⟨p1, _, _, _, p5, _⟩, _⟩ := playingRest_kept env inp
      (UpdateEnemies env inp (MovePlayer env inp s.1, s.2)).1
    simp only
    rw [p1, p5, u1, u5]
    exact hm
  · subst hs'; exact h
  · subst hs'; exact h
  · subst hs'
    obtain ⟨_, _, _, g4⟩ := generated_maze hr
    obtain ⟨a1, a2, _⟩ := InitEnemies_spec env (InitPlayer { s.1 with gameMaze := r.1 }, r.2)
      (by change countCells r.1 CellType.Key ≤ 3; rw [g4])
    have hm : (InitEnemies env (InitPlayer { s.1 with gameMaze := r.1 }, r.2)).1.gameMaze =
        r.1 := a2
    have hp : (InitEnemies env (InitPlayer { s.1 with gameMaze := r.1 }, r.2)).1.player.position =
        GridToWorld (truncToInt r.1.startPos.x) (truncToInt r.1.startPos.y) :=
      congrArg Player.position a1
    generalize InitEnemies env (InitPlayer { s.1 with gameMaze := r.1 }, r.2) = S at hm hp
    exact fresh_walkable hr _ hm hp

theorem walkable_InitGame (env : Env) (fuel : Nat) (s s' : Game × Nat)
    (h : InitGame env fuel s = some s') :
    CheckWallCollision s'.1.gameMaze s'.1.player.position = false := by
  unfold InitGame at h
  obtain ⟨r, hr, hs'⟩ := Option.map_eq_some'.1 h
  subst hs'
  obtain ⟨_, _, _, g4⟩ := generated_maze hr
  simp only
  generalize hg : ({ InitPlayer { s.1 with currentState := GameState.GAME_TITLE,
                                           gameMaze := r.1 } with exitDoor := _ } : Game) = g0
  have e1 : g0.gameMaze = r.1 := by subst hg; rfl
  have e2 : g0.player.position =
      GridToWorld (truncToInt r.1.startPos.x) (truncToInt r.1.startPos.y) := by
    subst hg; rfl
  obtain ⟨a1, a2, _⟩ := InitEnemies_spec env (g0, r.2)
    (by change countCells g0.gameMaze CellType.Key ≤ 3; rw [e1, g4])
  have hm : (InitEnemies env (g0, r.2)).1.gameMaze = r.1 := a2.trans e1
  have hp : (InitEnemies env (g0, r.2)).1.player.position =
      GridToWorld (truncToInt r.1.startPos.x) (truncToInt r.1.startPos.y) :=
    (congrArg Player.position a1).trans e2
  exact fresh_walkable hr _ hm hp

theorem walkable_render (env : Env) (screenW screenH : Int) (zBuffer : Int → ℚ) (g : Game)
    (h : CheckWallCollision g.gameMaze g.player.position = false) :
    CheckWallCollision (RenderGame env screenW screenH zBuffer g).gameMaze
      (RenderGame env screenW screenH zBuffer g).player.position = false := by
  have hs := RenderGame_spec env screenW screenH zBuffer g
  have k2 : (RenderGame env screenW screenH zBuffer g).gameMaze = g.gameMaze := hs.1.2.1
  have p : (RenderGame env screenW screenH zBuffer g).player = g.player := hs.2.1
  rw [k2, p]
  exact h

theorem walkable_mainLoop (env : Env) (screenW screenH : Int) (fuel : Nat) :
    ∀ (frames : List (Input × (Int → ℚ))) (s s' : Game × Nat),
      CheckWallCollision s.1.gameMaze s.1.player.position = false →
      mainLoop env screenW screenH fuel frames s = some s' →
      CheckWallCollision s'.1.gameMaze s'.1.player.position = false := by
  intro frames
  induction frames with
  | nil =>
    intro s s' h hs
    simp only [mainLoop, Option.some.injEq] at hs
    subst hs
    exact h
  | cons fr rest ih =>
    intro s s' h hs
    simp only [mainLoop, Option.bind_eq_some] at hs
    obtain ⟨s1, hs1, hrest⟩ := hs
    have h1 := walkable_UpdateGame env fr.1 fuel s s1 h hs1
    have h2 := walkable_render env screenW screenH fr.2 s1.1 h1
    exact ih (RenderGame env screenW screenH fr.2 s1.1, s1.2) s' h2 hrest

theorem walkable_updateTicks (env : Env) (fuel : Nat) :
    ∀ (inputs : List Input) (s s' : Game × Nat),
      CheckWallCollision s.1.gameMaze s.1.player.position = false →
      updateTicks env fuel inputs s = some s' →
      CheckWallCollision s'.1.gameMaze s'.1.player.position = false := by
  intro inputs
  induction inputs with
  | nil =>
    intro s s' h hs
    simp only [updateTicks, Option.some.injEq] at hs
    subst hs
    exact h
  | cons inp rest ih =>
    intro s s' h hs
    simp only [updateTicks, Option.bind_eq_some] at hs
    obtain ⟨s1, hs1, hrest⟩ := hs
    exact ih s1 s' (walkable_UpdateGame env inp fuel s s1 h hs1) hrest

/-- C30: when the player's position truncates to a walkable cell before `MovePlayer`,
it does so after it, for every input and frame time: after the step (each axis move
is kept only when its tested cell is walkable, the Y test starting from the position
that the X test has left) and after the interactions, which turn cells from `Key` to
`Empty` only.  So in every state of a run that starts with `InitGame`, which puts the
player on the centre of the open start cell, and after any further ticks, the player
stands on a walkable cell. -/
theorem player_on_walkable_cell (env : Env) (inp : Input) (g : Game)
    (h : CheckWallCollision g.gameMaze g.player.position = false) :
    CheckWallCollision g.gameMaze (stepPlayer env inp g.gameMaze g.player).position = false ∧
    CheckWallCollision (MovePlayer env inp g).gameMaze
      (MovePlayer env inp g).player.position = false ∧
    (CheckWallCollision g.gameMaze g.player.position = false ↔
      IsCellWalkable g.gameMaze (truncToInt (WorldToGrid g.player.position).x)
        (truncToInt (WorldToGrid g.player.position).y) = true) ∧
    (∀ (screenW screenH : Int) (fuel : Nat) (s0 s : Game × Nat)
      (frames : List (Input × (Int → ℚ))),
      runGame env screenW screenH fuel s0 frames = some s →
      CheckWallCollision s.1.gameMaze s.1.player.position = false ∧
      ∀ inputs s', updateTicks env fuel inputs s = some s' →
        CheckWallCollision s'.1.gameMaze s'.1.player.position = false) := by
  refine ⟨stepPlayer_walkable env inp g.gameMaze g.player h, MovePlayer_walkable env inp g h,
    ?_, fun screenW screenH fuel s0 s frames hrun => ?_⟩
  · unfold CheckWallCollision
    simp
  · unfold runGame at hrun
    obtain ⟨s1, hs1, hrest⟩ := Option.bind_eq_some.1 hrun
    have hs := walkable_mainLoop env screenW screenH fuel frames s1 s
      (walkable_InitGame env fuel s0 s1 hs1) hrest
    exact ⟨hs, fun inputs s' ht => walkable_updateTicks env fuel inputs s s' hs ht⟩

theorem player_on_walkable_cell_witness :
    CheckWallCollision wallGame.gameMaze wallGame.player.position = false ∧
    (stepPlayer playEnv { idleInput (2 / 5) with keyDown := true } wallGame.gameMaze
      wallGame.player).position = { x := 3 / 2, y := 3 / 2 } ∧
    CheckWallCollision wallGame.gameMaze { x := 7 / 10, y := 3 / 2 } = true ∧
    CheckWallCollision (MovePlayer playEnv { idleInput (2 / 5) with keyDown := true }
        wallGame).gameMaze
      (MovePlayer playEnv { idleInput (2 / 5) with keyDown := true }
        wallGame).player.position = false := by
  have h0 : CheckWallCollision wallGame.gameMaze wallGame.player.position = false := by
    decide!
  exact ⟨h0, by decide!, by decide!,
    (player_on_walkable_cell playEnv { idleInput (2 / 5) with keyDown := true } wallGame
      h0).2.1⟩

/-! ## The exit is the far corner -/

/-- In the interior of the grid the cell (13,13) alone has the squared distance 288
from (1,1); every other interior cell is nearer. -/
theorem far_corner (x y : Int) (hi : Interior x y) :
    sqDist { x := 1, y := 1 } x y ≤ 288 ∧
    (sqDist { x := 1, y := 1 } x y = 288 → x = 13 ∧ y = 13) ∧
    ((x, y) ≠ (13, 13) → sqDist { x := 1, y := 1 } x y < 288) := by
  unfold Interior MAZE_WIDTH MAZE_HEIGHT at hi
  obtain ⟨x0, x1, y0, y1⟩ := hi
  have hx : x ≤ 13 := by omega
  have hy : y ≤ 13 := by omega
  have hZ : sqDist { x := 1, y := 1 } x y = (((x - 1) * (x - 1) + (y - 1) * (y - 1) : Int) : ℚ) := by
    simp only [sqDist]
    push_cast
    ring
  have hle : (x - 1) * (x - 1) + (y - 1) * (y - 1) ≤ 288 := by nlinarith
  have heq : (x - 1) * (x - 1) + (y - 1) * (y - 1) = 288 → x = 13 ∧ y = 13 := by
    intro he
    constructor
    · by_contra hne
      have hx' : x ≤ 12 := by omega
      nlinarith
    · by_contra hne
      have hy' : y ≤ 12 := by omega
      nlinarith
  rw [hZ]
  refine ⟨by exact_mod_cast hle, fun he => heq (by exact_mod_cast he), fun hne => ?_⟩
  have hlt : (x - 1) * (x - 1) + (y - 1) * (y - 1) < 288 := by
    rcases lt_or_eq_of_le hle with h | h
    · exact h
    · obtain ⟨rfl, rfl⟩ := heq h
      exact absurd rfl hne
  exact_mod_cast hlt

theorem GetCellType_corner (m : Maze) : GetCellType m 13 13 = m.grid 13 13 := by
  unfold GetCellType
  rw [if_neg (by decide)]

/-- After the carving the exit search finds (13,13). -/
theorem carved_exit {rnd : Nat → Nat} {fuel : Nat} {maze : Maze} {k : Nat}
    {s : Maze × Nat} (h : CarveMaze rnd fuel (initMaze maze, k) 1 1 = some s) :
    s.1.grid 13 13 = CellType.Empty ∧ (findExit s.1).exit = some (13, 13) := by
  obtain ⟨hcarved, hstart, _⟩ := CarveMaze_init h
  have hopen := CarveMaze_odd_open h 6 6 (le_refl _) (le_refl _)
  have h13 : s.1.grid 13 13 = CellType.Empty := by
    rcases hcarved 13 13 with h0 | ⟨h0, _⟩
    · exact absurd h0 (by simpa using hopen)
    · exact h0
  refine ⟨h13, ?_⟩
  cases he : (findExit s.1).exit with
  | none => exact absurd he (findExit_carved h)
  | some e =>
    obtain ⟨hei, _, hmax, _⟩ := findExit_some s.1 e he
    have hfar := hmax 13 13 (by unfold Interior MAZE_WIDTH MAZE_HEIGHT; decide) h13
    rw [hstart] at hfar
    obtain ⟨f1, f2, _⟩ := far_corner e.1 e.2 hei
    have h288 : sqDist { x := 1, y := 1 } 13 13 = 288 := by
      simp only [sqDist]; norm_num
    rw [h288] at hfar
    obtain ⟨e1, e2⟩ := f2 (le_antisymm f1 hfar)
    have : e = (13, 13) := Prod.ext e1 e2
    rw [this]

/-- C29: for every sequence of `rand()` results the carving from (1,1) returns, opens
(13,13), which has the squared distance 288 from the start while every other `Empty`
cell is nearer, and the exit search finds (13,13); so every maze that `GenerateMaze`
returns has `exitPos` = (13,13) and the tag `Exit` on that cell alone.  In every state
of a run the door stands at the centre (13.5, 13.5) of the cell (13,13), as `InitGame`
has computed it, and that cell of the maze in use, regenerated or not, is tagged
`Exit`. -/
theorem exit_is_far_corner (rnd : Nat → Nat) (maze : Maze) (k : Nat) :
    (∃ s, CarveMaze rnd 170 (initMaze maze, k) 1 1 = some s) ∧
    (∀ fuel s, CarveMaze rnd fuel (initMaze maze, k) 1 1 = some s →
      s.1.startPos = { x := 1, y := 1 } ∧ GetCellType s.1 13 13 = CellType.Empty ∧
      sqDist s.1.startPos 13 13 = 288 ∧
      (∀ x y, GetCellType s.1 x y = CellType.Empty → (x, y) ≠ (13, 13) →
        sqDist s.1.startPos x y < 288) ∧
      (findExit s.1).exit = some (13, 13)) ∧
    (∀ fuel r, GenerateMaze rnd fuel maze k = some r →
      r.1.exitPos = { x := 13, y := 13 } ∧ GetCellType r.1 13 13 = CellType.Exit ∧
      ∀ x y, GetCellType r.1 x y = CellType.Exit → (x, y) = (13, 13)) ∧
    (∀ (env : Env) (screenW screenH : Int) (fuel : Nat) (s0 s : Game × Nat)
      (frames : List (Input × (Int → ℚ))),
      runGame env screenW screenH fuel s0 frames = some s →
      s.1.exitDoor.position = GridToWorld 13 13 ∧
      GetCellType s.1.gameMaze (truncToInt (WorldToGrid s.1.exitDoor.position).x)
        (truncToInt (WorldToGrid s.1.exitDoor.position).y) = CellType.Exit) := by
  refine ⟨?_, fun fuel s hs => ?_, fun fuel r hr => ?_,
    fun env screenW screenH fuel s0 s frames hrun => ?_⟩
  · exact CarveMaze_total rnd 170 (initMaze maze, k) 1 1
      (lt_of_le_of_lt (wallCount_le _) (by norm_num))
  · obtain ⟨hcarved, hstart, _⟩ := CarveMaze_init hs
    obtain ⟨h13, hex⟩ := carved_exit hs
    refine ⟨hstart, ?_, ?_, fun x y he hne => ?_, hex⟩
    · rw [GetCellType_carved hcarved]; exact h13
    · rw [hstart]; simp only [sqDist]; norm_num
    · rw [GetCellType_carved hcarved] at he
      rw [hstart]
      rcases hcarved y x with h0 | ⟨_, hi⟩
      · rw [h0] at he; exact absurd he (by decide)
      · exact (far_corner x y hi).2.2 hne
  · obtain ⟨_, g2, g3, _⟩ := generated_maze hr
    have hget : ∀ x y, GetCellType r.1 x y = CellType.Exit → r.1.grid y x = CellType.Exit := by
      intro x y h
      unfold GetCellType at h
      split_ifs at h
      exact h
    refine ⟨g2, ?_, fun x y h => ?_⟩
    · rw [GetCellType_corner]
      exact (g3 13 13).2 ⟨rfl, rfl⟩
    · obtain ⟨hy, hx⟩ := (g3 y x).1 (hget x y h)
      rw [hx, hy]
  · have hinv := GameInv_run env screenW screenH fuel s0 s frames hrun
    obtain ⟨_, _, _, _, _, _, i7, i8⟩ := hinv
    have hg : GridToWorld 13 13 = { x := 27 / 2, y := 27 / 2 } := by
      simp only [GridToWorld, GRID_SCALE]; norm_num
    have h2 : truncToInt (27 / 2 : ℚ) = 13 :=
      truncToInt_cell 13 (27 / 2) (by decide) (by norm_num) (by norm_num)
    have hw : WorldToGrid { x := 27 / 2, y := 27 / 2 } = { x := 27 / 2, y := 27 / 2 } := by
      simp only [WorldToGrid, GRID_SCALE]; norm_num
    refine ⟨by rw [i8, hg], ?_⟩
    rw [i8, hw]
    simp only [h2]
    rw [GetCellType_corner]
    exact i7

theorem exit_is_far_corner_witness :
    ∃ r, GenerateMaze sampleRand 200 blankMaze 0 = some r ∧
      r.1.exitPos = { x := 13, y := 13 } ∧ GetCellType r.1 13 13 = CellType.Exit ∧
      ∀ x y, GetCellType r.1 x y = CellType.Exit → (x, y) = (13, 13) := by
  obtain ⟨r, hr, _⟩ := sample_run
  exact ⟨r, hr, (exit_is_far_corner sampleRand blankMaze 0).2.2.1 200 r hr⟩

/-! ## The carving leaves a spanning tree -/

theorem carve_grid (m : Maze) (x y dx dy : Int) (qy qx : Int) :
    ((m.set (y + dy) (x + dx) CellType.Empty).set (y + dy * 2) (x + dx * 2)
      CellType.Empty).grid qy qx =
      if qy = y + dy * 2 ∧ qx = x + dx * 2 then CellType.Empty
      else if qy = y + dy ∧ qx = x + dx then CellType.Empty else m.grid qy qx := by
  simp [Maze.set, setCell]

theorem Adjacent4_symm {a b : Int × Int} (h : Adjacent4 a b) : Adjacent4 b a := by
  unfold Adjacent4 at h ⊢
  rcases h with ⟨h1, h2⟩ | ⟨h1, h2⟩
  · exact Or.inl ⟨h1.symm, h2.symm⟩
  · exact Or.inr ⟨h1.symm, h2.symm⟩

/-- In a cycle every cell has two different neighbours on the cycle. -/
theorem CellCycle_neighbours {m : Maze} {n : Nat} {f : ZMod n → Int × Int}
    (h : CellCycle m n f) (i : ZMod n) :
    f (i - 1) ≠ f (i + 1) ∧ Adjacent4 (f i) (f (i - 1)) ∧ Adjacent4 (f i) (f (i + 1)) := by
  obtain ⟨h3, hinj, _, hadj⟩ := h
  refine ⟨fun he => ?_, ?_, hadj i⟩
  · have h1 : i - 1 = i + 1 := hinj he
    have h2 : ((2 : Nat) : ZMod n) = 0 := by
      push_cast
      linear_combination -h1
    have h4 : n ∣ 2 := (ZMod.natCast_zmod_eq_zero_iff_dvd 2 n).1 h2
    have := Nat.le_of_dvd (by norm_num) h4
    omega
  · have := hadj (i - 1)
    rw [sub_add_cancel] at this
    exact Adjacent4_symm this

/-- How one carving step changes the grid: the cell two steps away and the cell
between become `Empty`, nothing else changes. -/
theorem carve_cells (m : Maze) (x y dx dy : Int) :
    (∀ a b, a = y + dy * 2 → b = x + dx * 2 →
      ((m.set (y + dy) (x + dx) CellType.Empty).set (y + dy * 2) (x + dx * 2)
        CellType.Empty).grid a b = CellType.Empty) ∧
    (∀ a b, a = y + dy → b = x + dx →
      ((m.set (y + dy) (x + dx) CellType.Empty).set (y + dy * 2) (x + dx * 2)
        CellType.Empty).grid a b = CellType.Empty) ∧
    (∀ a b, ¬(a = y + dy * 2 ∧ b = x + dx * 2) → ¬(a = y + dy ∧ b = x + dx) →
      ((m.set (y + dy) (x + dx) CellType.Empty).set (y + dy * 2) (x + dx * 2)
        CellType.Empty).grid a b = m.grid a b) ∧
    (∀ a b, m.grid a b ≠ CellType.Wall →
      ((m.set (y + dy) (x + dx) CellType.Empty).set (y + dy * 2) (x + dx * 2)
        CellType.Empty).grid a b ≠ CellType.Wall) := by
  refine ⟨fun a b ha hb => ?_, fun a b ha hb => ?_, fun a b h1 h2 => ?_, fun a b h => ?_⟩
  · rw [carve_grid, if_pos ⟨ha, hb⟩]
  · rw [carve_grid]
    by_cases h1 : a = y + dy * 2 ∧ b = x + dx * 2
    · rw [if_pos h1]
    · rw [if_neg h1, if_pos ⟨ha, hb⟩]
  · rw [carve_grid, if_neg h1, if_neg h2]
  · rw [carve_grid]
    split_ifs
    · decide
    · decide
    · exact h

/-- The cell between an open lattice cell and a neighbour that is still a wall is a
wall. -/
theorem connector_wall (m : Maze) (x y dx dy : Int)
    (hd : (dx = 0 ∧ (dy = 1 ∨ dy = -1)) ∨ (dy = 0 ∧ (dx = 1 ∨ dx = -1)))
    (hinv : TreeInv m) (ho : x % 2 = 1 ∧ y % 2 = 1)
    (hw : m.grid (y + dy * 2) (x + dx * 2) = CellType.Wall) :
    m.grid (y + dy) (x + dx) = CellType.Wall := by
  obtain ⟨_, _, i3, i4, _, _⟩ := hinv
  have hwall : ∀ a b, a = y + dy * 2 → b = x + dx * 2 → m.grid a b = CellType.Wall :=
    fun a b ha hb => by rw [ha, hb]; exact hw
  by_contra hne
  rcases hd with ⟨h0, h1⟩ | ⟨h0, h1⟩
  · obtain ⟨n1, n2⟩ := i3 (x + dx) (y + dy) (by omega) (by omega) hne
    rcases h1 with h1 | h1
    · exact n2 (hwall _ _ (by omega) (by omega))
    · exact n1 (hwall _ _ (by omega) (by omega))
  · obtain ⟨n1, n2⟩ := i4 (x + dx) (y + dy) (by omega) (by omega) hne
    rcases h1 with h1 | h1
    · exact n2 (hwall _ _ (by omega) (by omega))
    · exact n1 (hwall _ _ (by omega) (by omega))

/-- A carving step creates no cycle: the new lattice cell has the new connecting cell
as its only open neighbour, and the new connecting cell has only that and the cell
the step starts from. -/
theorem carve_no_cycle (m m' : Maze) (x y dx dy : Int)
    (hd : (dx = 0 ∧ (dy = 1 ∨ dy = -1)) ∨ (dy = 0 ∧ (dx = 1 ∨ dx = -1)))
    (hinv : TreeInv m) (ho : x % 2 = 1 ∧ y % 2 = 1)
    (hw : m.grid (y + dy * 2) (x + dx * 2) = CellType.Wall)
    (heven : ∀ ex ey : Int, ex % 2 = 0 → ey % 2 = 0 → m'.grid ey ex = CellType.Wall)
    (hsame : ∀ a b, ¬(a = y + dy * 2 ∧ b = x + dx * 2) → ¬(a = y + dy ∧ b = x + dx) →
      m'.grid a b = m.grid a b) :
    ∀ (n : Nat) (f : ZMod n → Int × Int), ¬CellCycle m' n f := by
  intro N f hcyc
  obtain ⟨_, _, i3, i4, _, i6⟩ := hinv
  have hwall : ∀ a b, a = y + dy * 2 → b = x + dx * 2 → m.grid a b = CellType.Wall :=
    fun a b ha hb => by rw [ha, hb]; exact hw
  have hA : ∀ q : Int × Int, Adjacent4 (x + dx * 2, y + dy * 2) q →
      m'.grid q.2 q.1 ≠ CellType.Wall → q = (x + dx, y + dy) := by
    intro q hadj hq
    obtain ⟨qx, qy⟩ := q
    by_contra hne
    have hne' : ¬(qy = y + dy ∧ qx = x + dx) := fun h => hne (by rw [h.1, h.2])
    unfold Adjacent4 at hadj
    simp only at hadj hq
    have hnn : ¬(qy = y + dy * 2 ∧ qx = x + dx * 2) := by omega
    have hqm : m.grid qy qx ≠ CellType.Wall := by
      rw [← hsame qy qx hnn hne']; exact hq
    rcases hadj with ⟨e1, e2⟩ | ⟨e1, e2⟩
    · obtain ⟨n1, n2⟩ := i3 qx qy (by omega) (by omega) hqm
      rcases e2 with e2 | e2
      · exact n2 (hwall _ _ (by omega) (by omega))
      · exact n1 (hwall _ _ (by omega) (by omega))
    · obtain ⟨n1, n2⟩ := i4 qx qy (by omega) (by omega) hqm
      rcases e2 with e2 | e2
      · exact n2 (hwall _ _ (by omega) (by omega))
      · exact n1 (hwall _ _ (by omega) (by omega))
  have hnot_n : ∀ i, f i ≠ (x + dx * 2, y + dy * 2) := by
    intro i hi
    obtain ⟨hne, a1, a2⟩ := CellCycle_neighbours hcyc i
    rw [hi] at a1 a2
    have e1 := hA _ a1 (hcyc.2.2.1 _)
    have e2 := hA _ a2 (hcyc.2.2.1 _)
    exact hne (e1.trans e2.symm)
  have hB : ∀ q : Int × Int, Adjacent4 (x + dx, y + dy) q →
      m'.grid q.2 q.1 ≠ CellType.Wall → q ≠ (x + dx * 2, y + dy * 2) → q = (x, y) := by
    intro q hadj hq hqn
    obtain ⟨qx, qy⟩ := q
    by_contra hne
    have h1 : ¬(qx = x ∧ qy = y) := fun h => hne (by rw [h.1, h.2])
    have h2 : ¬(qx = x + dx * 2 ∧ qy = y + dy * 2) := fun h => hqn (by rw [h.1, h.2])
    unfold Adjacent4 at hadj
    simp only at hadj hq
    have h3 : qx % 2 = 0 ∧ qy % 2 = 0 := by omega
    exact hq (heven qx qy h3.1 h3.2)
  have hnot_c : ∀ i, f i ≠ (x + dx, y + dy) := by
    intro i hi
    obtain ⟨hne, a1, a2⟩ := CellCycle_neighbours hcyc i
    rw [hi] at a1 a2
    exact hne ((hB _ a1 (hcyc.2.2.1 _) (hnot_n _)).trans
      (hB _ a2 (hcyc.2.2.1 _) (hnot_n _)).symm)
  refine i6 N f ⟨hcyc.1, hcyc.2.1, fun i => ?_, hcyc.2.2.2⟩
  have h := hcyc.2.2.1 i
  rw [hsame _ _ (fun h => hnot_n i (Prod.ext h.2 h.1))
    (fun h => hnot_c i (Prod.ext h.2 h.1))] at h
  exact h

/-- A carving step opens one more lattice cell and one more connecting cell. -/
theorem carve_counts (m m' : Maze) (x y dx dy : Int)
    (hd : (dx = 0 ∧ (dy = 1 ∨ dy = -1)) ∨ (dy = 0 ∧ (dx = 1 ∨ dx = -1)))
    (ho : x % 2 = 1 ∧ y % 2 = 1) (hxy : Interior x y)
    (hin : Interior (x + dx * 2) (y + dy * 2))
    (hw : m.grid (y + dy * 2) (x + dx * 2) = CellType.Wall)
    (hcw : m.grid (y + dy) (x + dx) = CellType.Wall)
    (hn : m'.grid (y + dy * 2) (x + dx * 2) = CellType.Empty)
    (hc : m'.grid (y + dy) (x + dx) = CellType.Empty)
    (hsame : ∀ a b, ¬(a = y + dy * 2 ∧ b = x + dx * 2) → ¬(a = y + dy ∧ b = x + dx) →
      m'.grid a b = m.grid a b) :
    countOpen m' isOddCell = countOpen m isOddCell + 1 ∧
    countOpen m' isConnectingCell = countOpen m isConnectingCell + 1 := by
  have hic : Interior (x + dx) (y + dy) := by
    unfold Interior MAZE_WIDTH MAZE_HEIGHT at hxy hin ⊢
    omega
  have odd_n : isOddCell (x + dx * 2, y + dy * 2) = true := by
    unfold isOddCell
    simp only [decide_eq_true_eq]
    omega
  have odd_c : isOddCell (x + dx, y + dy) = false := by
    unfold isOddCell
    simp only [decide_eq_false_iff_not]
    omega
  have con_n : isConnectingCell (x + dx * 2, y + dy * 2) = false := by
    unfold isConnectingCell
    simp only [decide_eq_false_iff_not]
    omega
  have con_c : isConnectingCell (x + dx, y + dy) = true := by
    unfold isConnectingCell
    simp only [decide_eq_true_eq]
    omega
  unfold countOpen
  constructor
  · refine countP_update_one gridCells gridCells_nodup _ _ (x + dx * 2, y + dy * 2)
      (interior_mem_gridCells hin) ?_ ?_ ?_
    · simp [hw]
    · simp only [odd_n, hn]
      decide
    · intro b _ hb
      obtain ⟨bx, byy⟩ := b
      have hb1 : ¬(byy = y + dy * 2 ∧ bx = x + dx * 2) := fun h => hb (by rw [h.1, h.2])
      by_cases hb2 : byy = y + dy ∧ bx = x + dx
      · rw [hb2.1, hb2.2]
        simp only [odd_c, Bool.false_and]
      · simp only
        rw [hsame byy bx hb1 hb2]
  · refine countP_update_one gridCells gridCells_nodup _ _ (x + dx, y + dy)
      (interior_mem_gridCells hic) ?_ ?_ ?_
    · simp [hcw]
    · simp only [con_c, hc]
      decide
    · intro b _ hb
      obtain ⟨bx, byy⟩ := b
      have hb2 : ¬(byy = y + dy ∧ bx = x + dx) := fun h => hb (by rw [h.1, h.2])
      by_cases hb1 : byy = y + dy * 2 ∧ bx = x + dx * 2
      · rw [hb1.1, hb1.2]
        simp only [con_n, Bool.false_and]
      · simp only
        rw [hsame byy bx hb1 hb2]

/-- The invariant of the carving is kept by a carving step from an open lattice cell
to a neighbour of the lattice that is still a wall. -/
theorem TreeInv_carve (m : Maze) (x y dx dy : Int)
    (hd : (dx = 0 ∧ (dy = 1 ∨ dy = -1)) ∨ (dy = 0 ∧ (dx = 1 ∨ dx = -1)))
    (hinv : TreeInv m) (hxy : Interior x y) (ho : x % 2 = 1 ∧ y % 2 = 1)
    (hopen : m.grid y x ≠ CellType.Wall)
    (hin : Interior (x + dx * 2) (y + dy * 2))
    (hw : m.grid (y + dy * 2) (x + dx * 2) = CellType.Wall) :
    TreeInv ((m.set (y + dy) (x + dx) CellType.Empty).set (y + dy * 2) (x + dx * 2)
      CellType.Empty) := by
  obtain ⟨hn, hc, hsame, hmono⟩ := carve_cells m x y dx dy
  have hcw := connector_wall m x y dx dy hd hinv ho hw
  generalize (m.set (y + dy) (x + dx) CellType.Empty).set (y + dy * 2) (x + dx * 2)
    CellType.Empty = m' at hn hc hsame hmono ⊢
  have hic : Interior (x + dx) (y + dy) := by
    unfold Interior MAZE_WIDTH MAZE_HEIGHT at hxy hin ⊢
    omega
  have heven : ∀ ex ey : Int, ex % 2 = 0 → ey % 2 = 0 → m'.grid ey ex = CellType.Wall := by
    intro ex ey h1 h2
    rw [hsame ey ex (by omega) (by omega)]
    exact hinv.2.1 ex ey h1 h2
  have hcyc := carve_no_cycle m m' x y dx dy hd hinv ho hw heven hsame
  obtain ⟨k1, k2⟩ := carve_counts m m' x y dx dy hd ho hxy hin hw hcw
    (hn _ _ rfl rfl) (hc _ _ rfl rfl) hsame
  obtain ⟨i1, i2, i3, i4, i5, i6⟩ := hinv
  have hopen' : ∀ a b, a = y → b = x → m'.grid a b ≠ CellType.Wall :=
    fun a b ha hb => by rw [ha, hb]; exact hmono _ _ hopen
  have hnew : ∀ a b, a = y + dy * 2 → b = x + dx * 2 → m'.grid a b ≠ CellType.Wall :=
    fun a b ha hb => by rw [hn a b ha hb]; decide
  refine ⟨fun a b => ?_, heven, fun ex ey h1 h2 h3 => ?_, fun ex ey h1 h2 h3 => ?_, ?_, hcyc⟩
  · by_cases h1 : a = y + dy * 2 ∧ b = x + dx * 2
    · right
      refine ⟨hn a b h1.1 h1.2, ?_⟩
      rw [h1.1, h1.2]; exact hin
    · by_cases h2 : a = y + dy ∧ b = x + dx
      · right
        refine ⟨hc a b h2.1 h2.2, ?_⟩
        rw [h2.1, h2.2]; exact hic
      · rw [hsame a b h1 h2]
        exact i1 a b
  · by_cases hcc : ey = y + dy ∧ ex = x + dx
    · have e1 : (ey - 1 = y ∧ ey + 1 = y + dy * 2) ∨ (ey + 1 = y ∧ ey - 1 = y + dy * 2) := by
        omega
      have e2 : ex = x ∧ ex = x + dx * 2 := by omega
      rcases e1 with ⟨e3, e4⟩ | ⟨e3, e4⟩
      · exact ⟨hopen' _ _ e3 e2.1, hnew _ _ e4 e2.2⟩
      · exact ⟨hnew _ _ e4 e2.2, hopen' _ _ e3 e2.1⟩
    · have hm : m.grid ey ex ≠ CellType.Wall := by
        rw [← hsame ey ex (by omega) hcc]; exact h3
      obtain ⟨n1, n2⟩ := i3 ex ey h1 h2 hm
      exact ⟨hmono _ _ n1, hmono _ _ n2⟩
  · by_cases hcc : ey = y + dy ∧ ex = x + dx
    · have e1 : (ex - 1 = x ∧ ex + 1 = x + dx * 2) ∨ (ex + 1 = x ∧ ex - 1 = x + dx * 2) := by
        omega
      have e2 : ey = y ∧ ey = y + dy * 2 := by omega
      rcases e1 with ⟨e3, e4⟩ | ⟨e3, e4⟩
      · exact ⟨hopen' _ _ e2.1 e3, hnew _ _ e2.2 e4⟩
      · exact ⟨hnew _ _ e2.2 e4, hopen' _ _ e2.1 e3⟩
    · have hm : m.grid ey ex ≠ CellType.Wall := by
        rw [← hsame ey ex (by omega) hcc]; exact h3
      obtain ⟨n1, n2⟩ := i4 ex ey h1 h2 hm
      exact ⟨hmono _ _ n1, hmono _ _ n2⟩
  · rw [k1, k2, i5]

/-! ## The invariant along the recursion of `CarveMaze` -/

theorem DIRS_step (d : Nat) :
    ((DIRS d).1 = 0 ∧ ((DIRS d).2 = 1 ∨ (DIRS d).2 = -1)) ∨
    ((DIRS d).2 = 0 ∧ ((DIRS d).1 = 1 ∨ (DIRS d).1 = -1)) := by
  rcases DIRS_unit d with h | h | h | h <;> rw [h] <;> simp

theorem carveLoop_tree (rnd : Nat → Nat) (fuel : Nat)
    (ih : ∀ (s : Maze × Nat) (x y : Int) (s' : Maze × Nat), Interior x y → OddCell x y →
      CarveMaze rnd fuel s x y = some s' → TreeInv s.1 → s.1.grid y x ≠ CellType.Wall →
      TreeInv s'.1)
    (x y : Int) (hxy : Interior x y) (ho : OddCell x y) :
    ∀ (ds : List Nat) (t t' : Maze × Nat),
      ds.foldlM (carveDir (CarveMaze rnd fuel) x y) t = some t' → TreeInv t.1 →
      t.1.grid y x ≠ CellType.Wall → TreeInv t'.1 := by
  intro ds
  induction ds with
  | nil =>
    intro t t' h hinv _
    simp only [List.foldlM_nil, Option.pure_def, Option.some.injEq] at h
    subst h
    exact hinv
  | cons d ds ihl =>
    intro t t' h hinv hopen
    rw [List.foldlM_cons] at h
    simp only [Option.bind_eq_bind, Option.bind_eq_some] at h
    obtain ⟨u, hu, hrest⟩ := h
    have hF : Frame t.1 u.1 :=
      (carveLoop_post (1, 1) (CarveMaze rnd fuel) (CarveMaze_post rnd (1, 1) fuel)
        x y hxy [d] t u (by simp [List.foldlM_cons, hu])).1
    refine ihl u t' hrest ?_ (Frame_notWall hF hopen)
    unfold carveDir at hu
    simp only at hu
    split at hu
    · rename_i hin
      have hin' : Interior (x + (DIRS d).1 * 2) (y + (DIRS d).2 * 2) := hin
      split at hu
      · rename_i hw
        have hodd : OddCell (x + (DIRS d).1 * 2) (y + (DIRS d).2 * 2) := by
          unfold OddCell at ho ⊢
          omega
        have hstep := TreeInv_carve t.1 x y (DIRS d).1 (DIRS d).2 (DIRS_step d) hinv hxy ho
          hopen hin' hw
        refine ih _ _ _ u hin' hodd hu hstep ?_
        simp [Maze.set, setCell]
      · simp only [Option.some.injEq] at hu
        subst hu
        exact hinv
    · simp only [Option.some.injEq] at hu
      subst hu
      exact hinv

theorem CarveMaze_tree (rnd : Nat → Nat) :
    ∀ (fuel : Nat) (s : Maze × Nat) (x y : Int) (s' : Maze × Nat), Interior x y →
      OddCell x y → CarveMaze rnd fuel s x y = some s' → TreeInv s.1 →
      s.1.grid y x ≠ CellType.Wall → TreeInv s'.1 := by
  intro fuel
  induction fuel with
  | zero => intro s x y s' _ _ h; simp [CarveMaze] at h
  | succ fuel ih =>
    intro s x y s' hxy ho h hinv hopen
    simp only [CarveMaze] at h
    exact carveLoop_tree rnd fuel ih x y hxy ho _ (s.1, (ShuffleDirections rnd s.2).2) s' h
      hinv hopen

/-- The grid of walls with the start cell opened satisfies the invariant. -/
theorem TreeInv_initMaze (maze : Maze) : TreeInv (initMaze maze) := by
  have hg := initMaze_grid maze
  have hopen : ∀ y x, (initMaze maze).grid y x ≠ CellType.Wall → y = 1 ∧ x = 1 := by
    intro y x h
    rw [hg] at h
    by_contra hne
    rw [if_neg hne] at h
    exact h rfl
  refine ⟨initMaze_carved maze, fun x y h1 h2 => ?_, fun x y h1 h2 h3 => ?_,
    fun x y h1 h2 h3 => ?_, ?_, fun n f hc => ?_⟩
  · rw [hg, if_neg (by omega)]
  · have := hopen y x h3; omega
  · have := hopen y x h3; omega
  · have e1 : countOpen (initMaze maze) isConnectingCell =
        gridCells.countP (fun c => isConnectingCell c &&
          decide ((if c.2 = 1 ∧ c.1 = 1 then CellType.Empty else CellType.Wall) ≠
            CellType.Wall)) := by
      unfold countOpen
      exact List.countP_congr (fun c _ => by rw [hg])
    have e2 : countOpen (initMaze maze) isOddCell =
        gridCells.countP (fun c => isOddCell c &&
          decide ((if c.2 = 1 ∧ c.1 = 1 then CellType.Empty else CellType.Wall) ≠
            CellType.Wall)) := by
      unfold countOpen
      exact List.countP_congr (fun c _ => by rw [hg])
    rw [e1, e2]
    decide!
  · obtain ⟨h3, hinj, hop, _⟩ := hc
    have h0 := hopen _ _ (hop 0)
    have h1 := hopen _ _ (hop 1)
    have he : f 0 = f 1 := Prod.ext (h0.2.trans h1.2.symm) (h0.1.trans h1.1.symm)
    have h01 : (0 : ZMod n) = 1 := hinj he
    have h2 : ((1 : Nat) : ZMod n) = 0 := by
      push_cast
      exact h01.symm
    have h4 : n ∣ 1 := (ZMod.natCast_zmod_eq_zero_iff_dvd 1 n).1 h2
    have := Nat.le_of_dvd (by norm_num) h4
    omega

/-! ## Counting the carved cells -/

theorem cell_class (c : Int × Int) :
    (isOddCell c = true ∧ isConnectingCell c = false ∧ isEvenCell c = false) ∨
    (isOddCell c = false ∧ isConnectingCell c = true ∧ isEvenCell c = false) ∨
    (isOddCell c = false ∧ isConnectingCell c = false ∧ isEvenCell c = true) := by
  unfold isOddCell isConnectingCell isEvenCell
  simp only [decide_eq_true_eq, decide_eq_false_iff_not]
  omega

/-- Every cell counts in exactly one of the three classes. -/
theorem countP_classes (o : Int × Int → Bool) :
    ∀ l : List (Int × Int),
      l.countP o = l.countP (fun c => isOddCell c && o c) +
        l.countP (fun c => isConnectingCell c && o c) +
        l.countP (fun c => isEvenCell c && o c) := by
  intro l
  induction l with
  | nil => simp
  | cons c l ih =>
    simp only [List.countP_cons, ih]
    rcases cell_class c with ⟨h1, h2, h3⟩ | ⟨h1, h2, h3⟩ | ⟨h1, h2, h3⟩ <;>
      simp only [h1, h2, h3, Bool.true_and, Bool.false_and] <;>
      cases o c <;> simp <;> omega

theorem odd_cells_count : gridCells.countP isOddCell = 49 := by
  decide!

/-- C21: for every sequence of `rand()` results the carving from (1,1) on the grid of
walls returns, and it leaves a spanning tree of the lattice of odd cells: all 49
interior cells with two odd coordinates are open (`Empty`), exactly 48 cells with one
odd and one even coordinate are open, no cell with two even coordinates is open, so
exactly 97 cells are not walls; every open cell can be reached from (1,1), and the
open cells contain no cycle. -/
theorem CarveMaze_spanning_tree (rnd : Nat → Nat) (maze : Maze) (k : Nat) :
    (∃ s, CarveMaze rnd 170 (initMaze maze, k) 1 1 = some s) ∧
    ∀ fuel s, CarveMaze rnd fuel (initMaze maze, k) 1 1 = some s →
      (∀ x y : Int, Interior x y → x % 2 = 1 → y % 2 = 1 →
        s.1.grid y x = CellType.Empty) ∧
      countOpen s.1 isOddCell = 49 ∧
      countOpen s.1 isConnectingCell = 48 ∧
      countOpen s.1 isEvenCell = 0 ∧
      (∀ x y : Int, x % 2 = 0 → y % 2 = 0 → s.1.grid y x = CellType.Wall) ∧
      countOpen s.1 (fun _ => true) = 97 ∧
      countCells s.1 CellType.Empty = 97 ∧
      (∀ y x, s.1.grid y x = CellType.Wall ∨
        (s.1.grid y x = CellType.Empty ∧ Interior x y)) ∧
      Connected s.1 (1, 1) ∧
      ∀ (n : Nat) (f : ZMod n → Int × Int), ¬CellCycle s.1 n f := by
  refine ⟨CarveMaze_total rnd 170 (initMaze maze, k) 1 1
    (lt_of_le_of_lt (wallCount_le _) (by norm_num)), fun fuel s hs => ?_⟩
  have hinv := CarveMaze_tree rnd fuel (initMaze maze, k) 1 1 s interior_one
    (by unfold OddCell; decide) hs (TreeInv_initMaze maze) (by simp [initMaze_grid])
  obtain ⟨hcarved, _, hconn⟩ := CarveMaze_init hs
  obtain ⟨_, i2, _, _, i5, i6⟩ := hinv
  have hodd := CarveMaze_odd_open hs
  have hoddopen : ∀ x y : Int, Interior x y → x % 2 = 1 → y % 2 = 1 →
      s.1.grid y x ≠ CellType.Wall := by
    intro x y hi hx hy
    unfold Interior MAZE_WIDTH MAZE_HEIGHT at hi
    have h := hodd (x / 2).toNat (y / 2).toNat (by omega) (by omega)
    have e1 : 2 * (((x / 2).toNat : Nat) : Int) + 1 = x := by omega
    have e2 : 2 * (((y / 2).toNat : Nat) : Int) + 1 = y := by omega
    rw [e1, e2] at h
    exact h
  have hcount_odd : countOpen s.1 isOddCell = 49 := by
    rw [← odd_cells_count]
    unfold countOpen
    refine List.countP_congr (fun c hc => ?_)
    cases ho : isOddCell c
    · simp
    · obtain ⟨c0, c1, c2, c3⟩ := (mem_gridCells c).1 hc
      unfold isOddCell at ho
      simp only [decide_eq_true_eq] at ho
      have hi : Interior c.1 c.2 := by
        unfold Interior
        unfold MAZE_WIDTH at c1 ⊢
        unfold MAZE_HEIGHT at c3 ⊢
        omega
      simp [hoddopen c.1 c.2 hi ho.1 ho.2]
  have hcount_even : countOpen s.1 isEvenCell = 0 := by
    unfold countOpen
    rw [List.countP_eq_zero]
    intro c _
    cases he : isEvenCell c
    · simp
    · unfold isEvenCell at he
      simp only [decide_eq_true_eq] at he
      simp [i2 c.1 c.2 he.1 he.2]
  have hcount_con : countOpen s.1 isConnectingCell = 48 := by omega
  have hsplit := countP_classes (fun c => decide (s.1.grid c.2 c.1 ≠ CellType.Wall)) gridCells
  have hcount_all : countOpen s.1 (fun _ => true) = 97 := by
    unfold countOpen at hcount_odd hcount_con hcount_even ⊢
    simp only [Bool.true_and]
    rw [hsplit, hcount_odd, hcount_con, hcount_even]
  refine ⟨fun x y hi hx hy => ?_, hcount_odd, hcount_con, hcount_even, i2, hcount_all, ?_,
    hcarved, hconn, i6⟩
  · rcases hcarved y x with h | ⟨h, _⟩
    · exact absurd h (hoddopen x y hi hx hy)
    · exact h
  · rw [← hcount_all]
    unfold countCells countOpen
    refine List.countP_congr (fun c _ => ?_)
    rcases hcarved c.2 c.1 with h | ⟨h, _⟩
    · simp [h]
    · simp [h]

theorem CarveMaze_spanning_tree_witness :
    ∃ s, CarveMaze sampleRand 170 (initMaze blankMaze, 0) 1 1 = some s ∧
      countOpen s.1 isOddCell = 49 ∧ countOpen s.1 isConnectingCell = 48 ∧
      countCells s.1 CellType.Empty = 97 ∧
      ∀ (n : Nat) (f : ZMod n → Int × Int), ¬CellCycle s.1 n f := by
  obtain ⟨h1, h2⟩ := CarveMaze_spanning_tree sampleRand blankMaze 0
  obtain ⟨s, hs⟩ := h1
  obtain ⟨_, a, b, _, _, _, c, _, _, d⟩ := h2 170 s hs
  exact ⟨s, hs, a, b, c, d⟩

/-! ## The sampling loops on a fair stream -/

/-- A round of the key loop: the sampled cell gets a key when it is `Empty` and far
enough from the start and from the exit; else nothing changes but the call count. -/
theorem placeKeys_round (rnd : Nat → Nat) (ex ey : Int) (fuel : Nat) (s : Maze × Nat)
    (keys : Int) (hk : keys < 3) :
    placeKeys rnd ex ey (fuel + 1) s keys =
      if s.1.grid ((rnd (s.2 + 1) : Int) % 13 + 1) ((rnd s.2 : Int) % 13 + 1) = CellType.Empty ∧
          5 < sqDist s.1.startPos ((rnd s.2 : Int) % 13 + 1) ((rnd (s.2 + 1) : Int) % 13 + 1) ∧
          5 < sqDist { x := (ex : ℚ), y := (ey : ℚ) } ((rnd s.2 : Int) % 13 + 1)
            ((rnd (s.2 + 1) : Int) % 13 + 1)
      then placeKeys rnd ex ey fuel
        (s.1.set ((rnd (s.2 + 1) : Int) % 13 + 1) ((rnd s.2 : Int) % 13 + 1) CellType.Key,
          s.2 + 2) (keys + 1)
      else placeKeys rnd ex ey fuel (s.1, s.2 + 2) keys := by
  have h13 : MAZE_WIDTH - 2 = 13 := by decide
  have h13' : MAZE_HEIGHT - 2 = 13 := by decide
  rw [placeKeys]
  simp only [if_pos hk, h13, h13', sqDist]
  by_cases he : s.1.grid ((rnd (s.2 + 1) : Int) % 13 + 1) ((rnd s.2 : Int) % 13 + 1)
      = CellType.Empty
  · rw [if_pos he]
    push_cast
    simp only [he, true_and, gt_iff_lt]
  · rw [if_neg he, if_neg (fun h => he h.1)]

/-- A round of the enemy loop: the sampled cell gets an enemy when it is `Empty` and far
enough from the start; else nothing changes but the call count. -/
theorem placeEnemies_round (rnd : Nat → Nat) (fuel : Nat) (s : Maze × Nat)
    (enemies : Int) (hk : enemies < 5) :
    placeEnemies rnd (fuel + 1) s enemies =
      if s.1.grid ((rnd (s.2 + 1) : Int) % 13 + 1) ((rnd s.2 : Int) % 13 + 1) = CellType.Empty ∧
          9 < sqDist s.1.startPos ((rnd s.2 : Int) % 13 + 1) ((rnd (s.2 + 1) : Int) % 13 + 1)
      then placeEnemies rnd fuel
        (s.1.set ((rnd (s.2 + 1) : Int) % 13 + 1) ((rnd s.2 : Int) % 13 + 1) CellType.Enemy,
          s.2 + 2) (enemies + 1)
      else placeEnemies rnd fuel (s.1, s.2 + 2) enemies := by
  have h13 : MAZE_WIDTH - 2 = 13 := by decide
  have h13' : MAZE_HEIGHT - 2 = 13 := by decide
  rw [placeEnemies]
  simp only [if_pos hk, h13, h13', sqDist]
  by_cases he : s.1.grid ((rnd (s.2 + 1) : Int) % 13 + 1) ((rnd s.2 : Int) % 13 + 1)
      = CellType.Empty
  · rw [if_pos he]
    push_cast
    simp only [he, true_and, gt_iff_lt]
  · rw [if_neg he, if_neg (fun h => he h.1)]

/-- The squared distances of a far cell, as the loops compute them. -/
theorem farCell_dist (c : Int × Int) (h : farCell c) :
    9 < sqDist { x := 1, y := 1 } c.1 c.2 ∧ 5 < sqDist { x := 1, y := 1 } c.1 c.2 ∧
    5 < sqDist { x := ((13 : Int) : ℚ), y := ((13 : Int) : ℚ) } c.1 c.2 := by
  obtain ⟨_, _, _, _, h1, h2⟩ := h
  have q1 : ((9 : Int) : ℚ) < (((c.1 - 1) * (c.1 - 1) + (c.2 - 1) * (c.2 - 1) : Int) : ℚ) := by
    exact_mod_cast h1
  have q2 : ((5 : Int) : ℚ) <
      (((c.1 - 13) * (c.1 - 13) + (c.2 - 13) * (c.2 - 13) : Int) : ℚ) := by
    exact_mod_cast h2
  push_cast at q1 q2
  simp only [sqDist]
  push_cast
  refine ⟨q1, by linarith, q2⟩

/-- Taking one cell out of a list of free cells and giving it another tag leaves the
other cells free. -/
theorem FreeCells_erase (m : Maze) (L : List (Int × Int)) (x y : Int) (t : CellType)
    (h : FreeCells m L) :
    FreeCells (m.set y x t) (L.erase (x, y)) ∧ L.length ≤ (L.erase (x, y)).length + 1 := by
  obtain ⟨hnd, hall⟩ := h
  refine ⟨⟨hnd.erase _, fun c hc => ?_⟩, ?_⟩
  · have hcL : c ∈ L := List.mem_of_mem_erase hc
    have hne : c ≠ (x, y) := fun hcx => by
      rw [hcx] at hc
      exact (List.Nodup.not_mem_erase hnd) hc
    refine ⟨(hall c hcL).1, ?_⟩
    have : ¬(c.2 = y ∧ c.1 = x) := fun ⟨h1, h2⟩ => hne (Prod.ext h2 h1)
    simp only [Maze.set, setCell, if_neg this]
    exact (hall c hcL).2
  · rw [List.length_erase]
    split_ifs <;> omega

/-- The sample that a pair of residues stands for. -/
theorem sample_cell (r : Nat) (v : Int) (h1 : 1 ≤ v) (h2 : v ≤ 13)
    (h : r % 13 = (v - 1).toNat) : (r : Int) % 13 + 1 = v := by
  omega

/-- On a fair stream the key loop ends: with `r` keys still to place and at least `r`
free cells, it returns, and all but `r` of the free cells stay free. -/
theorem placeKeys_fair (rnd : Nat → Nat) (hfair : FairRand rnd) :
    ∀ (r : Nat) (m : Maze) (k : Nat) (keys : Int) (L : List (Int × Int)),
      keys + (r : Int) = 3 → m.startPos = { x := 1, y := 1 } → FreeCells m L →
      r ≤ L.length →
      ∃ (fuel : Nat) (res : Maze × Nat) (L' : List (Int × Int)),
        placeKeys rnd 13 13 fuel (m, k) keys = some res ∧
        res.1.startPos = { x := 1, y := 1 } ∧ FreeCells res.1 L' ∧
        L.length ≤ L'.length + r := by
  intro r
  induction r with
  | zero =>
    intro m k keys L hk hs hL _
    refine ⟨0, (m, k), L, ?_, hs, hL, le_refl _⟩
    rw [placeKeys, if_neg (by omega)]
  | succ r ih =>
    intro m k keys L hk hs hL hlen
    have hk3 : keys < 3 := by omega
    obtain ⟨c, hc⟩ : ∃ c, c ∈ L := List.exists_mem_of_length_pos (by omega)
    obtain ⟨hfar, hemp⟩ := hL.2 c hc
    obtain ⟨n, hn1, hn2⟩ := hfair k (c.1 - 1).toNat (c.2 - 1).toNat
      (by have := hfar.1; have := hfar.2.1; omega)
      (by have := hfar.2.2.1; have := hfar.2.2.2.1; omega)
    -- a round that places a key
    have hplace : ∀ (k' : Nat) (x y : Int),
        ∃ (fuel : Nat) (res : Maze × Nat) (L' : List (Int × Int)),
          placeKeys rnd 13 13 fuel (m.set y x CellType.Key, k') (keys + 1) = some res ∧
          res.1.startPos = { x := 1, y := 1 } ∧ FreeCells res.1 L' ∧
          L.length ≤ L'.length + (r + 1) := by
      intro k' x y
      obtain ⟨hfree, hl⟩ := FreeCells_erase m L x y CellType.Key hL
      obtain ⟨fuel, res, L', h1, h2, h3, h4⟩ := ih (m.set y x CellType.Key) k' (keys + 1)
        (L.erase (x, y)) (by push_cast at hk ⊢; omega) hs hfree (by omega)
      exact ⟨fuel, res, L', h1, h2, h3, by omega⟩
    -- the rounds up to the one that samples `c`
    have hrounds : ∀ (n k' : Nat), rnd (k' + 2 * n) % 13 = (c.1 - 1).toNat →
        rnd (k' + 2 * n + 1) % 13 = (c.2 - 1).toNat →
        ∃ (fuel : Nat) (res : Maze × Nat) (L' : List (Int × Int)),
          placeKeys rnd 13 13 fuel (m, k') keys = some res ∧
          res.1.startPos = { x := 1, y := 1 } ∧ FreeCells res.1 L' ∧
          L.length ≤ L'.length + (r + 1) := by
      intro n
      induction n with
      | zero =>
        intro k' h1 h2
        have ex : (rnd k' : Int) % 13 + 1 = c.1 :=
          sample_cell _ _ hfar.1 hfar.2.1 (by simpa using h1)
        have ey : (rnd (k' + 1) : Int) % 13 + 1 = c.2 :=
          sample_cell _ _ hfar.2.2.1 hfar.2.2.2.1 (by simpa using h2)
        obtain ⟨fuel, res, L', h⟩ := hplace (k' + 2) c.1 c.2
        refine ⟨fuel + 1, res, L', ?_, h.2⟩
        rw [placeKeys_round rnd 13 13 fuel (m, k') keys hk3]
        simp only [ex, ey, hs]
        rw [if_pos ⟨hemp, (farCell_dist c hfar).2.1, (farCell_dist c hfar).2.2⟩]
        exact h.1
      | succ n ihn =>
        intro k' h1 h2
        by_cases hacc : m.grid ((rnd (k' + 1) : Int) % 13 + 1) ((rnd k' : Int) % 13 + 1)
              = CellType.Empty ∧
            5 < sqDist m.startPos ((rnd k' : Int) % 13 + 1) ((rnd (k' + 1) : Int) % 13 + 1) ∧
            5 < sqDist { x := ((13 : Int) : ℚ), y := ((13 : Int) : ℚ) }
              ((rnd k' : Int) % 13 + 1) ((rnd (k' + 1) : Int) % 13 + 1)
        · obtain ⟨fuel, res, L', h⟩ := hplace (k' + 2) ((rnd k' : Int) % 13 + 1)
            ((rnd (k' + 1) : Int) % 13 + 1)
          refine ⟨fuel + 1, res, L', ?_, h.2⟩
          rw [placeKeys_round rnd 13 13 fuel (m, k') keys hk3]
          simp only
          rw [if_pos hacc]
          exact h.1
        · obtain ⟨fuel, res, L', h⟩ := ihn (k' + 2)
            (by rw [show k' + 2 + 2 * n = k' + 2 * (n + 1) by ring]; exact h1)
            (by rw [show k' + 2 + 2 * n + 1 = k' + 2 * (n + 1) + 1 by ring]; exact h2)
          refine ⟨fuel + 1, res, L', ?_, h.2⟩
          rw [placeKeys_round rnd 13 13 fuel (m, k') keys hk3]
          simp only
          rw [if_neg hacc]
          exact h.1
    exact hrounds n k hn1 hn2

/-- On a fair stream the enemy loop ends: with `r` enemies still to place and at least
`r` free cells, it returns. -/
theorem placeEnemies_fair (rnd : Nat → Nat) (hfair : FairRand rnd) :
    ∀ (r : Nat) (m : Maze) (k : Nat) (enemies : Int) (L : List (Int × Int)),
      enemies + (r : Int) = 5 → m.startPos = { x := 1, y := 1 } → FreeCells m L →
      r ≤ L.length →
      ∃ (fuel : Nat) (res : Maze × Nat), placeEnemies rnd fuel (m, k) enemies = some res := by
  intro r
  induction r with
  | zero =>
    intro m k enemies L hk hs hL _
    refine ⟨0, (m, k), ?_⟩
    rw [placeEnemies, if_neg (by omega)]
  | succ r ih =>
    intro m k enemies L hk hs hL hlen
    have hk5 : enemies < 5 := by omega
    obtain ⟨c, hc⟩ : ∃ c, c ∈ L := List.exists_mem_of_length_pos (by omega)
    obtain ⟨hfar, hemp⟩ := hL.2 c hc
    obtain ⟨n, hn1, hn2⟩ := hfair k (c.1 - 1).toNat (c.2 - 1).toNat
      (by have := hfar.1; have := hfar.2.1; omega)
      (by have := hfar.2.2.1; have := hfar.2.2.2.1; omega)
    have hplace : ∀ (k' : Nat) (x y : Int),
        ∃ (fuel : Nat) (res : Maze × Nat),
          placeEnemies rnd fuel (m.set y x CellType.Enemy, k') (enemies + 1) = some res := by
      intro k' x y
      obtain ⟨hfree, hl⟩ := FreeCells_erase m L x y CellType.Enemy hL
      exact ih (m.set y x CellType.Enemy) k' (enemies + 1)
        (L.erase (x, y)) (by push_cast at hk ⊢; omega) hs hfree (by omega)
    have hrounds : ∀ (n k' : Nat), rnd (k' + 2 * n) % 13 = (c.1 - 1).toNat →
        rnd (k' + 2 * n + 1) % 13 = (c.2 - 1).toNat →
        ∃ (fuel : Nat) (res : Maze × Nat),
          placeEnemies rnd fuel (m, k') enemies = some res := by
      intro n
      induction n with
      | zero =>
        intro k' h1 h2
        have ex : (rnd k' : Int) % 13 + 1 = c.1 :=
          sample_cell _ _ hfar.1 hfar.2.1 (by simpa using h1)
        have ey : (rnd (k' + 1) : Int) % 13 + 1 = c.2 :=
          sample_cell _ _ hfar.2.2.1 hfar.2.2.2.1 (by simpa using h2)
        obtain ⟨fuel, res, h⟩ := hplace (k' + 2) c.1 c.2
        refine ⟨fuel + 1, res, ?_⟩
        rw [placeEnemies_round rnd fuel (m, k') enemies hk5]
        simp only [ex, ey, hs]
        rw [if_pos ⟨hemp, (farCell_dist c hfar).1⟩]
        exact h
      | succ n ihn =>
        intro k' h1 h2
        by_cases hacc : m.grid ((rnd (k' + 1) : Int) % 13 + 1) ((rnd k' : Int) % 13 + 1)
              = CellType.Empty ∧
            9 < sqDist m.startPos ((rnd k' : Int) % 13 + 1) ((rnd (k' + 1) : Int) % 13 + 1)
        · obtain ⟨fuel, res, h⟩ := hplace (k' + 2) ((rnd k' : Int) % 13 + 1)
            ((rnd (k' + 1) : Int) % 13 + 1)
          refine ⟨fuel + 1, res, ?_⟩
          rw [placeEnemies_round rnd fuel (m, k') enemies hk5]
          simp only
          rw [if_pos hacc]
          exact h
        · obtain ⟨fuel, res, h⟩ := ihn (k' + 2)
            (by rw [show k' + 2 + 2 * n = k' + 2 * (n + 1) by ring]; exact h1)
            (by rw [show k' + 2 + 2 * n + 1 = k' + 2 * (n + 1) + 1 by ring]; exact h2)
          refine ⟨fuel + 1, res, ?_⟩
          rw [placeEnemies_round rnd fuel (m, k') enemies hk5]
          simp only
          rw [if_neg hacc]
          exact h
    exact hrounds n k hn1 hn2

theorem placeKeys_mono (rnd : Nat → Nat) (ex ey : Int) {fuel fuel' : Nat} (hle : fuel ≤ fuel')
    {s : Maze × Nat} {keys : Int} {r : Maze × Nat}
    (h : placeKeys rnd ex ey fuel s keys = some r) :
    placeKeys rnd ex ey fuel' s keys = some r := by
  induction hle with
  | refl => exact h
  | step _ ih => exact placeKeys_succ rnd ex ey _ s keys r ih

theorem placeEnemies_mono (rnd : Nat → Nat) {fuel fuel' : Nat} (hle : fuel ≤ fuel')
    {s : Maze × Nat} {enemies : Int} {r : Maze × Nat}
    (h : placeEnemies rnd fuel s enemies = some r) :
    placeEnemies rnd fuel' s enemies = some r := by
  induction hle with
  | refl => exact h
  | step _ ih => exact placeEnemies_succ rnd _ s enemies r ih

/-- After the carving every odd interior cell is `Empty`. -/
theorem carved_odd_empty {rnd : Nat → Nat} {fuel : Nat} {maze : Maze} {k : Nat}
    {s : Maze × Nat} (h : CarveMaze rnd fuel (initMaze maze, k) 1 1 = some s) (x y : Int)
    (hx : 1 ≤ x ∧ x ≤ 13 ∧ x % 2 = 1) (hy : 1 ≤ y ∧ y ≤ 13 ∧ y % 2 = 1) :
    s.1.grid y x = CellType.Empty := by
  obtain ⟨hcarved, _, _⟩ := CarveMaze_init h
  have hopen := CarveMaze_odd_open h ((x - 1) / 2).toNat ((y - 1) / 2).toNat
    (by omega) (by omega)
  have ex : 2 * ((((x - 1) / 2).toNat : Nat) : Int) + 1 = x := by omega
  have ey : 2 * ((((y - 1) / 2).toNat : Nat) : Int) + 1 = y := by omega
  rw [ex, ey] at hopen
  rcases hcarved y x with h0 | ⟨h0, _⟩
  · exact absurd h0 hopen
  · exact h0

/-- After the carving and the choice of the exit (13,13), the eight middle cells are
free. -/
theorem middleCells_free {rnd : Nat → Nat} {fuel : Nat} {maze : Maze} {k : Nat}
    {s : Maze × Nat} (h : CarveMaze rnd fuel (initMaze maze, k) 1 1 = some s) :
    FreeCells (withExit s.1 13 13) middleCells := by
  refine ⟨by decide, fun c hc => ?_⟩
  simp only [middleCells, List.mem_cons, List.mem_singleton, List.not_mem_nil, or_false] at hc
  rcases hc with rfl | rfl | rfl | rfl | rfl | rfl | rfl | rfl
  all_goals
    refine ⟨by unfold farCell; decide, ?_⟩
    rw [withExit_grid, if_neg (by decide)]
    exact carved_odd_empty h _ _ (by decide) (by decide)

/-- On a fair stream of `rand()` results `GenerateMaze` returns. -/
theorem GenerateMaze_fair (rnd : Nat → Nat) (hfair : FairRand rnd) (maze : Maze) (k : Nat) :
    ∃ (fuel : Nat) (r : Maze × Nat), GenerateMaze rnd fuel maze k = some r := by
  obtain ⟨s, hs⟩ := CarveMaze_total rnd 170 (initMaze maze, k) 1 1
    (Nat.lt_succ_of_le (wallCount_le _))
  obtain ⟨_, hexit⟩ := carved_exit hs
  obtain ⟨_, hstart, _⟩ := CarveMaze_init hs
  have hfree := middleCells_free hs
  have hstart' : (withExit s.1 13 13).startPos = { x := 1, y := 1 } := hstart
  obtain ⟨f1, s3, L', hk, hs3, hL', hlen⟩ := placeKeys_fair rnd hfair 3 (withExit s.1 13 13)
    s.2 0 middleCells (by norm_num) hstart' hfree (by decide)
  have h8 : middleCells.length = 8 := rfl
  obtain ⟨f2, res, he⟩ := placeEnemies_fair rnd hfair 5 s3.1 s3.2 0 L' (by norm_num) hs3 hL'
    (by omega)
  refine ⟨max 170 (max f1 f2), res, ?_⟩
  unfold GenerateMaze
  rw [CarveMaze_mono rnd (le_max_left _ _) hs]
  simp only [Option.some_bind]
  unfold PlaceObjects
  rw [hexit]
  simp only
  have hk' := placeKeys_mono rnd 13 13
    (le_trans (le_max_left f1 f2) (le_max_right 170 (max f1 f2))) hk
  unfold withExit at hk'
  rw [hk']
  exact placeEnemies_mono rnd
    (le_trans (le_max_right f1 f2) (le_max_right 170 (max f1 f2))) he

/-- The stream `fairRand` is fair. -/
theorem fairRand_fair : FairRand fairRand := by
  intro k a b ha hb
  rcases Nat.even_or_odd' k with ⟨j, rfl | rfl⟩
  · refine ⟨a + 13 * b + 168 * j, ?_, ?_⟩
    · simp only [fairRand]
      rw [if_pos (by omega)]
      omega
    · simp only [fairRand]
      rw [if_neg (by omega)]
      omega
  · refine ⟨13 * a + (b + 12) % 13 + 168 * j, ?_, ?_⟩
    · simp only [fairRand]
      rw [if_neg (by omega)]
      omega
    · simp only [fairRand]
      rw [if_pos (by omega)]
      omega

/-- C16: in `GAME_VICTORY` or `GAME_OVER`, a tick without R returns the state
unchanged.  A tick with R, `rand()` being fair to the sampling loops, returns: from some
fuel on it has one and the same result, which is in `GAME_PLAYING` with
`player.health = 100`, `player.keys = 0`, the player at (1.5, 1.5), the centre of the
start cell (1,1) of the new maze; the maze is the one `GenerateMaze` returned, every
cell of it that is not a wall can be reached from the start, and every border cell is a
wall; every enemy in use is active, not dying, and has health `ENEMY_HEALTH`. -/
theorem restart_tick_total (env : Env) (inp : Input) (s : Game × Nat)
    (hs : s.1.currentState = GameState.GAME_VICTORY ∨
      s.1.currentState = GameState.GAME_OVER) :
    (inp.rPressed = false → ∀ fuel, UpdateGame env inp fuel s = some s) ∧
    (inp.rPressed = true → FairRand env.rnd →
      ∃ (fuel0 : Nat) (s' : Game × Nat) (r : Maze × Nat),
        (∀ fuel, fuel0 ≤ fuel → UpdateGame env inp fuel s = some s') ∧
        (∀ fuel, fuel0 ≤ fuel → GenerateMaze env.rnd fuel s.1.gameMaze s.2 = some r) ∧
        s'.1.gameMaze = r.1 ∧
        s'.1.currentState = GameState.GAME_PLAYING ∧
        s'.1.player.health = 100 ∧ s'.1.player.keys = 0 ∧
        s'.1.gameMaze.startPos = { x := 1, y := 1 } ∧
        s'.1.player.position = { x := 3 / 2, y := 3 / 2 } ∧
        (∀ x y, GetCellType s'.1.gameMaze x y ≠ CellType.Wall →
          Reachable (fun c => GetCellType s'.1.gameMaze c.1 c.2 ≠ CellType.Wall)
            (1, 1) (x, y)) ∧
        (∀ x y, Border x y → GetCellType s'.1.gameMaze x y = CellType.Wall) ∧
        ∀ k, 0 ≤ k → k < s'.1.enemyCount →
          (s'.1.enemies k).active = true ∧ (s'.1.enemies k).isDying = false ∧
          (s'.1.enemies k).health = ENEMY_HEALTH) := by
  refine ⟨fun hr fuel => (restart_tick env inp fuel s hs).1 hr, fun hr hfair => ?_⟩
  obtain ⟨fuel0, r, hgen⟩ := GenerateMaze_fair env.rnd hfair s.1.gameMaze s.2
  have hmono : ∀ fuel, fuel0 ≤ fuel → GenerateMaze env.rnd fuel s.1.gameMaze s.2 = some r :=
    fun fuel hle => GenerateMaze_mono env.rnd hle _ _ hgen
  have hupd : ∀ fuel, fuel0 ≤ fuel → UpdateGame env inp fuel s =
      some ({ (InitEnemies env (InitPlayer { s.1 with gameMaze := r.1 }, r.2)).1 with
              currentState := GameState.GAME_PLAYING },
            (InitEnemies env (InitPlayer { s.1 with gameMaze := r.1 }, r.2)).2) := by
    intro fuel hle
    rw [UpdateGame_ended env inp fuel s hs, if_pos hr, hmono fuel hle]
    rfl
  obtain ⟨p1, p2, p3, p4, p5, ⟨r', hr', p6⟩, p7, p8, p9⟩ :=
    ((restart_tick env inp fuel0 s hs).2 hr).2 _ (hupd fuel0 (le_refl _))
  have : r' = r := by
    rw [hgen] at hr'
    exact (Option.some.inj hr').symm
  subst this
  exact ⟨fuel0, _, r', hupd, hmono, p6, p1, p2, p3, p4, p5, p7, p8, p9⟩

set_option maxRecDepth 100000 in
theorem restart_tick_total_witness :
    restartInput.rPressed = true ∧ FairRand fairEnv.rnd ∧
    (∃ (fuel0 : Nat) (s' : Game × Nat) (r : Maze × Nat),
      (∀ fuel, fuel0 ≤ fuel → UpdateGame fairEnv restartInput fuel (wonGame, 0) = some s') ∧
      (∀ fuel, fuel0 ≤ fuel →
        GenerateMaze fairEnv.rnd fuel (wonGame, 0).1.gameMaze (wonGame, 0).2 = some r) ∧
      s'.1.gameMaze = r.1 ∧
      s'.1.currentState = GameState.GAME_PLAYING ∧
      s'.1.player.health = 100 ∧ s'.1.player.keys = 0 ∧
      s'.1.gameMaze.startPos = { x := 1, y := 1 } ∧
      s'.1.player.position = { x := 3 / 2, y := 3 / 2 } ∧
      (∀ x y, GetCellType s'.1.gameMaze x y ≠ CellType.Wall →
        Reachable (fun c => GetCellType s'.1.gameMaze c.1 c.2 ≠ CellType.Wall)
          (1, 1) (x, y)) ∧
      (∀ x y, Border x y → GetCellType s'.1.gameMaze x y = CellType.Wall) ∧
      ∀ k, 0 ≤ k → k < s'.1.enemyCount →
        (s'.1.enemies k).active = true ∧ (s'.1.enemies k).isDying = false ∧
        (s'.1.enemies k).health = ENEMY_HEALTH) ∧
    ((UpdateGame fairEnv restartInput 200 (wonGame, 0)).map fun s' =>
      (s'.1.currentState, s'.1.player.health, s'.1.player.keys, s'.1.enemyCount)) =
        some (GameState.GAME_PLAYING, 100, 0, 5) :=
  ⟨rfl, fairRand_fair,
    (restart_tick_total fairEnv restartInput (wonGame, 0) (Or.inl rfl)).2 rfl fairRand_fair,
    by decide!⟩

end MazeRay
